import Mathlib

/-! ESP32 GATT server of Espruino: registration walk and attribute dispatch.

A shallow embedding of `targets/esp32/BLE/esp32_gatts_func.c`.

* The process-wide globals of the C file are the fields of `State`.
* The three tables are `Option (List _)`: `none` is the `NULL` pointer, `some l` an
  allocation of `l.length` entries.  Every function that dereferences a table returns
  `Option State`; `none` stands for an access outside the allocation (or through `NULL`).
* 16-bit counters and cursors are natural numbers reduced modulo `2 ^ 16` where the C code
  increments them.
* The local response of the read handler holds a value array of `ESP_GATT_MAX_ATTR_LEN`
  bytes; a store outside that array is `none` as well.
* Everything the file asks of the BLE stack or of the interpreter is appended to `State.log`
  in program order.
-/

namespace Gatts

/-! ## Constants of the ESP-IDF headers -/

/-- The C constant `ESP_GATT_IF_NONE`. -/
def ESP_GATT_IF_NONE : Nat := 0xff
/-- The C constant `ESP_GATT_OK`. -/
def ESP_GATT_OK : Nat := 0
/-- The C constant `ESP_GATT_PERM_READ`, bit 0. -/
def ESP_GATT_PERM_READ : Nat := 1
/-- The C constant `ESP_GATT_PERM_WRITE`, bit 4. -/
def ESP_GATT_PERM_WRITE : Nat := 16
/-- The C constant `ESP_GATT_CHAR_PROP_BIT_BROADCAST`, bit 0. -/
def ESP_GATT_CHAR_PROP_BIT_BROADCAST : Nat := 1
/-- The C constant `ESP_GATT_CHAR_PROP_BIT_READ`, bit 1. -/
def ESP_GATT_CHAR_PROP_BIT_READ : Nat := 2
/-- The C constant `ESP_GATT_CHAR_PROP_BIT_WRITE_NR`, bit 2. -/
def ESP_GATT_CHAR_PROP_BIT_WRITE_NR : Nat := 4
/-- The C constant `ESP_GATT_CHAR_PROP_BIT_WRITE`, bit 3. -/
def ESP_GATT_CHAR_PROP_BIT_WRITE : Nat := 8
/-- The C constant `ESP_GATT_CHAR_PROP_BIT_NOTIFY`, bit 4. -/
def ESP_GATT_CHAR_PROP_BIT_NOTIFY : Nat := 16
/-- The C constant `ESP_GATT_CHAR_PROP_BIT_INDICATE`, bit 5. -/
def ESP_GATT_CHAR_PROP_BIT_INDICATE : Nat := 32
/-- The C constant `ESP_GATT_UUID_CHAR_DESCRIPTION`. -/
def ESP_GATT_UUID_CHAR_DESCRIPTION : Nat := 0x2901
/-- The C constant `ESP_GATT_UUID_CHAR_CLIENT_CONFIG` (the CCCD). -/
def ESP_GATT_UUID_CHAR_CLIENT_CONFIG : Nat := 0x2902
/-- The C constant `ESP_UUID_LEN_16`. -/
def ESP_UUID_LEN_16 : Nat := 2
/-- The C constant `ESP_GATT_MAX_ATTR_LEN`, the size of `esp_gatt_value_t.value`. -/
def ESP_GATT_MAX_ATTR_LEN : Nat := 600

/-- Width of `uint16_t`. -/
def U16 : Nat := 65536
/-- Width of `uint8_t` (`esp_gatt_char_prop_t`). -/
def U8 : Nat := 256

/-! ## Interpreter values -/

/-- Modelled from the spec: the interpreter's `JsVar`, as far as this file looks into it.
A function is represented by the bytes its invocation returns (`none` for `undefined`);
an object by its keyed children in iteration order. -/
inductive JsVar where
  | bool (b : Bool)
  | int (n : Int)
  | str (chars : List Nat)
  | arrayBuffer (bytes : List Nat)
  | func (ret : Option (List Nat))
  | obj (children : List (String × JsVar))
deriving Repr

/-- Modelled from the spec: `jsvIsObject`. -/
def jsvIsObject : Option JsVar → Bool
  | some (.obj _) => true
  | _ => false

/-- Modelled from the spec: the children an object iterator (`jsvObjectIteratorNew` ..
`jsvObjectIteratorNext`) visits, in order; a value without children yields none. -/
def jsvChildren : Option JsVar → List (String × JsVar)
  | some (.obj cs) => cs
  | _ => []

/-- Modelled from the spec: `jsvObjectGetChild(obj, name, 0)`; `none` is the C `0`. -/
def jsvObjectGetChild (v : JsVar) (name : String) : Option JsVar :=
  match v with
  | .obj cs => cs.lookup name
  | _ => none

/-- Modelled from the spec: `jsvGetBool` (and `jsvGetBoolAndUnLock`). -/
def jsvGetBool : Option JsVar → Bool
  | none => false
  | some (.bool b) => b
  | some (.int n) => n != 0
  | some (.str cs) => cs.length != 0
  | some (.arrayBuffer _) => true
  | some (.func _) => true
  | some (.obj _) => true

/-- Modelled from the spec: `jsvHasCharacterData`, true of strings. -/
def jsvHasCharacterData : JsVar → Bool
  | .str _ => true
  | _ => false

/-- Modelled from the spec: the macro `JSV_GET_AS_CHAR_ARRAY(vPtr, vLen, v)`; the result is
the byte sequence `vPtr[0 .. vLen)`. -/
def JSV_GET_AS_CHAR_ARRAY : JsVar → List Nat
  | .str cs => cs
  | .arrayBuffer bs => bs
  | .int n => [(n % 256).toNat]
  | .bool b => [if b then 1 else 0]
  | .func _ => []
  | .obj _ => []

/-- Modelled from the spec: `jspExecuteFunction(f, 0, argc, argv)`, the value the callable
returns (`none` is the C `0`). -/
def jspExecuteFunction : JsVar → Option JsVar
  | .func (some bs) => some (.str bs)
  | _ => none

/-- Modelled from the spec: `jsvNewStringOfLength(len, data)`. -/
def jsvNewStringOfLength (data : List Nat) : JsVar := .str data

/-- Modelled from the spec: `jsvNewArrayBufferFromString(str, len)`. -/
def jsvNewArrayBufferFromString (str : JsVar) : JsVar :=
  match str with
  | .str cs => .arrayBuffer cs
  | v => v

/-! ## The hidden root -/

/-- The three name prefixes passed to `bleGetHiddenName`. -/
inductive HiddenKind where
  | BLE_READ_EVENT
  | BLE_WRITE_EVENT
  | BLE_CHAR_VALUE
deriving DecidableEq, Repr

/-- Modelled from the spec: `bleGetHiddenName(name, kind, pos)`, a deterministic name
keyed by kind and position. -/
structure HiddenName where
  kind : HiddenKind
  pos : Nat
deriving DecidableEq, Repr

/-- The builder `bleGetHiddenName`. -/
def bleGetHiddenName (kind : HiddenKind) (pos : Nat) : HiddenName := ⟨kind, pos⟩

/-- The children of `execInfo.hiddenRoot` that this file reads and writes. -/
abbrev HiddenRoot := List (HiddenName × JsVar)

/-- Lookup `jsvObjectGetChild(execInfo.hiddenRoot, name, 0)`. -/
def hiddenGet (root : HiddenRoot) (name : HiddenName) : Option JsVar :=
  root.lookup name

/-- Update `jsvObjectSetChildAndUnLock(execInfo.hiddenRoot, name, v)`: replace the child of
that name, or append it. -/
def hiddenSet : HiddenRoot → HiddenName → JsVar → HiddenRoot
  | [], name, v => [(name, v)]
  | (k, w) :: rest, name, v =>
      if name = k then (k, v) :: rest else (k, w) :: hiddenSet rest name v

/-- Modelled from the spec: `bleRemoveChilds(execInfo.hiddenRoot)` purges all
characteristic-value and callback entries. -/
def bleRemoveChilds (_root : HiddenRoot) : HiddenRoot := []

/-! ## Table entries -/

/-- The C type `ble_uuid_t`; `uuid` is its 16-bit part. -/
structure ble_uuid_t where
  type : Nat
  uuid : Nat
deriving DecidableEq, Repr

/-- The C struct `gatts_service_inst`. -/
structure gatts_service_inst where
  gatts_if : Nat
  conn_id : Nat
  service_handle : Nat
  is_primary : Bool
  inst_id : Nat
  /-- The field `service_id.id.uuid`, written by `bleuuid_TO_espbtuuid`. -/
  service_uuid : ble_uuid_t
  num_handles : Nat
  ble_uuid : ble_uuid_t
  uuid16 : Nat
deriving DecidableEq, Repr

/-- The C struct `gatts_char_inst`. -/
structure gatts_char_inst where
  service_pos : Nat
  char_uuid_len : Nat
  char_uuid16 : Nat
  char_perm : Nat
  char_property : Nat
  char_handle : Nat
deriving DecidableEq, Repr

/-- The C struct `gatts_descr_inst`. -/
structure gatts_descr_inst where
  char_pos : Nat
  descr_uuid_len : Nat
  descr_uuid16 : Nat
  descr_perm : Nat
  descr_handle : Nat
  descrVal : Option JsVar
deriving Repr

/-- An entry as `calloc` returns it. -/
def gatts_service_inst.zero : gatts_service_inst :=
  ⟨0, 0, 0, false, 0, ⟨0, 0⟩, 0, ⟨0, 0⟩, 0⟩

/-- An entry as `calloc` returns it. -/
def gatts_char_inst.zero : gatts_char_inst := ⟨0, 0, 0, 0, 0, 0⟩

/-- An entry as `calloc` returns it. -/
def gatts_descr_inst.zero : gatts_descr_inst := ⟨0, 0, 0, 0, 0, none⟩

/-! ## Stack interface -/

/-- The C type `esp_gatt_rsp_t`, as far as the read handler fills it.  `value` is the array
`attr_value.value` of `ESP_GATT_MAX_ATTR_LEN` bytes and `len` the 16-bit `attr_value.len`. -/
structure esp_gatt_rsp_t where
  handle : Nat
  len : Nat
  value : List Nat
deriving DecidableEq, Repr

/-- The bytes a peer receives: the first `len` bytes of the value array. -/
def esp_gatt_rsp_t.payload (r : esp_gatt_rsp_t) : List Nat := r.value.take r.len

/-- Everything the C file asks of its collaborators, in program order.  A pointer into a
table is represented by the index it points at. -/
inductive Effect where
  /-- Call `esp_ble_gatts_app_register(app_id)`. -/
  | app_register (app_id : Nat)
  /-- Call `esp_ble_gatts_create_service(gatts_if, &gatts_service[svc].service_id, n)`. -/
  | create_service (gatts_if : Nat) (svc : Nat) (num_handles : Nat)
  /-- Call `esp_ble_gatts_start_service(service_handle)`. -/
  | start_service (service_handle : Nat)
  /-- Call `esp_ble_gatts_add_char(service_handle, &gatts_char[pos].char_uuid, perm,
  property, NULL, control)`. -/
  | add_char (service_handle : Nat) (pos : Nat) (perm : Nat) (property : Nat)
  /-- Call `esp_ble_gatts_add_char_descr(service_handle, &gatts_descr[pos].descr_uuid,
  perm, NULL, control)`. -/
  | add_char_descr (service_handle : Nat) (pos : Nat) (perm : Nat)
  /-- Call `esp_ble_gatts_app_unregister(gatts_if)`. -/
  | app_unregister (gatts_if : Nat)
  /-- Call `esp_ble_gatts_delete_service(service_handle)`. -/
  | delete_service (service_handle : Nat)
  /-- Call `esp_ble_gatts_send_response(gatts_if, conn_id, trans_id, status, rsp)`. -/
  | send_response (gatts_if conn_id trans_id status : Nat) (rsp : Option esp_gatt_rsp_t)
  /-- Call `bluetooth_gap_startAdvertizing(enable)`. -/
  | startAdvertizing (enable : Bool)
  /-- Call `jspExecuteFunction(callback, 0, argc, argv)` on the hidden child `name`. -/
  | executeFunction (name : HiddenName) (callback : JsVar) (args : List JsVar)
  /-- Call `emitNRFEvent(event, args, 1)` with `args[0] = bda2JsVarString(remote_bda)`. -/
  | emitNRFEvent (event : String) (remote_bda : List Nat)
  /-- Call `jsExceptionHere(JSET_ERROR, msg, errorStr)`. -/
  | jsExceptionHere (msg : String) (errorStr : String)
  /-- Call `jsWarn(msg, r)`. -/
  | jsWarn (msg : String) (r : Nat)
deriving Repr

/-- The result of `bleVarToUUIDAndUnLock`: the error string (`none` for success) and what
the `ble_uuid_t` holds afterwards. -/
structure UuidParse where
  errorStr : Option String
  ble_uuid : ble_uuid_t
deriving DecidableEq, Repr

/-- The collaborators whose answers the C file branches on. -/
structure Collab where
  /-- The `esp_err_t` a stack call returns. -/
  esp : Effect → Nat
  /-- The parser `bleVarToUUIDAndUnLock` applied to an object key. -/
  bleVarToUUID : String → UuidParse

/-- The events of `esp_gatts_cb_event_t`, each with the members of
`esp_ble_gatts_cb_param_t` that the handler reads. -/
inductive Event where
  | REG (app_id : Nat)
  | CREATE (service_handle : Nat)
  | ADD_CHAR (status : Nat) (attr_handle : Nat)
  | START
  | DISCONNECT (remote_bda : List Nat)
  /-- The handler reads `param->add_char.attr_handle`, which overlays
  `param->add_char_descr.attr_handle` in the parameter union. -/
  | ADD_CHAR_DESCR (status : Nat) (attr_handle : Nat)
  | CONNECT (conn_id : Nat) (remote_bda : List Nat)
  | READ (conn_id trans_id handle : Nat)
  /-- The member `write.len` is `value.length`. -/
  | WRITE (conn_id trans_id handle : Nat) (value : List Nat)
  | DELETE
  | UNREG
  /-- One of `EXEC_WRITE`, `MTU`, `CONF`, `ADD_INCL_SRVC`, `STOP`, `OPEN`, `CANCEL_OPEN`,
  `CLOSE`, `LISTEN`, `CONGEST`, or any other value. -/
  | other
deriving DecidableEq, Repr

/-! ## Globals -/

/-- The globals of `esp32_gatts_func.c`, `adv_service_uuid128`, the part of the hidden
root the file uses, and the log of effects.  `adv_service_uuid128` holds one entry per
16-byte block. -/
structure State where
  ble_service_cnt : Nat
  ble_char_cnt : Nat
  ble_descr_cnt : Nat
  ble_service_pos : Nat
  ble_char_pos : Nat
  ble_descr_pos : Nat
  gatts_services : Option JsVar
  gatts_service : Option (List gatts_service_inst)
  gatts_char : Option (List gatts_char_inst)
  gatts_descr : Option (List gatts_descr_inst)
  adv_service_uuid128 : Option (List ble_uuid_t)
  removeValues : Bool
  hiddenRoot : HiddenRoot
  log : List Effect

/-- The globals as initialised at program start. -/
def State.init : State :=
  { ble_service_cnt := 0, ble_char_cnt := 0, ble_descr_cnt := 0,
    ble_service_pos := U16 - 1, ble_char_pos := U16 - 1, ble_descr_pos := U16 - 1,
    gatts_services := none, gatts_service := none, gatts_char := none, gatts_descr := none,
    adv_service_uuid128 := none, removeValues := false, hiddenRoot := [], log := [] }

/-! ## Table access -/

/-- The read `tbl[i]`; `none` when `tbl` is `NULL` or `i` lies outside the allocation. -/
def tblGet {α : Type} (tbl : Option (List α)) (i : Nat) : Option α :=
  match tbl with
  | none => none
  | some l => l[i]?

/-- The in-place update `tbl[i] = f tbl[i]`; `none` when `tbl` is `NULL` or `i` lies outside
the allocation. -/
def tblModify {α : Type} (tbl : Option (List α)) (i : Nat) (f : α → α) : Option (List α) :=
  match tbl with
  | none => none
  | some l =>
    match l[i]? with
    | none => none
    | some a => some (l.set i (f a))

/-- The loop `for (pos = start; pos < cnt; pos++) if (p tbl[pos]) ...` with `n = cnt - start`
iterations left: `some (some pos)` is the first match, `some none` a loop that ran to its
end, `none` an access outside the allocation. -/
def scanLoop {α : Type} (p : α → Bool) (tbl : Option (List α)) : Nat → Nat → Option (Option Nat)
  | 0, _ => some none
  | n + 1, pos =>
    match tblGet tbl pos with
    | none => none
    | some e => if p e then some (some pos) else scanLoop p tbl n (pos + 1)

/-- The loop `for (pos = 0; pos < cnt; pos++) if (p tbl[pos]) ...`. -/
def scan {α : Type} (p : α → Bool) (tbl : Option (List α)) (cnt : Nat) : Option (Option Nat) :=
  scanLoop p tbl cnt 0

/-- Append one effect to the log. -/
def State.emit (s : State) (e : Effect) : State := { s with log := s.log ++ [e] }

/-- The pattern `r = call(...); if (r) jsWarn(msg, r);`. -/
def stackCall (c : Collab) (req : Effect) (msg : String) (s : State) : State :=
  if c.esp req = 0 then s.emit req else (s.emit req).emit (.jsWarn msg (c.esp req))

/-! ## Functions of the C file -/

/-- The C function `getIndexFromGatts_if`; `none` also when the loop ends without a match,
where the C function returns no value. -/
def getIndexFromGatts_if (gatts_if : Nat) (s : State) : Option Nat :=
  match scan (fun e : gatts_service_inst => e.gatts_if == gatts_if)
      s.gatts_service s.ble_service_cnt with
  | some (some i) => some i
  | _ => none

/-- The local `rsp` of the read handler after `memset(&rsp, 0, sizeof(esp_gatt_rsp_t))` and
`rsp.attr_value.handle = param->read.handle`. -/
def emptyRsp (handle : Nat) : esp_gatt_rsp_t :=
  ⟨handle, 0, List.replicate ESP_GATT_MAX_ATTR_LEN 0⟩

/-- The copy loop `for (uint16_t valpos = 0; valpos < vLen; valpos++)
rsp.attr_value.value[valpos] = vPtr[valpos];` with the bytes `vPtr[valpos ..]` still to
copy.  The array has `ESP_GATT_MAX_ATTR_LEN` bytes: a store at an index at or beyond that is
`none`.  The 16-bit `valpos` cannot wrap before that store is reached. -/
def copyLoop : List Nat → Nat → List Nat → Option (List Nat)
  | [], _, value => some value
  | b :: rest, valpos, value =>
    if valpos < ESP_GATT_MAX_ATTR_LEN then copyLoop rest (valpos + 1) (value.set valpos b)
    else none

/-- The block `JSV_GET_AS_CHAR_ARRAY(vPtr, vLen, v); for (valpos ...) ...;
rsp.attr_value.len = vLen;`, in which `len` is a `uint16_t`. -/
def copyValue (v : JsVar) (rsp : esp_gatt_rsp_t) : Option esp_gatt_rsp_t :=
  let vPtr := JSV_GET_AS_CHAR_ARRAY v
  match copyLoop vPtr 0 rsp.value with
  | none => none
  | some value => some { rsp with value := value, len := vPtr.length % U16 }

/-- The body of the characteristic loop of `gatts_read_value_handler` at its match `pos`. -/
def readChar (pos : Nat) (rsp : esp_gatt_rsp_t) (s : State) : Option (esp_gatt_rsp_t × State) :=
  let name := bleGetHiddenName .BLE_READ_EVENT pos
  match hiddenGet s.hiddenRoot name with
  | some readCB =>
    let s1 := s.emit (.executeFunction name readCB [])
    match jspExecuteFunction readCB with
    | some charValue =>
      match copyValue charValue rsp with
      | none => none
      | some rsp1 => some (rsp1, s1)
    | none => some (rsp, s1)
  | none =>
    match hiddenGet s.hiddenRoot (bleGetHiddenName .BLE_CHAR_VALUE pos) with
    | some charValue =>
      match copyValue charValue rsp with
      | none => none
      | some rsp1 => some (rsp1, s)
    | none => some (rsp, s)

/-- The body of the descriptor loop of `gatts_read_value_handler` at its match. -/
def readDescr (d : gatts_descr_inst) (rsp : esp_gatt_rsp_t) : Option esp_gatt_rsp_t :=
  match d.descrVal with
  | some v => copyValue v rsp
  | none => some rsp

/-- The C function `gatts_read_value_handler`. -/
def gatts_read_value_handler (gatts_if conn_id trans_id handle : Nat) (s : State) :
    Option State :=
  let rsp : esp_gatt_rsp_t := emptyRsp handle
  match scan (fun e : gatts_char_inst => e.char_handle == handle) s.gatts_char s.ble_char_cnt with
  | none => none
  | some cm =>
    match (match cm with
      | some pos => readChar pos rsp s
      | none => some (rsp, s)) with
    | none => none
    | some r1 =>
      match scan (fun e : gatts_descr_inst => e.descr_handle == handle)
          r1.2.gatts_descr r1.2.ble_descr_cnt with
      | none => none
      | some none =>
        some (r1.2.emit (.send_response gatts_if conn_id trans_id ESP_GATT_OK (some r1.1)))
      | some (some pos) =>
        match tblGet r1.2.gatts_descr pos with
        | none => none
        | some d =>
          match readDescr d r1.1 with
          | none => none
          | some rsp2 =>
            some (r1.2.emit (.send_response gatts_if conn_id trans_id ESP_GATT_OK (some rsp2)))

/-- The body of the characteristic loop of `gatts_write_value_handler` at its match `pos`. -/
def writeChar (pos : Nat) (value : List Nat) (s : State) : State :=
  let str := jsvNewStringOfLength value
  let evt := JsVar.obj [("data", jsvNewArrayBufferFromString str)]
  let root := hiddenSet s.hiddenRoot (bleGetHiddenName .BLE_CHAR_VALUE pos)
    (jsvNewStringOfLength value)
  let s1 : State := { s with hiddenRoot := root }
  let name := bleGetHiddenName .BLE_WRITE_EVENT pos
  match hiddenGet s1.hiddenRoot name with
  | some writeCB => s1.emit (.executeFunction name writeCB [evt])
  | none => s1

/-- The C function `gatts_write_value_handler`. -/
def gatts_write_value_handler (gatts_if conn_id trans_id handle : Nat) (value : List Nat)
    (s : State) : Option State :=
  match scan (fun e : gatts_char_inst => e.char_handle == handle) s.gatts_char s.ble_char_cnt with
  | none => none
  | some cm =>
    let s1 := match cm with
      | some pos => writeChar pos value s
      | none => s
    match scan (fun e : gatts_descr_inst => e.descr_handle == handle)
        s1.gatts_descr s1.ble_descr_cnt with
    | none => none
    | some none => some (s1.emit (.send_response gatts_if conn_id trans_id ESP_GATT_OK none))
    | some (some pos) =>
      match tblModify s1.gatts_descr pos
          (fun d => { d with descrVal := some (jsvNewStringOfLength value) }) with
      | none => none
      | some t =>
        some ({ s1 with gatts_descr := some t }.emit
          (.send_response gatts_if conn_id trans_id ESP_GATT_OK none))

/-- The C function `gatts_reg_app`. -/
def gatts_reg_app (c : Collab) (s : State) : State :=
  if s.ble_service_pos < s.ble_service_cnt then
    stackCall c (.app_register s.ble_service_pos) "app_register error:%d\n" s
  else s.emit (.startAdvertizing true)

/-- The C function `gatts_createService`, for `param->reg.app_id`. -/
def gatts_createService (c : Collab) (gatts_if app_id : Nat) (s : State) : Option State :=
  match tblModify s.gatts_service app_id (fun e =>
      { e with is_primary := true, inst_id := 0, gatts_if := gatts_if,
               service_uuid := e.ble_uuid }) with
  | none => none
  | some t =>
    match t[app_id]? with
    | none => none
    | some e =>
      some (stackCall c (.create_service gatts_if app_id e.num_handles)
        "createService error:%d\n" { s with gatts_service := some t })

/-- The C function `gatts_add_char`. -/
def gatts_add_char (c : Collab) (s : State) : Option State :=
  match scan (fun e : gatts_char_inst => e.service_pos == s.ble_service_pos && e.char_handle == 0)
      s.gatts_char s.ble_char_cnt with
  | none => none
  | some (some pos) =>
    match tblGet s.gatts_service s.ble_service_pos, tblGet s.gatts_char pos with
    | some svc, some ch =>
      some (stackCall c (.add_char svc.service_handle pos ch.char_perm ch.char_property)
        "add char error:%d\n" { s with ble_char_pos := pos })
    | _, _ => none
  | some none =>
    some (gatts_reg_app c { s with ble_service_pos := (s.ble_service_pos + 1) % U16 })

/-- The C function `gatts_add_descr`. -/
def gatts_add_descr (c : Collab) (s : State) : Option State :=
  match scan (fun e : gatts_descr_inst => e.descr_handle == 0 && e.char_pos == s.ble_char_pos)
      s.gatts_descr s.ble_descr_cnt with
  | none => none
  | some (some pos) =>
    match tblGet s.gatts_service s.ble_service_pos, tblGet s.gatts_descr pos with
    | some svc, some d =>
      some (stackCall c (.add_char_descr svc.service_handle pos d.descr_perm)
        "add descr error:%d\n" { s with ble_descr_pos := pos })
    | _, _ => none
  | some none => gatts_add_char c { s with ble_char_pos := (s.ble_char_pos + 1) % U16 }

/-- The C function `gatts_check_add_descr`. -/
def gatts_check_add_descr (c : Collab) (attr_handle : Nat) (s : State) : Option State :=
  if attr_handle ≠ 0 then
    match tblModify s.gatts_descr s.ble_descr_pos
        (fun d => { d with descr_handle := attr_handle }) with
    | none => none
    | some t => gatts_add_descr c { s with gatts_descr := some t }
  else gatts_add_descr c s

/-- The C function `gatts_check_add_char`. -/
def gatts_check_add_char (c : Collab) (attr_handle : Nat) (s : State) : Option State :=
  if attr_handle ≠ 0 then
    match tblModify s.gatts_char s.ble_char_pos
        (fun e => { e with char_handle := attr_handle }) with
    | none => none
    | some t => gatts_add_descr c { s with gatts_char := some t }
  else some s

/-- The C function `gatts_delete_service`. -/
def gatts_delete_service (c : Collab) (gatts_if : Nat) (s : State) : Option State :=
  match getIndexFromGatts_if gatts_if s with
  | none => none
  | some i =>
    match tblGet s.gatts_service i with
    | none => none
    | some e => some (stackCall c (.app_unregister e.gatts_if) "error in app_unregister:%d\n" s)

/-- The C function `gatts_unreg_app`. -/
def gatts_unreg_app (gatts_if : Nat) (s : State) : Option State :=
  match getIndexFromGatts_if gatts_if s with
  | none => none
  | some i =>
    match tblModify s.gatts_service i (fun e => { e with gatts_if := ESP_GATT_IF_NONE }) with
    | none => none
    | some t =>
      match scan (fun e : gatts_service_inst => e.gatts_if != ESP_GATT_IF_NONE)
          (some t) s.ble_service_cnt with
      | none => none
      | some (some _) => some { s with gatts_service := some t }
      | some none =>
        some { s with
          adv_service_uuid128 := none, gatts_char := none, gatts_descr := none,
          gatts_service := none,
          ble_service_cnt := 0, ble_char_cnt := 0, ble_descr_cnt := 0,
          hiddenRoot := if s.removeValues then bleRemoveChilds s.hiddenRoot else s.hiddenRoot }

/-- Modelled from the spec: the event name `BLE_CONNECT_EVENT`. -/
def BLE_CONNECT_EVENT : String := "connect"
/-- Modelled from the spec: the event name `BLE_DISCONNECT_EVENT`. -/
def BLE_DISCONNECT_EVENT : String := "disconnect"

/-- The C function `gatts_event_handler`.  The trace call `jsWarnGattsEvent(event, gatts_if)`
at its head is declared outside this file and touches none of the globals; it is left out. -/
def gatts_event_handler (c : Collab) (event : Event) (gatts_if : Nat) (s : State) :
    Option State :=
  match event with
  | .REG app_id => gatts_createService c gatts_if app_id s
  | .CREATE service_handle =>
    match tblModify s.gatts_service s.ble_service_pos
        (fun e => { e with service_handle := service_handle }) with
    | none => none
    | some t =>
      match t[s.ble_service_pos]? with
      | none => none
      | some e => some ({ s with gatts_service := some t }.emit (.start_service e.service_handle))
  | .ADD_CHAR status attr_handle =>
    if status = ESP_GATT_OK then gatts_check_add_char c attr_handle s else some s
  | .START => gatts_add_char c s
  | .DISCONNECT remote_bda =>
    some ((s.emit (.startAdvertizing true)).emit (.emitNRFEvent BLE_DISCONNECT_EVENT remote_bda))
  | .ADD_CHAR_DESCR status attr_handle =>
    if status = ESP_GATT_OK then gatts_check_add_descr c attr_handle s else some s
  | .CONNECT conn_id remote_bda =>
    match tblModify s.gatts_service s.ble_service_pos (fun e => { e with conn_id := conn_id }) with
    | none => none
    | some t =>
      some ({ s with gatts_service := some t }.emit (.emitNRFEvent BLE_CONNECT_EVENT remote_bda))
  | .READ conn_id trans_id handle => gatts_read_value_handler gatts_if conn_id trans_id handle s
  | .WRITE conn_id trans_id handle value =>
    gatts_write_value_handler gatts_if conn_id trans_id handle value s
  | .DELETE => gatts_delete_service c gatts_if s
  | .UNREG => gatts_unreg_app gatts_if s
  | .other => some s

/-! ## Building the tables -/

/-- The field assignments of `gatts_char_init` to `gatts_char[ble_char_pos]`, applied to the
entry `e` found there. -/
def charFill (ble_uuid : ble_uuid_t) (charVar : JsVar) (service_pos : Nat)
    (e : gatts_char_inst) : gatts_char_inst :=
  let prop0 := e.char_property
  let prop1 := if jsvGetBool (jsvObjectGetChild charVar "broadcast")
    then (prop0 + ESP_GATT_CHAR_PROP_BIT_BROADCAST) % U8 else prop0
  let prop2 := if jsvGetBool (jsvObjectGetChild charVar "notify")
    then (prop1 + ESP_GATT_CHAR_PROP_BIT_NOTIFY) % U8 else prop1
  let prop3 := if jsvGetBool (jsvObjectGetChild charVar "indicate")
    then (prop2 + ESP_GATT_CHAR_PROP_BIT_INDICATE) % U8 else prop2
  let perm3 := 0
  let perm4 := if jsvGetBool (jsvObjectGetChild charVar "readable")
    then (perm3 + ESP_GATT_PERM_READ) % U16 else perm3
  let prop4 := if jsvGetBool (jsvObjectGetChild charVar "readable")
    then (prop3 + ESP_GATT_CHAR_PROP_BIT_READ) % U8 else prop3
  let perm5 := if jsvGetBool (jsvObjectGetChild charVar "writable")
    then (perm4 + ESP_GATT_PERM_WRITE) % U16 else perm4
  let prop5 := if jsvGetBool (jsvObjectGetChild charVar "writable")
    then (prop4 + (ESP_GATT_CHAR_PROP_BIT_WRITE ||| ESP_GATT_CHAR_PROP_BIT_WRITE_NR)) % U8
    else prop4
  { service_pos := service_pos, char_uuid_len := ESP_UUID_LEN_16, char_uuid16 := ble_uuid.uuid,
    char_perm := perm5, char_property := prop5, char_handle := 0 }

/-- The descriptor entry `gatts_char_init` writes for `notify`. -/
def cccdEntry (char_pos : Nat) : gatts_descr_inst :=
  { char_pos := char_pos, descr_uuid_len := ESP_UUID_LEN_16,
    descr_uuid16 := ESP_GATT_UUID_CHAR_CLIENT_CONFIG,
    descr_perm := ESP_GATT_PERM_READ ||| ESP_GATT_PERM_WRITE,
    descr_handle := 0, descrVal := none }

/-- The descriptor entry `gatts_char_init` writes for `description`. -/
def descriptionEntry (char_pos : Nat) (charDescriptionVar : JsVar) : gatts_descr_inst :=
  { char_pos := char_pos, descr_uuid_len := ESP_UUID_LEN_16,
    descr_uuid16 := ESP_GATT_UUID_CHAR_DESCRIPTION,
    descr_perm := ESP_GATT_PERM_READ,
    descr_handle := 0, descrVal := some charDescriptionVar }

/-- The test `charDescriptionVar && jsvHasCharacterData(charDescriptionVar)`. -/
def hasDescription (charVar : JsVar) : Bool :=
  match jsvObjectGetChild charVar "description" with
  | some v => jsvHasCharacterData v
  | none => false

/-- The test `jsvGetBoolAndUnLock(jsvObjectGetChild(charVar, "notify", 0))`. -/
def hasNotify (charVar : JsVar) : Bool := jsvGetBool (jsvObjectGetChild charVar "notify")

/-- The statement `if (v) jsvObjectSetChildAndUnLock(execInfo.hiddenRoot, name, v)`. -/
def hiddenSetIf (v : Option JsVar) (name : HiddenName) (s : State) : State :=
  match v with
  | some w => { s with hiddenRoot := hiddenSet s.hiddenRoot name w }
  | none => s

/-- The `notify` block of `gatts_char_init`. -/
def charInitNotify (charVar : JsVar) (s : State) : Option State :=
  if hasNotify charVar then
    let pos := (s.ble_descr_pos + 1) % U16
    match tblModify s.gatts_descr pos (fun _ => cccdEntry s.ble_char_pos) with
    | none => none
    | some t => some { s with ble_descr_pos := pos, gatts_descr := some t }
  else some s

/-- The `description` block of `gatts_char_init`. -/
def charInitDescription (charVar : JsVar) (s : State) : Option State :=
  match jsvObjectGetChild charVar "description" with
  | some v =>
    if jsvHasCharacterData v then
      let pos := (s.ble_descr_pos + 1) % U16
      match tblModify s.gatts_descr pos (fun _ => descriptionEntry s.ble_char_pos v) with
      | none => none
      | some t => some { s with ble_descr_pos := pos, gatts_descr := some t }
    else some s
  | none => some s

/-- The head of `gatts_char_init`: the UUID of the key and the fields of
`gatts_char[ble_char_pos]`. -/
def charInitEntry (c : Collab) (key : String) (charVar : JsVar) (s : State) : Option State :=
  let parse := c.bleVarToUUID key
  match tblModify s.gatts_char s.ble_char_pos
      (charFill parse.ble_uuid charVar s.ble_service_pos) with
  | none => none
  | some t =>
    let s1 : State := { s with gatts_char := some t }
    match parse.errorStr with
    | some errorStr => some (s1.emit (.jsExceptionHere "invalid Char UUID:%s" errorStr))
    | none => some s1

/-- The `onRead` and `onWrite` blocks of `gatts_char_init`. -/
def charInitCallbacks (charVar : JsVar) (s : State) : State :=
  let s3 := hiddenSetIf (jsvObjectGetChild charVar "onRead")
    (bleGetHiddenName .BLE_READ_EVENT s.ble_char_pos) s
  hiddenSetIf (jsvObjectGetChild charVar "onWrite")
    (bleGetHiddenName .BLE_WRITE_EVENT s3.ble_char_pos) s3

/-- The `value` block of `gatts_char_init`. -/
def charInitValue (charVar : JsVar) (s : State) : State :=
  hiddenSetIf (jsvObjectGetChild charVar "value")
    (bleGetHiddenName .BLE_CHAR_VALUE s.ble_char_pos) s

/-- The C function `gatts_char_init`, for the key and value the iterator `ble_char_it`
stands at. -/
def gatts_char_init (c : Collab) (key : String) (charVar : JsVar) (s : State) : Option State :=
  match charInitEntry c key charVar s with
  | none => none
  | some s2 =>
    match charInitNotify charVar (charInitCallbacks charVar s2) with
    | none => none
    | some s5 =>
      match charInitDescription charVar s5 with
      | none => none
      | some s6 => some (charInitValue charVar s6)

/-- The `while` loop of `gatts_service_struct_init` over the characteristics still to visit;
`handles` is the local of that name. -/
def charLoop (c : Collab) : List (String × JsVar) → Nat → State → Option (Nat × State)
  | [], handles, s => some (handles, s)
  | (key, charVar) :: rest, handles, s =>
    match gatts_char_init c key charVar
        { s with ble_char_pos := (s.ble_char_pos + 1) % U16 } with
    | none => none
    | some s1 => charLoop c rest (((handles + 2) % U16 + 2) % U16) s1

/-- The head of `gatts_service_struct_init`: the UUID of the key, its copy in
`adv_service_uuid128` and `uuid16`. -/
def serviceInitHead (c : Collab) (key : String) (s : State) : Option State :=
  let parse := c.bleVarToUUID key
  match tblModify s.gatts_service s.ble_service_pos
      (fun e => { e with ble_uuid := parse.ble_uuid }) with
  | none => none
  | some t1 =>
    let s1 : State := { s with gatts_service := some t1 }
    let s2 := match parse.errorStr with
      | some errorStr => s1.emit (.jsExceptionHere "invalid Service UUID:%s" errorStr)
      | none => s1
    match tblGet s2.gatts_service s2.ble_service_pos with
    | none => none
    | some e =>
      match tblModify s2.adv_service_uuid128 s2.ble_service_pos (fun _ => e.ble_uuid) with
      | none => none
      | some adv =>
        match tblModify s2.gatts_service s2.ble_service_pos
            (fun e => { e with uuid16 := e.ble_uuid.uuid }) with
        | none => none
        | some t2 => some { s2 with adv_service_uuid128 := some adv, gatts_service := some t2 }

/-- The C function `gatts_service_struct_init`, for the key and value the iterator
`ble_service_it` stands at. -/
def gatts_service_struct_init (c : Collab) (key : String) (serviceVar : JsVar) (s : State) :
    Option State :=
  match serviceInitHead c key s with
  | none => none
  | some s3 =>
    match charLoop c (jsvChildren (some serviceVar)) 1 s3 with
    | none => none
    | some (handles, s4) =>
      match tblModify s4.gatts_service s4.ble_service_pos
          (fun e => { e with num_handles := handles }) with
      | none => none
      | some t3 => some { s4 with gatts_service := some t3 }

/-- The `for` loop of `gatts_structs_init`, with `n` iterations left from index `i`. -/
def structsInitLoop : Nat → Nat → Option (List gatts_service_inst) →
    Option (Option (List gatts_service_inst))
  | 0, _, tbl => some tbl
  | n + 1, i, tbl =>
    match tblModify tbl i (fun e => { e with gatts_if := ESP_GATT_IF_NONE, num_handles := 0 }) with
    | none => none
    | some t => structsInitLoop n (i + 1) (some t)

/-- The `while` loop of `gatts_structs_init` over the services still to visit. -/
def serviceLoop (c : Collab) : List (String × JsVar) → State → Option State
  | [], s => some s
  | (key, serviceVar) :: rest, s =>
    match gatts_service_struct_init c key serviceVar
        { s with ble_service_pos := (s.ble_service_pos + 1) % U16 } with
    | none => none
    | some s1 => serviceLoop c rest s1

/-- The C function `gatts_structs_init` (the fill pass). -/
def gatts_structs_init (c : Collab) (s : State) : Option State :=
  match structsInitLoop s.ble_service_cnt 0 s.gatts_service with
  | none => none
  | some t => serviceLoop c (jsvChildren s.gatts_services) { s with gatts_service := t }

/-- The inner `while` loop of `gatts_create_structs`. -/
def countChars : List (String × JsVar) → State → State
  | [], s => s
  | (_, charVar) :: rest, s =>
    let s1 : State := if hasDescription charVar
      then { s with ble_descr_cnt := (s.ble_descr_cnt + 1) % U16 } else s
    let s2 : State := { s1 with ble_char_cnt := (s1.ble_char_cnt + 1) % U16 }
    let s3 : State := if hasNotify charVar
      then { s2 with ble_descr_cnt := (s2.ble_descr_cnt + 1) % U16 } else s2
    countChars rest s3

/-- The outer `while` loop of `gatts_create_structs`. -/
def countServices : List (String × JsVar) → State → State
  | [], s => s
  | (_, serviceVar) :: rest, s =>
    let s1 := countChars (jsvChildren (some serviceVar)) s
    countServices rest { s1 with ble_service_cnt := (s1.ble_service_cnt + 1) % U16 }

/-- The C function `gatts_create_structs` (the counting pass and the four `calloc`s). -/
def gatts_create_structs (s : State) : State :=
  let s0 : State := { s with
    ble_service_cnt := 0, ble_char_cnt := 0, ble_descr_cnt := 0,
    ble_service_pos := U16 - 1, ble_char_pos := U16 - 1, ble_descr_pos := U16 - 1 }
  let s1 := countServices (jsvChildren s0.gatts_services) s0
  { s1 with
    adv_service_uuid128 := some (List.replicate s1.ble_service_cnt ⟨0, 0⟩),
    gatts_service := some (List.replicate s1.ble_service_cnt gatts_service_inst.zero),
    gatts_char := some (List.replicate s1.ble_char_cnt gatts_char_inst.zero),
    gatts_descr := some (List.replicate s1.ble_descr_cnt gatts_descr_inst.zero) }

/-- The `for` loop of `gatts_reset`, with `n` iterations left from index `i`. -/
def resetLoop (c : Collab) : Nat → Nat → State → Option State
  | 0, _, s => some s
  | n + 1, i, s =>
    match tblGet s.gatts_service i with
    | none => none
    | some e =>
      if e.gatts_if != ESP_GATT_IF_NONE then
        resetLoop c n (i + 1)
          (stackCall c (.delete_service e.service_handle) "delete service error:%d\n" s)
      else resetLoop c n (i + 1) s

/-- The C function `gatts_reset`. -/
def gatts_reset (c : Collab) (removeValues : Bool) (s : State) : Option State :=
  let s1 : State := { s with removeValues := removeValues }
  if s1.ble_service_cnt > 0 then resetLoop c s1.ble_service_cnt 0 s1 else some s1

/-- The C function `gatts_set_services`. -/
def gatts_set_services (c : Collab) (data : Option JsVar) (s : State) : Option State :=
  match gatts_reset c true s with
  | none => none
  | some s1 =>
    let s2 : State := { s1 with gatts_services := data }
    if jsvIsObject s2.gatts_services then
      match gatts_structs_init c (gatts_create_structs s2) with
      | none => none
      | some s3 =>
        some (gatts_reg_app c { s3 with ble_service_pos := 0, ble_char_pos := 0, ble_descr_pos := 0 })
    else some s2

/-! ## A stack that answers every request -/

/-- The handles a BLE stack chooses when it answers; each may depend on everything the
driver has done so far. -/
structure Stack where
  /-- The interface delivered with `REG_EVT`. -/
  reg_if : List Effect → Nat
  /-- The interface argument of the other events. -/
  event_if : List Effect → Nat
  /-- The member `create.service_handle` of `CREATE_EVT`. -/
  service_handle : List Effect → Nat
  /-- The member `attr_handle` of `ADD_CHAR_EVT` and `ADD_CHAR_DESCR_EVT`. -/
  attr_handle : List Effect → Nat

/-- The successful event with which the stack answers the request `req`, the last entry
of the log `log`; `none` when `req` is answered by no registration event. -/
def Stack.answer (k : Stack) (log : List Effect) (req : Effect) : Option (Event × Nat) :=
  match req with
  | .app_register app_id => some (.REG app_id, k.reg_if log)
  | .create_service _ _ _ => some (.CREATE (k.service_handle log), k.event_if log)
  | .start_service _ => some (.START, k.event_if log)
  | .add_char _ _ _ _ => some (.ADD_CHAR ESP_GATT_OK (k.attr_handle log), k.event_if log)
  | .add_char_descr _ _ _ =>
    some (.ADD_CHAR_DESCR ESP_GATT_OK (k.attr_handle log), k.event_if log)
  | _ => none

/-- The event that answers the request the driver issued last. -/
def Stack.respond (k : Stack) (log : List Effect) : Option (Event × Nat) :=
  match log.getLast? with
  | some req => k.answer log req
  | none => none

/-- The registration walk: as long as the last request is one the stack answers, deliver
the answer to `gatts_event_handler`; `fuel` bounds the number of events. -/
def drive (c : Collab) (k : Stack) : Nat → State → Option State
  | 0, s => some s
  | fuel + 1, s =>
    match k.respond s.log with
    | none => some s
    | some (event, gatts_if) =>
      match gatts_event_handler c event gatts_if s with
      | none => none
      | some s1 => drive c k fuel s1

/-! ## Specification-side helpers -/

/-- Number of entries of an allocation; `NULL` has none. -/
def tblLen {α : Type} : Option (List α) → Nat
  | none => 0
  | some l => l.length

/-- Entries of an allocation; `NULL` has none. -/
def tblList {α : Type} : Option (List α) → List α
  | none => []
  | some l => l

/-- Position of the first entry satisfying `p`. -/
def firstIdx {α : Type} (p : α → Bool) : List α → Option Nat
  | [] => none
  | a :: l => if p a then some 0 else (firstIdx p l).map (· + 1)

/-- The counts agree with the sizes of the allocations, as `calloc` and `free` leave them. -/
def State.WF (s : State) : Prop :=
  tblLen s.gatts_service = s.ble_service_cnt ∧ tblLen s.gatts_char = s.ble_char_cnt ∧
    tblLen s.gatts_descr = s.ble_descr_cnt

/-- The characteristics of a service value, in iteration order. -/
def charsOf (serviceVar : JsVar) : List (String × JsVar) := jsvChildren (some serviceVar)

/-- All characteristics of a description, in iteration order over services and then over the
characteristics of each service; the position in this list is the table index. -/
def allChars : List (String × JsVar) → List (String × JsVar)
  | [] => []
  | (_, serviceVar) :: rest => charsOf serviceVar ++ allChars rest

/-- The descriptor entries `gatts_char_init` writes for the characteristic at table index
`i`. -/
def specDescrs (i : Nat) (charVar : JsVar) : List gatts_descr_inst :=
  (if hasNotify charVar then [cccdEntry i] else []) ++
  (match jsvObjectGetChild charVar "description" with
    | some v => if jsvHasCharacterData v then [descriptionEntry i v] else []
    | none => [])

/-- The descriptor entries for consecutive characteristics, the first at table index `i`. -/
def specDescrsList : Nat → List (String × JsVar) → List gatts_descr_inst
  | _, [] => []
  | i, (_, charVar) :: rest => specDescrs i charVar ++ specDescrsList (i + 1) rest

/-- The characteristic entries of one service at service index `svc`. -/
def specChars (c : Collab) (svc : Nat) (chars : List (String × JsVar)) : List gatts_char_inst :=
  chars.map (fun kv => charFill (c.bleVarToUUID kv.1).ble_uuid kv.2 svc gatts_char_inst.zero)

/-- The characteristic table of a description whose first service has index `svc`. -/
def specCharsAll (c : Collab) : Nat → List (String × JsVar) → List gatts_char_inst
  | _, [] => []
  | svc, (_, serviceVar) :: rest =>
    specChars c svc (charsOf serviceVar) ++ specCharsAll c (svc + 1) rest

/-- The service entry the fill pass leaves for a service. -/
def specService (c : Collab) (key : String) (serviceVar : JsVar) : gatts_service_inst :=
  { gatts_service_inst.zero with
    gatts_if := ESP_GATT_IF_NONE,
    ble_uuid := (c.bleVarToUUID key).ble_uuid,
    uuid16 := (c.bleVarToUUID key).ble_uuid.uuid,
    num_handles := (1 + 4 * (charsOf serviceVar).length) % U16 }

/-- The service table of a description. -/
def specServices (c : Collab) (svcs : List (String × JsVar)) : List gatts_service_inst :=
  svcs.map (fun kv => specService c kv.1 kv.2)

/-- The block table `adv_service_uuid128` of a description. -/
def specAdv (c : Collab) (svcs : List (String × JsVar)) : List ble_uuid_t :=
  svcs.map (fun kv => (c.bleVarToUUID kv.1).ble_uuid)

/-- The service entry after the first loop of `gatts_structs_init`. -/
def initService : gatts_service_inst :=
  { gatts_service_inst.zero with gatts_if := ESP_GATT_IF_NONE, num_handles := 0 }

/-- The fields the per-characteristic part of the fill pass leaves alone. -/
def Frame (s s1 : State) : Prop :=
  s1.ble_service_cnt = s.ble_service_cnt ∧ s1.ble_char_cnt = s.ble_char_cnt ∧
  s1.ble_descr_cnt = s.ble_descr_cnt ∧ s1.ble_service_pos = s.ble_service_pos ∧
  s1.gatts_service = s.gatts_service ∧ s1.adv_service_uuid128 = s.adv_service_uuid128 ∧
  s1.gatts_services = s.gatts_services ∧ s1.removeValues = s.removeValues

/-- The states agree on everything but the hidden root and the log. -/
def SameCore (s s1 : State) : Prop :=
  s1.ble_service_cnt = s.ble_service_cnt ∧ s1.ble_char_cnt = s.ble_char_cnt ∧
  s1.ble_descr_cnt = s.ble_descr_cnt ∧ s1.ble_service_pos = s.ble_service_pos ∧
  s1.ble_char_pos = s.ble_char_pos ∧ s1.ble_descr_pos = s.ble_descr_pos ∧
  s1.gatts_services = s.gatts_services ∧ s1.gatts_service = s.gatts_service ∧
  s1.gatts_char = s.gatts_char ∧ s1.gatts_descr = s.gatts_descr ∧
  s1.adv_service_uuid128 = s.adv_service_uuid128 ∧ s1.removeValues = s.removeValues

/-- A collaborator for the worked examples: every stack call returns `ESP_OK` and every key
parses to the 16-bit UUID `0x180D`. -/
def exampleCollab : Collab := ⟨fun _ => 0, fun _ => ⟨none, ⟨1, 0x180D⟩⟩⟩

/-- The globals at program start, with `gatts_services` pointing at `data`. -/
def stateWith (data : JsVar) : State := { State.init with gatts_services := some data }

/-- A description with one service of `n` characteristics that set no field. -/
def wideService (n : Nat) : JsVar :=
  .obj [("180D", .obj (List.replicate n ("2A37", .obj [])))]

/-- The state `gatts_set_services` leaves when called at program start. -/
def afterSetServices (data : JsVar) : State :=
  (gatts_set_services exampleCollab (some data) State.init).getD State.init

/-- A stack for the worked examples: interfaces from 3, service handles from 40, attribute
handles from 100, each advanced by the number of effects so far. -/
def exampleStack : Stack :=
  ⟨fun log => 3 + log.length, fun _ => 3, fun log => 40 + log.length,
    fun log => 100 + log.length⟩

/-- The state after `gatts_set_services` at program start and a registration walk against
`exampleStack`. -/
def afterRegistration (data : JsVar) : State :=
  ((gatts_set_services exampleCollab (some data) State.init).bind
    (drive exampleCollab exampleStack 64)).getD State.init

/-- A description with two services: one readable characteristic with a value; and a
characteristic with `notify`, a description and an `onRead` callback next to a writable one. -/
def exampleServices : JsVar :=
  .obj [("180A", .obj [("2A37", .obj [("readable", .bool true), ("value", .str [72])])]),
    ("180F", .obj [("2A19", .obj [("notify", .bool true), ("description", .str [68]),
        ("onRead", .func (some [66]))]),
      ("2A20", .obj [("writable", .bool true)])])]

/-- The requests `r i a` of the entries `a` of `l` that satisfy `p`, in index order; the
first entry of `l` has index `i`. -/
def reqsFrom {α : Type} (p : α → Bool) (r : Nat → α → List Effect) : Nat → List α → List Effect
  | _, [] => []
  | i, a :: l => (if p a then r i a else []) ++ reqsFrom p r (i + 1) l

/-- The table `l1` is `l` after a stretch of the registration walk: each entry keeps all
fields but its handle (`same`); a non-zero handle is kept; an entry of handle 0 gets a
non-zero handle when `P` holds of it and keeps 0 otherwise. -/
def Upd {α : Type} (hd : α → Nat) (same : α → α → Prop) (P : Nat → α → Prop)
    (l l1 : List α) : Prop :=
  l1.length = l.length ∧ ∀ q a, l[q]? = some a → ∃ a1, l1[q]? = some a1 ∧ same a a1 ∧
    (hd a ≠ 0 → hd a1 = hd a) ∧ (hd a = 0 → P q a → hd a1 ≠ 0) ∧
    (hd a = 0 → ¬ P q a → hd a1 = 0)

/-- Two characteristic entries agree on all fields but the handle. -/
def sameChar (e e1 : gatts_char_inst) : Prop := e1 = { e with char_handle := e1.char_handle }

/-- Two descriptor entries agree on all fields but the handle. -/
def sameDescr (d d1 : gatts_descr_inst) : Prop := d1 = { d with descr_handle := d1.descr_handle }

/-- Every stack call of the collaborator returns `ESP_OK`. -/
def Collab.Ok (c : Collab) : Prop := ∀ req, c.esp req = 0

/-- The stack answers every add request with a non-zero attribute handle. -/
def Stack.AttrOk (k : Stack) : Prop := ∀ log, k.attr_handle log ≠ 0

/-- The stack answers every create request with a non-zero service handle. -/
def Stack.ServiceOk (k : Stack) : Prop := ∀ log, k.service_handle log ≠ 0

/-- The request for the descriptor `d` at index `q`, under service handle `h`. -/
def descrReq (h : Nat) (q : Nat) (d : gatts_descr_inst) : List Effect :=
  [.add_char_descr h q d.descr_perm]

/-- One `add_char_descr` for each descriptor of the characteristic at index `p`, in position
order. -/
def descrTrace (h p : Nat) (dt : List gatts_descr_inst) : List Effect :=
  reqsFrom (fun d => d.char_pos == p) (descrReq h) 0 dt

/-- One `add_char` for the characteristic `e` at index `p`, followed by the requests for its
descriptors. -/
def charReq (h : Nat) (dt : List gatts_descr_inst) (p : Nat) (e : gatts_char_inst) :
    List Effect :=
  .add_char h p e.char_perm e.char_property :: descrTrace h p dt

/-- The requests for the characteristics of the service at index `i`, in position order. -/
def charTrace (h i : Nat) (ct : List gatts_char_inst) (dt : List gatts_descr_inst) :
    List Effect :=
  reqsFrom (fun e => e.service_pos == i) (charReq h dt) 0 ct

/-- The requests for the service `e` at index `i`: register, create, start, then its
characteristics. -/
def serviceReq (ct : List gatts_char_inst) (dt : List gatts_descr_inst) (i : Nat)
    (e : gatts_service_inst) : List Effect :=
  [.app_register i, .create_service e.gatts_if i e.num_handles,
    .start_service e.service_handle] ++ charTrace e.service_handle i ct dt

/-- The requests of a whole registration walk over the tables: each service in index order,
then start advertising. -/
def walkTrace (st : List gatts_service_inst) (ct : List gatts_char_inst)
    (dt : List gatts_descr_inst) : List Effect :=
  reqsFrom (fun _ => true) (serviceReq ct dt) 0 st ++ [.startAdvertizing true]

/-- The descriptor requests still to come for the characteristic at index `p`: those of
its descriptors that have no handle yet. -/
def descrTraceE (h p : Nat) (dt : List gatts_descr_inst) : List Effect :=
  reqsFrom (fun d => d.descr_handle == 0 && d.char_pos == p) (descrReq h) 0 dt

/-- The request for a characteristic and the descriptor requests still to come for it. -/
def charReqE (h : Nat) (dt : List gatts_descr_inst) (p : Nat) (e : gatts_char_inst) :
    List Effect :=
  .add_char h p e.char_perm e.char_property :: descrTraceE h p dt

/-- The characteristic requests still to come for the service at index `i`: those of its
characteristics that have no handle yet. -/
def charTraceE (h i : Nat) (ct : List gatts_char_inst) (dt : List gatts_descr_inst) :
    List Effect :=
  reqsFrom (fun e => e.service_pos == i && e.char_handle == 0) (charReqE h dt) 0 ct

/-- The fields no step of the registration walk touches. -/
def WalkFrame (s s1 : State) : Prop :=
  s1.ble_service_cnt = s.ble_service_cnt ∧ s1.ble_char_cnt = s.ble_char_cnt ∧
  s1.ble_descr_cnt = s.ble_descr_cnt ∧ s1.gatts_services = s.gatts_services ∧
  s1.adv_service_uuid128 = s.adv_service_uuid128 ∧ s1.removeValues = s.removeValues ∧
  s1.hiddenRoot = s.hiddenRoot
/-- The table `l1` has the entries of `l`, up to the handles. -/
def SameTbl {α : Type} (same : α → α → Prop) (l l1 : List α) : Prop :=
  l1.length = l.length ∧ ∀ (q : Nat) (a a1 : α), l[q]? = some a → l1[q]? = some a1 → same a a1

/-- Before the walk reaches service `i`: a characteristic that has a handle belongs to a
service below `i`, and so does the characteristic of a descriptor that has a handle. -/
def Pending (i : Nat) (ct : List gatts_char_inst) (dt : List gatts_descr_inst) : Prop :=
  (∀ (j : Nat) (e : gatts_char_inst), ct[j]? = some e → e.char_handle ≠ 0 → e.service_pos < i) ∧
  (∀ (j : Nat) (d : gatts_descr_inst), dt[j]? = some d → d.descr_handle ≠ 0 →
    ∃ e, ct[d.char_pos]? = some e ∧ e.service_pos < i)

/-- After the walk has passed the services below `i`: these services, their characteristics
and the descriptors of these characteristics have their handles. -/
def Done (i : Nat) (st : List gatts_service_inst) (ct : List gatts_char_inst)
    (dt : List gatts_descr_inst) : Prop :=
  (∀ (j : Nat) (e : gatts_service_inst), j < i → st[j]? = some e → e.service_handle ≠ 0) ∧
  (∀ (j : Nat) (e : gatts_char_inst), ct[j]? = some e → e.service_pos < i → e.char_handle ≠ 0) ∧
  (∀ (j : Nat) (d : gatts_descr_inst) (e : gatts_char_inst), dt[j]? = some d →
    ct[d.char_pos]? = some e → e.service_pos < i →
    d.descr_handle ≠ 0)

/-- No characteristic and no descriptor has a handle yet, as in tables the fill pass has
just built. -/
def Fresh (s : State) : Prop :=
  (∀ e ∈ tblList s.gatts_char, e.char_handle = 0) ∧
  (∀ d ∈ tblList s.gatts_descr, d.descr_handle = 0)

/-- Every characteristic names a service of the table and every descriptor names a
characteristic of the table. -/
def Linked (s : State) : Prop :=
  (∀ e ∈ tblList s.gatts_char, e.service_pos < s.ble_service_cnt) ∧
  (∀ d ∈ tblList s.gatts_descr, d.char_pos < s.ble_char_cnt)

/-- The state in which `gatts_set_services exampleCollab (some data)`, called at program
start, calls `gatts_reg_app`: tables built and filled, the three cursors at 0. -/
def readyToRegister (data : JsVar) : State :=
  (fun s3 : State => { s3 with ble_service_pos := 0, ble_char_pos := 0, ble_descr_pos := 0 })
    ((gatts_structs_init exampleCollab (gatts_create_structs
      { State.init with removeValues := true, gatts_services := some data })).getD State.init)

/-- Whether an effect is an `esp_ble_gatts_app_register` call. -/
def Effect.isAppRegister : Effect → Bool
  | .app_register _ => true
  | _ => false

/-- The list `l` with `f` applied to its entry at index `i`. -/
def modifyAt {α : Type} (f : α → α) : List α → Nat → List α
  | [], _ => []
  | a :: l, 0 => f a :: l
  | a :: l, i + 1 => a :: modifyAt f l i

/-- The characteristic a handle resolves to: the first entry of `gatts_char` carrying it. -/
def charOfHandle (h : Nat) (s : State) : Option Nat :=
  firstIdx (fun e : gatts_char_inst => e.char_handle == h) (tblList s.gatts_char)

/-- The descriptor a handle resolves to: the first entry of `gatts_descr` carrying it. -/
def descrOfHandle (h : Nat) (s : State) : Option Nat :=
  firstIdx (fun e : gatts_descr_inst => e.descr_handle == h) (tblList s.gatts_descr)

/-- The response after a copy of `v` that stays inside the value array. -/
def copied (v : JsVar) (rsp : esp_gatt_rsp_t) : esp_gatt_rsp_t :=
  { rsp with
    value := JSV_GET_AS_CHAR_ARRAY v ++ rsp.value.drop (JSV_GET_AS_CHAR_ARRAY v).length,
    len := (JSV_GET_AS_CHAR_ARRAY v).length }

/-- Response and state after `readChar` when its copy stays inside the value array. -/
def readCharOk (pos : Nat) (rsp : esp_gatt_rsp_t) (s : State) : esp_gatt_rsp_t × State :=
  match hiddenGet s.hiddenRoot (bleGetHiddenName .BLE_READ_EVENT pos) with
  | some readCB =>
    match jspExecuteFunction readCB with
    | some charValue =>
      (copied charValue rsp, s.emit (.executeFunction (bleGetHiddenName .BLE_READ_EVENT pos)
        readCB []))
    | none => (rsp, s.emit (.executeFunction (bleGetHiddenName .BLE_READ_EVENT pos) readCB []))
  | none =>
    match hiddenGet s.hiddenRoot (bleGetHiddenName .BLE_CHAR_VALUE pos) with
    | some charValue => (copied charValue rsp, s)
    | none => (rsp, s)

/-- Response after `readDescr` when its copy stays inside the value array. -/
def readDescrOk (d : gatts_descr_inst) (rsp : esp_gatt_rsp_t) : esp_gatt_rsp_t :=
  match d.descrVal with
  | some v => copied v rsp
  | none => rsp

/-- Response and state after the characteristic loop of the read handler, when its copy
stays inside the value array. -/
def readPart (h : Nat) (s : State) : esp_gatt_rsp_t × State :=
  match charOfHandle h s with
  | some p => readCharOk p (emptyRsp h) s
  | none => (emptyRsp h, s)

/-- Response after the descriptor loop of the read handler, when the copies stay inside the
value array. -/
def readFinal (h : Nat) (s : State) : esp_gatt_rsp_t :=
  match descrOfHandle h s with
  | some q =>
    match (tblList s.gatts_descr)[q]? with
    | some d => readDescrOk d (readPart h s).1
    | none => (readPart h s).1
  | none => (readPart h s).1

/-- State after the characteristic loop of the write handler. -/
def writePart (h : Nat) (value : List Nat) (s : State) : State :=
  match charOfHandle h s with
  | some p => writeChar p value s
  | none => s

/-- The descriptor table after the descriptor loop of the write handler. -/
def writeDescr (h : Nat) (value : List Nat) (s : State) : Option (List gatts_descr_inst) :=
  match descrOfHandle h s with
  | some q =>
    some (modifyAt (fun d => { d with descrVal := some (jsvNewStringOfLength value) })
      (tblList s.gatts_descr) q)
  | none => s.gatts_descr

/-- State after the descriptor loop of the write handler. -/
def writeFinal (h : Nat) (value : List Nat) (s : State) : State :=
  { writePart h value s with gatts_descr := writeDescr h value s }

/-- Whether the effect is a call of `esp_ble_gatts_send_response`. -/
def Effect.isSendResponse : Effect → Bool
  | .send_response _ _ _ _ _ => true
  | _ => false

/-- A description with one writable characteristic that has an `onWrite` callback. -/
def onWriteService : JsVar :=
  .obj [("180A", .obj [("2A37", .obj [("writable", .bool true), ("onWrite", .func none)])])]

/-- The value `readChar` copies at the characteristic `pos`: the result of its `onRead`
callback, or without a callback its stored value. -/
def charValueAt (pos : Nat) (s : State) : Option JsVar :=
  match hiddenGet s.hiddenRoot (bleGetHiddenName .BLE_READ_EVENT pos) with
  | some readCB => jspExecuteFunction readCB
  | none => hiddenGet s.hiddenRoot (bleGetHiddenName .BLE_CHAR_VALUE pos)

/-- The value the characteristic loop of the read handler copies for the handle `h`: the
result of the `onRead` callback of the resolved characteristic, or without a callback its
stored value. -/
def readCharValue (h : Nat) (s : State) : Option JsVar :=
  match charOfHandle h s with
  | some p => charValueAt p s
  | none => none

/-- The value the descriptor loop of the read handler copies for the handle `h`: the stored
value of the resolved descriptor. -/
def readDescrValue (h : Nat) (s : State) : Option JsVar :=
  match descrOfHandle h s with
  | some q => ((tblList s.gatts_descr)[q]?).bind (·.descrVal)
  | none => none

/-- Whether a value to copy has at most `ESP_GATT_MAX_ATTR_LEN` bytes; no value fits. -/
def valueFits : Option JsVar → Bool
  | some v => decide ((JSV_GET_AS_CHAR_ARRAY v).length ≤ ESP_GATT_MAX_ATTR_LEN)
  | none => true

/-- Whether the values the read handler copies for the handle `h` fit the value array. -/
def readFits (h : Nat) (s : State) : Bool :=
  valueFits (readCharValue h s) && valueFits (readDescrValue h s)

/-- A description whose characteristic has a stored value of 601 bytes. -/
def longValueService : JsVar :=
  .obj [("180A", .obj [("2A37", .obj [("readable", .bool true),
    ("value", .str (List.replicate 601 7))])])]

/-- Whether an effect is an `esp_ble_gatts_add_char` call. -/
def Effect.isAddChar : Effect → Bool
  | .add_char _ _ _ _ => true
  | _ => false

/-- Whether an effect is a `bluetooth_gap_startAdvertizing` call. -/
def Effect.isStartAdvertizing : Effect → Bool
  | .startAdvertizing _ => true
  | _ => false

/-- A collaborator whose `esp_ble_gatts_add_char` returns the error 5; every other stack
call returns `ESP_OK`. -/
def addCharFails : Collab :=
  ⟨fun req => if req.isAddChar then 5 else 0, exampleCollab.bleVarToUUID⟩

/-- Whether an effect is one of the requests of the registration walk: register, create,
start, add characteristic, add descriptor or start advertising. -/
def Effect.isRegistrationRequest : Effect → Bool
  | .app_register _ => true
  | .create_service _ _ _ => true
  | .start_service _ => true
  | .add_char _ _ _ _ => true
  | .add_char_descr _ _ _ => true
  | .startAdvertizing _ => true
  | _ => false

/-- What the pattern `r = call(...); if (r) jsWarn(msg, r);` appends to the log. -/
def callTrace (c : Collab) (req : Effect) (msg : String) : List Effect :=
  if c.esp req = 0 then [req] else [req, .jsWarn msg (c.esp req)]

/-- The effects of the loop of `gatts_reset` over the service entries `l`: one
`delete_service` (with its warning when the call fails) for each entry with a live
interface, in index order. -/
def resetTrace (c : Collab) : List gatts_service_inst → List Effect
  | [] => []
  | e :: l =>
    (if e.gatts_if != ESP_GATT_IF_NONE
      then callTrace c (.delete_service e.service_handle) "delete service error:%d\n"
      else []) ++ resetTrace c l

/-- The exception `gatts_service_struct_init` raises for a service key. -/
def serviceKeyTrace (c : Collab) (key : String) : List Effect :=
  match (c.bleVarToUUID key).errorStr with
  | some errorStr => [.jsExceptionHere "invalid Service UUID:%s" errorStr]
  | none => []

/-- The exception `gatts_char_init` raises for a characteristic key. -/
def charKeyTrace (c : Collab) (key : String) : List Effect :=
  match (c.bleVarToUUID key).errorStr with
  | some errorStr => [.jsExceptionHere "invalid Char UUID:%s" errorStr]
  | none => []

/-- The exceptions of the fill pass over the characteristics `chars` of one service. -/
def charsTrace (c : Collab) : List (String × JsVar) → List Effect
  | [] => []
  | (key, _) :: rest => charKeyTrace c key ++ charsTrace c rest

/-- The exceptions of the fill pass over the services `svcs`, in iteration order. -/
def fillTrace (c : Collab) : List (String × JsVar) → List Effect
  | [] => []
  | (key, serviceVar) :: rest =>
    serviceKeyTrace c key ++ charsTrace c (jsvChildren (some serviceVar)) ++ fillTrace c rest

/-- Whether an effect is a `jsExceptionHere` call. -/
def Effect.isException : Effect → Bool
  | .jsExceptionHere _ _ => true
  | _ => false

/-- A collaborator that accepts only keys of four characters as UUIDs; every stack call
returns `ESP_OK`. -/
def strictCollab : Collab :=
  ⟨fun _ => 0, fun key => if key.length = 4 then ⟨none, ⟨1, 0x180D⟩⟩
    else ⟨some "UUID string should only be 4 or 36 characters long", ⟨0, 0⟩⟩⟩

/-- A description whose service key is not a UUID. -/
def malformedKeyService : JsVar := .obj [("zz", .obj [("2A37", .obj [])])]

/-- Modelled from the spec: the children of an object after `jsvObjectSetChild(obj, name,
child)`: the first child of that name is rebound, and without one the child is appended. -/
def setChild : List (String × JsVar) → String → JsVar → List (String × JsVar)
  | [], name, child => [(name, child)]
  | (k, v) :: rest, name, child =>
    if k == name then (k, child) :: rest else (k, v) :: setChild rest name child

/-- Modelled from the spec: `jsvObjectSetChild(obj, name, child)`, as the value `obj` is
afterwards; a value without children is left as it is. -/
def jsvObjectSetChild (obj : JsVar) (name : String) (child : JsVar) : JsVar :=
  match obj with
  | .obj cs => .obj (setChild cs name child)
  | v => v

/-- The statement `if (newValue) jsvObjectSetChild(charData, "value", newValue);` of
`jswrap_ESP32_BLE_charValue`, as the value `charData` is afterwards. -/
def storeNewValue (newValue : Option JsVar) (charData : JsVar) : JsVar :=
  match newValue with
  | some v => jsvObjectSetChild charData "value" v
  | none => charData

/-- The inner `while` loop of `jswrap_ESP32_BLE_charValue` over the characteristics still to
visit.  `value` is the local of that name, `none` while nothing has been assigned to it;
the result pairs its final content with the characteristics as the loop leaves them.
`jsvIsEqual` compares a key with the argument. -/
def charValueChars (jsvIsEqual : String → JsVar → Bool) (charUUID : JsVar)
    (newValue : Option JsVar) :
    List (String × JsVar) → Option (Option JsVar) →
      Option (Option JsVar) × List (String × JsVar)
  | [], value => (value, [])
  | (charKey, charData) :: rest, value =>
    if jsvIsEqual charKey charUUID then
      let value1 := some (jsvObjectGetChild charData "value")
      let r := charValueChars jsvIsEqual charUUID newValue rest value1
      (r.1, (charKey, storeNewValue newValue charData) :: r.2)
    else
      let r := charValueChars jsvIsEqual charUUID newValue rest value
      (r.1, (charKey, charData) :: r.2)

/-- The outer `while` loop of `jswrap_ESP32_BLE_charValue` over the services still to
visit. -/
def charValueServices (jsvIsEqual : String → JsVar → Bool) (serviceUUID charUUID : JsVar)
    (newValue : Option JsVar) :
    List (String × JsVar) → Option (Option JsVar) →
      Option (Option JsVar) × List (String × JsVar)
  | [], value => (value, [])
  | (serviceKey, serviceData) :: rest, value =>
    if jsvIsEqual serviceKey serviceUUID then
      let r1 := charValueChars jsvIsEqual charUUID newValue
        (jsvChildren (some serviceData)) value
      let serviceData1 := match serviceData with
        | .obj _ => JsVar.obj r1.2
        | v => v
      let r := charValueServices jsvIsEqual serviceUUID charUUID newValue rest r1.1
      (r.1, (serviceKey, serviceData1) :: r.2)
    else
      let r := charValueServices jsvIsEqual serviceUUID charUUID newValue rest value
      (r.1, (serviceKey, serviceData) :: r.2)

/-- The C function `jswrap_ESP32_BLE_charValue` of `jswrap_esp32.c`.  `servicesData` is the hidden child
`BLE_SVC_D`, the preserved description; the result pairs the returned pointer (`none` when
the local `value` is returned without ever being assigned, `some none` for `0`) with the
preserved description as the call leaves it.  `jsvIsEqual`, declared outside this file,
is a parameter. -/
def jswrap_ESP32_BLE_charValue (jsvIsEqual : String → JsVar → Bool)
    (serviceUUID charUUID : JsVar) (newValue : Option JsVar) (servicesData : Option JsVar) :
    Option (Option JsVar) × Option JsVar :=
  match servicesData with
  | some (.obj svcs) =>
    let r := charValueServices jsvIsEqual serviceUUID charUUID newValue svcs none
    (r.1, some (.obj r.2))
  | v => (none, v)

/-- The `value` child of the characteristic `ch` of the service `svc` of a description. -/
def descriptionValue (X : Option JsVar) (svc ch : String) : Option JsVar :=
  ((X.bind (jsvObjectGetChild · svc)).bind (jsvObjectGetChild · ch)).bind
    (jsvObjectGetChild · "value")

/-- Key comparison for the worked examples: the argument is a string holding the
characters of the key. -/
def exampleIsEqual (key : String) (v : JsVar) : Bool :=
  match v with
  | .str cs => cs == key.toList.map Char.toNat
  | _ => false

/-- The handle of an `esp_ble_gatts_delete_service` request; no other effect has one. -/
def Effect.deletedHandle : Effect → Option Nat
  | .delete_service service_handle => some service_handle
  | _ => none

/-- The test `gatts_service[i].gatts_if != ESP_GATT_IF_NONE` of `gatts_reset`. -/
def gatts_service_inst.live (e : gatts_service_inst) : Bool := e.gatts_if != ESP_GATT_IF_NONE


/-- The three position cursors hold 16-bit values. -/
def CursorsInRange (s : State) : Prop :=
  s.ble_service_pos < U16 ∧ s.ble_char_pos < U16 ∧ s.ble_descr_pos < U16

/-- The three tables have as many entries in `s1` as in `s`. -/
def SameSizes (s s1 : State) : Prop :=
  tblLen s1.gatts_service = tblLen s.gatts_service ∧ tblLen s1.gatts_char = tblLen s.gatts_char ∧
    tblLen s1.gatts_descr = tblLen s.gatts_descr

/-- A description with one service of `n` characteristics that all have `notify`. -/
def notifyWideService (n : Nat) : JsVar :=
  .obj [("180D", .obj (List.replicate n ("2A37", .obj [("notify", .bool true)])))]

/-- A description with one service of `n` characteristics that all carry the description
`"D"`. -/
def describedWideService (n : Nat) : JsVar :=
  .obj [("180D", .obj (List.replicate n ("2A37", .obj [("description", .str [68])])))]

/-- A description with `n` services of one characteristic each. -/
def manyServices (n : Nat) : JsVar :=
  .obj (List.replicate n ("180D", .obj [("2A37", .obj [])]))

/-- A description whose characteristic carries a description of 700 bytes. -/
def longDescriptionService : JsVar :=
  .obj [("180A", .obj [("2A37", .obj [("readable", .bool true),
    ("description", .str (List.replicate 700 68))])])]
/-- Whether an effect is a request that the stack answers with an event of the registration
walk: register, create, start, add characteristic or add descriptor. -/
def Effect.awaitsEvent : Effect → Bool
  | .app_register _ => true
  | .create_service _ _ _ => true
  | .start_service _ => true
  | .add_char _ _ _ _ => true
  | .add_char_descr _ _ _ => true
  | _ => false

/-- Whether an effect is an `esp_ble_gatts_add_char_descr` call. -/
def Effect.isAddCharDescr : Effect → Bool
  | .add_char_descr _ _ _ => true
  | _ => false

/-- Whether the event is the answer of the stack to the request. -/
def Event.answers : Event → Effect → Bool
  | .REG _, .app_register _ => true
  | .CREATE _, .create_service _ _ _ => true
  | .START, .start_service _ => true
  | .ADD_CHAR _ _, .add_char _ _ _ _ => true
  | .ADD_CHAR_DESCR _ _, .add_char_descr _ _ _ => true
  | _, _ => false

/-- Whether the event is one the stack raises in answer to a request of the registration
walk. -/
def Event.isAnswer : Event → Bool
  | .REG _ => true
  | .CREATE _ => true
  | .START => true
  | .ADD_CHAR _ _ => true
  | .ADD_CHAR_DESCR _ _ => true
  | _ => false

/-- The outstanding requests once the stack has answered one of them with `ev`: the oldest
request that `ev` answers is removed; `none` when no outstanding request is answered by
`ev`. -/
def takeAnswered (ev : Event) : List Effect → Option (List Effect)
  | [] => none
  | r :: rest => if ev.answers r then some rest else (takeAnswered ev rest).map (r :: ·)

/-- The stack delivers the event `ev` to `gatts_event_handler`; the second component lists
the requests issued and not yet answered.  An answer event is delivered only for an
outstanding request of its kind; the requests the handler issues become outstanding. -/
def deliver (c : Collab) (ev : Event) (gatts_if : Nat) (w : State × List Effect) :
    Option (State × List Effect) :=
  match (if ev.isAnswer then takeAnswered ev w.2 else some w.2) with
  | none => none
  | some pending =>
    match gatts_event_handler c ev gatts_if w.1 with
    | none => none
    | some s1 =>
      some (s1, pending ++ (s1.log.drop w.1.log.length).filter Effect.awaitsEvent)

/-- A sequence of deliveries. -/
def deliverAll (c : Collab) :
    List (Event × Nat) → State × List Effect → Option (State × List Effect)
  | [], w => some w
  | e :: es, w =>
    match deliver c e.1 e.2 w with
    | none => none
    | some w1 => deliverAll c es w1

/-- The events a stack raises during the registration of `exampleServices`, followed by a
peer READ. -/
def exampleWalkEvents : List (Event × Nat) :=
  [(.REG 0, 3), (.CREATE 40, 3), (.START, 3), (.ADD_CHAR 0 104, 3),
    (.REG 1, 4), (.CREATE 44, 4), (.START, 4), (.ADD_CHAR 0 108, 4),
    (.ADD_CHAR_DESCR 0 109, 4), (.ADD_CHAR_DESCR 0 110, 4), (.ADD_CHAR 0 111, 4),
    (.READ 1 2 104, 3)]

theorem firstIdx_lt {α : Type} (p : α → Bool) : ∀ (l : List α) (i : Nat),
    firstIdx p l = some i → i < l.length
  | [], i, h => by simp [firstIdx] at h
  | a :: l, i, h => by
    simp only [firstIdx] at h
    split at h
    · simp at h; subst h; simp
    · cases hf : firstIdx p l with
      | none => simp [hf] at h
      | some j =>
        simp [hf] at h
        subst h
        have := firstIdx_lt p l j hf
        simp; omega

theorem firstIdx_sat {α : Type} (p : α → Bool) : ∀ (l : List α) (i : Nat),
    firstIdx p l = some i → ∃ e, l[i]? = some e ∧ p e = true
  | [], i, h => by simp [firstIdx] at h
  | a :: l, i, h => by
    simp only [firstIdx] at h
    split at h
    · simp at h; subst h; exact ⟨a, by simp, by assumption⟩
    · cases hf : firstIdx p l with
      | none => simp [hf] at h
      | some j =>
        simp [hf] at h
        subst h
        obtain ⟨e, he, hp⟩ := firstIdx_sat p l j hf
        exact ⟨e, by simpa using he, hp⟩

theorem firstIdx_min {α : Type} (p : α → Bool) : ∀ (l : List α) (i : Nat),
    firstIdx p l = some i → ∀ j e, j < i → l[j]? = some e → p e = false
  | [], i, h => by simp [firstIdx] at h
  | a :: l, i, h => by
    simp only [firstIdx] at h
    split at h
    · simp at h; subst h; intro j e hj; omega
    · rename_i hpa
      cases hf : firstIdx p l with
      | none => simp [hf] at h
      | some k =>
        simp [hf] at h
        subst h
        intro j e hj he
        cases j with
        | zero => simp at he; subst he; simpa using hpa
        | succ j =>
          simp at he
          exact firstIdx_min p l k hf j e (by omega) he

theorem firstIdx_none {α : Type} (p : α → Bool) : ∀ (l : List α),
    firstIdx p l = none ↔ ∀ e ∈ l, p e = false
  | [] => by simp [firstIdx]
  | a :: l => by
    simp only [firstIdx]
    split
    · rename_i h; simp [h]
    · rename_i h
      simp [firstIdx_none p l, h]

theorem scanLoop_eq {α : Type} (p : α → Bool) (l : List α) : ∀ (n pos : Nat),
    pos + n = l.length →
    scanLoop p (some l) n pos = some ((firstIdx p (l.drop pos)).map (· + pos))
  | 0, pos, h => by
    have : l.drop pos = [] := by simp; omega
    simp [scanLoop, this, firstIdx]
  | n + 1, pos, h => by
    have hlt : pos < l.length := by omega
    have hd : l.drop pos = l[pos] :: l.drop (pos + 1) := by
      simp
    simp only [scanLoop, tblGet, List.getElem?_eq_getElem hlt, hd, firstIdx]
    split
    · simp
    · rw [scanLoop_eq p l n (pos + 1) (by omega)]
      cases firstIdx p (l.drop (pos + 1)) <;> simp
      omega

theorem scan_eq {α : Type} (p : α → Bool) (tbl : Option (List α)) (cnt : Nat)
    (h : tblLen tbl = cnt) : scan p tbl cnt = some (firstIdx p (tblList tbl)) := by
  cases tbl with
  | none =>
    simp [tblLen] at h
    subst h
    simp [scan, scanLoop, tblList, firstIdx]
  | some l =>
    simp [tblLen] at h
    subst h
    simp [scan, tblList, scanLoop_eq p l l.length 0 (by simp)]

theorem hiddenGet_hiddenSet_same (r : HiddenRoot) (n : HiddenName) (v : JsVar) :
    hiddenGet (hiddenSet r n v) n = some v := by
  induction r with
  | nil => simp [hiddenSet, hiddenGet, List.lookup]
  | cons a r ih =>
    obtain ⟨k, w⟩ := a
    simp only [hiddenSet]
    split
    · rename_i h; subst h; simp [hiddenGet, List.lookup]
    · rename_i h
      have hb : (n == k) = false := by simpa using h
      simpa [hiddenGet, List.lookup, hb] using ih

theorem hiddenGet_hiddenSet_other (r : HiddenRoot) (n m : HiddenName) (v : JsVar) (hne : m ≠ n) :
    hiddenGet (hiddenSet r n v) m = hiddenGet r m := by
  induction r with
  | nil =>
    have hb : (m == n) = false := by simpa using hne
    simp [hiddenSet, hiddenGet, List.lookup, hb]
  | cons a r ih =>
    obtain ⟨k, w⟩ := a
    simp only [hiddenSet]
    split
    · rename_i h; subst h
      have hb : (m == n) = false := by simpa using hne
      simp [hiddenGet, List.lookup, hb]
    · by_cases hmk : m = k
      · subst hmk; simp [hiddenGet, List.lookup]
      · have hb : (m == k) = false := by simpa using hmk
        simpa [hiddenGet, List.lookup, hb] using ih

theorem firstIdx_none_of_forall {α : Type} (p : α → Bool) (l : List α)
    (h : ∀ e ∈ l, p e = false) : firstIdx p l = none := (firstIdx_none p l).2 h

/-- C10: for a handle carried by no characteristic and no descriptor, a peer READ is
answered OK with a payload of length 0, and a peer WRITE is answered OK and changes nothing
but the log, to which it adds only the response: no callback runs, no stored value and no
descriptor value changes. -/
theorem unknown_handle_answered_ok_and_empty (c : Collab) (s : State) (hwf : s.WF)
    (h gatts_if conn_id trans_id : Nat) (value : List Nat)
    (hc : ∀ e ∈ tblList s.gatts_char, e.char_handle ≠ h)
    (hd : ∀ e ∈ tblList s.gatts_descr, e.descr_handle ≠ h) :
    (∃ rsp, gatts_event_handler c (.READ conn_id trans_id h) gatts_if s
        = some (s.emit (.send_response gatts_if conn_id trans_id ESP_GATT_OK (some rsp)))
      ∧ rsp.payload.length = 0)
    ∧ gatts_event_handler c (.WRITE conn_id trans_id h value) gatts_if s
        = some (s.emit (.send_response gatts_if conn_id trans_id ESP_GATT_OK none)) := by
  obtain ⟨_, hcw, hdw⟩ := hwf
  have h1 : firstIdx (fun e : gatts_char_inst => e.char_handle == h) (tblList s.gatts_char)
      = none := firstIdx_none_of_forall _ _ (fun e he => by simpa using hc e he)
  have h2 : firstIdx (fun e : gatts_descr_inst => e.descr_handle == h) (tblList s.gatts_descr)
      = none := firstIdx_none_of_forall _ _ (fun e he => by simpa using hd e he)
  refine ⟨⟨emptyRsp h, ?_, by simp [esp_gatt_rsp_t.payload, emptyRsp]⟩, ?_⟩
  · simp [gatts_event_handler, gatts_read_value_handler, scan_eq _ _ _ hcw, scan_eq _ _ _ hdw,
      h1, h2]
  · simp [gatts_event_handler, gatts_write_value_handler, scan_eq _ _ _ hcw, scan_eq _ _ _ hdw,
      h1, h2]

theorem tblGet_eq {α : Type} (tbl : Option (List α)) (i : Nat) :
    tblGet tbl i = (tblList tbl)[i]? := by
  cases tbl <;> simp [tblGet, tblList]

theorem tblModify_eq {α : Type} (tbl : Option (List α)) (i : Nat) (f : α → α) (e : α)
    (h : (tblList tbl)[i]? = some e) : tblModify tbl i f = some ((tblList tbl).set i (f e)) := by
  cases tbl with
  | none => simp [tblList] at h
  | some l =>
    simp only [tblList] at h
    simp [tblModify, tblList, h]

theorem readCharOk_tables (pos : Nat) (rsp : esp_gatt_rsp_t) (s : State) :
    (readCharOk pos rsp s).2.gatts_descr = s.gatts_descr ∧
    (readCharOk pos rsp s).2.ble_descr_cnt = s.ble_descr_cnt := by
  unfold readCharOk
  split
  · split <;> simp [State.emit]
  · split <;> simp

theorem readCharOk_log (pos : Nat) (rsp : esp_gatt_rsp_t) (s : State) :
    ∃ pre, (readCharOk pos rsp s).2.log = s.log ++ pre ∧
      ∀ e ∈ pre, e.isSendResponse = false := by
  unfold readCharOk
  split
  · rename_i cb _
    refine ⟨[.executeFunction (bleGetHiddenName .BLE_READ_EVENT pos) cb []], ?_, ?_⟩
    · split <;> simp [State.emit]
    · simp [Effect.isSendResponse]
  · refine ⟨[], ?_, by simp⟩
    split <;> simp

theorem writeChar_tables (pos : Nat) (value : List Nat) (s : State) :
    (writeChar pos value s).gatts_descr = s.gatts_descr ∧
    (writeChar pos value s).ble_descr_cnt = s.ble_descr_cnt ∧
    (writeChar pos value s).gatts_char = s.gatts_char ∧
    (writeChar pos value s).ble_char_cnt = s.ble_char_cnt ∧
    (writeChar pos value s).gatts_service = s.gatts_service ∧
    (writeChar pos value s).ble_service_cnt = s.ble_service_cnt ∧
    (writeChar pos value s).hiddenRoot =
      hiddenSet s.hiddenRoot (bleGetHiddenName .BLE_CHAR_VALUE pos) (jsvNewStringOfLength value) := by
  unfold writeChar
  simp only []
  split <;> simp [State.emit]

theorem writeChar_log (pos : Nat) (value : List Nat) (s : State) :
    ∃ pre, (writeChar pos value s).log = s.log ++ pre ∧ ∀ e ∈ pre, e.isSendResponse = false := by
  unfold writeChar
  simp only []
  split
  · rename_i cb _
    exact ⟨[.executeFunction (bleGetHiddenName .BLE_WRITE_EVENT pos) cb
      [JsVar.obj [("data", jsvNewArrayBufferFromString (jsvNewStringOfLength value))]]],
      by simp [State.emit], by simp [Effect.isSendResponse]⟩
  · exact ⟨[], by simp, by simp⟩

theorem firstIdx_set {α : Type} (p : α → Bool) : ∀ (l : List α) (q : Nat) (d d1 : α),
    l[q]? = some d → p d1 = p d → firstIdx p (l.set q d1) = firstIdx p l
  | [], q, d, d1, h, _ => by simp at h
  | a :: l, 0, d, d1, h, hp => by
    simp at h; subst h
    simp [firstIdx, hp]
  | a :: l, q + 1, d, d1, h, hp => by
    simp at h
    simp [firstIdx, firstIdx_set p l q d d1 h hp]

theorem copied_str (B : List Nat) (rsp : esp_gatt_rsp_t) :
    (copied (jsvNewStringOfLength B) rsp).payload = B ∧
    (copied (jsvNewStringOfLength B) rsp).len = B.length := by
  simp [copied, jsvNewStringOfLength, JSV_GET_AS_CHAR_ARRAY, esp_gatt_rsp_t.payload]

theorem copied_payload (v : JsVar) (rsp : esp_gatt_rsp_t) :
    (copied v rsp).payload = JSV_GET_AS_CHAR_ARRAY v := by
  simp [copied, esp_gatt_rsp_t.payload]

theorem take_set_succ {α : Type} : ∀ (l : List α) (i : Nat) (a : α), i < l.length →
    (l.set i a).take (i + 1) = l.take i ++ [a]
  | [], i, a, h => by simp at h
  | x :: l, 0, a, _ => by simp
  | x :: l, i + 1, a, h => by
    simp only [List.length_cons, Nat.add_lt_add_iff_right] at h
    simp [take_set_succ l i a h]

theorem drop_set_lt {α : Type} : ∀ (l : List α) (i j : Nat) (a : α), i < j →
    (l.set i a).drop j = l.drop j
  | [], _, _, _, _ => by simp
  | x :: l, _, 0, _, h => by omega
  | x :: l, 0, j + 1, a, _ => by simp
  | x :: l, i + 1, j + 1, a, h => by
    simp only [List.set_cons_succ, List.drop_succ_cons]
    exact drop_set_lt l i j a (by omega)

/-- A copy that ends inside the value array overwrites its first bytes. -/
theorem copyLoop_fits : ∀ (bs : List Nat) (pos : Nat) (value : List Nat),
    pos + bs.length ≤ ESP_GATT_MAX_ATTR_LEN → pos + bs.length ≤ value.length →
    copyLoop bs pos value = some (value.take pos ++ bs ++ value.drop (pos + bs.length))
  | [], pos, value, _, _ => by simp [copyLoop]
  | b :: rest, pos, value, h1, h2 => by
    simp only [List.length_cons] at h1 h2
    have hlt : pos < ESP_GATT_MAX_ATTR_LEN := by omega
    simp only [copyLoop, hlt, if_true]
    rw [copyLoop_fits rest (pos + 1) (value.set pos b) (by omega)
      (by rw [List.length_set]; omega)]
    rw [take_set_succ value pos b (by omega), drop_set_lt value pos _ b (by omega)]
    simp only [List.length_cons, List.append_assoc, List.singleton_append]
    rw [show pos + 1 + rest.length = pos + (rest.length + 1) by omega]

/-- A copy that would end beyond the value array stores outside it. -/
theorem copyLoop_long : ∀ (bs : List Nat) (pos : Nat) (value : List Nat),
    pos ≤ ESP_GATT_MAX_ATTR_LEN → ESP_GATT_MAX_ATTR_LEN < pos + bs.length →
    copyLoop bs pos value = none
  | [], pos, value, h1, h2 => by simp only [List.length_nil] at h2; omega
  | b :: rest, pos, value, h1, h2 => by
    simp only [List.length_cons] at h2
    simp only [copyLoop]
    split
    · exact copyLoop_long rest (pos + 1) _ (by omega) (by omega)
    · rfl

theorem copyValue_fits (v : JsVar) (rsp : esp_gatt_rsp_t)
    (h1 : (JSV_GET_AS_CHAR_ARRAY v).length ≤ ESP_GATT_MAX_ATTR_LEN)
    (h2 : rsp.value.length = ESP_GATT_MAX_ATTR_LEN) : copyValue v rsp = some (copied v rsp) := by
  unfold copyValue copied
  simp only []
  rw [copyLoop_fits _ 0 _ (by omega) (by omega)]
  have hm : (JSV_GET_AS_CHAR_ARRAY v).length % U16 = (JSV_GET_AS_CHAR_ARRAY v).length := by
    apply Nat.mod_eq_of_lt
    simp only [ESP_GATT_MAX_ATTR_LEN, U16] at h1 ⊢
    omega
  simp [hm]

theorem copyValue_long (v : JsVar) (rsp : esp_gatt_rsp_t)
    (h1 : ESP_GATT_MAX_ATTR_LEN < (JSV_GET_AS_CHAR_ARRAY v).length) : copyValue v rsp = none := by
  unfold copyValue
  simp only []
  rw [copyLoop_long _ 0 _ (Nat.zero_le _) (by omega)]

theorem copied_value_length (v : JsVar) (rsp : esp_gatt_rsp_t)
    (h1 : (JSV_GET_AS_CHAR_ARRAY v).length ≤ rsp.value.length) :
    (copied v rsp).value.length = rsp.value.length := by
  simp only [copied, List.length_append, List.length_drop]
  omega

theorem valueFits_some (v : JsVar) :
    valueFits (some v) = true ↔ (JSV_GET_AS_CHAR_ARRAY v).length ≤ ESP_GATT_MAX_ATTR_LEN := by
  simp [valueFits]

theorem copyValue_eq (v : JsVar) (rsp : esp_gatt_rsp_t)
    (h2 : rsp.value.length = ESP_GATT_MAX_ATTR_LEN) :
    copyValue v rsp = if valueFits (some v) then some (copied v rsp) else none := by
  by_cases hf : (JSV_GET_AS_CHAR_ARRAY v).length ≤ ESP_GATT_MAX_ATTR_LEN
  · rw [if_pos ((valueFits_some v).2 hf)]
    exact copyValue_fits v rsp hf h2
  · rw [if_neg (fun h => hf ((valueFits_some v).1 h))]
    exact copyValue_long v rsp (by omega)

/-- The source's `readChar` is `readCharOk` when the value it copies fits, and a store
outside the value array otherwise. -/
theorem readChar_eq (pos : Nat) (rsp : esp_gatt_rsp_t) (s : State)
    (h2 : rsp.value.length = ESP_GATT_MAX_ATTR_LEN) :
    readChar pos rsp s
      = if valueFits (charValueAt pos s) then some (readCharOk pos rsp s) else none := by
  unfold readChar readCharOk charValueAt
  simp only []
  cases hiddenGet s.hiddenRoot (bleGetHiddenName .BLE_READ_EVENT pos) with
  | some cb =>
    simp only []
    cases jspExecuteFunction cb with
    | none => simp [valueFits]
    | some v =>
      simp only [copyValue_eq v rsp h2]
      by_cases hf : valueFits (some v) = true <;> simp [hf]
  | none =>
    simp only []
    cases hiddenGet s.hiddenRoot (bleGetHiddenName .BLE_CHAR_VALUE pos) with
    | none => simp [valueFits]
    | some v =>
      simp only [copyValue_eq v rsp h2]
      by_cases hf : valueFits (some v) = true <;> simp [hf]

theorem readDescr_eq (d : gatts_descr_inst) (rsp : esp_gatt_rsp_t)
    (h2 : rsp.value.length = ESP_GATT_MAX_ATTR_LEN) :
    readDescr d rsp = if valueFits d.descrVal then some (readDescrOk d rsp) else none := by
  unfold readDescr readDescrOk
  cases d.descrVal with
  | none => simp [valueFits]
  | some v => simp only [copyValue_eq v rsp h2]

theorem readCharOk_value_length (pos : Nat) (rsp : esp_gatt_rsp_t) (s : State)
    (h2 : rsp.value.length = ESP_GATT_MAX_ATTR_LEN)
    (hf : valueFits (charValueAt pos s) = true) :
    (readCharOk pos rsp s).1.value.length = ESP_GATT_MAX_ATTR_LEN := by
  unfold readCharOk
  unfold charValueAt at hf
  cases hcb : hiddenGet s.hiddenRoot (bleGetHiddenName .BLE_READ_EVENT pos) with
  | some cb =>
    simp only [hcb] at hf ⊢
    cases hv : jspExecuteFunction cb with
    | none => simpa using h2
    | some v =>
      simp only [hv] at hf ⊢
      rw [copied_value_length v rsp (by rw [h2]; exact (valueFits_some v).1 hf)]
      exact h2
  | none =>
    simp only [hcb] at hf ⊢
    cases hv : hiddenGet s.hiddenRoot (bleGetHiddenName .BLE_CHAR_VALUE pos) with
    | none => simpa using h2
    | some v =>
      simp only [hv] at hf ⊢
      rw [copied_value_length v rsp (by rw [h2]; exact (valueFits_some v).1 hf)]
      exact h2


theorem modifyAt_length {α : Type} (f : α → α) : ∀ (l : List α) (i : Nat),
    (modifyAt f l i).length = l.length
  | [], _ => rfl
  | _ :: _, 0 => rfl
  | a :: l, i + 1 => by simp [modifyAt, modifyAt_length f l i]

theorem getElem?_modifyAt {α : Type} (f : α → α) : ∀ (l : List α) (i j : Nat),
    (modifyAt f l i)[j]? = if i = j then (l[j]?).map f else l[j]?
  | [], i, j => by simp [modifyAt]
  | a :: l, 0, 0 => by simp [modifyAt]
  | a :: l, 0, j + 1 => by simp [modifyAt]
  | a :: l, i + 1, 0 => by simp [modifyAt]
  | a :: l, i + 1, j + 1 => by simp [modifyAt, getElem?_modifyAt f l i j]

theorem set_eq_modifyAt {α : Type} (f : α → α) : ∀ (l : List α) (i : Nat) (a : α),
    l[i]? = some a → l.set i (f a) = modifyAt f l i
  | [], i, a, h => by simp at h
  | b :: l, 0, a, h => by simp at h; subst h; rfl
  | b :: l, i + 1, a, h => by
    simp at h
    simp [modifyAt, set_eq_modifyAt f l i a h]

theorem tblModify_eq_modify {α : Type} (tbl : Option (List α)) (i : Nat) (f : α → α)
    (h : i < (tblList tbl).length) : tblModify tbl i f = some (modifyAt f (tblList tbl) i) := by
  cases tbl with
  | none => simp [tblList] at h
  | some l =>
    simp only [tblList] at h
    simp [tblModify, tblList, List.getElem?_eq_getElem h, set_eq_modifyAt f l i _
      (List.getElem?_eq_getElem h)]

theorem readPart_tables (h : Nat) (s : State) :
    (readPart h s).2.gatts_descr = s.gatts_descr ∧
    (readPart h s).2.ble_descr_cnt = s.ble_descr_cnt := by
  unfold readPart
  split
  · exact readCharOk_tables _ _ _
  · exact ⟨rfl, rfl⟩

theorem writePart_tables (h : Nat) (value : List Nat) (s : State) :
    (writePart h value s).gatts_descr = s.gatts_descr ∧
    (writePart h value s).ble_descr_cnt = s.ble_descr_cnt ∧
    (writePart h value s).gatts_char = s.gatts_char ∧
    (writePart h value s).ble_char_cnt = s.ble_char_cnt ∧
    (writePart h value s).gatts_service = s.gatts_service ∧
    (writePart h value s).ble_service_cnt = s.ble_service_cnt := by
  unfold writePart
  split
  · obtain ⟨h1, h2, h3, h4, h5, h6, _⟩ := writeChar_tables _ value s
    exact ⟨h1, h2, h3, h4, h5, h6⟩
  · simp

theorem emptyRsp_value_length (h : Nat) :
    (emptyRsp h).value.length = ESP_GATT_MAX_ATTR_LEN := by
  simp [emptyRsp]

theorem readPart_value_length (h : Nat) (s : State)
    (hf : valueFits (readCharValue h s) = true) :
    (readPart h s).1.value.length = ESP_GATT_MAX_ATTR_LEN := by
  unfold readPart
  unfold readCharValue at hf
  cases hc : charOfHandle h s with
  | none => exact emptyRsp_value_length h
  | some p =>
    simp only [hc] at hf ⊢
    exact readCharOk_value_length p _ s (emptyRsp_value_length h) hf

/-- The characteristic loop of the read handler: `readPart` when the value it copies fits
the value array, a store outside it otherwise. -/
theorem readCharLoop_eq (h : Nat) (s : State) :
    (match firstIdx (fun e : gatts_char_inst => e.char_handle == h) (tblList s.gatts_char) with
      | some pos => readChar pos (emptyRsp h) s
      | none => some (emptyRsp h, s))
    = if valueFits (readCharValue h s) then some (readPart h s) else none := by
  unfold readPart readCharValue charOfHandle
  cases firstIdx (fun e : gatts_char_inst => e.char_handle == h) (tblList s.gatts_char) with
  | none => simp [valueFits]
  | some p =>
    simp only []
    exact readChar_eq p _ s (emptyRsp_value_length h)

/-- The descriptor loop of the read handler and the response. -/
theorem readDescrLoop_eq (gatts_if conn_id trans_id h : Nat) (s : State)
    (r1 : esp_gatt_rsp_t × State)
    (ht : r1.2.gatts_descr = s.gatts_descr) (hcnt : r1.2.ble_descr_cnt = s.ble_descr_cnt)
    (hdw : tblLen s.gatts_descr = s.ble_descr_cnt)
    (hlen : r1.1.value.length = ESP_GATT_MAX_ATTR_LEN) :
    (match scan (fun e : gatts_descr_inst => e.descr_handle == h)
        r1.2.gatts_descr r1.2.ble_descr_cnt with
      | none => none
      | some none =>
        some (r1.2.emit (.send_response gatts_if conn_id trans_id ESP_GATT_OK (some r1.1)))
      | some (some pos) =>
        match tblGet r1.2.gatts_descr pos with
        | none => none
        | some d =>
          match readDescr d r1.1 with
          | none => none
          | some rsp2 =>
            some (r1.2.emit (.send_response gatts_if conn_id trans_id ESP_GATT_OK (some rsp2))))
    = if valueFits (readDescrValue h s) then
        some (r1.2.emit (.send_response gatts_if conn_id trans_id ESP_GATT_OK
          (some (match descrOfHandle h s with
            | some q =>
              match (tblList s.gatts_descr)[q]? with
              | some d => readDescrOk d r1.1
              | none => r1.1
            | none => r1.1))))
      else none := by
  have hdw1 : tblLen r1.2.gatts_descr = r1.2.ble_descr_cnt := by rw [ht, hcnt]; exact hdw
  rw [scan_eq _ _ _ hdw1, ht]
  unfold readDescrValue descrOfHandle
  cases hq : firstIdx (fun e : gatts_descr_inst => e.descr_handle == h)
      (tblList s.gatts_descr) with
  | none => simp [valueFits]
  | some q =>
    obtain ⟨d, hd, _⟩ := firstIdx_sat _ _ _ hq
    simp only [tblGet_eq, hd, Option.bind, readDescr_eq d r1.1 hlen]
    by_cases hf : valueFits d.descrVal = true <;> simp [hf]

/-- Closed form of the read handler on a state whose counts match its tables, when the
values it copies fit the value array. -/
theorem read_eq (gatts_if conn_id trans_id h : Nat) (s : State) (hwf : s.WF)
    (hfit : readFits h s = true) :
    gatts_read_value_handler gatts_if conn_id trans_id h s
      = some ((readPart h s).2.emit
          (.send_response gatts_if conn_id trans_id ESP_GATT_OK (some (readFinal h s)))) := by
  obtain ⟨_, hcw, hdw⟩ := hwf
  simp only [readFits, Bool.and_eq_true] at hfit
  obtain ⟨hfc, hfd⟩ := hfit
  obtain ⟨ht, hcnt⟩ := readPart_tables h s
  simp only [gatts_read_value_handler, scan_eq _ _ _ hcw]
  rw [readCharLoop_eq h s, if_pos hfc]
  simp only []
  have := readDescrLoop_eq gatts_if conn_id trans_id h s (readPart h s) ht hcnt hdw
    (readPart_value_length h s hfc)
  rw [if_pos hfd] at this
  exact this

/-- The read handler stores outside the value array of its response, and sends none, when a
value it copies is longer than `ESP_GATT_MAX_ATTR_LEN`. -/
theorem read_fault (gatts_if conn_id trans_id h : Nat) (s : State) (hwf : s.WF)
    (hfit : readFits h s = false) :
    gatts_read_value_handler gatts_if conn_id trans_id h s = none := by
  obtain ⟨_, hcw, hdw⟩ := hwf
  obtain ⟨ht, hcnt⟩ := readPart_tables h s
  simp only [gatts_read_value_handler, scan_eq _ _ _ hcw]
  rw [readCharLoop_eq h s]
  by_cases hfc : valueFits (readCharValue h s) = true
  · have hfd : valueFits (readDescrValue h s) = false := by
      simp only [readFits, hfc, Bool.true_and] at hfit
      exact hfit
    rw [if_pos hfc]
    simp only []
    have := readDescrLoop_eq gatts_if conn_id trans_id h s (readPart h s) ht hcnt hdw
      (readPart_value_length h s hfc)
    rw [if_neg (by rw [hfd]; exact Bool.false_ne_true)] at this
    exact this
  · rw [if_neg hfc]

/-- Closed form of the write handler on a state whose counts match its tables. -/
theorem write_eq (gatts_if conn_id trans_id h : Nat) (value : List Nat) (s : State)
    (hwf : s.WF) :
    gatts_write_value_handler gatts_if conn_id trans_id h value s
      = some ((writeFinal h value s).emit
          (.send_response gatts_if conn_id trans_id ESP_GATT_OK none)) := by
  obtain ⟨_, hcw, hdw⟩ := hwf
  obtain ⟨ht, hcnt, _⟩ := writePart_tables h value s
  have hdw1 : tblLen (writePart h value s).gatts_descr = (writePart h value s).ble_descr_cnt := by
    rw [ht, hcnt]; exact hdw
  simp only [gatts_write_value_handler, scan_eq _ _ _ hcw]
  change (match scan (fun e : gatts_descr_inst => e.descr_handle == h)
      (writePart h value s).gatts_descr (writePart h value s).ble_descr_cnt with
    | none => none
    | some none => some ((writePart h value s).emit
        (.send_response gatts_if conn_id trans_id ESP_GATT_OK none))
    | some (some pos) =>
      match tblModify (writePart h value s).gatts_descr pos
          (fun d => { d with descrVal := some (jsvNewStringOfLength value) }) with
      | none => none
      | some t => some ({ writePart h value s with gatts_descr := some t }.emit
          (.send_response gatts_if conn_id trans_id ESP_GATT_OK none))) = _
  rw [scan_eq _ _ _ hdw1, ht]
  unfold writeFinal writeDescr descrOfHandle
  cases hq : firstIdx (fun e : gatts_descr_inst => e.descr_handle == h) (tblList s.gatts_descr) with
  | none => simp only [← ht]
  | some q =>
    have hlt := firstIdx_lt _ _ _ hq
    simp only [tblModify_eq_modify _ _ _ hlt]

theorem firstIdx_modify {α : Type} (p : α → Bool) (f : α → α) (hf : ∀ d, p (f d) = p d) :
    ∀ (l : List α) (q : Nat), firstIdx p (modifyAt f l q) = firstIdx p l
  | [], q => by simp [modifyAt]
  | a :: l, 0 => by simp [firstIdx, modifyAt, hf]
  | a :: l, q + 1 => by
    simp [firstIdx, modifyAt, firstIdx_modify p f hf l q]

theorem writeFinal_fields (h : Nat) (value : List Nat) (s : State) :
    (writeFinal h value s).gatts_char = s.gatts_char ∧
    (writeFinal h value s).ble_char_cnt = s.ble_char_cnt ∧
    (writeFinal h value s).ble_descr_cnt = s.ble_descr_cnt ∧
    (writeFinal h value s).gatts_service = s.gatts_service ∧
    (writeFinal h value s).ble_service_cnt = s.ble_service_cnt ∧
    (writeFinal h value s).hiddenRoot = (writePart h value s).hiddenRoot ∧
    (writeFinal h value s).log = (writePart h value s).log ∧
    (writeFinal h value s).gatts_descr = writeDescr h value s := by
  obtain ⟨_, h2, h3, h4, h5, h6⟩ := writePart_tables h value s
  simp [writeFinal, h2, h3, h4, h5, h6]

theorem writeDescr_len (h : Nat) (value : List Nat) (s : State) :
    tblLen (writeDescr h value s) = tblLen s.gatts_descr := by
  unfold writeDescr
  split
  · cases s.gatts_descr <;> simp [tblLen, tblList, modifyAt_length, modifyAt]
  · rfl

theorem writeFinal_wf (h : Nat) (value : List Nat) (s : State) (hwf : s.WF) :
    (writeFinal h value s).WF := by
  obtain ⟨h1, h2, h3, h4, h5, _, _, h8⟩ := writeFinal_fields h value s
  obtain ⟨w1, w2, w3⟩ := hwf
  refine ⟨by rw [h4, h5]; exact w1, by rw [h1, h2]; exact w2, ?_⟩
  rw [h8, h3, writeDescr_len]; exact w3

theorem emit_wf (s : State) (e : Effect) (hwf : s.WF) : (s.emit e).WF := hwf

theorem descrOfHandle_writeDescr (h h1 : Nat) (value : List Nat) (s : State) :
    firstIdx (fun e : gatts_descr_inst => e.descr_handle == h1) (tblList (writeDescr h value s))
      = descrOfHandle h1 s := by
  unfold writeDescr descrOfHandle
  split
  · simp only [tblList]
    apply firstIdx_modify
    intro d
    rfl
  · rfl

theorem writeDescr_get (h : Nat) (value : List Nat) (s : State) (q : Nat) (d : gatts_descr_inst)
    (hq : descrOfHandle h s = some q) (hd : (tblList s.gatts_descr)[q]? = some d) :
    (tblList (writeDescr h value s))[q]?
      = some { d with descrVal := some (jsvNewStringOfLength value) } := by
  unfold writeDescr
  rw [hq]
  change (modifyAt _ (tblList s.gatts_descr) q)[q]? = _
  rw [getElem?_modifyAt, hd]
  simp

theorem jsvNewStringOfLength_fits (B : List Nat) (hB : B.length ≤ ESP_GATT_MAX_ATTR_LEN) :
    valueFits (some (jsvNewStringOfLength B)) = true :=
  (valueFits_some _).2 (by simpa [jsvNewStringOfLength, JSV_GET_AS_CHAR_ARRAY] using hB)

/-- C1: in every state whose counts match its tables, for a characteristic `p` that the
handle `h` resolves to (the entry the scan of the handlers finds) and that has no `onRead`
callback, a peer WRITE of the bytes `B` (a WRITE event carries at most
`ESP_GATT_MAX_ATTR_LEN` bytes) to `h` followed by a peer READ of `h` is answered with payload
exactly `B` (same bytes, same length), status OK. -/
theorem write_then_read_returns_written (c : Collab) (s : State) (hwf : s.WF)
    (p h gatts_if conn_id trans_id conn_id2 trans_id2 : Nat) (B : List Nat)
    (hB : B.length ≤ ESP_GATT_MAX_ATTR_LEN)
    (hp : charOfHandle h s = some p)
    (hno : hiddenGet s.hiddenRoot (bleGetHiddenName .BLE_READ_EVENT p) = none) :
    ∃ s1 s2 rsp,
      gatts_event_handler c (.WRITE conn_id trans_id h B) gatts_if s = some s1 ∧
      gatts_event_handler c (.READ conn_id2 trans_id2 h) gatts_if s1 = some s2 ∧
      s2.log = s1.log ++ [.send_response gatts_if conn_id2 trans_id2 ESP_GATT_OK (some rsp)] ∧
      rsp.payload = B ∧ rsp.len = B.length := by
  obtain ⟨f1, f2, f3, f4, f5, f6, f7, f8⟩ := writeFinal_fields h B s
  have hwf1 : ((writeFinal h B s).emit
      (.send_response gatts_if conn_id trans_id ESP_GATT_OK none)).WF :=
    emit_wf _ _ (writeFinal_wf h B s hwf)
  have hne : bleGetHiddenName .BLE_READ_EVENT p ≠ bleGetHiddenName .BLE_CHAR_VALUE p := by
    simp [bleGetHiddenName]
  have hroot : (writeFinal h B s).hiddenRoot =
      hiddenSet s.hiddenRoot (bleGetHiddenName .BLE_CHAR_VALUE p) (jsvNewStringOfLength B) := by
    rw [f6]; unfold writePart; rw [hp]; exact (writeChar_tables p B s).2.2.2.2.2.2
  have hc : charOfHandle h ((writeFinal h B s).emit
      (.send_response gatts_if conn_id trans_id ESP_GATT_OK none)) = some p := by
    unfold charOfHandle at hp ⊢
    simp only [State.emit, f1]; exact hp
  have hd : descrOfHandle h ((writeFinal h B s).emit
      (.send_response gatts_if conn_id trans_id ESP_GATT_OK none)) = descrOfHandle h s := by
    have := descrOfHandle_writeDescr h h B s
    unfold descrOfHandle at this ⊢
    simp only [State.emit, f8]; exact this
  -- the characteristic loop of the read
  have hpart : readPart h ((writeFinal h B s).emit
      (.send_response gatts_if conn_id trans_id ESP_GATT_OK none))
      = (copied (jsvNewStringOfLength B) (emptyRsp h), (writeFinal h B s).emit
          (.send_response gatts_if conn_id trans_id ESP_GATT_OK none)) := by
    unfold readPart
    rw [hc]
    simp [readCharOk, State.emit, hroot, hiddenGet_hiddenSet_other _ _ _ _ hne, hno,
      hiddenGet_hiddenSet_same]
  have hcv : readCharValue h ((writeFinal h B s).emit
      (.send_response gatts_if conn_id trans_id ESP_GATT_OK none))
      = some (jsvNewStringOfLength B) := by
    unfold readCharValue
    rw [hc]
    simp [charValueAt, State.emit, hroot, hiddenGet_hiddenSet_other _ _ _ _ hne, hno,
      hiddenGet_hiddenSet_same]
  have hdv : valueFits (readDescrValue h ((writeFinal h B s).emit
      (.send_response gatts_if conn_id trans_id ESP_GATT_OK none))) = true := by
    unfold readDescrValue
    rw [hd]
    cases hq : descrOfHandle h s with
    | none => rfl
    | some q =>
      obtain ⟨d, hd, _⟩ := firstIdx_sat _ _ _ hq
      have hg := writeDescr_get h B s q d hq hd
      simp only [State.emit, f8, hg, Option.bind]
      exact jsvNewStringOfLength_fits B hB
  have hfits : readFits h ((writeFinal h B s).emit
      (.send_response gatts_if conn_id trans_id ESP_GATT_OK none)) = true := by
    unfold readFits
    rw [hcv, hdv, jsvNewStringOfLength_fits B hB]
    rfl
  -- the descriptor loop of the read
  have hfin : (readFinal h ((writeFinal h B s).emit
      (.send_response gatts_if conn_id trans_id ESP_GATT_OK none))).payload = B ∧
      (readFinal h ((writeFinal h B s).emit
      (.send_response gatts_if conn_id trans_id ESP_GATT_OK none))).len = B.length := by
    unfold readFinal
    rw [hpart, hd]
    cases hq : descrOfHandle h s with
    | none => exact copied_str B _
    | some q =>
      obtain ⟨d, hd, _⟩ := firstIdx_sat _ _ _ hq
      have hg := writeDescr_get h B s q d hq hd
      simp only [State.emit, f8, hg, readDescrOk]
      exact copied_str B _
  have hW : gatts_event_handler c (.WRITE conn_id trans_id h B) gatts_if s
      = some ((writeFinal h B s).emit
          (.send_response gatts_if conn_id trans_id ESP_GATT_OK none)) :=
    write_eq _ _ _ _ _ _ hwf
  have hR := read_eq gatts_if conn_id2 trans_id2 h _ hwf1 hfits
  rw [hpart] at hR
  exact ⟨_, _, _, hW, hR, rfl, hfin.1, hfin.2⟩

theorem readFinal_of_no_descr_value (h : Nat) (s : State)
    (hd : ∀ q d, descrOfHandle h s = some q → (tblList s.gatts_descr)[q]? = some d →
      d.descrVal = none) : readFinal h s = (readPart h s).1 := by
  unfold readFinal
  cases hq : descrOfHandle h s with
  | none => rfl
  | some q =>
    simp only []
    cases hg : (tblList s.gatts_descr)[q]? with
    | none => rfl
    | some d => simp [readDescrOk, hd q d hq hg]

theorem readDescrValue_of_no_descr_value (h : Nat) (s : State)
    (hd : ∀ q d, descrOfHandle h s = some q → (tblList s.gatts_descr)[q]? = some d →
      d.descrVal = none) : readDescrValue h s = none := by
  unfold readDescrValue
  cases hq : descrOfHandle h s with
  | none => rfl
  | some q =>
    simp only []
    cases hg : (tblList s.gatts_descr)[q]? with
    | none => rfl
    | some d => simp [hd q d hq hg]

theorem readPart_log (h : Nat) (s : State) :
    ∃ pre, (readPart h s).2.log = s.log ++ pre ∧ ∀ e ∈ pre, e.isSendResponse = false := by
  unfold readPart
  split
  · exact readCharOk_log _ _ _
  · exact ⟨[], by simp, by simp⟩

/-- When the values copied for the handle fit the value array, the dispatcher answers a
peer READ with exactly one `send_response`, the last effect of the handler, with status
`ESP_GATT_OK`; it answers every peer WRITE that way. -/
theorem read_write_respond_once (c : Collab) (s : State) (hwf : s.WF)
    (gatts_if conn_id trans_id h : Nat) (value : List Nat) :
    (readFits h s = true →
      ∃ s1 pre rsp, gatts_event_handler c (.READ conn_id trans_id h) gatts_if s = some s1 ∧
        s1.log = s.log ++ pre ++ [.send_response gatts_if conn_id trans_id ESP_GATT_OK rsp] ∧
        ∀ e ∈ pre, e.isSendResponse = false) ∧
    (∃ s1 pre rsp, gatts_event_handler c (.WRITE conn_id trans_id h value) gatts_if s = some s1 ∧
        s1.log = s.log ++ pre ++ [.send_response gatts_if conn_id trans_id ESP_GATT_OK rsp] ∧
        ∀ e ∈ pre, e.isSendResponse = false) := by
  constructor
  · intro hfit
    obtain ⟨pre, hlog, hpre⟩ := readPart_log h s
    exact ⟨_, pre, some (readFinal h s), read_eq gatts_if conn_id trans_id h s hwf hfit,
      by simp [State.emit, hlog], hpre⟩
  · obtain ⟨_, hcw, hdw⟩ := hwf
    simp only [gatts_event_handler, gatts_write_value_handler, scan_eq _ _ _ hcw]
    generalize hr : (match firstIdx (fun e : gatts_char_inst => e.char_handle == h)
        (tblList s.gatts_char) with
      | some pos => writeChar pos value s
      | none => s) = s1
    have hr1 : s1.gatts_descr = s.gatts_descr ∧ s1.ble_descr_cnt = s.ble_descr_cnt ∧
        ∃ pre, s1.log = s.log ++ pre ∧ ∀ e ∈ pre, e.isSendResponse = false := by
      subst hr
      split
      · exact ⟨(writeChar_tables _ _ _).1, (writeChar_tables _ _ _).2.1, writeChar_log _ _ _⟩
      · exact ⟨rfl, rfl, [], by simp, by simp⟩
    obtain ⟨ht, hcnt, pre, hlog, hpre⟩ := hr1
    have hdw1 : tblLen s1.gatts_descr = s1.ble_descr_cnt := by rw [ht, hcnt]; exact hdw
    rw [scan_eq _ _ _ hdw1]
    cases hq : firstIdx (fun e : gatts_descr_inst => e.descr_handle == h)
        (tblList s1.gatts_descr) with
    | none => exact ⟨_, pre, none, rfl, by simp [State.emit, hlog], hpre⟩
    | some q =>
      obtain ⟨d, hd, _⟩ := firstIdx_sat _ _ _ hq
      simp only [tblModify_eq _ _ _ _ hd]
      exact ⟨_, pre, none, rfl, by simp [State.emit, hlog], hpre⟩

/-- When the handle `h` resolves to the characteristic `p` and to no descriptor that holds
a stored value, and the value copied fits the value array, a peer READ of `h` invokes the
`onRead` callback of `p` with no arguments and answers with the bytes it returns, whatever
value is stored for `p`; without an `onRead` callback the stored value is answered. -/
theorem onRead_result_answered (c : Collab) (s : State) (hwf : s.WF)
    (p h gatts_if conn_id trans_id : Nat)
    (hp : charOfHandle h s = some p)
    (hd : ∀ q d, descrOfHandle h s = some q → (tblList s.gatts_descr)[q]? = some d →
      d.descrVal = none)
    (hfit : valueFits (charValueAt p s) = true) :
    (∀ readCB, hiddenGet s.hiddenRoot (bleGetHiddenName .BLE_READ_EVENT p) = some readCB →
      ∃ s1 rsp, gatts_event_handler c (.READ conn_id trans_id h) gatts_if s = some s1 ∧
        s1.log = s.log ++ [.executeFunction (bleGetHiddenName .BLE_READ_EVENT p) readCB [],
          .send_response gatts_if conn_id trans_id ESP_GATT_OK (some rsp)] ∧
        rsp.payload = (match jspExecuteFunction readCB with
          | some v => JSV_GET_AS_CHAR_ARRAY v
          | none => [])) ∧
    (hiddenGet s.hiddenRoot (bleGetHiddenName .BLE_READ_EVENT p) = none →
      ∃ s1 rsp, gatts_event_handler c (.READ conn_id trans_id h) gatts_if s = some s1 ∧
        s1.log = s.log ++ [.send_response gatts_if conn_id trans_id ESP_GATT_OK (some rsp)] ∧
        rsp.payload = (match hiddenGet s.hiddenRoot (bleGetHiddenName .BLE_CHAR_VALUE p) with
          | some v => JSV_GET_AS_CHAR_ARRAY v
          | none => [])) := by
  have hfits : readFits h s = true := by
    unfold readFits readCharValue
    rw [hp, readDescrValue_of_no_descr_value h s hd]
    simp only [hfit]
    rfl
  have hR : gatts_event_handler c (.READ conn_id trans_id h) gatts_if s
      = some ((readPart h s).2.emit
          (.send_response gatts_if conn_id trans_id ESP_GATT_OK (some (readPart h s).1))) := by
    have := read_eq gatts_if conn_id trans_id h s hwf hfits
    rw [readFinal_of_no_descr_value h s hd] at this
    exact this
  have hpart : readPart h s = readCharOk p (emptyRsp h) s := by
    unfold readPart; rw [hp]
  rw [hpart] at hR
  constructor
  · intro readCB hcb
    refine ⟨_, (readCharOk p (emptyRsp h) s).1, hR, ?_, ?_⟩
    · unfold readCharOk
      simp only [hcb]
      cases jspExecuteFunction readCB <;> simp [State.emit]
    · unfold readCharOk
      simp only [hcb]
      cases jspExecuteFunction readCB with
      | none => simp [esp_gatt_rsp_t.payload, emptyRsp]
      | some v => simp [copied_payload]
  · intro hno
    refine ⟨_, (readCharOk p (emptyRsp h) s).1, hR, ?_, ?_⟩
    · unfold readCharOk
      simp only [hno]
      cases hiddenGet s.hiddenRoot (bleGetHiddenName .BLE_CHAR_VALUE p) <;> simp [State.emit]
    · unfold readCharOk
      simp only [hno]
      cases hiddenGet s.hiddenRoot (bleGetHiddenName .BLE_CHAR_VALUE p) with
      | none => simp [esp_gatt_rsp_t.payload, emptyRsp]
      | some v => simp [copied_payload]

/-- C7: an UNREG event whose interface belongs to a service entry sets the `gatts_if` of
the entry found (the first carrying it) to `ESP_GATT_IF_NONE`; if afterwards no entry has a
live interface, the three tables and the advertisement buffer are `NULL` and the three counts
zero, and otherwise the tables and counts are as before. -/
theorem unreg_releases_tables_iff_no_live_interface (c : Collab) (s : State) (hwf : s.WF)
    (gatts_if i : Nat)
    (hi : firstIdx (fun e : gatts_service_inst => e.gatts_if == gatts_if)
      (tblList s.gatts_service) = some i) :
    ∃ s1, gatts_event_handler c .UNREG gatts_if s = some s1 ∧
      ((∀ e ∈ modifyAt (fun e : gatts_service_inst => { e with gatts_if := ESP_GATT_IF_NONE })
            (tblList s.gatts_service) i, e.gatts_if = ESP_GATT_IF_NONE) →
        s1.gatts_service = none ∧ s1.gatts_char = none ∧ s1.gatts_descr = none ∧
        s1.adv_service_uuid128 = none ∧
        s1.ble_service_cnt = 0 ∧ s1.ble_char_cnt = 0 ∧ s1.ble_descr_cnt = 0) ∧
      ((∃ e ∈ modifyAt (fun e : gatts_service_inst => { e with gatts_if := ESP_GATT_IF_NONE })
            (tblList s.gatts_service) i, e.gatts_if ≠ ESP_GATT_IF_NONE) →
        s1.gatts_service = some (modifyAt
          (fun e : gatts_service_inst => { e with gatts_if := ESP_GATT_IF_NONE })
          (tblList s.gatts_service) i) ∧
        s1.gatts_char = s.gatts_char ∧ s1.gatts_descr = s.gatts_descr ∧
        s1.adv_service_uuid128 = s.adv_service_uuid128 ∧
        s1.ble_service_cnt = s.ble_service_cnt ∧ s1.ble_char_cnt = s.ble_char_cnt ∧
        s1.ble_descr_cnt = s.ble_descr_cnt) := by
  obtain ⟨hsw, _, _⟩ := hwf
  have hlt := firstIdx_lt _ _ _ hi
  have hlen : tblLen (some (modifyAt
      (fun e : gatts_service_inst => { e with gatts_if := ESP_GATT_IF_NONE })
      (tblList s.gatts_service) i)) = s.ble_service_cnt := by
    rw [← hsw]
    cases s.gatts_service <;> simp [tblLen, tblList, modifyAt_length, modifyAt]
  simp only [gatts_event_handler, gatts_unreg_app, getIndexFromGatts_if, scan_eq _ _ _ hsw, hi,
    tblModify_eq_modify _ _ _ hlt, scan_eq _ _ _ hlen]
  simp only [show ∀ t : List gatts_service_inst, tblList (some t) = t from fun _ => rfl]
  split
  · rename_i heq; simp at heq
  · rename_i j heq
    simp only [Option.some.injEq] at heq
    refine ⟨_, rfl, ?_, fun _ => ⟨rfl, rfl, rfl, rfl, rfl, rfl, rfl⟩⟩
    intro hall
    obtain ⟨e, he, hpe⟩ := firstIdx_sat _ _ _ heq
    have := hall e (List.getElem?_mem he)
    simp [this] at hpe
  · rename_i heq
    simp only [Option.some.injEq] at heq
    refine ⟨_, rfl, fun _ => ⟨rfl, rfl, rfl, rfl, rfl, rfl, rfl⟩, ?_⟩
    rintro ⟨e, he, hne⟩
    have := (firstIdx_none _ _).1 heq e he
    simp at this
    exact absurd this hne

/-! ### The fill pass -/

theorem tblModify_at_length {α : Type} (ds : List α) (z : α) (r : Nat) (f : α → α) :
    tblModify (some (ds ++ List.replicate (r + 1) z)) ds.length f
      = some (ds ++ f z :: List.replicate r z) := by
  induction ds with
  | nil => simp [tblModify, List.replicate_succ]
  | cons a ds ih =>
    simp only [tblModify] at ih ⊢
    simp only [List.cons_append, List.length_cons, List.getElem?_cons_succ, List.set_cons_succ]
    split at ih
    · simp at ih
    · rename_i e he
      simp only [Option.some.injEq] at ih ⊢
      rw [ih]

theorem specDescrs_length_le (i : Nat) (v : JsVar) : (specDescrs i v).length ≤ 2 := by
  unfold specDescrs
  split <;> split <;> (try split) <;> simp

theorem charInitNotify_spec (v : JsVar) (s : State) (ds : List gatts_descr_inst) (rd : Nat)
    (hd : s.gatts_descr = some (ds ++ List.replicate rd gatts_descr_inst.zero))
    (hcur : (s.ble_descr_pos + 1) % U16 = ds.length)
    (hfit : ds.length + rd < U16)
    (hrd : (if hasNotify v then 1 else 0) ≤ rd) :
    ∃ pos t, charInitNotify v s = some { s with ble_descr_pos := pos, gatts_descr := some t } ∧
      t = (ds ++ if hasNotify v then [cccdEntry s.ble_char_pos] else []) ++
          List.replicate (rd - if hasNotify v then 1 else 0) gatts_descr_inst.zero ∧
      (pos + 1) % U16 = ds.length + (if hasNotify v then 1 else 0) := by
  unfold charInitNotify
  by_cases hn : hasNotify v = true
  · simp only [hn, if_true] at hrd ⊢
    obtain ⟨r, rfl⟩ : ∃ r, rd = r + 1 := ⟨rd - 1, by omega⟩
    rw [hd, hcur, tblModify_at_length]
    refine ⟨ds.length, _, rfl, by simp, ?_⟩
    simp only [U16] at hfit ⊢
    omega
  · have hn1 : hasNotify v = false := by simpa using hn
    simp only [hn1] at hrd ⊢
    refine ⟨s.ble_descr_pos, ds ++ List.replicate rd gatts_descr_inst.zero, ?_, by simp,
      by simpa using hcur⟩
    rw [← hd]
    rfl

theorem charInitDescription_spec (v : JsVar) (s : State) (ds : List gatts_descr_inst) (rd : Nat)
    (hd : s.gatts_descr = some (ds ++ List.replicate rd gatts_descr_inst.zero))
    (hcur : (s.ble_descr_pos + 1) % U16 = ds.length)
    (hfit : ds.length + rd < U16)
    (hrd : (if hasDescription v then 1 else 0) ≤ rd) :
    ∃ pos t, charInitDescription v s
        = some { s with ble_descr_pos := pos, gatts_descr := some t } ∧
      t = (ds ++ match jsvObjectGetChild v "description" with
            | some w => if jsvHasCharacterData w then [descriptionEntry s.ble_char_pos w] else []
            | none => []) ++
          List.replicate (rd - if hasDescription v then 1 else 0) gatts_descr_inst.zero ∧
      (pos + 1) % U16 = ds.length + (if hasDescription v then 1 else 0) := by
  unfold charInitDescription
  unfold hasDescription at hrd ⊢
  cases hw : jsvObjectGetChild v "description" with
  | none =>
    simp only [hw] at hrd ⊢
    refine ⟨s.ble_descr_pos, ds ++ List.replicate rd gatts_descr_inst.zero, ?_, by simp,
      by simpa using hcur⟩
    rw [← hd]
  | some w =>
    simp only [hw] at hrd ⊢
    by_cases hn : jsvHasCharacterData w = true
    · simp only [hn, if_true] at hrd ⊢
      obtain ⟨r, rfl⟩ : ∃ r, rd = r + 1 := ⟨rd - 1, by omega⟩
      rw [hd, hcur, tblModify_at_length]
      refine ⟨ds.length, _, rfl, by simp, ?_⟩
      simp only [U16] at hfit ⊢
      omega
    · have hn1 : jsvHasCharacterData w = false := by simpa using hn
      simp only [hn1] at hrd ⊢
      refine ⟨s.ble_descr_pos, ds ++ List.replicate rd gatts_descr_inst.zero, ?_, by simp,
        by simpa using hcur⟩
      rw [← hd]
      rfl

theorem specDescrs_length (i : Nat) (v : JsVar) :
    (specDescrs i v).length = (if hasNotify v then 1 else 0) + (if hasDescription v then 1 else 0) := by
  unfold specDescrs hasDescription
  cases h : jsvObjectGetChild v "description" with
  | none => simp only [h]; split <;> simp
  | some w => simp only [h]; split <;> split <;> simp

theorem hiddenSetIf_eq (v : Option JsVar) (n : HiddenName) (s : State) :
    hiddenSetIf v n s = { s with hiddenRoot := (hiddenSetIf v n s).hiddenRoot } := by
  cases v <;> rfl

theorem charInitCallbacks_eq (v : JsVar) (s : State) :
    charInitCallbacks v s = { s with hiddenRoot := (charInitCallbacks v s).hiddenRoot } := by
  unfold charInitCallbacks
  simp only []
  rw [hiddenSetIf_eq, hiddenSetIf_eq (jsvObjectGetChild v "onRead")]

theorem charInitValue_eq (v : JsVar) (s : State) :
    charInitValue v s = { s with hiddenRoot := (charInitValue v s).hiddenRoot } := by
  unfold charInitValue
  rw [hiddenSetIf_eq]

theorem charInitEntry_spec (c : Collab) (key : String) (v : JsVar) (s : State)
    (cs : List gatts_char_inst) (rc : Nat)
    (hc : s.gatts_char = some (cs ++ List.replicate (rc + 1) gatts_char_inst.zero))
    (hpos : s.ble_char_pos = cs.length) :
    ∃ s2 t, charInitEntry c key v s = some s2 ∧
      s2 = { s with gatts_char := some t, log := s2.log } ∧
      t = (cs ++ [charFill (c.bleVarToUUID key).ble_uuid v s.ble_service_pos
        gatts_char_inst.zero]) ++ List.replicate rc gatts_char_inst.zero := by
  unfold charInitEntry
  simp only []
  rw [hc, hpos, tblModify_at_length]
  simp only []
  cases (c.bleVarToUUID key).errorStr with
  | none => exact ⟨_, _, rfl, rfl, by simp⟩
  | some e => exact ⟨_, _, rfl, rfl, by simp⟩

theorem hiddenSetIf_core (v : Option JsVar) (n : HiddenName) (s : State) :
    SameCore s (hiddenSetIf v n s) := by
  cases v <;> exact ⟨rfl, rfl, rfl, rfl, rfl, rfl, rfl, rfl, rfl, rfl, rfl, rfl⟩

theorem sameCore_trans {a b d : State} (h1 : SameCore a b) (h2 : SameCore b d) :
    SameCore a d := by
  obtain ⟨a1, a2, a3, a4, a5, a6, a7, a8, a9, a10, a11, a12⟩ := h1
  obtain ⟨b1, b2, b3, b4, b5, b6, b7, b8, b9, b10, b11, b12⟩ := h2
  exact ⟨b1.trans a1, b2.trans a2, b3.trans a3, b4.trans a4, b5.trans a5, b6.trans a6,
    b7.trans a7, b8.trans a8, b9.trans a9, b10.trans a10, b11.trans a11, b12.trans a12⟩

theorem charInitCallbacks_core (v : JsVar) (s : State) : SameCore s (charInitCallbacks v s) :=
  sameCore_trans (hiddenSetIf_core _ _ s) (hiddenSetIf_core _ _ _)

theorem charInitValue_core (v : JsVar) (s : State) : SameCore s (charInitValue v s) :=
  hiddenSetIf_core _ _ s

theorem charInitEntry_core (c : Collab) (key : String) (v : JsVar) (s : State)
    (cs : List gatts_char_inst) (rc : Nat)
    (hc : s.gatts_char = some (cs ++ List.replicate (rc + 1) gatts_char_inst.zero))
    (hpos : s.ble_char_pos = cs.length) :
    ∃ s2, charInitEntry c key v s = some s2 ∧
      SameCore { s with gatts_char := some ((cs ++ [charFill (c.bleVarToUUID key).ble_uuid v
        s.ble_service_pos gatts_char_inst.zero]) ++ List.replicate rc gatts_char_inst.zero) } s2 := by
  unfold charInitEntry
  simp only []
  rw [hc, hpos, tblModify_at_length]
  simp only []
  cases (c.bleVarToUUID key).errorStr with
  | none => exact ⟨_, rfl, by simp [SameCore]⟩
  | some e => exact ⟨_, rfl, by simp [SameCore, State.emit]⟩

theorem gatts_char_init_spec (c : Collab) (key : String) (v : JsVar) (s : State)
    (cs : List gatts_char_inst) (rc : Nat) (ds : List gatts_descr_inst) (rd : Nat)
    (hc : s.gatts_char = some (cs ++ List.replicate (rc + 1) gatts_char_inst.zero))
    (hpos : s.ble_char_pos = cs.length)
    (hd : s.gatts_descr = some (ds ++ List.replicate rd gatts_descr_inst.zero))
    (hcur : (s.ble_descr_pos + 1) % U16 = ds.length)
    (hfit : ds.length + rd < U16)
    (hrd : (specDescrs cs.length v).length ≤ rd) :
    ∃ s1, gatts_char_init c key v s = some s1 ∧
      s1.gatts_char = some ((cs ++ [charFill (c.bleVarToUUID key).ble_uuid v s.ble_service_pos
        gatts_char_inst.zero]) ++ List.replicate rc gatts_char_inst.zero) ∧
      s1.gatts_descr = some ((ds ++ specDescrs cs.length v) ++
        List.replicate (rd - (specDescrs cs.length v).length) gatts_descr_inst.zero) ∧
      (s1.ble_descr_pos + 1) % U16 = ds.length + (specDescrs cs.length v).length ∧
      s1.ble_char_pos = s.ble_char_pos ∧ Frame s s1 := by
  rw [specDescrs_length] at hrd ⊢
  obtain ⟨s2, hE, hs2⟩ := charInitEntry_core c key v s cs rc hc hpos
  have hs4 := sameCore_trans hs2 (charInitCallbacks_core v s2)
  generalize hg : charInitCallbacks v s2 = s4 at hs4
  obtain ⟨a1, a2, a3, a4, a5, a6, a7, a8, a9, a10, a11, a12⟩ := hs4
  simp only [] at a1 a2 a3 a4 a5 a6 a7 a8 a9 a10 a11 a12
  have hlenN : (if hasNotify v then [cccdEntry s4.ble_char_pos] else []).length
      = (if hasNotify v then 1 else 0) := by split <;> rfl
  have hbN : (if hasNotify v then 1 else 0) ≤ 1 := by split <;> omega
  have hbD : (if hasDescription v then 1 else 0) ≤ 1 := by split <;> omega
  obtain ⟨pos5, t5, hN, ht5, hcur5⟩ := charInitNotify_spec v s4 ds rd
    (by rw [a10]; exact hd) (by rw [a6]; exact hcur) hfit (by omega)
  obtain ⟨pos6, t6, hD, ht6, hcur6⟩ := charInitDescription_spec v
    { s4 with ble_descr_pos := pos5, gatts_descr := some t5 }
    (ds ++ if hasNotify v then [cccdEntry s4.ble_char_pos] else [])
    (rd - if hasNotify v then 1 else 0)
    (by simp only [ht5]) (by
      simp only [hcur5, List.length_append, hlenN]) (by
      simp only [List.length_append, hlenN]; omega) (by omega)
  have hcp : s4.ble_char_pos = cs.length := by rw [a5]; exact hpos
  obtain ⟨b1, b2, b3, b4, b5, b6, b7, b8, b9, b10, b11, b12⟩ := charInitValue_core v
    { s4 with ble_descr_pos := pos6, gatts_descr := some t6 }
  simp only [] at b1 b2 b3 b4 b5 b6 b7 b8 b9 b10 b11 b12
  refine ⟨charInitValue v { s4 with ble_descr_pos := pos6, gatts_descr := some t6 }, ?_, ?_, ?_,
    ?_, ?_, ?_⟩
  · unfold gatts_char_init
    rw [hE]
    simp only []
    rw [hg, hN]
    simp only []
    rw [hD]
  · rw [b9, a9]
  · rw [b10, ht6, ht5]
    simp only [hcp, specDescrs, List.append_assoc, Nat.sub_sub]
  · rw [b6, hcur6, List.length_append, hlenN]; omega
  · rw [b5, a5]
  · exact ⟨b1.trans a1, b2.trans a2, b3.trans a3, b4.trans a4, b8.trans a8, b11.trans a11,
      b7.trans a7, b12.trans a12⟩

theorem frame_trans {a b d : State} (h1 : Frame a b) (h2 : Frame b d) : Frame a d := by
  obtain ⟨a1, a2, a3, a4, a5, a6, a7, a8⟩ := h1
  obtain ⟨b1, b2, b3, b4, b5, b6, b7, b8⟩ := h2
  exact ⟨b1.trans a1, b2.trans a2, b3.trans a3, b4.trans a4, b5.trans a5, b6.trans a6,
    b7.trans a7, b8.trans a8⟩

theorem specDescrsList_length_cons (i : Nat) (kv : String × JsVar) (rest : List (String × JsVar)) :
    (specDescrsList i (kv :: rest)).length
      = (specDescrs i kv.2).length + (specDescrsList (i + 1) rest).length := by
  obtain ⟨k, v⟩ := kv
  simp [specDescrsList]

theorem charLoop_spec (c : Collab) : ∀ (chars : List (String × JsVar)) (handles : Nat) (s : State)
    (cs : List gatts_char_inst) (rc : Nat) (ds : List gatts_descr_inst) (rd : Nat),
    handles < U16 →
    s.gatts_char = some (cs ++ List.replicate rc gatts_char_inst.zero) →
    (s.ble_char_pos + 1) % U16 = cs.length →
    cs.length + rc < U16 →
    chars.length ≤ rc →
    s.gatts_descr = some (ds ++ List.replicate rd gatts_descr_inst.zero) →
    (s.ble_descr_pos + 1) % U16 = ds.length →
    ds.length + rd < U16 →
    (specDescrsList cs.length chars).length ≤ rd →
    ∃ s1, charLoop c chars handles s = some ((handles + 4 * chars.length) % U16, s1) ∧
      s1.gatts_char = some ((cs ++ specChars c s.ble_service_pos chars) ++
        List.replicate (rc - chars.length) gatts_char_inst.zero) ∧
      s1.gatts_descr = some ((ds ++ specDescrsList cs.length chars) ++
        List.replicate (rd - (specDescrsList cs.length chars).length) gatts_descr_inst.zero) ∧
      (s1.ble_char_pos + 1) % U16 = cs.length + chars.length ∧
      (s1.ble_descr_pos + 1) % U16 = ds.length + (specDescrsList cs.length chars).length ∧
      Frame s s1
  | [], handles, s, cs, rc, ds, rd, hh, hc, hcc, hcf, hcl, hd, hdc, hdf, hdl => by
    refine ⟨s, ?_, ?_, ?_, ?_, ?_, ⟨rfl, rfl, rfl, rfl, rfl, rfl, rfl, rfl⟩⟩
    · simp [charLoop, Nat.mod_eq_of_lt hh]
    · simpa [specChars] using hc
    · simpa [specDescrsList] using hd
    · simpa using hcc
    · simpa [specDescrsList] using hdc
  | (key, v) :: rest, handles, s, cs, rc, ds, rd, hh, hc, hcc, hcf, hcl, hd, hdc, hdf, hdl => by
    obtain ⟨r, rfl⟩ : ∃ r, rc = r + 1 := ⟨rc - 1, by simp at hcl; omega⟩
    rw [specDescrsList_length_cons] at hdl
    simp only [] at hdl
    obtain ⟨s1, h1, t1, d1, dc1, cp1, f1⟩ := gatts_char_init_spec c key v
      { s with ble_char_pos := (s.ble_char_pos + 1) % U16 } cs r ds rd hc hcc hd hdc hdf
      (by omega)
    simp only [] at t1 cp1
    have hlen : (cs ++ [charFill (c.bleVarToUUID key).ble_uuid v
        s.ble_service_pos gatts_char_inst.zero]).length = cs.length + 1 := by simp
    have hcc1 : (s1.ble_char_pos + 1) % U16 = (cs ++ [charFill (c.bleVarToUUID key).ble_uuid v
        s.ble_service_pos gatts_char_inst.zero]).length := by
      rw [cp1, hcc, hlen]
      apply Nat.mod_eq_of_lt
      omega
    obtain ⟨s2, h2, t2, d2, cc2, dc2, f2⟩ := charLoop_spec c rest
      (((handles + 2) % U16 + 2) % U16) s1
      (cs ++ [charFill (c.bleVarToUUID key).ble_uuid v s.ble_service_pos gatts_char_inst.zero])
      r (ds ++ specDescrs cs.length v) (rd - (specDescrs cs.length v).length)
      (Nat.mod_lt _ (by simp [U16])) t1 hcc1
      (by rw [hlen]; omega)
      (by simp at hcl; omega) d1
      (by rw [dc1, List.length_append])
      (by simp only [List.length_append]; omega)
      (by rw [hlen]; omega)
    rw [hlen] at d2 cc2 dc2
    have hsp : s1.ble_service_pos = s.ble_service_pos := f1.2.2.2.1
    refine ⟨s2, ?_, ?_, ?_, ?_, ?_, ?_⟩
    · simp only [charLoop, h1, h2, List.length_cons]
      congr 2
      simp only [U16]
      omega
    · rw [t2, hsp]
      simp [specChars, List.append_assoc]
    · rw [d2]
      simp only [List.length_append, specDescrsList, List.append_assoc, Nat.sub_sub]
    · rw [cc2]; simp only [List.length_cons]; omega
    · rw [dc2]
      simp only [List.length_append, specDescrsList]
      omega
    · exact frame_trans (frame_trans ⟨rfl, rfl, rfl, rfl, rfl, rfl, rfl, rfl⟩ f1) f2

theorem getElem?_at_length {α : Type} (z : α) (r : List α) : ∀ (ds : List α),
    (ds ++ z :: r)[ds.length]? = some z
  | [] => by simp
  | a :: ds => by simpa using getElem?_at_length z r ds

theorem set_at_length {α : Type} (z y : α) (r : List α) : ∀ (ds : List α),
    (ds ++ z :: r).set ds.length y = ds ++ y :: r
  | [] => by simp
  | a :: ds => by simp [set_at_length z y r ds]

theorem tblGet_at_length {α : Type} (ds : List α) (z : α) (r : List α) :
    tblGet (some (ds ++ z :: r)) ds.length = some z := by
  simp only [tblGet, getElem?_at_length]

theorem tblModify_at_length_cons {α : Type} (ds : List α) (z : α) (r : List α) (f : α → α) :
    tblModify (some (ds ++ z :: r)) ds.length f = some (ds ++ f z :: r) := by
  simp only [tblModify, getElem?_at_length, set_at_length]

theorem tblModify_at {α : Type} (ds : List α) (z : α) (r : List α) (f : α → α) (n : Nat)
    (h : n = ds.length) : tblModify (some (ds ++ z :: r)) n f = some (ds ++ f z :: r) := by
  subst h; exact tblModify_at_length_cons ds z r f

theorem serviceInitHead_spec (c : Collab) (key : String) (s : State)
    (ss : List gatts_service_inst) (rs : Nat) (av : List ble_uuid_t)
    (hs : s.gatts_service = some (ss ++ List.replicate (rs + 1) initService))
    (hpos : s.ble_service_pos = ss.length)
    (ha : s.adv_service_uuid128 = some (av ++ List.replicate (rs + 1) ⟨0, 0⟩))
    (hav : av.length = ss.length) :
    ∃ s3, serviceInitHead c key s = some s3 ∧
      SameCore { s with
        gatts_service := some (ss ++ { initService with
            ble_uuid := (c.bleVarToUUID key).ble_uuid,
            uuid16 := (c.bleVarToUUID key).ble_uuid.uuid } :: List.replicate rs initService),
        adv_service_uuid128 := some (av ++ (c.bleVarToUUID key).ble_uuid ::
            List.replicate rs ⟨0, 0⟩) } s3 := by
  unfold serviceInitHead
  simp only []
  rw [hs, hpos, tblModify_at_length]
  simp only []
  cases (c.bleVarToUUID key).errorStr with
  | none =>
    simp only [hpos, tblGet_at_length, ha, List.replicate_succ,
      tblModify_at av _ _ _ ss.length hav.symm, tblModify_at_length_cons]
    exact ⟨_, rfl, by simp [SameCore, List.replicate_succ]⟩
  | some e =>
    simp only [State.emit, hpos, tblGet_at_length, ha, List.replicate_succ,
      tblModify_at av _ _ _ ss.length hav.symm, tblModify_at_length_cons]
    exact ⟨_, rfl, by simp [SameCore, List.replicate_succ]⟩

theorem specDescrsList_append : ∀ (a b : List (String × JsVar)) (i : Nat),
    specDescrsList i (a ++ b) = specDescrsList i a ++ specDescrsList (i + a.length) b
  | [], b, i => by simp [specDescrsList]
  | (k, v) :: a, b, i => by
    have ih := specDescrsList_append a b (i + 1)
    rw [show i + 1 + a.length = i + (a.length + 1) by omega] at ih
    show specDescrsList i ((k, v) :: (a ++ b)) = _
    simp only [specDescrsList, List.append_assoc, List.length_cons, ih]

theorem specChars_length (c : Collab) (svc : Nat) (chars : List (String × JsVar)) :
    (specChars c svc chars).length = chars.length := by
  simp [specChars]

theorem gatts_service_struct_init_spec (c : Collab) (key : String) (sv : JsVar) (s : State)
    (ss : List gatts_service_inst) (rs : Nat) (av : List ble_uuid_t)
    (cs : List gatts_char_inst) (rc : Nat) (ds : List gatts_descr_inst) (rd : Nat)
    (hs : s.gatts_service = some (ss ++ List.replicate (rs + 1) initService))
    (hpos : s.ble_service_pos = ss.length)
    (ha : s.adv_service_uuid128 = some (av ++ List.replicate (rs + 1) ⟨0, 0⟩))
    (hav : av.length = ss.length)
    (hc : s.gatts_char = some (cs ++ List.replicate rc gatts_char_inst.zero))
    (hcc : (s.ble_char_pos + 1) % U16 = cs.length)
    (hcf : cs.length + rc < U16)
    (hcl : (charsOf sv).length ≤ rc)
    (hd : s.gatts_descr = some (ds ++ List.replicate rd gatts_descr_inst.zero))
    (hdc : (s.ble_descr_pos + 1) % U16 = ds.length)
    (hdf : ds.length + rd < U16)
    (hdl : (specDescrsList cs.length (charsOf sv)).length ≤ rd) :
    ∃ s1, gatts_service_struct_init c key sv s = some s1 ∧
      s1.gatts_service = some ((ss ++ [specService c key sv]) ++ List.replicate rs initService) ∧
      s1.adv_service_uuid128 = some ((av ++ [(c.bleVarToUUID key).ble_uuid]) ++
        List.replicate rs ⟨0, 0⟩) ∧
      s1.gatts_char = some ((cs ++ specChars c ss.length (charsOf sv)) ++
        List.replicate (rc - (charsOf sv).length) gatts_char_inst.zero) ∧
      s1.gatts_descr = some ((ds ++ specDescrsList cs.length (charsOf sv)) ++
        List.replicate (rd - (specDescrsList cs.length (charsOf sv)).length)
          gatts_descr_inst.zero) ∧
      (s1.ble_char_pos + 1) % U16 = cs.length + (charsOf sv).length ∧
      (s1.ble_descr_pos + 1) % U16 = ds.length + (specDescrsList cs.length (charsOf sv)).length ∧
      s1.ble_service_pos = s.ble_service_pos ∧
      s1.ble_service_cnt = s.ble_service_cnt ∧ s1.ble_char_cnt = s.ble_char_cnt ∧
      s1.ble_descr_cnt = s.ble_descr_cnt ∧ s1.gatts_services = s.gatts_services := by
  obtain ⟨s3, h3, a1, a2, a3, a4, a5, a6, a7, a8, a9, a10, a11, a12⟩ :=
    serviceInitHead_spec c key s ss rs av hs hpos ha hav
  simp only [] at a1 a2 a3 a4 a5 a6 a7 a8 a9 a10 a11 a12
  obtain ⟨s4, h4, t4, d4, cc4, dc4, b1, b2, b3, b4, b5, b6, b7, b8⟩ :=
    charLoop_spec c (charsOf sv) 1 s3 cs rc ds rd (by simp [U16])
      (by rw [a9]; exact hc) (by rw [a5]; exact hcc) hcf hcl
      (by rw [a10]; exact hd) (by rw [a6]; exact hdc) hdf hdl
  have hm : tblModify s4.gatts_service s4.ble_service_pos
      (fun e => { e with num_handles := (1 + 4 * (charsOf sv).length) % U16 })
      = some (ss ++ specService c key sv :: List.replicate rs initService) := by
    rw [b5, a8, b4, a4, hpos, tblModify_at_length_cons]
    rfl
  generalize ht3 : ss ++ specService c key sv :: List.replicate rs initService = t3 at hm
  refine ⟨{ s4 with gatts_service := some t3 }, ?_, ?_, ?_, ?_, ?_, ?_, ?_, ?_, ?_, ?_, ?_, ?_⟩
  · unfold gatts_service_struct_init
    rw [h3]
    simp only []
    change (match charLoop c (charsOf sv) 1 s3 with
      | none => none
      | some (handles, s4) =>
        match tblModify s4.gatts_service s4.ble_service_pos
            (fun e => { e with num_handles := handles }) with
        | none => none
        | some t3 => some { s4 with gatts_service := some t3 }) = _
    rw [h4]
    simp only []
    rw [hm]
  · simp [← ht3]
  · simp only []; rw [b6, a11]; simp
  · simp only []; rw [t4, a4, hpos]
  · simp only []; rw [d4]
  · exact cc4
  · exact dc4
  · simp only []; rw [b4, a4]
  · simp only []; rw [b1, a1]
  · simp only []; rw [b2, a2]
  · simp only []; rw [b3, a3]
  · simp only []; rw [b7, a7]

theorem specDescrsList_length : ∀ (l : List (String × JsVar)) (i j : Nat),
    (specDescrsList i l).length = (specDescrsList j l).length
  | [], i, j => rfl
  | (k, v) :: l, i, j => by
    simp only [specDescrsList, List.length_append, specDescrs_length,
      specDescrsList_length l (i + 1) (j + 1)]

theorem serviceLoop_spec (c : Collab) : ∀ (svcs : List (String × JsVar)) (s : State)
    (ss : List gatts_service_inst) (rs : Nat) (av : List ble_uuid_t)
    (cs : List gatts_char_inst) (rc : Nat) (ds : List gatts_descr_inst) (rd : Nat),
    s.gatts_service = some (ss ++ List.replicate rs initService) →
    (s.ble_service_pos + 1) % U16 = ss.length →
    ss.length + rs < U16 →
    svcs.length ≤ rs →
    s.adv_service_uuid128 = some (av ++ List.replicate rs ⟨0, 0⟩) →
    av.length = ss.length →
    s.gatts_char = some (cs ++ List.replicate rc gatts_char_inst.zero) →
    (s.ble_char_pos + 1) % U16 = cs.length →
    cs.length + rc < U16 →
    (allChars svcs).length ≤ rc →
    s.gatts_descr = some (ds ++ List.replicate rd gatts_descr_inst.zero) →
    (s.ble_descr_pos + 1) % U16 = ds.length →
    ds.length + rd < U16 →
    (specDescrsList cs.length (allChars svcs)).length ≤ rd →
    ∃ s1, serviceLoop c svcs s = some s1 ∧
      s1.gatts_service = some ((ss ++ specServices c svcs) ++
        List.replicate (rs - svcs.length) initService) ∧
      s1.gatts_char = some ((cs ++ specCharsAll c ss.length svcs) ++
        List.replicate (rc - (allChars svcs).length) gatts_char_inst.zero) ∧
      s1.gatts_descr = some ((ds ++ specDescrsList cs.length (allChars svcs)) ++
        List.replicate (rd - (specDescrsList cs.length (allChars svcs)).length)
          gatts_descr_inst.zero) ∧
      (s1.ble_service_pos + 1) % U16 = ss.length + svcs.length ∧
      (s1.ble_char_pos + 1) % U16 = cs.length + (allChars svcs).length ∧
      (s1.ble_descr_pos + 1) % U16
        = ds.length + (specDescrsList cs.length (allChars svcs)).length ∧
      s1.ble_service_cnt = s.ble_service_cnt ∧ s1.ble_char_cnt = s.ble_char_cnt ∧
      s1.ble_descr_cnt = s.ble_descr_cnt ∧ s1.gatts_services = s.gatts_services
  | [], s, ss, rs, av, cs, rc, ds, rd, hs, hsc, hsf, hsl, ha, hav, hc, hcc, hcf, hcl, hd, hdc,
      hdf, hdl => by
    refine ⟨s, rfl, ?_, ?_, ?_, ?_, ?_, ?_, rfl, rfl, rfl, rfl⟩
    · simpa [specServices] using hs
    · simpa [specCharsAll, allChars] using hc
    · simpa [specDescrsList, allChars] using hd
    · simpa using hsc
    · simpa [allChars] using hcc
    · simpa [specDescrsList, allChars] using hdc
  | (key, sv) :: rest, s, ss, rs, av, cs, rc, ds, rd, hs, hsc, hsf, hsl, ha, hav, hc, hcc, hcf,
      hcl, hd, hdc, hdf, hdl => by
    obtain ⟨r, rfl⟩ : ∃ r, rs = r + 1 := ⟨rs - 1, by simp at hsl; omega⟩
    have hal : allChars ((key, sv) :: rest) = charsOf sv ++ allChars rest := rfl
    rw [hal, List.length_append] at hcl
    rw [hal, specDescrsList_append, List.length_append] at hdl
    obtain ⟨s1, h1, t1, a1, c1, d1, cc1, dc1, sp1, n1, n2, n3, n4⟩ :=
      gatts_service_struct_init_spec c key sv
        { s with ble_service_pos := (s.ble_service_pos + 1) % U16 }
        ss r av cs rc ds rd hs hsc ha hav hc hcc hcf (by omega) hd hdc hdf (by omega)
    simp only [] at sp1 n1 n2 n3 n4
    have hlen : (ss ++ [specService c key sv]).length = ss.length + 1 := by simp
    have hlc : (cs ++ specChars c ss.length (charsOf sv)).length
        = cs.length + (charsOf sv).length := by simp [specChars_length]
    have hld : (ds ++ specDescrsList cs.length (charsOf sv)).length
        = ds.length + (specDescrsList cs.length (charsOf sv)).length := by simp
    obtain ⟨s2, h2, t2, c2, d2, sc2, cc2, dc2, m1, m2, m3, m4⟩ := serviceLoop_spec c rest s1
      (ss ++ [specService c key sv]) r (av ++ [(c.bleVarToUUID key).ble_uuid])
      (cs ++ specChars c ss.length (charsOf sv)) (rc - (charsOf sv).length)
      (ds ++ specDescrsList cs.length (charsOf sv))
      (rd - (specDescrsList cs.length (charsOf sv)).length)
      t1 (by rw [sp1, hsc, hlen]; exact Nat.mod_eq_of_lt (by omega))
      (by rw [hlen]; omega) (by simp at hsl; omega) a1 (by simp [hav]) c1
      (by rw [cc1, hlc]) (by rw [hlc]; omega) (by omega) d1 (by rw [dc1, hld])
      (by rw [hld]; omega) (by rw [hlc]; omega)
    simp only [hlen, hlc, hld] at t2 c2 d2 sc2 cc2 dc2
    refine ⟨s2, ?_, ?_, ?_, ?_, ?_, ?_, ?_, m1.trans n1, m2.trans n2, m3.trans n3, m4.trans n4⟩
    · simp only [serviceLoop, h1, h2]
    · rw [t2]; simp [specServices, List.append_assoc]
    · rw [c2, hal, List.length_append]
      simp only [specCharsAll, List.append_assoc, Nat.sub_sub]
    · rw [d2, hal, specDescrsList_append, List.length_append]
      simp only [List.append_assoc, Nat.sub_sub]
    · rw [sc2]; simp only [List.length_cons]; omega
    · rw [cc2, hal, List.length_append]; omega
    · rw [dc2, hal, specDescrsList_append, List.length_append]; omega

theorem structsInitLoop_spec : ∀ (n : Nat) (done : List gatts_service_inst),
    structsInitLoop n done.length (some (done ++ List.replicate n gatts_service_inst.zero))
      = some (some (done ++ List.replicate n initService))
  | 0, done => by simp [structsInitLoop]
  | n + 1, done => by
    have ih := structsInitLoop_spec n (done ++ [initService])
    simp only [List.length_append, List.length_singleton, List.append_assoc,
      List.singleton_append] at ih
    simp only [structsInitLoop, tblModify_at_length]
    exact ih

theorem countChars_spec : ∀ (chars : List (String × JsVar)) (s : State),
    s.ble_char_cnt < U16 → s.ble_descr_cnt < U16 →
    (countChars chars s).ble_char_cnt = (s.ble_char_cnt + chars.length) % U16 ∧
    (countChars chars s).ble_descr_cnt
      = (s.ble_descr_cnt + (specDescrsList 0 chars).length) % U16 ∧
    (countChars chars s).ble_service_cnt = s.ble_service_cnt ∧
    (countChars chars s).gatts_services = s.gatts_services ∧
    (countChars chars s).ble_service_pos = s.ble_service_pos ∧
    (countChars chars s).ble_char_pos = s.ble_char_pos ∧
    (countChars chars s).ble_descr_pos = s.ble_descr_pos
  | [], s, h1, h2 => by
    simp [countChars, specDescrsList, Nat.mod_eq_of_lt h1, Nat.mod_eq_of_lt h2]
  | (k, v) :: rest, s, h1, h2 => by
    have hU : 0 < U16 := by simp [U16]
    simp only [countChars]
    have hlen : (specDescrsList 0 ((k, v) :: rest)).length
        = ((if hasNotify v then 1 else 0) + (if hasDescription v then 1 else 0))
          + (specDescrsList 0 rest).length := by
      simp only [specDescrsList, List.length_append, specDescrs_length,
        specDescrsList_length rest (0 + 1) 0]
    rw [hlen]
    by_cases hd : hasDescription v = true <;> by_cases hn : hasNotify v = true <;>
      simp only [hd, hn, if_true, if_false, Bool.false_eq_true] <;>
      (refine (countChars_spec rest _ (Nat.mod_lt _ hU) ?_).imp ?_ (And.imp ?_ id)) <;>
      first
      | exact Nat.mod_lt _ hU
      | exact h2
      | (intro h; rw [h]; simp only [List.length_cons, U16]; omega)

theorem countServices_spec : ∀ (svcs : List (String × JsVar)) (s : State),
    s.ble_service_cnt < U16 → s.ble_char_cnt < U16 → s.ble_descr_cnt < U16 →
    (countServices svcs s).ble_service_cnt = (s.ble_service_cnt + svcs.length) % U16 ∧
    (countServices svcs s).ble_char_cnt = (s.ble_char_cnt + (allChars svcs).length) % U16 ∧
    (countServices svcs s).ble_descr_cnt
      = (s.ble_descr_cnt + (specDescrsList 0 (allChars svcs)).length) % U16 ∧
    (countServices svcs s).gatts_services = s.gatts_services ∧
    (countServices svcs s).ble_service_pos = s.ble_service_pos ∧
    (countServices svcs s).ble_char_pos = s.ble_char_pos ∧
    (countServices svcs s).ble_descr_pos = s.ble_descr_pos
  | [], s, h1, h2, h3 => by
    simp [countServices, allChars, specDescrsList, Nat.mod_eq_of_lt h1, Nat.mod_eq_of_lt h2,
      Nat.mod_eq_of_lt h3]
  | (k, sv) :: rest, s, h1, h2, h3 => by
    have hU : 0 < U16 := by simp [U16]
    obtain ⟨a1, a2, a3, a4, a5, a6, a7⟩ := countChars_spec (charsOf sv) s h2 h3
    obtain ⟨b1, b2, b3, b4, b5, b6, b7⟩ := countServices_spec rest
      { countChars (charsOf sv) s with
        ble_service_cnt := ((countChars (charsOf sv) s).ble_service_cnt + 1) % U16 }
      (Nat.mod_lt _ hU) (by simp only []; rw [a1]; exact Nat.mod_lt _ hU)
      (by simp only []; rw [a2]; exact Nat.mod_lt _ hU)
    simp only [] at b1 b2 b3 b4 b5 b6 b7
    have hal : allChars ((k, sv) :: rest) = charsOf sv ++ allChars rest := rfl
    have hdl : (specDescrsList 0 (charsOf sv ++ allChars rest)).length
        = (specDescrsList 0 (charsOf sv)).length + (specDescrsList 0 (allChars rest)).length := by
      rw [specDescrsList_append, List.length_append,
        specDescrsList_length (allChars rest) (0 + (charsOf sv).length) 0]
    rw [hal, hdl, List.length_append]
    simp only [countServices]
    unfold charsOf at a1 a2 a3 a4 a5 a6 a7 b1 b2 b3 b4 b5 b6 b7 ⊢
    refine ⟨?_, ?_, ?_, ?_, ?_, ?_, ?_⟩
    · rw [b1, a3]; simp only [List.length_cons, U16]; omega
    · rw [b2, a1]; simp only [U16]; omega
    · rw [b3, a2]; simp only [U16]; omega
    · rw [b4, a4]
    · rw [b5, a5]
    · rw [b6, a6]
    · rw [b7, a7]

/-- The description fits the 16-bit counters of the counting pass. -/
theorem fill_spec (c : Collab) (s : State) (svcs : List (String × JsVar))
    (hsv : jsvChildren s.gatts_services = svcs)
    (h1 : svcs.length < U16) (h2 : (allChars svcs).length < U16)
    (h3 : (specDescrsList 0 (allChars svcs)).length < U16) :
    ∃ s1, gatts_structs_init c (gatts_create_structs s) = some s1 ∧
      s1.gatts_service = some (specServices c svcs) ∧
      s1.gatts_char = some (specCharsAll c 0 svcs) ∧
      s1.gatts_descr = some (specDescrsList 0 (allChars svcs)) ∧
      s1.ble_service_cnt = svcs.length ∧
      s1.ble_char_cnt = (allChars svcs).length ∧
      s1.ble_descr_cnt = (specDescrsList 0 (allChars svcs)).length ∧
      (s1.ble_service_pos + 1) % U16 = svcs.length ∧
      (s1.ble_char_pos + 1) % U16 = (allChars svcs).length ∧
      (s1.ble_descr_pos + 1) % U16 = (specDescrsList 0 (allChars svcs)).length ∧
      s1.gatts_services = s.gatts_services := by
  have hU : 0 < U16 := by simp [U16]
  obtain ⟨a1, a2, a3, a4, a5, a6, a7⟩ := countServices_spec svcs
    { s with ble_service_cnt := 0, ble_char_cnt := 0, ble_descr_cnt := 0,
             ble_service_pos := U16 - 1, ble_char_pos := U16 - 1, ble_descr_pos := U16 - 1 }
    hU hU hU
  simp only [Nat.zero_add, Nat.mod_eq_of_lt h1, Nat.mod_eq_of_lt h2, Nat.mod_eq_of_lt h3]
    at a1 a2 a3 a4 a5 a6 a7
  obtain ⟨s1, hL, t1, c1, d1, sc1, cc1, dc1, n1, n2, n3, n4⟩ := serviceLoop_spec c svcs
    { gatts_create_structs s with
      gatts_service := some (List.replicate svcs.length initService) }
    [] svcs.length [] [] (allChars svcs).length [] (specDescrsList 0 (allChars svcs)).length
    (by simp) (by simp only [gatts_create_structs, hsv, a5]; simp [U16])
    (by simpa using h1) (le_refl _)
    (by simp only [gatts_create_structs, hsv, a1]; simp) rfl
    (by simp only [gatts_create_structs, hsv, a2]; simp)
    (by simp only [gatts_create_structs, hsv, a6]; simp [U16])
    (by simpa using h2) (le_refl _)
    (by simp only [gatts_create_structs, hsv, a3]; simp)
    (by simp only [gatts_create_structs, hsv, a7]; simp [U16])
    (by simpa using h3) (le_refl _)
  simp only [List.nil_append, List.length_nil, Nat.zero_add, Nat.sub_self, List.replicate_zero,
    List.append_nil] at t1 c1 d1 sc1 cc1 dc1
  refine ⟨s1, ?_, t1, c1, d1, ?_, ?_, ?_, sc1, cc1, dc1, ?_⟩
  · unfold gatts_structs_init
    have hi : structsInitLoop (gatts_create_structs s).ble_service_cnt 0
        (gatts_create_structs s).gatts_service
        = some (some (List.replicate svcs.length initService)) := by
      have := structsInitLoop_spec svcs.length []
      simp only [List.length_nil, List.nil_append] at this
      simp only [gatts_create_structs, hsv, a1]
      exact this
    rw [hi]
    simp only []
    have hch : jsvChildren (gatts_create_structs s).gatts_services = svcs := by
      simp only [gatts_create_structs, hsv, a4]
    rw [hch]
    exact hL
  · rw [n1]; simp only [gatts_create_structs, hsv, a1]
  · rw [n2]; simp only [gatts_create_structs, hsv, a2]
  · rw [n3]; simp only [gatts_create_structs, hsv, a3]
  · rw [n4]; simp only [gatts_create_structs, hsv, a4]

theorem specCharsAll_get (c : Collab) : ∀ (svcs : List (String × JsVar)) (j ci : Nat)
    (key : String) (v : JsVar), (allChars svcs)[ci]? = some (key, v) →
    ∃ svc, (specCharsAll c j svcs)[ci]?
      = some (charFill (c.bleVarToUUID key).ble_uuid v svc gatts_char_inst.zero)
  | [], j, ci, key, v, h => by simp [allChars] at h
  | (k, sv) :: rest, j, ci, key, v, h => by
    have hal : allChars ((k, sv) :: rest) = charsOf sv ++ allChars rest := rfl
    rw [hal] at h
    simp only [specCharsAll]
    by_cases hlt : ci < (charsOf sv).length
    · rw [List.getElem?_append_left hlt] at h
      refine ⟨j, ?_⟩
      rw [List.getElem?_append_left (by rw [specChars_length]; exact hlt)]
      simp [specChars, h]
    · rw [List.getElem?_append_right (by omega)] at h
      obtain ⟨svc, hs⟩ := specCharsAll_get c rest (j + 1) _ key v h
      refine ⟨svc, ?_⟩
      rw [List.getElem?_append_right (by rw [specChars_length]; omega), specChars_length]
      exact hs

theorem cccd_mem_specDescrsList : ∀ (chars : List (String × JsVar)) (i m : Nat)
    (key : String) (v : JsVar), chars[m]? = some (key, v) → hasNotify v = true →
    cccdEntry (i + m) ∈ specDescrsList i chars
  | [], i, m, key, v, h, _ => by simp at h
  | (k, w) :: rest, i, 0, key, v, h, hn => by
    simp at h
    obtain ⟨_, rfl⟩ := h
    simp [specDescrsList, specDescrs, hn]
  | (k, w) :: rest, i, m + 1, key, v, h, hn => by
    simp at h
    have := cccd_mem_specDescrsList rest (i + 1) m key v h hn
    rw [show i + 1 + m = i + (m + 1) by omega] at this
    simp [specDescrsList, this]

theorem description_mem_specDescrsList : ∀ (chars : List (String × JsVar)) (i m : Nat)
    (key : String) (v w : JsVar), chars[m]? = some (key, v) →
    jsvObjectGetChild v "description" = some w → jsvHasCharacterData w = true →
    descriptionEntry (i + m) w ∈ specDescrsList i chars
  | [], i, m, key, v, w, h, _, _ => by simp at h
  | (k, u) :: rest, i, 0, key, v, w, h, hw, hd => by
    simp at h
    obtain ⟨_, rfl⟩ := h
    simp [specDescrsList, specDescrs, hw, hd]
  | (k, u) :: rest, i, m + 1, key, v, w, h, hw, hd => by
    simp at h
    have := description_mem_specDescrsList rest (i + 1) m key v w h hw hd
    rw [show i + 1 + m = i + (m + 1) by omega] at this
    simp [specDescrsList, this]

theorem charFill_notify (u : ble_uuid_t) (v : JsVar) (svc : Nat) (hn : hasNotify v = true) :
    (charFill u v svc gatts_char_inst.zero).char_property &&& ESP_GATT_CHAR_PROP_BIT_NOTIFY
      = ESP_GATT_CHAR_PROP_BIT_NOTIFY := by
  unfold hasNotify at hn
  simp only [charFill, hn, if_true, gatts_char_inst.zero]
  cases jsvGetBool (jsvObjectGetChild v "broadcast") <;>
  cases jsvGetBool (jsvObjectGetChild v "indicate") <;>
  cases jsvGetBool (jsvObjectGetChild v "readable") <;>
  cases jsvGetBool (jsvObjectGetChild v "writable") <;> decide

/-- C5 (amended): for a description within the 16-bit counters, after the fill pass every
characteristic whose `notify` is true has the NOTIFY bit in `char_property`, and the
descriptor table has an entry with UUID 0x2902, permissions READ|WRITE, handle 0 and
`char_pos` equal to the table index of that characteristic. -/
theorem notify_gets_cccd_after_fill (c : Collab) (s : State) (svcs : List (String × JsVar))
    (hsv : jsvChildren s.gatts_services = svcs)
    (h1 : svcs.length < U16) (h2 : (allChars svcs).length < U16)
    (h3 : (specDescrsList 0 (allChars svcs)).length < U16)
    (ci : Nat) (key : String) (v : JsVar)
    (hc : (allChars svcs)[ci]? = some (key, v)) (hn : hasNotify v = true) :
    ∃ s1 e q d, gatts_structs_init c (gatts_create_structs s) = some s1 ∧
      tblGet s1.gatts_char ci = some e ∧
      e.char_property &&& ESP_GATT_CHAR_PROP_BIT_NOTIFY = ESP_GATT_CHAR_PROP_BIT_NOTIFY ∧
      tblGet s1.gatts_descr q = some d ∧
      d.descr_uuid16 = 0x2902 ∧
      d.descr_perm = ESP_GATT_PERM_READ ||| ESP_GATT_PERM_WRITE ∧
      d.descr_handle = 0 ∧ d.char_pos = ci := by
  obtain ⟨s1, hf, _, tc, td, _⟩ := fill_spec c s svcs hsv h1 h2 h3
  obtain ⟨svc, he⟩ := specCharsAll_get c svcs 0 ci key v hc
  have hm := cccd_mem_specDescrsList (allChars svcs) 0 ci key v hc hn
  obtain ⟨q, hq⟩ := List.mem_iff_getElem?.1 hm
  refine ⟨s1, charFill (c.bleVarToUUID key).ble_uuid v svc gatts_char_inst.zero, q,
    cccdEntry (0 + ci), hf, ?_, charFill_notify _ v svc hn, ?_, rfl, rfl, rfl,
    by simp [cccdEntry]⟩
  · rw [tc]; exact he
  · rw [td]; exact hq

theorem specServices_get (c : Collab) (svcs : List (String × JsVar)) (i : Nat) (key : String)
    (sv : JsVar) (hi : svcs[i]? = some (key, sv)) :
    (specServices c svcs)[i]? = some (specService c key sv) := by
  simp [specServices, hi]

theorem fill_service_entry (c : Collab) (s : State) (svcs : List (String × JsVar))
    (hsv : jsvChildren s.gatts_services = svcs)
    (h1 : svcs.length < U16) (h2 : (allChars svcs).length < U16)
    (h3 : (specDescrsList 0 (allChars svcs)).length < U16)
    (i : Nat) (key : String) (sv : JsVar) (hi : svcs[i]? = some (key, sv)) :
    ∃ s1, gatts_structs_init c (gatts_create_structs s) = some s1 ∧
      tblGet s1.gatts_service i = some (specService c key sv) := by
  obtain ⟨s1, hf, ts, _⟩ := fill_spec c s svcs hsv h1 h2 h3
  refine ⟨s1, hf, ?_⟩
  rw [ts]; exact specServices_get c svcs i key sv hi

/-- C4 (amended): for a description within the 16-bit counters, after the fill pass the
entry of every service has `num_handles = (1 + 4 * k) mod 2 ^ 16` for its `k`
characteristics; this is `1 + 4 * k` when `k < 16384`, and 1 for a service without
characteristics. -/
theorem num_handles_after_fill (c : Collab) (s : State) (svcs : List (String × JsVar))
    (hsv : jsvChildren s.gatts_services = svcs)
    (h1 : svcs.length < U16) (h2 : (allChars svcs).length < U16)
    (h3 : (specDescrsList 0 (allChars svcs)).length < U16)
    (i : Nat) (key : String) (sv : JsVar) (hi : svcs[i]? = some (key, sv)) :
    ∃ s1 e, gatts_structs_init c (gatts_create_structs s) = some s1 ∧
      tblGet s1.gatts_service i = some e ∧
      e.num_handles = (1 + 4 * (charsOf sv).length) % 2 ^ 16 ∧
      ((charsOf sv).length < 16384 → e.num_handles = 1 + 4 * (charsOf sv).length) ∧
      (charsOf sv = [] → e.num_handles = 1) := by
  obtain ⟨s1, hf, he⟩ := fill_service_entry c s svcs hsv h1 h2 h3 i key sv hi
  refine ⟨s1, specService c key sv, hf, he, rfl, ?_, ?_⟩
  · intro hk
    show (1 + 4 * (charsOf sv).length) % U16 = _
    apply Nat.mod_eq_of_lt
    simp only [U16]; omega
  · intro h0
    show (1 + 4 * (charsOf sv).length) % U16 = _
    rw [h0]; rfl

theorem specDescrsList_replicate_plain : ∀ (n i : Nat) (k : String),
    specDescrsList i (List.replicate n (k, JsVar.obj [])) = []
  | 0, _, _ => rfl
  | n + 1, i, k => by
    rw [List.replicate_succ]
    simp only [specDescrsList, specDescrsList_replicate_plain n (i + 1) k, List.append_nil]
    rfl

theorem wideService_num_handles (n : Nat) (hn : n < U16) :
    ∃ s1 e, gatts_structs_init exampleCollab (gatts_create_structs (stateWith (wideService n)))
        = some s1 ∧
      tblGet s1.gatts_service 0 = some e ∧ e.num_handles = (1 + 4 * n) % 2 ^ 16 := by
  have hch : allChars [("180D", JsVar.obj (List.replicate n ("2A37", JsVar.obj [])))]
      = List.replicate n ("2A37", JsVar.obj []) := by
    simp [allChars, charsOf, jsvChildren]
  obtain ⟨s1, hf, he⟩ := fill_service_entry exampleCollab
    (stateWith (wideService n))
    [("180D", .obj (List.replicate n ("2A37", .obj [])))] rfl (by simp [U16])
    (by rw [hch]; simpa using hn)
    (by rw [hch, specDescrsList_replicate_plain]; simp [U16])
    0 "180D" (.obj (List.replicate n ("2A37", .obj []))) rfl
  have hlen : (charsOf (.obj (List.replicate n ("2A37", .obj [])))).length = n := by
    simp [charsOf, jsvChildren]
  refine ⟨s1, _, hf, he, ?_⟩
  show (1 + 4 * (charsOf (.obj (List.replicate n ("2A37", .obj [])))).length) % U16 = _
  rw [hlen]
  rfl

theorem wideService_chars (n : Nat) :
    (allChars (jsvChildren (some (wideService n)))).length = n := by
  simp [wideService, allChars, charsOf, jsvChildren]

/-- C4 (counterexample): a service with 16384 characteristics gets `num_handles = 1`, not
`1 + 4 * 16384`. -/
theorem num_handles_wraps_at_16384_characteristics :
    (allChars (jsvChildren (some (wideService 16384)))).length = 16384 ∧
    ∃ s1 e, gatts_structs_init exampleCollab (gatts_create_structs (stateWith (wideService 16384)))
        = some s1 ∧
      tblGet s1.gatts_service 0 = some e ∧ e.num_handles = 1 ∧
      e.num_handles ≠ 1 + 4 * 16384 := by
  obtain ⟨s1, e, hf, he, hh⟩ := wideService_num_handles 16384 (by decide)
  have hn1 : e.num_handles = 1 := by rw [hh]; norm_num
  exact ⟨wideService_chars 16384, s1, e, hf, he, hn1, by rw [hn1]; decide⟩

/-- C6 (amended): for a description within the 16-bit counters, after the fill pass every
characteristic whose `description` is a string `D` has a descriptor entry with UUID 0x2901,
`char_pos` equal to the table index of the characteristic and `descrVal` equal to `D`; and
when `D` has at most `ESP_GATT_MAX_ATTR_LEN` bytes, in every state in which a handle resolves
to that entry and to no characteristic while the entry holds `D`, a peer READ of the handle
is answered OK with the bytes of `D`. -/
theorem description_descriptor_after_fill (c : Collab) (s : State) (svcs : List (String × JsVar))
    (hsv : jsvChildren s.gatts_services = svcs)
    (h1 : svcs.length < U16) (h2 : (allChars svcs).length < U16)
    (h3 : (specDescrsList 0 (allChars svcs)).length < U16)
    (ci : Nat) (key : String) (v : JsVar) (D : List Nat)
    (hc : (allChars svcs)[ci]? = some (key, v))
    (hD : jsvObjectGetChild v "description" = some (.str D)) :
    ∃ s1 q d, gatts_structs_init c (gatts_create_structs s) = some s1 ∧
      tblGet s1.gatts_descr q = some d ∧
      d.descr_uuid16 = 0x2901 ∧ d.char_pos = ci ∧ d.descrVal = some (.str D) ∧
      ∀ (s2 : State) (h gatts_if conn_id trans_id : Nat) (d2 : gatts_descr_inst), s2.WF →
        D.length ≤ ESP_GATT_MAX_ATTR_LEN → charOfHandle h s2 = none →
        descrOfHandle h s2 = some q → tblGet s2.gatts_descr q = some d2 →
        d2.descrVal = some (.str D) →
        ∃ s3 rsp, gatts_event_handler c (.READ conn_id trans_id h) gatts_if s2 = some s3 ∧
          s3.log = s2.log ++
            [.send_response gatts_if conn_id trans_id ESP_GATT_OK (some rsp)] ∧
          rsp.payload = D := by
  obtain ⟨s1, hf, _, _, td, _⟩ := fill_spec c s svcs hsv h1 h2 h3
  have hm := description_mem_specDescrsList (allChars svcs) 0 ci key v (.str D) hc hD rfl
  obtain ⟨q, hq⟩ := List.mem_iff_getElem?.1 hm
  refine ⟨s1, q, descriptionEntry (0 + ci) (.str D), hf, ?_, rfl, by simp [descriptionEntry],
    rfl, ?_⟩
  · rw [td]; exact hq
  · intro s2 h gatts_if conn_id trans_id d2 hwf hlen hch hres hd2 hval
    rw [tblGet_eq] at hd2
    have hpart : readPart h s2 = (emptyRsp h, s2) := by simp only [readPart, hch]
    have hfits : readFits h s2 = true := by
      unfold readFits readCharValue readDescrValue
      rw [hch, hres]
      simp only [hd2, Option.bind, hval]
      have : valueFits (some (JsVar.str D)) = true :=
        (valueFits_some _).2 (by simpa [JSV_GET_AS_CHAR_ARRAY] using hlen)
      rw [this]
      rfl
    have hR := read_eq gatts_if conn_id trans_id h s2 hwf hfits
    rw [hpart] at hR
    refine ⟨_, readFinal h s2, hR, rfl, ?_⟩
    unfold readFinal
    rw [hres]
    simp only [hd2, readDescrOk, hval, copied_payload, JSV_GET_AS_CHAR_ARRAY]

theorem exampleServices_children :
    jsvChildren (stateWith exampleServices).gatts_services
      = [("180A", .obj [("2A37", .obj [("readable", .bool true), ("value", .str [72])])]),
        ("180F", .obj [("2A19", .obj [("notify", .bool true), ("description", .str [68]),
            ("onRead", .func (some [66]))]),
          ("2A20", .obj [("writable", .bool true)])])] := rfl

/-- C1 (witness): a WRITE of 1, 2, 3 to the writable characteristic of `exampleServices`
(handle 111) after registration, and the READ that follows. -/
theorem write_then_read_returns_written_witness :
    ∃ s1 s2 rsp,
      gatts_event_handler exampleCollab (.WRITE 1 2 111 [1, 2, 3]) 3
        (afterRegistration exampleServices) = some s1 ∧
      gatts_event_handler exampleCollab (.READ 1 3 111) 3 s1 = some s2 ∧
      s2.log = s1.log ++ [.send_response 3 1 3 ESP_GATT_OK (some rsp)] ∧
      rsp.payload = [1, 2, 3] ∧ rsp.len = [1, 2, 3].length :=
  write_then_read_returns_written exampleCollab (afterRegistration exampleServices)
    ⟨by decide, by decide, by decide⟩ 2 111 3 1 2 1 3 [1, 2, 3] (by decide) (by decide) rfl

/-- C4 (witness): the second service of `exampleServices`. -/
theorem num_handles_after_fill_witness :
    ∃ s1 e, gatts_structs_init exampleCollab (gatts_create_structs (stateWith exampleServices))
        = some s1 ∧
      tblGet s1.gatts_service 1 = some e ∧
      e.num_handles = (1 + 4 * 2) % 2 ^ 16 ∧
      (2 < 16384 → e.num_handles = 1 + 4 * 2) ∧
      (charsOf (.obj [("2A19", .obj [("notify", .bool true), ("description", .str [68]),
            ("onRead", .func (some [66]))]),
          ("2A20", .obj [("writable", .bool true)])]) = [] → e.num_handles = 1) :=
  num_handles_after_fill exampleCollab (stateWith exampleServices) _ exampleServices_children
    (by decide) (by decide) (by decide) 1 "180F" _ rfl

/-- C5 (witness): the notifying characteristic of `exampleServices`, at table index 1. -/
theorem notify_gets_cccd_after_fill_witness :
    ∃ s1 e q d, gatts_structs_init exampleCollab
        (gatts_create_structs (stateWith exampleServices)) = some s1 ∧
      tblGet s1.gatts_char 1 = some e ∧
      e.char_property &&& ESP_GATT_CHAR_PROP_BIT_NOTIFY = ESP_GATT_CHAR_PROP_BIT_NOTIFY ∧
      tblGet s1.gatts_descr q = some d ∧
      d.descr_uuid16 = 0x2902 ∧
      d.descr_perm = ESP_GATT_PERM_READ ||| ESP_GATT_PERM_WRITE ∧
      d.descr_handle = 0 ∧ d.char_pos = 1 :=
  notify_gets_cccd_after_fill exampleCollab (stateWith exampleServices) _
    exampleServices_children (by decide) (by decide) (by decide) 1 "2A19" _ rfl rfl

/-- C6 (witness): the described characteristic of `exampleServices`, at table index 1. -/
theorem description_descriptor_after_fill_witness :
    ∃ s1 q d, gatts_structs_init exampleCollab
        (gatts_create_structs (stateWith exampleServices)) = some s1 ∧
      tblGet s1.gatts_descr q = some d ∧
      d.descr_uuid16 = 0x2901 ∧ d.char_pos = 1 ∧ d.descrVal = some (.str [68]) ∧
      ∀ (s2 : State) (h gatts_if conn_id trans_id : Nat) (d2 : gatts_descr_inst), s2.WF →
        [68].length ≤ ESP_GATT_MAX_ATTR_LEN → charOfHandle h s2 = none →
        descrOfHandle h s2 = some q → tblGet s2.gatts_descr q = some d2 →
        d2.descrVal = some (.str [68]) →
        ∃ s3 rsp, gatts_event_handler exampleCollab (.READ conn_id trans_id h) gatts_if s2
            = some s3 ∧
          s3.log = s2.log ++
            [.send_response gatts_if conn_id trans_id ESP_GATT_OK (some rsp)] ∧
          rsp.payload = [68] :=
  description_descriptor_after_fill exampleCollab (stateWith exampleServices) _
    exampleServices_children (by decide) (by decide) (by decide) 1 "2A19" _ [68] rfl rfl

/-- C7 (witness): the UNREG event of the first service of `exampleServices` after
registration. -/
theorem unreg_releases_tables_iff_no_live_interface_witness :
    ∃ s1, gatts_event_handler exampleCollab .UNREG 4 (afterRegistration exampleServices)
        = some s1 ∧
      ((∀ e ∈ modifyAt (fun e : gatts_service_inst => { e with gatts_if := ESP_GATT_IF_NONE })
            (tblList (afterRegistration exampleServices).gatts_service) 0,
          e.gatts_if = ESP_GATT_IF_NONE) →
        s1.gatts_service = none ∧ s1.gatts_char = none ∧ s1.gatts_descr = none ∧
        s1.adv_service_uuid128 = none ∧
        s1.ble_service_cnt = 0 ∧ s1.ble_char_cnt = 0 ∧ s1.ble_descr_cnt = 0) ∧
      ((∃ e ∈ modifyAt (fun e : gatts_service_inst => { e with gatts_if := ESP_GATT_IF_NONE })
            (tblList (afterRegistration exampleServices).gatts_service) 0,
          e.gatts_if ≠ ESP_GATT_IF_NONE) →
        s1.gatts_service = some (modifyAt
          (fun e : gatts_service_inst => { e with gatts_if := ESP_GATT_IF_NONE })
          (tblList (afterRegistration exampleServices).gatts_service) 0) ∧
        s1.gatts_char = (afterRegistration exampleServices).gatts_char ∧
        s1.gatts_descr = (afterRegistration exampleServices).gatts_descr ∧
        s1.adv_service_uuid128 = (afterRegistration exampleServices).adv_service_uuid128 ∧
        s1.ble_service_cnt = (afterRegistration exampleServices).ble_service_cnt ∧
        s1.ble_char_cnt = (afterRegistration exampleServices).ble_char_cnt ∧
        s1.ble_descr_cnt = (afterRegistration exampleServices).ble_descr_cnt) :=
  unreg_releases_tables_iff_no_live_interface exampleCollab (afterRegistration exampleServices)
    ⟨by decide, by decide, by decide⟩ 4 0 (by decide)

/-- C10 (witness): handle 7 is carried by no entry of `exampleServices` after
registration. -/
theorem unknown_handle_answered_ok_and_empty_witness :
    (∃ rsp, gatts_event_handler exampleCollab (.READ 1 2 7) 3 (afterRegistration exampleServices)
        = some ((afterRegistration exampleServices).emit
            (.send_response 3 1 2 ESP_GATT_OK (some rsp)))
      ∧ rsp.payload.length = 0)
    ∧ gatts_event_handler exampleCollab (.WRITE 1 2 7 [9]) 3 (afterRegistration exampleServices)
        = some ((afterRegistration exampleServices).emit
            (.send_response 3 1 2 ESP_GATT_OK none)) :=
  unknown_handle_answered_ok_and_empty exampleCollab (afterRegistration exampleServices)
    ⟨by decide, by decide, by decide⟩ 7 3 1 2 [9] (by decide) (by decide)

theorem reqsFrom_none {α : Type} (p : α → Bool) (r : Nat → α → List Effect) :
    ∀ (l : List α) (i : Nat), firstIdx p l = none → reqsFrom p r i l = []
  | [], _, _ => rfl
  | a :: l, i, h => by
    simp only [firstIdx] at h
    split at h
    · simp at h
    · rename_i hp
      have h1 : firstIdx p l = none := by
        cases hf : firstIdx p l with
        | none => rfl
        | some j => simp [hf] at h
      simp [reqsFrom, hp, reqsFrom_none p r l (i + 1) h1]

theorem reqsFrom_step {α : Type} (p : α → Bool) (r : Nat → α → List Effect) (g : α → α) :
    ∀ (l : List α) (i q : Nat) (a : α), firstIdx p l = some q → l[q]? = some a →
      p (g a) = false →
      reqsFrom p r i l = r (i + q) a ++ reqsFrom p r i (modifyAt g l q)
  | [], _, _, _, h, _, _ => by simp [firstIdx] at h
  | b :: l, i, q, a, h, ha, hg => by
    simp only [firstIdx] at h
    split at h
    · rename_i hp
      simp at h
      subst h
      simp at ha
      subst ha
      simp [reqsFrom, modifyAt, hp, hg]
    · rename_i hp
      cases hf : firstIdx p l with
      | none => simp [hf] at h
      | some j =>
        simp [hf] at h
        subst h
        simp at ha
        have ih := reqsFrom_step p r g l (i + 1) j a hf ha hg
        simp only [reqsFrom, modifyAt, hp, ih]
        rw [show i + 1 + j = i + (j + 1) by omega]
        simp

theorem reqsFrom_congr {α : Type} (p p1 : α → Bool) (r r1 : Nat → α → List Effect) :
    ∀ (l l1 : List α) (i : Nat), l1.length = l.length →
      (∀ q a a1, l[q]? = some a → l1[q]? = some a1 →
        (if p a then r (i + q) a else []) = (if p1 a1 then r1 (i + q) a1 else [])) →
      reqsFrom p r i l = reqsFrom p1 r1 i l1
  | [], [], _, _, _ => rfl
  | [], _ :: _, _, h, _ => by simp at h
  | _ :: _, [], _, h, _ => by simp at h
  | a :: l, a1 :: l1, i, h, hq => by
    have h0 := hq 0 a a1 (by simp) (by simp)
    simp only [Nat.add_zero] at h0
    have ih := reqsFrom_congr p p1 r r1 l l1 (i + 1) (by simpa using h)
      (fun q b b1 hb hb1 => by
        have := hq (q + 1) b b1 (by simpa using hb) (by simpa using hb1)
        rw [show i + (q + 1) = i + 1 + q by omega] at this
        exact this)
    simp only [reqsFrom, h0, ih]

theorem upd_refl {α : Type} (hd : α → Nat) (same : α → α → Prop) (hs : ∀ a, same a a)
    (l : List α) : Upd hd same (fun _ _ => False) l l :=
  ⟨rfl, fun _ a ha => ⟨a, ha, hs a, fun _ => rfl, fun _ hP => hP.elim, fun h0 _ => h0⟩⟩

theorem upd_step {α : Type} (hd : α → Nat) (same : α → α → Prop) (hs : ∀ a, same a a)
    (g : α → α) (l : List α) (q : Nat) (a : α) (ha : l[q]? = some a) (h0 : hd a = 0)
    (hg : hd (g a) ≠ 0) (hsg : same a (g a)) :
    Upd hd same (fun i _ => i = q) l (modifyAt g l q) := by
  refine ⟨modifyAt_length g l q, fun j b hb => ?_⟩
  rw [getElem?_modifyAt]
  by_cases hj : q = j
  · subst hj
    rw [ha] at hb
    simp only [Option.some.injEq] at hb
    subst hb
    simp only [if_true, ha, Option.map_some']
    exact ⟨g a, rfl, hsg, fun h => absurd h0 h, fun _ _ => hg, fun _ h => absurd trivial h⟩
  · simp only [hj, if_false, hb]
    exact ⟨b, rfl, hs b, fun _ => rfl, fun _ h => absurd h.symm hj, fun h _ => h⟩

theorem upd_comp {α : Type} (hd : α → Nat) (same : α → α → Prop)
    (ht : ∀ a b d, same a b → same b d → same a d) (P Q : Nat → α → Prop)
    (hQ : ∀ q a a1, same a a1 → (Q q a ↔ Q q a1)) (l l1 l2 : List α)
    (h1 : Upd hd same P l l1) (h2 : Upd hd same Q l1 l2) :
    Upd hd same (fun q a => P q a ∨ Q q a) l l2 := by
  refine ⟨h2.1.trans h1.1, fun q a ha => ?_⟩
  obtain ⟨a1, ha1, s1, k1, p1, n1⟩ := h1.2 q a ha
  obtain ⟨a2, ha2, s2, k2, p2, n2⟩ := h2.2 q a1 ha1
  refine ⟨a2, ha2, ht _ _ _ s1 s2, ?_, ?_, ?_⟩
  · intro hne
    rw [k2 (by rw [k1 hne]; exact hne), k1 hne]
  · intro h0 hPQ
    by_cases hP : P q a
    · have := p1 h0 hP
      rw [k2 this]; exact this
    · have hQa : Q q a := hPQ.resolve_left hP
      exact p2 (n1 h0 hP) ((hQ q a a1 s1).1 hQa)
  · intro h0 hPQ
    have hP : ¬ P q a := fun h => hPQ (Or.inl h)
    have hQa : ¬ Q q a1 := fun h => hPQ (Or.inr ((hQ q a a1 s1).2 h))
    exact n2 (n1 h0 hP) hQa

theorem upd_congr {α : Type} (hd : α → Nat) (same : α → α → Prop) (P Q : Nat → α → Prop)
    (l l1 : List α) (h : Upd hd same P l l1)
    (hPQ : ∀ q a, l[q]? = some a → hd a = 0 → (P q a ↔ Q q a)) : Upd hd same Q l l1 := by
  refine ⟨h.1, fun q a ha => ?_⟩
  obtain ⟨a1, ha1, s1, k1, p1, n1⟩ := h.2 q a ha
  exact ⟨a1, ha1, s1, k1, fun h0 hq => p1 h0 ((hPQ q a ha h0).2 hq),
    fun h0 hq => n1 h0 (fun hp => hq ((hPQ q a ha h0).1 hp))⟩
theorem drive_add (c : Collab) (k : Stack) : ∀ (n m : Nat) (s : State),
    drive c k (n + m) s = (drive c k n s).bind (drive c k m)
  | 0, m, s => by simp [drive]
  | n + 1, m, s => by
    rw [show n + 1 + m = (n + m) + 1 by omega]
    simp only [drive]
    cases hr : k.respond s.log with
    | none =>
      simp only [Option.bind]
      cases m with
      | zero => simp [drive]
      | succ m => simp [drive, hr]
    | some ev =>
      obtain ⟨event, gatts_if⟩ := ev
      simp only []
      cases gatts_event_handler c event gatts_if s with
      | none => simp
      | some s1 => simp [drive_add c k n m s1]

theorem stackCall_ok (c : Collab) (hc : c.Ok) (req : Effect) (msg : String) (s : State) :
    stackCall c req msg s = s.emit req := by
  simp [stackCall, hc req]

theorem respond_emit (k : Stack) (s : State) (req : Effect) :
    k.respond (s.emit req).log = k.answer (s.log ++ [req]) req := by
  simp [Stack.respond, State.emit]

theorem sameDescr_refl (d : gatts_descr_inst) : sameDescr d d := rfl

theorem sameDescr_trans (a b d : gatts_descr_inst) (h1 : sameDescr a b) (h2 : sameDescr b d) :
    sameDescr a d := by
  unfold sameDescr at *
  rw [h2, h1]

theorem sameChar_refl (d : gatts_char_inst) : sameChar d d := rfl

theorem sameChar_trans (a b d : gatts_char_inst) (h1 : sameChar a b) (h2 : sameChar b d) :
    sameChar a d := by
  unfold sameChar at *
  rw [h2, h1]

theorem walkFrame_refl (s : State) : WalkFrame s s := ⟨rfl, rfl, rfl, rfl, rfl, rfl, rfl⟩

theorem walkFrame_trans {a b d : State} (h1 : WalkFrame a b) (h2 : WalkFrame b d) :
    WalkFrame a d := by
  obtain ⟨a1, a2, a3, a4, a5, a6, a7⟩ := h1
  obtain ⟨b1, b2, b3, b4, b5, b6, b7⟩ := h2
  exact ⟨b1.trans a1, b2.trans a2, b3.trans a3, b4.trans a4, b5.trans a5, b6.trans a6,
    b7.trans a7⟩

theorem walk_descr_none (c : Collab) (s : State) (hwf : s.WF)
    (hq : firstIdx (fun e : gatts_descr_inst => e.descr_handle == 0 && e.char_pos == s.ble_char_pos)
      (tblList s.gatts_descr) = none) :
    gatts_add_descr c s
      = gatts_add_char c { s with ble_char_pos := (s.ble_char_pos + 1) % U16 } := by
  obtain ⟨_, _, hdw⟩ := hwf
  simp only [gatts_add_descr, scan_eq _ _ _ hdw, hq]

theorem walk_descr_some (c : Collab) (k : Stack) (hc : c.Ok) (hk : k.AttrOk) (n : Nat) (s : State)
    (svc : gatts_service_inst) (hwf : s.WF)
    (hsvc : tblGet s.gatts_service s.ble_service_pos = some svc) (q : Nat) (d : gatts_descr_inst)
    (hq : firstIdx (fun e : gatts_descr_inst => e.descr_handle == 0 && e.char_pos == s.ble_char_pos)
      (tblList s.gatts_descr) = some q)
    (hd : (tblList s.gatts_descr)[q]? = some d) :
    ∃ h, h ≠ 0 ∧ (gatts_add_descr c s).bind (drive c k (n + 1))
      = (gatts_add_descr c { s with
          ble_descr_pos := q,
          gatts_descr := some (modifyAt (fun d => { d with descr_handle := h })
            (tblList s.gatts_descr) q),
          log := s.log ++ descrReq svc.service_handle q d }).bind (drive c k n) := by
  obtain ⟨_, _, hdw⟩ := hwf
  have hlt := firstIdx_lt _ _ _ hq
  refine ⟨k.attr_handle (s.log ++ descrReq svc.service_handle q d), hk _, ?_⟩
  have h1 : gatts_add_descr c s = some (State.emit { s with ble_descr_pos := q }
      (.add_char_descr svc.service_handle q d.descr_perm)) := by
    simp only [gatts_add_descr, scan_eq _ _ _ hdw, hq, hsvc, tblGet_eq, hd, stackCall_ok c hc]
  rw [h1]
  simp only [Option.bind, drive, respond_emit, Stack.answer, gatts_event_handler,
    gatts_check_add_descr, if_true]
  have hne := hk (s.log ++ [.add_char_descr svc.service_handle q d.descr_perm])
  simp only [hne, ne_eq, not_false_eq_true, if_true, State.emit]
  rw [tblModify_eq_modify _ _ _ hlt]
  simp only [descrReq, Option.bind]
  generalize gatts_add_descr c _ = x
  cases x <;> rfl

theorem walk_descr (c : Collab) (k : Stack) (hc : c.Ok) (hk : k.AttrOk) :
    ∀ (n : Nat) (s : State) (svc : gatts_service_inst), s.WF →
      tblGet s.gatts_service s.ble_service_pos = some svc →
      (descrTraceE svc.service_handle s.ble_char_pos (tblList s.gatts_descr)).length = n →
      ∃ sD, (gatts_add_descr c s).bind (drive c k n) = gatts_add_char c sD ∧
        sD.log = s.log ++ descrTraceE svc.service_handle s.ble_char_pos (tblList s.gatts_descr) ∧
        sD.ble_char_pos = (s.ble_char_pos + 1) % U16 ∧
        Upd (·.descr_handle) sameDescr (fun _ d => d.char_pos = s.ble_char_pos)
          (tblList s.gatts_descr) (tblList sD.gatts_descr) ∧
        sD.WF ∧ sD.gatts_service = s.gatts_service ∧ sD.gatts_char = s.gatts_char ∧
        sD.ble_service_pos = s.ble_service_pos ∧ WalkFrame s sD := by
  intro n
  induction n with
  | zero =>
    intro s svc hwf hsvc hn
    cases hq : firstIdx (fun e : gatts_descr_inst =>
        e.descr_handle == 0 && e.char_pos == s.ble_char_pos) (tblList s.gatts_descr) with
    | none =>
      refine ⟨{ s with ble_char_pos := (s.ble_char_pos + 1) % U16 }, ?_, ?_, rfl, ?_, hwf, rfl,
        rfl, rfl, walkFrame_refl s⟩
      · rw [walk_descr_none c s hwf hq]; simp [drive]
      · simp [descrTraceE, reqsFrom_none _ _ _ _ hq]
      · refine upd_congr _ _ _ _ _ _ (upd_refl _ _ sameDescr_refl _) ?_
        intro q a ha h0
        have := (firstIdx_none _ _).1 hq a (List.getElem?_mem ha)
        simp only [h0, beq_self_eq_true, Bool.true_and, beq_eq_false_iff_ne, ne_eq] at this
        exact ⟨fun h => h.elim, fun h => this h⟩
    | some q =>
      obtain ⟨d, hd, _⟩ := firstIdx_sat _ _ _ hq
      have := reqsFrom_step _ (descrReq svc.service_handle)
        (fun d : gatts_descr_inst => { d with descr_handle := 1 }) _ 0 q d hq hd (by simp)
      unfold descrTraceE at hn
      rw [this] at hn
      simp [descrReq] at hn
  | succ n ih =>
    intro s svc hwf hsvc hn
    cases hq : firstIdx (fun e : gatts_descr_inst =>
        e.descr_handle == 0 && e.char_pos == s.ble_char_pos) (tblList s.gatts_descr) with
    | none =>
      simp [descrTraceE, reqsFrom_none _ _ _ _ hq] at hn
    | some q =>
      obtain ⟨d, hd, hpd⟩ := firstIdx_sat _ _ _ hq
      obtain ⟨h, hh, hstep⟩ := walk_descr_some c k hc hk n s svc hwf hsvc q d hq hd
      have hst := reqsFrom_step _ (descrReq svc.service_handle)
        (fun d : gatts_descr_inst => { d with descr_handle := h }) _ 0 q d hq hd
        (by simp [hh])
      simp only [Nat.zero_add] at hst
      have hlen : (modifyAt (fun d : gatts_descr_inst => { d with descr_handle := h })
          (tblList s.gatts_descr) q).length = (tblList s.gatts_descr).length :=
        modifyAt_length _ _ _
      obtain ⟨w1, w2, w3⟩ := hwf
      have hdl : (tblList s.gatts_descr).length = tblLen s.gatts_descr := by
        cases s.gatts_descr <;> rfl
      have hlenT : (descrTraceE svc.service_handle s.ble_char_pos
          (modifyAt (fun d : gatts_descr_inst => { d with descr_handle := h })
            (tblList s.gatts_descr) q)).length = n := by
        have hl := congrArg List.length hst
        unfold descrTraceE at hn ⊢
        rw [hn] at hl
        simp only [descrReq, List.length_append, List.length_singleton] at hl
        omega
      obtain ⟨sD, e1, e2, e3, e4, e5, e6, e7, e8, e9⟩ := ih
        { s with
          ble_descr_pos := q,
          gatts_descr := some (modifyAt (fun d => { d with descr_handle := h })
            (tblList s.gatts_descr) q),
          log := s.log ++ descrReq svc.service_handle q d } svc
        ⟨w1, w2, by simp only [tblLen]; rw [hlen, hdl]; exact w3⟩ hsvc hlenT
      have e2a : sD.log = (s.log ++ descrReq svc.service_handle q d) ++
          descrTraceE svc.service_handle s.ble_char_pos
            (modifyAt (fun d : gatts_descr_inst => { d with descr_handle := h })
              (tblList s.gatts_descr) q) := e2
      have e4a : Upd (·.descr_handle) sameDescr (fun _ d => d.char_pos = s.ble_char_pos)
          (modifyAt (fun d : gatts_descr_inst => { d with descr_handle := h })
            (tblList s.gatts_descr) q) (tblList sD.gatts_descr) := e4
      refine ⟨sD, hstep.trans e1, ?_, e3, ?_, e5, e6, e7, e8, e9⟩
      · rw [e2a]
        unfold descrTraceE
        rw [hst, List.append_assoc]
      · have hp0 : d.descr_handle = 0 ∧ d.char_pos = s.ble_char_pos := by
          simpa using hpd
        have u1 := upd_step (·.descr_handle) sameDescr sameDescr_refl
          (fun d : gatts_descr_inst => { d with descr_handle := h }) _ q d hd hp0.1 hh rfl
        have u2 := upd_comp _ _ sameDescr_trans _ _
          (fun q a a1 hs => by rw [hs]) _ _ _ u1 e4a
        refine upd_congr _ _ _ _ _ _ u2 ?_
        intro j a ha h0
        constructor
        · rintro (hj | hj)
          · subst hj
            rw [hd] at ha
            simp only [Option.some.injEq] at ha
            subst ha
            exact hp0.2
          · exact hj
        · intro hj
          exact Or.inr hj
theorem bind_drive_add (c : Collab) (k : Stack) (n m : Nat) (x : Option State) :
    x.bind (drive c k (n + m)) = (x.bind (drive c k n)).bind (drive c k m) := by
  cases x with
  | none => rfl
  | some s => exact drive_add c k n m s

theorem tblList_length {α : Type} (t : Option (List α)) : (tblList t).length = tblLen t := by
  cases t <;> rfl

theorem descrTraceE_upd (h p : Nat) (P : Nat → gatts_descr_inst → Prop)
    (dt dt1 : List gatts_descr_inst) (hu : Upd (·.descr_handle) sameDescr P dt dt1)
    (hP : ∀ j d, dt[j]? = some d → d.char_pos = p → ¬ P j d) :
    descrTraceE h p dt1 = descrTraceE h p dt := by
  unfold descrTraceE
  symm
  apply reqsFrom_congr _ _ _ _ _ _ _ hu.1
  intro j d d1 hd hd1
  obtain ⟨d2, hd2, hs, hk, _, hn⟩ := hu.2 j d hd
  rw [hd1] at hd2
  simp only [Option.some.injEq] at hd2
  subst hd2
  have hcp : d1.char_pos = d.char_pos := by rw [hs]
  have hpm : d1.descr_perm = d.descr_perm := by rw [hs]
  by_cases h0 : d.descr_handle = 0
  · by_cases hp : d.char_pos = p
    · have := hn h0 (hP j d hd hp)
      simp [descrReq, h0, this, hcp, hpm]
    · simp [hcp, hp]
  · have := hk h0
    simp [h0, this]

theorem walk_char_none (c : Collab) (s : State) (hwf : s.WF)
    (hq : firstIdx (fun e : gatts_char_inst => e.service_pos == s.ble_service_pos &&
      e.char_handle == 0) (tblList s.gatts_char) = none) :
    gatts_add_char c s
      = some (gatts_reg_app c { s with ble_service_pos := (s.ble_service_pos + 1) % U16 }) := by
  obtain ⟨_, hcw, _⟩ := hwf
  simp only [gatts_add_char, scan_eq _ _ _ hcw, hq]

theorem walk_char_some (c : Collab) (k : Stack) (hc : c.Ok) (hk : k.AttrOk) (s : State)
    (svc : gatts_service_inst) (hwf : s.WF)
    (hsvc : tblGet s.gatts_service s.ble_service_pos = some svc) (q : Nat) (e : gatts_char_inst)
    (hq : firstIdx (fun e : gatts_char_inst => e.service_pos == s.ble_service_pos &&
      e.char_handle == 0) (tblList s.gatts_char) = some q)
    (he : (tblList s.gatts_char)[q]? = some e) :
    ∃ h s2, h ≠ 0 ∧ (∀ n, (gatts_add_char c s).bind (drive c k (n + 1))
        = (gatts_add_descr c s2).bind (drive c k n)) ∧
      s2.ble_char_pos = q ∧
      s2.gatts_char = some (modifyAt (fun e => { e with char_handle := h })
        (tblList s.gatts_char) q) ∧
      s2.log = s.log ++ [.add_char svc.service_handle q e.char_perm e.char_property] ∧
      s2.gatts_descr = s.gatts_descr ∧ s2.gatts_service = s.gatts_service ∧
      s2.ble_service_pos = s.ble_service_pos ∧ s2.WF ∧ WalkFrame s s2 := by
  obtain ⟨w1, hcw, w3⟩ := hwf
  have hlt := firstIdx_lt _ _ _ hq
  have h1 : gatts_add_char c s = some (State.emit { s with ble_char_pos := q }
      (.add_char svc.service_handle q e.char_perm e.char_property)) := by
    simp only [gatts_add_char, scan_eq _ _ _ hcw, hq, hsvc, tblGet_eq, he, stackCall_ok c hc]
  have hne := hk (s.log ++ [.add_char svc.service_handle q e.char_perm e.char_property])
  refine ⟨k.attr_handle (s.log ++ [.add_char svc.service_handle q e.char_perm e.char_property]),
    (fun (hv : Nat) (req : Effect) => { s with ble_char_pos := q, gatts_char := some (modifyAt (fun e => { e with char_handle := hv }) (tblList s.gatts_char) q), log := s.log ++ [req] })
      (k.attr_handle (s.log ++ [.add_char svc.service_handle q e.char_perm e.char_property]))
      (.add_char svc.service_handle q e.char_perm e.char_property),
    hne, ?_, rfl, ?_, rfl, rfl, rfl, rfl, ?_, ⟨rfl, rfl, rfl, rfl, rfl, rfl, rfl⟩⟩
  · intro n
    rw [h1]
    simp only [Option.bind, drive, respond_emit, Stack.answer, gatts_event_handler,
      gatts_check_add_char, if_true]
    simp only [hne, ne_eq, not_false_eq_true, if_true, State.emit]
    rw [tblModify_eq_modify _ _ _ hlt]
    simp only [Option.bind]
    generalize gatts_add_descr c _ = x
    cases x <;> rfl
  · rfl
  · refine ⟨w1, ?_, w3⟩
    simp only [tblLen]
    rw [modifyAt_length, tblList_length]
    exact hcw
theorem elig_ne (ct : List gatts_char_inst) (q : Nat) (e : gatts_char_inst) (h : Nat)
    (he : ct[q]? = some e) (hh : h ≠ 0) (j : Nat) (a : gatts_char_inst)
    (ha : (modifyAt (fun e : gatts_char_inst => { e with char_handle := h }) ct q)[j]? = some a)
    (h0 : a.char_handle = 0) : j ≠ q ∧ ct[j]? = some a := by
  rw [getElem?_modifyAt] at ha
  by_cases hj : q = j
  · subst hj
    simp only [if_true, he, Option.map_some', Option.some.injEq] at ha
    subst ha
    exact absurd h0 hh
  · simp only [hj, if_false] at ha
    exact ⟨fun h => hj h.symm, ha⟩

theorem elig_modify (ct : List gatts_char_inst) (q : Nat) (e : gatts_char_inst) (h i : Nat)
    (he : ct[q]? = some e) (hs : e.service_pos = i) (h0 : e.char_handle = 0) (hh : h ≠ 0)
    (p : Nat) :
    (p = q ∨ ∃ e1, (modifyAt (fun e : gatts_char_inst => { e with char_handle := h }) ct q)[p]?
        = some e1 ∧ e1.service_pos = i ∧ e1.char_handle = 0) ↔
      ∃ e0, ct[p]? = some e0 ∧ e0.service_pos = i ∧ e0.char_handle = 0 := by
  constructor
  · rintro (hp | ⟨e1, h1, h2, h3⟩)
    · subst hp
      exact ⟨e, he, hs, h0⟩
    · exact ⟨e1, (elig_ne ct q e h he hh p e1 h1 h3).2, h2, h3⟩
  · rintro ⟨e0, h1, h2, h3⟩
    by_cases hp : p = q
    · exact Or.inl hp
    · refine Or.inr ⟨e0, ?_, h2, h3⟩
      rw [getElem?_modifyAt, if_neg (fun h => hp (Eq.symm h)), h1]

theorem walk_char_zero (c : Collab) (k : Stack) (s : State) (svc : gatts_service_inst)
    (hwf : s.WF)
    (hq : firstIdx (fun e : gatts_char_inst => e.service_pos == s.ble_service_pos &&
      e.char_handle == 0) (tblList s.gatts_char) = none) :
    ∃ sC, (gatts_add_char c s).bind (drive c k (charTraceE svc.service_handle s.ble_service_pos
          (tblList s.gatts_char) (tblList s.gatts_descr)).length) = some (gatts_reg_app c sC) ∧
      sC.log = s.log ++ charTraceE svc.service_handle s.ble_service_pos
        (tblList s.gatts_char) (tblList s.gatts_descr) ∧
      sC.ble_service_pos = (s.ble_service_pos + 1) % U16 ∧
      Upd (·.char_handle) sameChar (fun _ e => e.service_pos = s.ble_service_pos)
        (tblList s.gatts_char) (tblList sC.gatts_char) ∧
      Upd (·.descr_handle) sameDescr (fun _ d => ∃ e, (tblList s.gatts_char)[d.char_pos]? = some e ∧
          e.service_pos = s.ble_service_pos ∧ e.char_handle = 0)
        (tblList s.gatts_descr) (tblList sC.gatts_descr) ∧
      sC.WF ∧ sC.gatts_service = s.gatts_service ∧ WalkFrame s sC := by
  have hnil : charTraceE svc.service_handle s.ble_service_pos
      (tblList s.gatts_char) (tblList s.gatts_descr) = [] := reqsFrom_none _ _ _ _ hq
  have hall := (firstIdx_none _ _).1 hq
  refine ⟨{ s with ble_service_pos := (s.ble_service_pos + 1) % U16 }, ?_, ?_, rfl, ?_, ?_, hwf,
    rfl, walkFrame_refl s⟩
  · rw [hnil, walk_char_none c s hwf hq]
    simp [drive]
  · rw [hnil]; simp
  · refine upd_congr _ _ _ _ _ _ (upd_refl _ _ sameChar_refl _) ?_
    intro q a ha h0
    have := hall a (List.getElem?_mem ha)
    simp only [h0, beq_self_eq_true, Bool.and_true, beq_eq_false_iff_ne, ne_eq] at this
    exact ⟨fun h => h.elim, fun h => this h⟩
  · refine upd_congr _ _ _ _ _ _ (upd_refl _ _ sameDescr_refl _) ?_
    intro q a _ _
    refine ⟨fun h => h.elim, ?_⟩
    rintro ⟨e, he, h1, h2⟩
    have := hall e (List.getElem?_mem he)
    simp [h1, h2] at this
theorem charTraceE_descr_upd (h i q : Nat) (ct : List gatts_char_inst)
    (dt dt1 : List gatts_descr_inst)
    (hu : Upd (·.descr_handle) sameDescr (fun _ d => d.char_pos = q) dt dt1)
    (hq : ∀ j a, ct[j]? = some a → a.char_handle = 0 → j ≠ q) :
    charTraceE h i ct dt1 = charTraceE h i ct dt := by
  unfold charTraceE
  apply reqsFrom_congr _ _ _ _ _ _ _ rfl
  intro j a a1 ha ha1
  rw [ha] at ha1
  simp only [Option.some.injEq] at ha1
  subst ha1
  simp only [Nat.zero_add]
  by_cases hp : (a.service_pos == i && a.char_handle == 0) = true
  · have hp2 := hp
    simp only [Bool.and_eq_true, beq_iff_eq] at hp2
    have h0 : a.char_handle = 0 := hp2.2
    simp only [hp, if_true, charReqE]
    rw [descrTraceE_upd h j _ dt dt1 hu (fun _ d _ hd hd2 => hq j a ha h0 (hd.symm.trans hd2))]
  · rw [if_neg hp, if_neg hp]

theorem walk_char (c : Collab) (k : Stack) (hc : c.Ok) (hk : k.AttrOk) :
    ∀ (n : Nat) (s : State) (svc : gatts_service_inst), s.WF →
      tblGet s.gatts_service s.ble_service_pos = some svc →
      (charTraceE svc.service_handle s.ble_service_pos
        (tblList s.gatts_char) (tblList s.gatts_descr)).length ≤ n →
      ∃ sC, (gatts_add_char c s).bind (drive c k (charTraceE svc.service_handle s.ble_service_pos
            (tblList s.gatts_char) (tblList s.gatts_descr)).length)
          = some (gatts_reg_app c sC) ∧
        sC.log = s.log ++ charTraceE svc.service_handle s.ble_service_pos
          (tblList s.gatts_char) (tblList s.gatts_descr) ∧
        sC.ble_service_pos = (s.ble_service_pos + 1) % U16 ∧
        Upd (·.char_handle) sameChar (fun _ e => e.service_pos = s.ble_service_pos)
          (tblList s.gatts_char) (tblList sC.gatts_char) ∧
        Upd (·.descr_handle) sameDescr (fun _ d => ∃ e, (tblList s.gatts_char)[d.char_pos]? = some e ∧
            e.service_pos = s.ble_service_pos ∧ e.char_handle = 0)
          (tblList s.gatts_descr) (tblList sC.gatts_descr) ∧
        sC.WF ∧ sC.gatts_service = s.gatts_service ∧ WalkFrame s sC := by
  intro n
  induction n with
  | zero =>
    intro s svc hwf hsvc hn
    cases hq : firstIdx (fun e : gatts_char_inst => e.service_pos == s.ble_service_pos &&
        e.char_handle == 0) (tblList s.gatts_char) with
    | none => exact walk_char_zero c k s svc hwf hq
    | some q =>
      obtain ⟨e, he, _⟩ := firstIdx_sat _ _ _ hq
      have := reqsFrom_step _ (charReqE svc.service_handle (tblList s.gatts_descr))
        (fun e : gatts_char_inst => { e with char_handle := 1 }) _ 0 q e hq he (by simp)
      unfold charTraceE at hn
      rw [this] at hn
      simp [charReqE] at hn
  | succ n ih =>
    intro s svc hwf hsvc hn
    cases hq : firstIdx (fun e : gatts_char_inst => e.service_pos == s.ble_service_pos &&
        e.char_handle == 0) (tblList s.gatts_char) with
    | none => exact walk_char_zero c k s svc hwf hq
    | some q =>
      obtain ⟨e, he, hpe⟩ := firstIdx_sat _ _ _ hq
      have hp0 : e.service_pos = s.ble_service_pos ∧ e.char_handle = 0 := by simpa using hpe
      obtain ⟨h, s2, hh, hstep, a1, a2, a3, a4, a5, a6, a7, a8⟩ :=
        walk_char_some c k hc hk s svc hwf hsvc q e hq he
      have hst : charTraceE svc.service_handle s.ble_service_pos (tblList s.gatts_char)
            (tblList s.gatts_descr)
          = charReqE svc.service_handle (tblList s.gatts_descr) q e ++
            charTraceE svc.service_handle s.ble_service_pos
              (modifyAt (fun e : gatts_char_inst => { e with char_handle := h })
                (tblList s.gatts_char) q) (tblList s.gatts_descr) := by
        have := reqsFrom_step _ (charReqE svc.service_handle (tblList s.gatts_descr))
          (fun e : gatts_char_inst => { e with char_handle := h }) _ 0 q e hq he (by simp [hh])
        simpa only [Nat.zero_add] using this
      have hsvc2 : tblGet s2.gatts_service s2.ble_service_pos = some svc := by
        rw [a5, a6]; exact hsvc
      obtain ⟨sD, d1, d2, d3, d4, d5, d6, d7, d8, d9⟩ := walk_descr c k hc hk _ s2 svc a7 hsvc2 rfl
      rw [a1, a4] at d1 d2 d4
      rw [a1] at d3
      have hctD : tblList sD.gatts_char
          = modifyAt (fun e : gatts_char_inst => { e with char_handle := h })
            (tblList s.gatts_char) q := by
        rw [d7, a2]; rfl
      have hkey : charTraceE svc.service_handle sD.ble_service_pos (tblList sD.gatts_char)
            (tblList sD.gatts_descr)
          = charTraceE svc.service_handle s.ble_service_pos
              (modifyAt (fun e : gatts_char_inst => { e with char_handle := h })
                (tblList s.gatts_char) q) (tblList s.gatts_descr) := by
        rw [d8, a6, hctD]
        exact charTraceE_descr_upd _ _ q _ _ _ d4
          (fun j a ha h0 => (elig_ne _ q e h he hh j a ha h0).1)
      have hsvcD : tblGet sD.gatts_service sD.ble_service_pos = some svc := by
        rw [d6, d8]; exact hsvc2
      have hlenD : (charTraceE svc.service_handle sD.ble_service_pos (tblList sD.gatts_char)
          (tblList sD.gatts_descr)).length ≤ n := by
        rw [hkey]
        rw [hst] at hn
        simp only [charReqE, List.length_append, List.length_cons] at hn
        omega
      obtain ⟨sC, c1, c2, c3, c4, c5, c6, c7, c8⟩ := ih sD svc d5 hsvcD hlenD
      rw [hkey] at c1 c2
      rw [d8, a6] at c3 c4 c5
      rw [hctD] at c4 c5
      refine ⟨sC, ?_, ?_, c3, ?_, ?_, c6, ?_, walkFrame_trans (walkFrame_trans a8 d9) c8⟩
      · rw [hst]
        simp only [charReqE, List.length_append, List.length_cons]
        rw [show (descrTraceE svc.service_handle q (tblList s.gatts_descr)).length + 1 +
            (charTraceE svc.service_handle s.ble_service_pos
              (modifyAt (fun e : gatts_char_inst => { e with char_handle := h })
                (tblList s.gatts_char) q) (tblList s.gatts_descr)).length
          = ((descrTraceE svc.service_handle q (tblList s.gatts_descr)).length +
            (charTraceE svc.service_handle s.ble_service_pos
              (modifyAt (fun e : gatts_char_inst => { e with char_handle := h })
                (tblList s.gatts_char) q) (tblList s.gatts_descr)).length) + 1 by omega]
        rw [hstep, bind_drive_add, d1]
        exact c1
      · rw [c2, d2, a3, hst]
        simp [charReqE]
      · have u1 := upd_step (·.char_handle) sameChar sameChar_refl
          (fun e : gatts_char_inst => { e with char_handle := h }) _ q e he hp0.2 hh rfl
        have u2 := upd_comp _ _ sameChar_trans _ _
          (fun q a a1 hs => by rw [hs]) _ _ _ u1 c4
        refine upd_congr _ _ _ _ _ _ u2 ?_
        intro j a ha h0
        constructor
        · rintro (hj | hj)
          · subst hj
            rw [he] at ha
            simp only [Option.some.injEq] at ha
            subst ha
            exact hp0.1
          · exact hj
        · intro hj
          exact Or.inr hj
      · have u2 := upd_comp _ _ sameDescr_trans _ _
          (fun q a a1 hs => by rw [hs]) _ _ _ d4 c5
        refine upd_congr _ _ _ _ _ _ u2 ?_
        intro j a _ _
        exact elig_modify _ q e h _ he hp0.1 hp0.2 hh a.char_pos
      · rw [c7, d6, a5]
theorem getElem?_modifyAt_self {α : Type} (f : α → α) (l : List α) (i : Nat) (a : α)
    (h : l[i]? = some a) : (modifyAt f l i)[i]? = some (f a) := by
  rw [getElem?_modifyAt, if_pos rfl, h]; rfl

theorem getElem?_modifyAt_ne {α : Type} (f : α → α) (l : List α) (i j : Nat)
    (h : j ≠ i) : (modifyAt f l i)[j]? = l[j]? := by
  rw [getElem?_modifyAt, if_neg (fun e => h e.symm)]

theorem tblList_some {α : Type} (t : List α) : tblList (some t) = t := rfl

theorem drive_step (c : Collab) (k : Stack) (n : Nat) (s s1 : State) (ev : Event) (gif : Nat)
    (hr : k.respond s.log = some (ev, gif)) (hh : gatts_event_handler c ev gif s = some s1) :
    drive c k (n + 1) s = drive c k n s1 := by
  simp only [drive, hr, hh]

theorem drive_step_bind (c : Collab) (k : Stack) (n : Nat) (s : State) (ev : Event) (gif : Nat)
    (hr : k.respond s.log = some (ev, gif)) :
    drive c k (n + 1) s = (gatts_event_handler c ev gif s).bind (drive c k n) := by
  simp only [drive, hr]
  cases gatts_event_handler c ev gif s <;> rfl

theorem walk_service_head (c : Collab) (k : Stack) (hc : c.Ok) (s : State)
    (hwf : s.WF) (hlt : s.ble_service_pos < s.ble_service_cnt) :
    ∃ s3 svc, (∀ m, drive c k (m + 3) (gatts_reg_app c s)
        = (gatts_add_char c s3).bind (drive c k m)) ∧
      s3.log = s.log ++ [.app_register s.ble_service_pos,
        .create_service svc.gatts_if s.ble_service_pos svc.num_handles,
        .start_service svc.service_handle] ∧
      (tblList s3.gatts_service)[s.ble_service_pos]? = some svc ∧
      (k.ServiceOk → svc.service_handle ≠ 0) ∧
      s3.ble_service_pos = s.ble_service_pos ∧ s3.gatts_char = s.gatts_char ∧
      s3.gatts_descr = s.gatts_descr ∧
      (tblList s3.gatts_service).length = (tblList s.gatts_service).length ∧
      (∀ j, j ≠ s.ble_service_pos →
        (tblList s3.gatts_service)[j]? = (tblList s.gatts_service)[j]?) ∧
      s3.WF ∧ WalkFrame s s3 := by
  obtain ⟨w1, w2, w3⟩ := hwf
  have hl : s.ble_service_pos < (tblList s.gatts_service).length := by
    rw [tblList_length, w1]; exact hlt
  obtain ⟨e0, he0⟩ : ∃ e0, (tblList s.gatts_service)[s.ble_service_pos]? = some e0 :=
    ⟨_, List.getElem?_eq_getElem hl⟩
  have r0 : gatts_reg_app c s = s.emit (.app_register s.ble_service_pos) := by
    simp [gatts_reg_app, hlt, stackCall_ok c hc]
  generalize hgif : k.reg_if (s.log ++ [.app_register s.ble_service_pos]) = gif
  generalize hsh : k.service_handle (s.log ++ [.app_register s.ble_service_pos] ++
    [.create_service gif s.ble_service_pos e0.num_handles]) = sh
  have hsh0 : k.ServiceOk → sh ≠ 0 := by intro hks; rw [← hsh]; exact hks _
  refine ⟨(fun (t : List gatts_service_inst) (lg : List Effect) => { s with gatts_service := some t, log := lg })
      (modifyAt (fun e : gatts_service_inst => { e with service_handle := sh })
        (modifyAt (fun e : gatts_service_inst => { e with is_primary := true, inst_id := 0, gatts_if := gif, service_uuid := e.ble_uuid })
          (tblList s.gatts_service) s.ble_service_pos) s.ble_service_pos)
      (s.log ++ [.app_register s.ble_service_pos, .create_service gif s.ble_service_pos e0.num_handles, .start_service sh]),
    (fun (e : gatts_service_inst) => { e with is_primary := true, inst_id := 0, gatts_if := gif, service_uuid := e.ble_uuid, service_handle := sh }) e0,
    ?_, rfl, ?_, hsh0, rfl, rfl, rfl, ?_, ?_, ?_, ⟨rfl, rfl, rfl, rfl, rfl, rfl, rfl⟩⟩
  · intro m
    rw [r0, show m + 3 = ((m + 1) + 1) + 1 by omega]
    rw [drive_step c k _ _ _ (.REG s.ble_service_pos) gif
      (by rw [respond_emit, ← hgif]; rfl)
      (by
        simp only [gatts_event_handler, gatts_createService, State.emit]
        rw [tblModify_eq_modify _ _ _ hl]
        simp only [getElem?_modifyAt_self _ _ _ _ he0, stackCall_ok c hc]
        rfl)]
    rw [drive_step c k _ _ _ (.CREATE sh) (k.event_if (s.log ++
        [.app_register s.ble_service_pos] ++
        [.create_service gif s.ble_service_pos e0.num_handles]))
      (by rw [respond_emit]; simp only [Stack.answer, hsh])
      (by
        simp only [gatts_event_handler, State.emit]
        rw [tblModify_eq_modify _ _ _ (by rw [tblList_some, modifyAt_length]; exact hl)]
        simp only [tblList_some, getElem?_modifyAt_self _ _ _ _
          (getElem?_modifyAt_self _ _ _ _ he0)]
        rfl)]
    rw [drive_step_bind c k _ _ .START (k.event_if (s.log ++
        [.app_register s.ble_service_pos] ++
        [.create_service gif s.ble_service_pos e0.num_handles] ++ [.start_service sh]))
      (by simp [Stack.respond, Stack.answer])]
    simp only [gatts_event_handler, List.append_assoc, List.singleton_append]
    rfl
  · show (modifyAt _ (modifyAt _ (tblList s.gatts_service) s.ble_service_pos)
      s.ble_service_pos)[s.ble_service_pos]? = _
    rw [getElem?_modifyAt_self _ _ _ _ (getElem?_modifyAt_self _ _ _ _ he0)]
  · show (modifyAt _ (modifyAt _ (tblList s.gatts_service) s.ble_service_pos)
      s.ble_service_pos).length = _
    rw [modifyAt_length, modifyAt_length]
  · intro j hj
    show (modifyAt _ (modifyAt _ (tblList s.gatts_service) s.ble_service_pos)
      s.ble_service_pos)[j]? = _
    rw [getElem?_modifyAt_ne _ _ _ _ hj, getElem?_modifyAt_ne _ _ _ _ hj]
  · refine ⟨?_, w2, w3⟩
    show (modifyAt _ (modifyAt _ (tblList s.gatts_service) s.ble_service_pos)
      s.ble_service_pos).length = _
    rw [modifyAt_length, modifyAt_length, tblList_length]
    exact w1
theorem walk_service (c : Collab) (k : Stack) (hc : c.Ok) (hk : k.AttrOk) (s : State)
    (hwf : s.WF) (hlt : s.ble_service_pos < s.ble_service_cnt) :
    ∃ sC svc N, drive c k N (gatts_reg_app c s) = some (gatts_reg_app c sC) ∧
      sC.log = s.log ++ ([.app_register s.ble_service_pos,
        .create_service svc.gatts_if s.ble_service_pos svc.num_handles,
        .start_service svc.service_handle] ++ charTraceE svc.service_handle s.ble_service_pos
          (tblList s.gatts_char) (tblList s.gatts_descr)) ∧
      (tblList sC.gatts_service)[s.ble_service_pos]? = some svc ∧
      (k.ServiceOk → svc.service_handle ≠ 0) ∧
      sC.ble_service_pos = (s.ble_service_pos + 1) % U16 ∧
      Upd (·.char_handle) sameChar (fun _ e => e.service_pos = s.ble_service_pos)
        (tblList s.gatts_char) (tblList sC.gatts_char) ∧
      Upd (·.descr_handle) sameDescr (fun _ d => ∃ e, (tblList s.gatts_char)[d.char_pos]? = some e ∧
          e.service_pos = s.ble_service_pos ∧ e.char_handle = 0)
        (tblList s.gatts_descr) (tblList sC.gatts_descr) ∧
      (tblList sC.gatts_service).length = (tblList s.gatts_service).length ∧
      (∀ j, j ≠ s.ble_service_pos →
        (tblList sC.gatts_service)[j]? = (tblList s.gatts_service)[j]?) ∧
      sC.WF ∧ WalkFrame s sC := by
  obtain ⟨s3, svc, h1, h2, h3, h4, h5, h6, h7, h8, h9, h10, h11⟩ :=
    walk_service_head c k hc s hwf hlt
  have hsvc : tblGet s3.gatts_service s3.ble_service_pos = some svc := by
    rw [tblGet_eq, h5]; exact h3
  obtain ⟨sC, c1, c2, c3, c4, c5, c6, c7, c8⟩ := walk_char c k hc hk _ s3 svc h10 hsvc le_rfl
  simp only [h5, h6, h7] at c1 c2 c4 c5
  rw [h5] at c3
  refine ⟨sC, svc, _, (h1 _).trans c1, ?_, ?_, h4, c3, c4, c5, ?_, ?_, c6,
    walkFrame_trans h11 c8⟩
  · rw [c2, h2]
    simp
  · rw [c7]; exact h3
  · rw [c7]; exact h8
  · rw [c7]; exact h9
theorem upd_back {α : Type} (hd : α → Nat) (same : α → α → Prop) (P : Nat → α → Prop)
    (l l1 : List α) (h : Upd hd same P l l1) (q : Nat) (a1 : α) (h1 : l1[q]? = some a1) :
    ∃ a, l[q]? = some a ∧ same a a1 ∧ (hd a ≠ 0 → hd a1 = hd a) ∧
      (hd a = 0 → P q a → hd a1 ≠ 0) ∧ (hd a = 0 → ¬ P q a → hd a1 = 0) := by
  have hq : q < l.length := by
    rw [← h.1]
    exact (List.getElem?_eq_some.1 h1).1
  obtain ⟨a2, h2, r⟩ := h.2 q l[q] (List.getElem?_eq_getElem hq)
  rw [h1] at h2
  simp only [Option.some.injEq] at h2
  subst h2
  exact ⟨l[q], List.getElem?_eq_getElem hq, r⟩

theorem upd_same {α : Type} (hd : α → Nat) (same : α → α → Prop) (P : Nat → α → Prop)
    (l l1 : List α) (h : Upd hd same P l l1) : SameTbl same l l1 := by
  refine ⟨h.1, fun q a a1 ha ha1 => ?_⟩
  obtain ⟨a2, h2, r, _⟩ := h.2 q a ha
  rw [ha1] at h2
  simp only [Option.some.injEq] at h2
  subst h2
  exact r

theorem sameTbl_refl {α : Type} (same : α → α → Prop) (hs : ∀ a, same a a) (l : List α) :
    SameTbl same l l := by
  refine ⟨rfl, fun q a a1 ha ha1 => ?_⟩
  rw [ha] at ha1
  simp only [Option.some.injEq] at ha1
  subst ha1
  exact hs a

theorem sameTbl_trans {α : Type} (same : α → α → Prop)
    (ht : ∀ a b d, same a b → same b d → same a d) (l l1 l2 : List α)
    (h1 : SameTbl same l l1) (h2 : SameTbl same l1 l2) : SameTbl same l l2 := by
  refine ⟨h2.1.trans h1.1, fun q a a2 ha ha2 => ?_⟩
  have hq : q < l1.length := by
    rw [h1.1]
    exact (List.getElem?_eq_some.1 ha).1
  exact ht _ _ _ (h1.2 q a l1[q] ha (List.getElem?_eq_getElem hq))
    (h2.2 q l1[q] a2 (List.getElem?_eq_getElem hq) ha2)

theorem descrTrace_same (h p : Nat) (dt dt1 : List gatts_descr_inst)
    (hs : SameTbl sameDescr dt dt1) : descrTrace h p dt1 = descrTrace h p dt := by
  unfold descrTrace
  symm
  apply reqsFrom_congr _ _ _ _ _ _ _ hs.1
  intro j d d1 hd hd1
  have hsd := hs.2 j d d1 hd hd1
  have hcp : d1.char_pos = d.char_pos := by rw [hsd]
  have hpm : d1.descr_perm = d.descr_perm := by rw [hsd]
  simp only [descrReq, hcp, hpm]

theorem charTrace_same (h i : Nat) (ct ct1 : List gatts_char_inst)
    (dt dt1 : List gatts_descr_inst) (hc : SameTbl sameChar ct ct1)
    (hd : SameTbl sameDescr dt dt1) : charTrace h i ct1 dt1 = charTrace h i ct dt := by
  unfold charTrace
  symm
  apply reqsFrom_congr _ _ _ _ _ _ _ hc.1
  intro j e e1 he he1
  have hse := hc.2 j e e1 he he1
  have h1 : e1.service_pos = e.service_pos := by rw [hse]
  have h2 : e1.char_perm = e.char_perm := by rw [hse]
  have h3 : e1.char_property = e.char_property := by rw [hse]
  simp only [charReq, h1, h2, h3, descrTrace_same h _ dt dt1 hd]

theorem charTraceE_pending (h i : Nat) (ct : List gatts_char_inst)
    (dt : List gatts_descr_inst) (hp : Pending i ct dt) :
    charTraceE h i ct dt = charTrace h i ct dt := by
  unfold charTraceE charTrace
  apply reqsFrom_congr _ _ _ _ _ _ _ rfl
  intro j e e1 he he1
  rw [he] at he1
  simp only [Option.some.injEq] at he1
  subst he1
  simp only [Nat.zero_add]
  by_cases hs : e.service_pos = i
  · have h0 : e.char_handle = 0 := by
      by_contra hne
      have := hp.1 j e he hne
      omega
    have hd : descrTraceE h j dt = descrTrace h j dt := by
      unfold descrTraceE descrTrace
      apply reqsFrom_congr _ _ _ _ _ _ _ rfl
      intro q d d1 hd hd1
      rw [hd] at hd1
      simp only [Option.some.injEq] at hd1
      subst hd1
      by_cases hcp : d.char_pos = j
      · have hd0 : d.descr_handle = 0 := by
          by_contra hne
          obtain ⟨e2, he2, hlt⟩ := hp.2 q d hd hne
          rw [hcp, he] at he2
          simp only [Option.some.injEq] at he2
          subst he2
          omega
        simp [hcp, hd0]
      · simp [hcp]
    simp [hs, h0, charReqE, charReq, hd]
  · simp [hs]
theorem pending_step (i : Nat) (ct ct1 : List gatts_char_inst)
    (dt dt1 : List gatts_descr_inst) (hp : Pending i ct dt)
    (huc : Upd (·.char_handle) sameChar (fun _ e => e.service_pos = i) ct ct1)
    (hud : Upd (·.descr_handle) sameDescr (fun _ d => ∃ e, ct[d.char_pos]? = some e ∧
      e.service_pos = i ∧ e.char_handle = 0) dt dt1) :
    Pending (i + 1) ct1 dt1 := by
  constructor
  · intro j e1 he1 hne
    obtain ⟨e, he, hs, hk, _, hn⟩ := upd_back _ _ _ _ _ huc j e1 he1
    have hsp : e1.service_pos = e.service_pos := by rw [hs]
    by_cases h0 : e.char_handle = 0
    · by_cases hP : e.service_pos = i
      · omega
      · exact absurd (hn h0 hP) hne
    · have := hp.1 j e he h0
      omega
  · intro j d1 hd1 hne
    obtain ⟨d, hd, hs, hk, _, hn⟩ := upd_back _ _ _ _ _ hud j d1 hd1
    have hcp : d1.char_pos = d.char_pos := by rw [hs]
    rw [hcp]
    by_cases h0 : d.descr_handle = 0
    · by_cases hP : ∃ e, ct[d.char_pos]? = some e ∧ e.service_pos = i ∧ e.char_handle = 0
      · obtain ⟨e, he, hse, _⟩ := hP
        obtain ⟨e1, he1, hs1, _⟩ := huc.2 _ e he
        have hsp : e1.service_pos = e.service_pos := by rw [hs1]
        exact ⟨e1, he1, by omega⟩
      · exact absurd (hn h0 hP) hne
    · obtain ⟨e, he, hlt⟩ := hp.2 j d hd h0
      obtain ⟨e1, he1, hs1, _⟩ := huc.2 _ e he
      have hsp : e1.service_pos = e.service_pos := by rw [hs1]
      exact ⟨e1, he1, by omega⟩

theorem done_step (i : Nat) (st st1 : List gatts_service_inst) (ct ct1 : List gatts_char_inst)
    (dt dt1 : List gatts_descr_inst) (hD : Done i st ct dt) (hp : Pending i ct dt)
    (hsl : ∀ j, j ≠ i → st1[j]? = st[j]?) (hsi : ∀ e, st1[i]? = some e → e.service_handle ≠ 0)
    (huc : Upd (·.char_handle) sameChar (fun _ e => e.service_pos = i) ct ct1)
    (hud : Upd (·.descr_handle) sameDescr (fun _ d => ∃ e, ct[d.char_pos]? = some e ∧
      e.service_pos = i ∧ e.char_handle = 0) dt dt1) :
    Done (i + 1) st1 ct1 dt1 := by
  refine ⟨?_, ?_, ?_⟩
  · intro j e hj he
    by_cases hji : j = i
    · subst hji
      exact hsi e he
    · rw [hsl j hji] at he
      exact hD.1 j e (by omega) he
  · intro j e1 he1 hlt
    obtain ⟨e, he, hs, hk, hpp, _⟩ := upd_back _ _ _ _ _ huc j e1 he1
    have hsp : e1.service_pos = e.service_pos := by rw [hs]
    by_cases h0 : e.char_handle = 0
    · by_cases hP : e.service_pos = i
      · exact hpp h0 hP
      · exact absurd h0 (hD.2.1 j e he (by omega))
    · have := hk h0
      simp only at this
      rw [this]
      exact h0
  · intro j d1 e1 hd1 he1 hlt
    obtain ⟨d, hd, hs, hk, hpp, _⟩ := upd_back _ _ _ _ _ hud j d1 hd1
    have hcp : d1.char_pos = d.char_pos := by rw [hs]
    rw [hcp] at he1
    obtain ⟨e, he, hse, _⟩ := upd_back _ _ _ _ _ huc _ e1 he1
    have hsp : e1.service_pos = e.service_pos := by rw [hse]
    by_cases h0 : d.descr_handle = 0
    · by_cases hlt2 : e.service_pos < i
      · exact absurd h0 (hD.2.2 j d e hd he hlt2)
      · have h0e : e.char_handle = 0 := by
          by_contra hne
          exact hlt2 (hp.1 _ e he hne)
        exact hpp h0 ⟨e, he, by omega, h0e⟩
    · have := hk h0
      simp only at this
      rw [this]
      exact h0

theorem drop_of_getElem? {α : Type} : ∀ (l : List α) (i : Nat) (a : α), l[i]? = some a →
    l.drop i = a :: l.drop (i + 1)
  | [], i, a, h => by simp at h
  | b :: l, 0, a, h => by simp at h; subst h; rfl
  | b :: l, i + 1, a, h => by
    simp at h
    simpa using drop_of_getElem? l i a h
theorem walk_all (c : Collab) (k : Stack) (hc : c.Ok) (hk : k.AttrOk) :
    ∀ (n : Nat) (s : State), s.WF → s.ble_service_cnt < U16 →
      s.ble_service_pos + n = s.ble_service_cnt →
      Pending s.ble_service_pos (tblList s.gatts_char) (tblList s.gatts_descr) →
      ∃ N sF, drive c k N (gatts_reg_app c s) = some sF ∧
        sF.log = s.log ++ (reqsFrom (fun _ => true)
          (serviceReq (tblList sF.gatts_char) (tblList sF.gatts_descr)) s.ble_service_pos
          ((tblList sF.gatts_service).drop s.ble_service_pos) ++ [.startAdvertizing true]) ∧
        sF.ble_service_pos = s.ble_service_cnt ∧
        (tblList sF.gatts_service).length = (tblList s.gatts_service).length ∧
        (∀ j, j < s.ble_service_pos →
          (tblList sF.gatts_service)[j]? = (tblList s.gatts_service)[j]?) ∧
        SameTbl sameChar (tblList s.gatts_char) (tblList sF.gatts_char) ∧
        SameTbl sameDescr (tblList s.gatts_descr) (tblList sF.gatts_descr) ∧
        (k.ServiceOk → Done s.ble_service_pos (tblList s.gatts_service) (tblList s.gatts_char)
            (tblList s.gatts_descr) →
          Done s.ble_service_cnt (tblList sF.gatts_service) (tblList sF.gatts_char)
            (tblList sF.gatts_descr)) ∧
        sF.WF ∧ WalkFrame s sF := by
  intro n
  induction n with
  | zero =>
    intro s hwf _ hpos _
    have hpc : s.ble_service_pos = s.ble_service_cnt := by omega
    have r0 : gatts_reg_app c s = s.emit (.startAdvertizing true) := by
      simp [gatts_reg_app, hpc]
    have hdrop : (tblList s.gatts_service).drop s.ble_service_pos = [] := by
      apply List.drop_eq_nil_of_le
      rw [tblList_length, hwf.1, hpc]
    refine ⟨0, s.emit (.startAdvertizing true), by rw [r0]; rfl, ?_, hpc, rfl, fun _ _ => rfl,
      sameTbl_refl _ sameChar_refl _, sameTbl_refl _ sameDescr_refl _, ?_, hwf, walkFrame_refl s⟩
    · show s.log ++ _ = s.log ++ (reqsFrom _ _ _ ((tblList s.gatts_service).drop _) ++ _)
      rw [hdrop]
      rfl
    · intro _ hD
      rw [← hpc]
      exact hD
  | succ n ih =>
    intro s hwf hcnt hpos hpend
    have hlt : s.ble_service_pos < s.ble_service_cnt := by omega
    obtain ⟨sC, svc, N1, b1, b2, b3, b4, b5, b6, b7, b8, b9, b10, b11⟩ :=
      walk_service c k hc hk s hwf hlt
    have hposC : sC.ble_service_pos = s.ble_service_pos + 1 := by
      rw [b5]
      exact Nat.mod_eq_of_lt (by omega)
    have hcntC : sC.ble_service_cnt = s.ble_service_cnt := b11.1
    obtain ⟨N2, sF, f1, f2, f3, f4, f5, f6, f7, f8, f9, f10⟩ := ih sC b10 (by omega) (by omega)
      (by rw [hposC]; exact pending_step _ _ _ _ _ hpend b6 b7)
    rw [hposC] at f2 f5 f8
    rw [hcntC] at f3 f8
    have hsc := sameTbl_trans _ sameChar_trans _ _ _ (upd_same _ _ _ _ _ b6) f6
    have hsd := sameTbl_trans _ sameDescr_trans _ _ _ (upd_same _ _ _ _ _ b7) f7
    have hsvcF : (tblList sF.gatts_service)[s.ble_service_pos]? = some svc := by
      rw [f5 _ (Nat.lt_succ_self _)]; exact b3
    refine ⟨N1 + N2, sF, ?_, ?_, f3, f4.trans b8, ?_, hsc, hsd, ?_, f9, walkFrame_trans b11 f10⟩
    · rw [drive_add, b1]
      exact f1
    · rw [f2, b2, drop_of_getElem? _ _ _ hsvcF]
      simp only [reqsFrom, if_true, serviceReq, charTrace_same _ _ _ _ _ _ hsc hsd,
        charTraceE_pending _ _ _ _ hpend, List.append_assoc]
    · intro j hj
      rw [f5 j (by omega), b9 j (by omega)]
    · intro hks hD
      exact f8 hks (done_step _ _ _ _ _ _ _ hD hpend b9
        (fun e he => by
          rw [b3] at he
          simp only [Option.some.injEq] at he
          subst he
          exact b4 hks) b6 b7)
theorem drive_done (c : Collab) (k : Stack) (s : State) (h : k.respond s.log = none) :
    ∀ m, drive c k m s = some s
  | 0 => rfl
  | m + 1 => by simp only [drive, h]

theorem walkTrace_same (st : List gatts_service_inst) (ct ct1 : List gatts_char_inst)
    (dt dt1 : List gatts_descr_inst) (hc : SameTbl sameChar ct ct1)
    (hd : SameTbl sameDescr dt dt1) : walkTrace st ct1 dt1 = walkTrace st ct dt := by
  unfold walkTrace
  congr 1
  apply reqsFrom_congr _ _ _ _ _ _ _ rfl
  intro j e e1 he he1
  rw [he] at he1
  simp only [Option.some.injEq] at he1
  subst he1
  simp only [serviceReq, charTrace_same _ _ _ _ _ _ hc hd]

theorem walk_from_zero (c : Collab) (k : Stack) (hc : c.Ok) (hk : k.AttrOk) (s : State)
    (hwf : s.WF) (hcnt : s.ble_service_cnt < U16) (hpos : s.ble_service_pos = 0)
    (hfresh : Fresh s) :
    ∃ N sF, (∀ fuel, N ≤ fuel → drive c k fuel (gatts_reg_app c s) = some sF) ∧
      sF.log = s.log ++ walkTrace (tblList sF.gatts_service) (tblList s.gatts_char)
        (tblList s.gatts_descr) ∧
      sF.ble_service_pos = s.ble_service_cnt ∧
      (tblList sF.gatts_service).length = s.ble_service_cnt ∧
      SameTbl sameChar (tblList s.gatts_char) (tblList sF.gatts_char) ∧
      SameTbl sameDescr (tblList s.gatts_descr) (tblList sF.gatts_descr) ∧
      (k.ServiceOk → Done s.ble_service_cnt (tblList sF.gatts_service) (tblList sF.gatts_char)
        (tblList sF.gatts_descr)) ∧
      sF.WF ∧ WalkFrame s sF := by
  have hpend : Pending s.ble_service_pos (tblList s.gatts_char) (tblList s.gatts_descr) :=
    ⟨fun j e he hne => absurd (hfresh.1 e (List.getElem?_mem he)) hne,
      fun j d hd hne => absurd (hfresh.2 d (List.getElem?_mem hd)) hne⟩
  obtain ⟨N, sF, f1, f2, f3, f4, _, f6, f7, f8, f9, f10⟩ :=
    walk_all c k hc hk s.ble_service_cnt s hwf hcnt (by omega) hpend
  rw [hpos] at f2 f8
  refine ⟨N, sF, ?_, ?_, f3, ?_, f6, f7, ?_, f9, f10⟩
  · intro fuel hfuel
    obtain ⟨m, rfl⟩ := Nat.exists_eq_add_of_le hfuel
    rw [drive_add, f1]
    apply drive_done
    rw [f2]
    simp [Stack.respond, Stack.answer]
  · rw [f2, List.drop_zero, ← walkTrace_same _ _ _ _ _ f6 f7]
    rfl
  · rw [f4, tblList_length]
    exact hwf.1
  · intro hks
    exact f8 hks ⟨fun j e hj _ => absurd hj (Nat.not_lt_zero j), fun j e _ hlt =>
      absurd hlt (Nat.not_lt_zero _), fun j d e _ _ hlt => absurd hlt (Nat.not_lt_zero _)⟩
theorem reqsFrom_countP_zero {α : Type} (f : Effect → Bool) (p : α → Bool)
    (r : Nat → α → List Effect) (h : ∀ i a, (r i a).countP f = 0) :
    ∀ (l : List α) (i : Nat), (reqsFrom p r i l).countP f = 0
  | [], _ => rfl
  | a :: l, i => by
    simp only [reqsFrom, List.countP_append, reqsFrom_countP_zero f p r h l (i + 1)]
    split
    · simp [h]
    · rfl

theorem reqsFrom_countP_one {α : Type} (f : Effect → Bool) (r : Nat → α → List Effect)
    (h : ∀ i a, (r i a).countP f = 1) :
    ∀ (l : List α) (i : Nat), (reqsFrom (fun _ => true) r i l).countP f = l.length
  | [], _ => rfl
  | a :: l, i => by
    simp only [reqsFrom, if_true, List.countP_append, reqsFrom_countP_one f r h l (i + 1), h,
      List.length_cons]
    omega

theorem walkTrace_app_register (st : List gatts_service_inst) (ct : List gatts_char_inst)
    (dt : List gatts_descr_inst) :
    (walkTrace st ct dt).countP Effect.isAppRegister = st.length := by
  unfold walkTrace
  rw [List.countP_append, reqsFrom_countP_one]
  · simp [Effect.isAppRegister]
  · intro i e
    have hd : ∀ h p, (descrTrace h p dt).countP Effect.isAppRegister = 0 := fun h p =>
      reqsFrom_countP_zero _ _ _ (fun _ _ => by simp [descrReq, Effect.isAppRegister]) _ _
    have hch : (charTrace e.service_handle i ct dt).countP Effect.isAppRegister = 0 :=
      reqsFrom_countP_zero _ _ _
        (fun _ _ => by simp [charReq, Effect.isAppRegister, hd]) _ _
    simp [serviceReq, List.countP_append, hch, Effect.isAppRegister, List.countP_cons]

/-- C2: when every stack call succeeds and every add request is answered OK with a non-zero
handle, the registration walk that `gatts_reg_app` starts at service position 0 over freshly
built tables (no handle assigned yet, as `fill_layout` shows of every layout the fill pass
builds) runs to its end within a bounded number of events, and the requests it appends to
the log are `walkTrace`: for each service in index order register, create and start, then
for each of its characteristics in position order one `add_char` followed by one
`add_char_descr` for each of its descriptors in position order; after the last service,
start advertising. Exactly one `app_register` is issued per service. -/
theorem registration_walk_requests (c : Collab) (k : Stack) (hc : c.Ok) (hk : k.AttrOk)
    (s : State) (hwf : s.WF) (hcnt : s.ble_service_cnt < U16) (hpos : s.ble_service_pos = 0)
    (hfresh : Fresh s) :
    ∃ N sF, (∀ fuel, N ≤ fuel → drive c k fuel (gatts_reg_app c s) = some sF) ∧
      sF.log = s.log ++ walkTrace (tblList sF.gatts_service) (tblList s.gatts_char)
        (tblList s.gatts_descr) ∧
      (tblList sF.gatts_service).length = s.ble_service_cnt ∧
      (walkTrace (tblList sF.gatts_service) (tblList s.gatts_char)
        (tblList s.gatts_descr)).countP Effect.isAppRegister = s.ble_service_cnt := by
  obtain ⟨N, sF, f1, f2, _, f4, _⟩ := walk_from_zero c k hc hk s hwf hcnt hpos hfresh
  exact ⟨N, sF, f1, f2, f4, by rw [walkTrace_app_register, f4]⟩

/-- C2 (witness): the walk over the tables built from `exampleServices`. -/
theorem registration_walk_requests_witness :
    ∃ N sF, (∀ fuel, N ≤ fuel → drive exampleCollab exampleStack fuel
        (gatts_reg_app exampleCollab (readyToRegister exampleServices)) = some sF) ∧
      sF.log = (readyToRegister exampleServices).log ++
        walkTrace (tblList sF.gatts_service)
          (tblList (readyToRegister exampleServices).gatts_char)
          (tblList (readyToRegister exampleServices).gatts_descr) ∧
      (tblList sF.gatts_service).length = (readyToRegister exampleServices).ble_service_cnt ∧
      (walkTrace (tblList sF.gatts_service)
        (tblList (readyToRegister exampleServices).gatts_char)
        (tblList (readyToRegister exampleServices).gatts_descr)).countP Effect.isAppRegister
        = (readyToRegister exampleServices).ble_service_cnt :=
  registration_walk_requests exampleCollab exampleStack (fun _ => rfl)
    (fun log => Nat.ne_of_gt (Nat.lt_of_lt_of_le (by decide) (Nat.le_add_right 100 log.length)))
    (readyToRegister exampleServices) ⟨by decide, by decide, by decide⟩ (by decide) rfl
    ⟨by decide, by decide⟩

/-- C3: when every stack call succeeds and every request is answered OK with a non-zero
handle, the registration walk over freshly built tables, in which every characteristic names
a service and every descriptor a characteristic of the tables (as `fill_layout` shows of
every layout the fill pass builds), ends in a state whose last request is start advertising
and whose service position equals the service count; there every service, characteristic
and descriptor entry has a non-zero handle. -/
theorem handles_nonzero_when_advertising (c : Collab) (k : Stack) (hc : c.Ok) (hk : k.AttrOk)
    (hks : k.ServiceOk) (s : State) (hwf : s.WF) (hcnt : s.ble_service_cnt < U16)
    (hpos : s.ble_service_pos = 0) (hfresh : Fresh s) (hlinked : Linked s) :
    ∃ N sF, (∀ fuel, N ≤ fuel → drive c k fuel (gatts_reg_app c s) = some sF) ∧
      sF.log.getLast? = some (.startAdvertizing true) ∧
      sF.ble_service_pos = sF.ble_service_cnt ∧
      tblLen sF.gatts_service = s.ble_service_cnt ∧ tblLen sF.gatts_char = s.ble_char_cnt ∧
      tblLen sF.gatts_descr = s.ble_descr_cnt ∧
      (∀ e ∈ tblList sF.gatts_service, e.service_handle ≠ 0) ∧
      (∀ e ∈ tblList sF.gatts_char, e.char_handle ≠ 0) ∧
      (∀ d ∈ tblList sF.gatts_descr, d.descr_handle ≠ 0) := by
  obtain ⟨N, sF, f1, f2, f3, f4, f5, f6, f7, f8, f9⟩ :=
    walk_from_zero c k hc hk s hwf hcnt hpos hfresh
  obtain ⟨hD1, hD2, hD3⟩ := f7 hks
  have hback : ∀ (j : Nat) (e1 : gatts_char_inst), (tblList sF.gatts_char)[j]? = some e1 →
      e1.service_pos < s.ble_service_cnt := by
    intro j e1 he1
    have hj : j < (tblList s.gatts_char).length := by
      rw [← f5.1]; exact (List.getElem?_eq_some.1 he1).1
    have hs := f5.2 j _ e1 (List.getElem?_eq_getElem hj) he1
    have hsp : e1.service_pos = ((tblList s.gatts_char)[j]).service_pos := by rw [hs]
    rw [hsp]
    exact hlinked.1 _ (List.getElem_mem _)
  refine ⟨N, sF, f1, ?_, ?_, ?_, ?_, ?_, ?_, ?_, ?_⟩
  · rw [f2]; simp [walkTrace]
  · rw [f3, f9.1]
  · rw [← tblList_length, f4]
  · rw [← tblList_length, f5.1, tblList_length, hwf.2.1]
  · rw [← tblList_length, f6.1, tblList_length, hwf.2.2]
  · intro e he
    obtain ⟨j, hj⟩ := List.mem_iff_getElem?.1 he
    have hlt : j < (tblList sF.gatts_service).length := (List.getElem?_eq_some.1 hj).1
    exact hD1 j e (by omega) hj
  · intro e he
    obtain ⟨j, hj⟩ := List.mem_iff_getElem?.1 he
    exact hD2 j e hj (hback j e hj)
  · intro d hd
    obtain ⟨j, hj⟩ := List.mem_iff_getElem?.1 hd
    have hj0 : j < (tblList s.gatts_descr).length := by
      rw [← f6.1]; exact (List.getElem?_eq_some.1 hj).1
    have hs := f6.2 j _ d (List.getElem?_eq_getElem hj0) hj
    have hcp : d.char_pos = ((tblList s.gatts_descr)[j]).char_pos := by rw [hs]
    have hlt : d.char_pos < (tblList sF.gatts_char).length := by
      rw [hcp, f5.1, tblList_length, hwf.2.1]
      exact hlinked.2 _ (List.getElem_mem _)
    exact hD3 j d _ hj (List.getElem?_eq_getElem hlt) (hback _ _ (List.getElem?_eq_getElem hlt))

/-- C3 (witness): the walk over the tables built from `exampleServices`. -/
theorem handles_nonzero_when_advertising_witness :
    ∃ N sF, (∀ fuel, N ≤ fuel → drive exampleCollab exampleStack fuel
        (gatts_reg_app exampleCollab (readyToRegister exampleServices)) = some sF) ∧
      sF.log.getLast? = some (.startAdvertizing true) ∧
      sF.ble_service_pos = sF.ble_service_cnt ∧
      tblLen sF.gatts_service = (readyToRegister exampleServices).ble_service_cnt ∧
      tblLen sF.gatts_char = (readyToRegister exampleServices).ble_char_cnt ∧
      tblLen sF.gatts_descr = (readyToRegister exampleServices).ble_descr_cnt ∧
      (∀ e ∈ tblList sF.gatts_service, e.service_handle ≠ 0) ∧
      (∀ e ∈ tblList sF.gatts_char, e.char_handle ≠ 0) ∧
      (∀ d ∈ tblList sF.gatts_descr, d.descr_handle ≠ 0) :=
  handles_nonzero_when_advertising exampleCollab exampleStack (fun _ => rfl)
    (fun log => Nat.ne_of_gt (Nat.lt_of_lt_of_le (by decide) (Nat.le_add_right 100 log.length)))
    (fun log => Nat.ne_of_gt (Nat.lt_of_lt_of_le (by decide) (Nat.le_add_right 40 log.length)))
    (readyToRegister exampleServices) ⟨by decide, by decide, by decide⟩ (by decide) rfl
    ⟨by decide, by decide⟩ ⟨by decide, by decide⟩

theorem specCharsAll_length (c : Collab) : ∀ (svcs : List (String × JsVar)) (j : Nat),
    (specCharsAll c j svcs).length = (allChars svcs).length
  | [], _ => rfl
  | (_, sv) :: rest, j => by
    simp only [specCharsAll, allChars, List.length_append, specChars_length,
      specCharsAll_length c rest (j + 1)]

theorem specCharsAll_entry (c : Collab) : ∀ (svcs : List (String × JsVar)) (j : Nat),
    ∀ e ∈ specCharsAll c j svcs,
      e.char_handle = 0 ∧ j ≤ e.service_pos ∧ e.service_pos < j + svcs.length
  | [], _, e, he => by simp [specCharsAll] at he
  | (_, sv) :: rest, j, e, he => by
    simp only [specCharsAll, List.mem_append] at he
    rcases he with he | he
    · simp only [specChars, List.mem_map] at he
      obtain ⟨kv, _, rfl⟩ := he
      refine ⟨rfl, Nat.le_refl j, ?_⟩
      show j < j + (rest.length + 1)
      omega
    · obtain ⟨h0, h1, h2⟩ := specCharsAll_entry c rest (j + 1) e he
      refine ⟨h0, by omega, ?_⟩
      show e.service_pos < j + (rest.length + 1)
      omega

theorem specDescrs_entry (i : Nat) (v : JsVar) :
    ∀ d ∈ specDescrs i v, d.descr_handle = 0 ∧ d.char_pos = i := by
  intro d hd
  simp only [specDescrs, List.mem_append] at hd
  rcases hd with hd | hd
  · split at hd
    · simp only [List.mem_singleton] at hd
      subst hd
      exact ⟨rfl, rfl⟩
    · simp at hd
  · split at hd
    · split at hd
      · simp only [List.mem_singleton] at hd
        subst hd
        exact ⟨rfl, rfl⟩
      · simp at hd
    · simp at hd

theorem specDescrsList_entry : ∀ (chars : List (String × JsVar)) (i : Nat),
    ∀ d ∈ specDescrsList i chars,
      d.descr_handle = 0 ∧ i ≤ d.char_pos ∧ d.char_pos < i + chars.length
  | [], _, d, hd => by simp [specDescrsList] at hd
  | (_, v) :: rest, i, d, hd => by
    simp only [specDescrsList, List.mem_append] at hd
    rcases hd with hd | hd
    · obtain ⟨h0, h1⟩ := specDescrs_entry i v d hd
      refine ⟨h0, by omega, ?_⟩
      show d.char_pos < i + (rest.length + 1)
      omega
    · obtain ⟨h0, h1, h2⟩ := specDescrsList_entry rest (i + 1) d hd
      refine ⟨h0, by omega, ?_⟩
      show d.char_pos < i + (rest.length + 1)
      omega

/-- For a description within the 16-bit counters, the state in which `gatts_set_services`
calls `gatts_reg_app` (tables counted and filled, cursors at 0) has tables of the counted
sizes, no handle yet, and every parent index inside its table. -/
theorem fill_layout (c : Collab) (s : State) (svcs : List (String × JsVar))
    (hsv : jsvChildren s.gatts_services = svcs)
    (h1 : svcs.length < U16) (h2 : (allChars svcs).length < U16)
    (h3 : (specDescrsList 0 (allChars svcs)).length < U16) :
    ∃ s1 s2, gatts_structs_init c (gatts_create_structs s) = some s1 ∧
      s2 = { s1 with ble_service_pos := 0, ble_char_pos := 0, ble_descr_pos := 0 } ∧
      s2.WF ∧ s2.ble_service_cnt < U16 ∧ s2.ble_service_pos = 0 ∧ Fresh s2 ∧ Linked s2 := by
  obtain ⟨s1, hf, ts, tc, td, ns, nc, nd, _⟩ := fill_spec c s svcs hsv h1 h2 h3
  refine ⟨s1, _, hf, rfl, ⟨?_, ?_, ?_⟩, ?_, rfl, ⟨?_, ?_⟩, ⟨?_, ?_⟩⟩
  · show tblLen s1.gatts_service = s1.ble_service_cnt
    rw [ts, ns]
    simp [tblLen, specServices]
  · show tblLen s1.gatts_char = s1.ble_char_cnt
    rw [tc, nc]
    simp [tblLen, specCharsAll_length]
  · show tblLen s1.gatts_descr = s1.ble_descr_cnt
    rw [td, nd]
    rfl
  · show s1.ble_service_cnt < U16
    rw [ns]; exact h1
  · intro e he
    have he2 : e ∈ tblList s1.gatts_char := he
    rw [tc] at he2
    exact (specCharsAll_entry c svcs 0 e he2).1
  · intro d hd
    have hd2 : d ∈ tblList s1.gatts_descr := hd
    rw [td] at hd2
    exact (specDescrsList_entry _ 0 d hd2).1
  · intro e he
    have he2 : e ∈ tblList s1.gatts_char := he
    rw [tc] at he2
    show e.service_pos < s1.ble_service_cnt
    rw [ns]
    have := (specCharsAll_entry c svcs 0 e he2).2.2
    omega
  · intro d hd
    have hd2 : d ∈ tblList s1.gatts_descr := hd
    rw [td] at hd2
    show d.char_pos < s1.ble_char_cnt
    rw [nc]
    have := (specDescrsList_entry _ 0 d hd2).2.2
    omega

theorem readyToRegister_exampleServices :
    gatts_set_services exampleCollab (some exampleServices) State.init
      = some (gatts_reg_app exampleCollab (readyToRegister exampleServices)) := rfl

theorem hiddenName_write_ne_value (p : Nat) :
    bleGetHiddenName .BLE_WRITE_EVENT p ≠ bleGetHiddenName .BLE_CHAR_VALUE p := by
  simp [bleGetHiddenName]

theorem writeChar_eq (pos : Nat) (value : List Nat) (s : State) :
    writeChar pos value s =
      match hiddenGet s.hiddenRoot (bleGetHiddenName .BLE_WRITE_EVENT pos) with
      | some writeCB =>
        { s with
          hiddenRoot := hiddenSet s.hiddenRoot (bleGetHiddenName .BLE_CHAR_VALUE pos)
            (jsvNewStringOfLength value),
          log := s.log ++ [.executeFunction (bleGetHiddenName .BLE_WRITE_EVENT pos) writeCB
            [.obj [("data", .arrayBuffer value)]]] }
      | none =>
        { s with
          hiddenRoot := hiddenSet s.hiddenRoot (bleGetHiddenName .BLE_CHAR_VALUE pos)
            (jsvNewStringOfLength value) } := by
  simp only [writeChar, hiddenGet_hiddenSet_other _ _ _ _ (hiddenName_write_ne_value pos)]
  cases hiddenGet s.hiddenRoot (bleGetHiddenName .BLE_WRITE_EVENT pos) <;> rfl

/-- C11: a peer WRITE of `b` to a handle that resolves to the characteristic `p` makes `b`
the stored value of `p`; when an `onWrite` callback is registered for `p` the handler
invokes it exactly once, with one argument, an object whose `data` child holds exactly the
bytes `b`, before it sends the response; when none is registered, the response is the only
effect. -/
theorem write_stores_value_and_calls_onWrite (c : Collab) (s : State) (hwf : s.WF)
    (p h gatts_if conn_id trans_id : Nat) (b : List Nat)
    (hp : charOfHandle h s = some p) :
    ∃ s1, gatts_event_handler c (.WRITE conn_id trans_id h b) gatts_if s = some s1 ∧
      (hiddenGet s1.hiddenRoot (bleGetHiddenName .BLE_CHAR_VALUE p)).map JSV_GET_AS_CHAR_ARRAY
        = some b ∧
      (∀ writeCB, hiddenGet s.hiddenRoot (bleGetHiddenName .BLE_WRITE_EVENT p) = some writeCB →
        ∃ evt, s1.log = s.log ++
            [.executeFunction (bleGetHiddenName .BLE_WRITE_EVENT p) writeCB [evt],
              .send_response gatts_if conn_id trans_id ESP_GATT_OK none] ∧
          (jsvObjectGetChild evt "data").map JSV_GET_AS_CHAR_ARRAY = some b) ∧
      (hiddenGet s.hiddenRoot (bleGetHiddenName .BLE_WRITE_EVENT p) = none →
        s1.log = s.log ++ [.send_response gatts_if conn_id trans_id ESP_GATT_OK none]) := by
  refine ⟨_, write_eq gatts_if conn_id trans_id h b s hwf, ?_, ?_, ?_⟩
  · have hr : (writeFinal h b s).hiddenRoot = hiddenSet s.hiddenRoot
        (bleGetHiddenName .BLE_CHAR_VALUE p) (jsvNewStringOfLength b) := by
      rw [(writeFinal_fields h b s).2.2.2.2.2.1]
      simp only [writePart, hp]
      exact (writeChar_tables p b s).2.2.2.2.2.2
    show (hiddenGet (writeFinal h b s).hiddenRoot _).map _ = _
    rw [hr, hiddenGet_hiddenSet_same]
    rfl
  · intro writeCB hcb
    refine ⟨.obj [("data", .arrayBuffer b)], ?_, rfl⟩
    show (writeFinal h b s).log ++ _ = _
    rw [(writeFinal_fields h b s).2.2.2.2.2.2.1]
    simp only [writePart, hp, writeChar_eq, hcb, List.append_assoc, List.singleton_append]
  · intro hcb
    show (writeFinal h b s).log ++ _ = _
    rw [(writeFinal_fields h b s).2.2.2.2.2.2.1]
    simp only [writePart, hp, writeChar_eq, hcb]

/-- C11 (witness): a WRITE of 1, 2, 3 to the characteristic of `onWriteService`, which has
an `onWrite` callback, after registration. -/
theorem write_stores_value_and_calls_onWrite_witness :
    ∃ s1, gatts_event_handler exampleCollab (.WRITE 1 2 104 [1, 2, 3]) 3
        (afterRegistration onWriteService) = some s1 ∧
      (hiddenGet s1.hiddenRoot (bleGetHiddenName .BLE_CHAR_VALUE 0)).map JSV_GET_AS_CHAR_ARRAY
        = some [1, 2, 3] ∧
      (∀ writeCB, hiddenGet (afterRegistration onWriteService).hiddenRoot
          (bleGetHiddenName .BLE_WRITE_EVENT 0) = some writeCB →
        ∃ evt, s1.log = (afterRegistration onWriteService).log ++
            [.executeFunction (bleGetHiddenName .BLE_WRITE_EVENT 0) writeCB [evt],
              .send_response 3 1 2 ESP_GATT_OK none] ∧
          (jsvObjectGetChild evt "data").map JSV_GET_AS_CHAR_ARRAY = some [1, 2, 3]) ∧
      (hiddenGet (afterRegistration onWriteService).hiddenRoot
          (bleGetHiddenName .BLE_WRITE_EVENT 0) = none →
        s1.log = (afterRegistration onWriteService).log ++
          [.send_response 3 1 2 ESP_GATT_OK none]) :=
  write_stores_value_and_calls_onWrite exampleCollab (afterRegistration onWriteService)
    ⟨by decide, by decide, by decide⟩ 0 104 3 1 2 [1, 2, 3] (by decide)
theorem descrOfHandle_emit (h : Nat) (s : State) (e : Effect) :
    descrOfHandle h (s.emit e) = descrOfHandle h s := rfl

theorem charOfHandle_emit (h : Nat) (s : State) (e : Effect) :
    charOfHandle h (s.emit e) = charOfHandle h s := rfl

/-- C12: a peer WRITE of `b` to a handle that resolves to the descriptor `q` and to no
characteristic replaces the stored value of `q` by `b` and leaves every other descriptor
entry, the characteristic table and every stored characteristic value as they were; a peer
READ of the same handle is then answered OK with payload exactly `b` (a WRITE event carries
at most `ESP_GATT_MAX_ATTR_LEN` bytes, the size of the value array of the response). -/
theorem descriptor_write_then_read (c : Collab) (s : State) (hwf : s.WF)
    (q h gatts_if conn_id trans_id conn_id2 trans_id2 : Nat) (b : List Nat)
    (hc : charOfHandle h s = none) (hq : descrOfHandle h s = some q) :
    ∃ s1,
      gatts_event_handler c (.WRITE conn_id trans_id h b) gatts_if s = some s1 ∧
      tblList s1.gatts_descr = modifyAt
        (fun d => { d with descrVal := some (jsvNewStringOfLength b) })
        (tblList s.gatts_descr) q ∧
      s1.gatts_char = s.gatts_char ∧ s1.hiddenRoot = s.hiddenRoot ∧
      (b.length ≤ ESP_GATT_MAX_ATTR_LEN →
        ∃ s2 rsp, gatts_event_handler c (.READ conn_id2 trans_id2 h) gatts_if s1 = some s2 ∧
          s2.log = s1.log ++
            [.send_response gatts_if conn_id2 trans_id2 ESP_GATT_OK (some rsp)] ∧
          rsp.payload = b ∧ rsp.len = b.length) := by
  have hw := write_eq gatts_if conn_id trans_id h b s hwf
  obtain ⟨f1, f2, f3, f4, f5, f6, f7, f8⟩ := writeFinal_fields h b s
  have hpart : writePart h b s = s := by simp only [writePart, hc]
  obtain ⟨s1, hs1⟩ : ∃ s1, s1 = (writeFinal h b s).emit
      (.send_response gatts_if conn_id trans_id ESP_GATT_OK none) := ⟨_, rfl⟩
  rw [← hs1] at hw
  have hwf1 : s1.WF := by rw [hs1]; exact emit_wf _ _ (writeFinal_wf h b s hwf)
  have hd1 : tblList s1.gatts_descr
      = modifyAt (fun d => { d with descrVal := some (jsvNewStringOfLength b) })
        (tblList s.gatts_descr) q := by
    rw [hs1]
    show tblList (writeFinal h b s).gatts_descr = _
    rw [f8]
    simp only [writeDescr, hq]
    rfl
  have hc1 : charOfHandle h s1 = none := by
    rw [hs1, charOfHandle_emit]
    unfold charOfHandle
    rw [f1]
    exact hc
  have hq1 : descrOfHandle h s1 = some q := by
    rw [hs1, descrOfHandle_emit]
    unfold descrOfHandle
    rw [f8, descrOfHandle_writeDescr]
    exact hq
  obtain ⟨d, hd, _⟩ := firstIdx_sat _ _ _ hq
  have hget : (tblList s1.gatts_descr)[q]?
      = some { d with descrVal := some (jsvNewStringOfLength b) } := by
    rw [hd1, getElem?_modifyAt_self _ _ _ _ hd]
  have hrp : readPart h s1 = (emptyRsp h, s1) := by simp only [readPart, hc1]
  refine ⟨s1, hw, hd1, ?_, ?_, ?_⟩
  · rw [hs1]; exact f1
  · rw [hs1]
    show (writeFinal h b s).hiddenRoot = _
    rw [f6, hpart]
  · intro hb
    have hfits : readFits h s1 = true := by
      unfold readFits readCharValue readDescrValue
      rw [hc1, hq1]
      simp only [hget, Option.bind]
      rw [jsvNewStringOfLength_fits b hb]
      rfl
    have hr := read_eq gatts_if conn_id2 trans_id2 h s1 hwf1 hfits
    refine ⟨_, readFinal h s1, hr, ?_, ?_, ?_⟩
    · rw [hrp]
      rfl
    · simp only [readFinal, hq1, hget, readDescrOk]
      exact (copied_str b _).1
    · simp only [readFinal, hq1, hget, readDescrOk]
      exact (copied_str b _).2

/-- C12 (witness): a WRITE of 9, 8 to the description descriptor of `exampleServices`
(handle 110) after registration, and the READ that follows. -/
theorem descriptor_write_then_read_witness :
    ∃ s1,
      gatts_event_handler exampleCollab (.WRITE 1 2 110 [9, 8]) 3
        (afterRegistration exampleServices) = some s1 ∧
      tblList s1.gatts_descr = modifyAt
        (fun d => { d with descrVal := some (jsvNewStringOfLength [9, 8]) })
        (tblList (afterRegistration exampleServices).gatts_descr) 1 ∧
      s1.gatts_char = (afterRegistration exampleServices).gatts_char ∧
      s1.hiddenRoot = (afterRegistration exampleServices).hiddenRoot ∧
      ∃ s2 rsp, gatts_event_handler exampleCollab (.READ 1 3 110) 3 s1 = some s2 ∧
        s2.log = s1.log ++ [.send_response 3 1 3 ESP_GATT_OK (some rsp)] ∧
        rsp.payload = [9, 8] ∧ rsp.len = [9, 8].length := by
  obtain ⟨s1, h1, h2, h3, h4, h5⟩ := descriptor_write_then_read exampleCollab
    (afterRegistration exampleServices) ⟨by decide, by decide, by decide⟩ 1 110 3 1 2 1 3
    [9, 8] (by decide) (by decide)
  exact ⟨s1, h1, h2, h3, h4, h5 (by decide)⟩

/-- When the values copied for the handle fit the value array, the length field of the
response to a peer READ is at most `ESP_GATT_MAX_ATTR_LEN` and the value array keeps its
size: no byte is stored outside it. -/
theorem read_response_within_limit (c : Collab) (s : State) (hwf : s.WF)
    (h gatts_if conn_id trans_id : Nat) (hfit : readFits h s = true) :
    ∃ s1 rsp, gatts_event_handler c (.READ conn_id trans_id h) gatts_if s = some s1 ∧
      s1.log = (readPart h s).2.log ++
        [.send_response gatts_if conn_id trans_id ESP_GATT_OK (some rsp)] ∧
      rsp.len ≤ ESP_GATT_MAX_ATTR_LEN ∧ rsp.value.length = ESP_GATT_MAX_ATTR_LEN := by
  refine ⟨_, readFinal h s, read_eq gatts_if conn_id trans_id h s hwf hfit, rfl, ?_⟩
  simp only [readFits, Bool.and_eq_true] at hfit
  obtain ⟨hfc, hfd⟩ := hfit
  have hlenP := readPart_value_length h s hfc
  have hlenL : (readPart h s).1.len ≤ ESP_GATT_MAX_ATTR_LEN := by
    unfold readPart
    unfold readCharValue at hfc
    cases hc : charOfHandle h s with
    | none => simp [emptyRsp]
    | some p =>
      simp only [hc] at hfc ⊢
      unfold readCharOk
      unfold charValueAt at hfc
      cases hcb : hiddenGet s.hiddenRoot (bleGetHiddenName .BLE_READ_EVENT p) with
      | some cb =>
        simp only [hcb] at hfc ⊢
        cases hv : jspExecuteFunction cb with
        | none => simp [emptyRsp]
        | some v =>
          simp only [hv] at hfc ⊢
          exact (valueFits_some v).1 hfc
      | none =>
        simp only [hcb] at hfc ⊢
        cases hv : hiddenGet s.hiddenRoot (bleGetHiddenName .BLE_CHAR_VALUE p) with
        | none => simp [emptyRsp]
        | some v =>
          simp only [hv] at hfc ⊢
          exact (valueFits_some v).1 hfc
  unfold readFinal
  unfold readDescrValue at hfd
  cases hq : descrOfHandle h s with
  | none => exact ⟨hlenL, hlenP⟩
  | some q =>
    simp only [hq] at hfd ⊢
    cases hg : (tblList s.gatts_descr)[q]? with
    | none => exact ⟨hlenL, hlenP⟩
    | some d =>
      simp only [hg, Option.bind] at hfd ⊢
      unfold readDescrOk
      cases hv : d.descrVal with
      | none => exact ⟨hlenL, hlenP⟩
      | some v =>
        simp only [hv] at hfd ⊢
        have hle := (valueFits_some v).1 hfd
        exact ⟨hle, by rw [copied_value_length v _ (by rw [hlenP]; exact hle)]; exact hlenP⟩

theorem stackCall_err (c : Collab) (req : Effect) (msg : String) (s : State)
    (h : c.esp req ≠ 0) :
    stackCall c req msg s = { s with log := s.log ++ [req, .jsWarn msg (c.esp req)] } := by
  simp [stackCall, h, State.emit]

/-- C13 (amended): when `esp_ble_gatts_add_char` (or `esp_ble_gatts_add_char_descr`) for
the element at position `q` returns a non-zero error, the driver logs a warning and
returns: it has made `q` the current position, leaves the tables as they were and issues no
further request; and an ADD_CHAR or ADD_CHAR_DESCR event whose status is not OK changes
nothing and issues no request. -/
theorem add_error_warns_and_returns (c : Collab) (s : State) (hwf : s.WF)
    (svc : gatts_service_inst)
    (hsvc : tblGet s.gatts_service s.ble_service_pos = some svc) :
    (∀ q e, firstIdx (fun e : gatts_char_inst => e.service_pos == s.ble_service_pos &&
          e.char_handle == 0) (tblList s.gatts_char) = some q →
        (tblList s.gatts_char)[q]? = some e →
        c.esp (.add_char svc.service_handle q e.char_perm e.char_property) ≠ 0 →
        gatts_add_char c s = some { s with ble_char_pos := q, log := s.log ++ [.add_char svc.service_handle q e.char_perm e.char_property, .jsWarn "add char error:%d\n" (c.esp (.add_char svc.service_handle q e.char_perm e.char_property))] }) ∧
    (∀ q d, firstIdx (fun e : gatts_descr_inst => e.descr_handle == 0 &&
          e.char_pos == s.ble_char_pos) (tblList s.gatts_descr) = some q →
        (tblList s.gatts_descr)[q]? = some d →
        c.esp (.add_char_descr svc.service_handle q d.descr_perm) ≠ 0 →
        gatts_add_descr c s = some { s with ble_descr_pos := q, log := s.log ++ [.add_char_descr svc.service_handle q d.descr_perm, .jsWarn "add descr error:%d\n" (c.esp (.add_char_descr svc.service_handle q d.descr_perm))] }) ∧
    (∀ status attr_handle gatts_if, status ≠ ESP_GATT_OK →
      gatts_event_handler c (.ADD_CHAR status attr_handle) gatts_if s = some s ∧
      gatts_event_handler c (.ADD_CHAR_DESCR status attr_handle) gatts_if s = some s) := by
  obtain ⟨_, hcw, hdw⟩ := hwf
  refine ⟨?_, ?_, ?_⟩
  · intro q e hq he hne
    simp only [gatts_add_char, scan_eq _ _ _ hcw, hq, hsvc, tblGet_eq, he,
      stackCall_err c _ _ _ hne]
  · intro q d hq hd hne
    simp only [gatts_add_descr, scan_eq _ _ _ hdw, hq, hsvc, tblGet_eq, hd,
      stackCall_err c _ _ _ hne]
  · intro status attr_handle gatts_if hst
    simp [gatts_event_handler, hst]

/-- C13 (counterexample): when `esp_ble_gatts_add_char` returns the error 5 for the first
characteristic of `exampleServices`, the walk issues that one `add_char` for the three
characteristics, logs the warning and ends there: the stack has no request left to answer,
nothing started advertising, and an ADD_CHAR event reporting the failure adds no request. -/
theorem add_char_error_stops_the_walk :
    (readyToRegister exampleServices).ble_char_cnt = 3 ∧
    (drive addCharFails exampleStack 64
      (gatts_reg_app addCharFails (readyToRegister exampleServices))).map
      (fun s => (s.log.countP Effect.isAddChar, s.log.countP Effect.isStartAdvertizing,
        s.log.length, (exampleStack.respond s.log).isNone)) = some (1, 0, 5, true) ∧
    ((drive addCharFails exampleStack 64
      (gatts_reg_app addCharFails (readyToRegister exampleServices))).bind
      (gatts_event_handler addCharFails (.ADD_CHAR 1 0) 3)).map
      (fun s => (s.log.countP Effect.isAddChar, s.log.countP Effect.isStartAdvertizing,
        s.log.length)) = some (1, 0, 5) := by
  refine ⟨by decide, by decide, by decide⟩

/-- C13 (witness): the tables built from `exampleServices`, with `addCharFails`. -/
theorem add_error_warns_and_returns_witness :
    ∃ svc, tblGet (readyToRegister exampleServices).gatts_service
        (readyToRegister exampleServices).ble_service_pos = some svc ∧
    ((∀ q e, firstIdx (fun e : gatts_char_inst =>
          e.service_pos == (readyToRegister exampleServices).ble_service_pos &&
          e.char_handle == 0) (tblList (readyToRegister exampleServices).gatts_char) = some q →
        (tblList (readyToRegister exampleServices).gatts_char)[q]? = some e →
        addCharFails.esp (.add_char svc.service_handle q e.char_perm e.char_property) ≠ 0 →
        gatts_add_char addCharFails (readyToRegister exampleServices) = some { readyToRegister exampleServices with ble_char_pos := q, log := (readyToRegister exampleServices).log ++ [.add_char svc.service_handle q e.char_perm e.char_property, .jsWarn "add char error:%d\n" (addCharFails.esp (.add_char svc.service_handle q e.char_perm e.char_property))] }) ∧
    (∀ q d, firstIdx (fun e : gatts_descr_inst => e.descr_handle == 0 &&
          e.char_pos == (readyToRegister exampleServices).ble_char_pos)
          (tblList (readyToRegister exampleServices).gatts_descr) = some q →
        (tblList (readyToRegister exampleServices).gatts_descr)[q]? = some d →
        addCharFails.esp (.add_char_descr svc.service_handle q d.descr_perm) ≠ 0 →
        gatts_add_descr addCharFails (readyToRegister exampleServices) = some { readyToRegister exampleServices with ble_descr_pos := q, log := (readyToRegister exampleServices).log ++ [.add_char_descr svc.service_handle q d.descr_perm, .jsWarn "add descr error:%d\n" (addCharFails.esp (.add_char_descr svc.service_handle q d.descr_perm))] }) ∧
    (∀ status attr_handle gatts_if, status ≠ ESP_GATT_OK →
      gatts_event_handler addCharFails (.ADD_CHAR status attr_handle) gatts_if
        (readyToRegister exampleServices) = some (readyToRegister exampleServices) ∧
      gatts_event_handler addCharFails (.ADD_CHAR_DESCR status attr_handle) gatts_if
        (readyToRegister exampleServices) = some (readyToRegister exampleServices))) :=
  ⟨_, rfl, add_error_warns_and_returns addCharFails (readyToRegister exampleServices)
    ⟨by decide, by decide, by decide⟩ _ rfl⟩
theorem stackCall_added (c : Collab) (req : Effect) (msg : String) (s : State) :
    ∃ w, (stackCall c req msg s).log = s.log ++ req :: w ∧
      w.countP Effect.isRegistrationRequest = 0 := by
  unfold stackCall
  split
  · exact ⟨[], rfl, rfl⟩
  · exact ⟨[.jsWarn msg (c.esp req)], by simp [State.emit], rfl⟩

theorem gatts_reg_app_added (c : Collab) (s : State) :
    ∃ added, (gatts_reg_app c s).log = s.log ++ added ∧
      added.countP Effect.isRegistrationRequest ≤ 1 := by
  unfold gatts_reg_app
  split
  · obtain ⟨w, hw, h0⟩ := stackCall_added c (.app_register s.ble_service_pos)
      "app_register error:%d\n" s
    exact ⟨_, hw, by simp [List.countP_cons, h0, Effect.isRegistrationRequest]⟩
  · exact ⟨[.startAdvertizing true], rfl, by simp [List.countP_cons, Effect.isRegistrationRequest]⟩

theorem gatts_add_char_added (c : Collab) (s s1 : State) (h : gatts_add_char c s = some s1) :
    ∃ added, s1.log = s.log ++ added ∧ added.countP Effect.isRegistrationRequest ≤ 1 := by
  unfold gatts_add_char at h
  split at h
  · simp at h
  · split at h
    · rename_i svc ch _ _
      simp only [Option.some.injEq] at h
      subst h
      obtain ⟨w, hw, h0⟩ := stackCall_added c
        (.add_char svc.service_handle _ ch.char_perm ch.char_property) "add char error:%d\n"
        { s with ble_char_pos := _ }
      exact ⟨_, hw, by simp [List.countP_cons, h0, Effect.isRegistrationRequest]⟩
    · simp at h
  · simp only [Option.some.injEq] at h
    subst h
    exact gatts_reg_app_added c { s with ble_service_pos := (s.ble_service_pos + 1) % U16 }

theorem gatts_add_descr_added (c : Collab) (s s1 : State) (h : gatts_add_descr c s = some s1) :
    ∃ added, s1.log = s.log ++ added ∧ added.countP Effect.isRegistrationRequest ≤ 1 := by
  unfold gatts_add_descr at h
  split at h
  · simp at h
  · split at h
    · rename_i svc d _ _
      simp only [Option.some.injEq] at h
      subst h
      obtain ⟨w, hw, h0⟩ := stackCall_added c
        (.add_char_descr svc.service_handle _ d.descr_perm) "add descr error:%d\n"
        { s with ble_descr_pos := _ }
      exact ⟨_, hw, by simp [List.countP_cons, h0, Effect.isRegistrationRequest]⟩
    · simp at h
  · exact gatts_add_char_added c { s with ble_char_pos := (s.ble_char_pos + 1) % U16 } s1 h

theorem emit_added (base pre : List Effect) (s : State) (e : Effect)
    (hpre : s.log = base ++ pre) (h0 : pre.countP Effect.isRegistrationRequest = 0)
    (he : e.isRegistrationRequest = false) :
    ∃ added, (s.emit e).log = base ++ added ∧
      added.countP Effect.isRegistrationRequest = 0 :=
  ⟨pre ++ [e], by simp [State.emit, hpre], by simp [List.countP_append, h0, he]⟩

theorem readChar_added (pos : Nat) (rsp : esp_gatt_rsp_t) (s : State)
    (r1 : esp_gatt_rsp_t × State) (h : readChar pos rsp s = some r1) :
    ∃ pre, r1.2.log = s.log ++ pre ∧ pre.countP Effect.isRegistrationRequest = 0 := by
  unfold readChar at h
  simp only [] at h
  split at h
  · rename_i cb _
    split at h
    · split at h
      · exact Option.noConfusion h
      · cases h
        exact ⟨[.executeFunction (bleGetHiddenName .BLE_READ_EVENT pos) cb []], rfl, rfl⟩
    · cases h
      exact ⟨[.executeFunction (bleGetHiddenName .BLE_READ_EVENT pos) cb []], rfl, rfl⟩
  · split at h
    · split at h
      · exact Option.noConfusion h
      · cases h
        exact ⟨[], by simp, rfl⟩
    · cases h
      exact ⟨[], by simp, rfl⟩

theorem writeChar_added (pos : Nat) (value : List Nat) (s : State) :
    ∃ pre, (writeChar pos value s).log = s.log ++ pre ∧
      pre.countP Effect.isRegistrationRequest = 0 := by
  rw [writeChar_eq]
  split
  · exact ⟨_, rfl, rfl⟩
  · exact ⟨[], by simp, rfl⟩

theorem read_added (gatts_if conn_id trans_id handle : Nat) (s s1 : State)
    (h : gatts_read_value_handler gatts_if conn_id trans_id handle s = some s1) :
    ∃ added, s1.log = s.log ++ added ∧ added.countP Effect.isRegistrationRequest = 0 := by
  unfold gatts_read_value_handler at h
  simp only [] at h
  split at h
  · exact Option.noConfusion h
  · rename_i cm _
    split at h
    · exact Option.noConfusion h
    · rename_i r1 hr1
      have hr : ∃ pre, r1.2.log = s.log ++ pre ∧
          pre.countP Effect.isRegistrationRequest = 0 := by
        cases cm with
        | some pos => exact readChar_added pos _ s r1 hr1
        | none =>
          simp only [Option.some.injEq] at hr1
          rw [← hr1]
          exact ⟨[], by simp, rfl⟩
      obtain ⟨pre, hpre, h0⟩ := hr
      split at h
      · exact Option.noConfusion h
      · simp only [Option.some.injEq] at h
        subst h
        exact emit_added _ _ _ _ hpre h0 rfl
      · split at h
        · exact Option.noConfusion h
        · split at h
          · exact Option.noConfusion h
          · simp only [Option.some.injEq] at h
            subst h
            exact emit_added _ _ _ _ hpre h0 rfl

theorem write_added (gatts_if conn_id trans_id handle : Nat) (value : List Nat) (s s1 : State)
    (h : gatts_write_value_handler gatts_if conn_id trans_id handle value s = some s1) :
    ∃ added, s1.log = s.log ++ added ∧ added.countP Effect.isRegistrationRequest = 0 := by
  unfold gatts_write_value_handler at h
  simp only [] at h
  split at h
  · simp at h
  · rename_i cm _
    have hr : ∃ pre, (match cm with
        | some pos => writeChar pos value s
        | none => s).log = s.log ++ pre ∧
        pre.countP Effect.isRegistrationRequest = 0 := by
      cases cm with
      | some pos => exact writeChar_added pos value s
      | none => exact ⟨[], by simp, rfl⟩
    obtain ⟨pre, hpre, h0⟩ := hr
    split at h
    · simp at h
    · simp only [Option.some.injEq] at h
      subst h
      exact emit_added _ _ _ _ hpre h0 rfl
    · split at h
      · simp at h
      · simp only [Option.some.injEq] at h
        subst h
        exact emit_added _ _ _ _ hpre h0 rfl
theorem stackCall_added_le (c : Collab) (req : Effect) (msg : String) (s : State)
    (base : List Effect) (hb : s.log = base) :
    ∃ added, (stackCall c req msg s).log = base ++ added ∧
      added.countP Effect.isRegistrationRequest ≤ 1 := by
  obtain ⟨w, hw, h0⟩ := stackCall_added c req msg s
  refine ⟨req :: w, by rw [hw, hb], ?_⟩
  rw [List.countP_cons, h0]
  split <;> omega

/-- Handling one inbound stack event, whatever the event and the state, appends to the log
at most one registration request (register, create, start, add characteristic, add
descriptor or start advertising). -/
theorem handler_issues_at_most_one_request (c : Collab) (event : Event) (gatts_if : Nat)
    (s s1 : State) (h : gatts_event_handler c event gatts_if s = some s1) :
    ∃ added, s1.log = s.log ++ added ∧ added.countP Effect.isRegistrationRequest ≤ 1 := by
  cases event with
  | REG app_id =>
    simp only [gatts_event_handler, gatts_createService] at h
    split at h
    · simp at h
    · split at h
      · simp at h
      · simp only [Option.some.injEq] at h
        subst h
        exact stackCall_added_le c _ _ _ _ rfl
  | CREATE service_handle =>
    simp only [gatts_event_handler] at h
    split at h
    · simp at h
    · split at h
      · simp at h
      · simp only [Option.some.injEq] at h
        subst h
        exact ⟨[_], rfl, by simp [List.countP_cons, Effect.isRegistrationRequest]⟩
  | ADD_CHAR status attr_handle =>
    simp only [gatts_event_handler, gatts_check_add_char] at h
    split at h
    · split at h
      · split at h
        · simp at h
        · have := gatts_add_descr_added c _ s1 h
          exact this
      · simp only [Option.some.injEq] at h
        subst h
        exact ⟨[], by simp, by simp⟩
    · simp only [Option.some.injEq] at h
      subst h
      exact ⟨[], by simp, by simp⟩
  | START =>
    exact gatts_add_char_added c s s1 h
  | DISCONNECT remote_bda =>
    simp only [gatts_event_handler, Option.some.injEq] at h
    subst h
    exact ⟨[.startAdvertizing true, .emitNRFEvent BLE_DISCONNECT_EVENT remote_bda],
      by simp [State.emit], by simp [List.countP_cons, Effect.isRegistrationRequest]⟩
  | ADD_CHAR_DESCR status attr_handle =>
    simp only [gatts_event_handler, gatts_check_add_descr] at h
    split at h
    · split at h
      · split at h
        · simp at h
        · have := gatts_add_descr_added c _ s1 h
          exact this
      · exact gatts_add_descr_added c _ s1 h
    · simp only [Option.some.injEq] at h
      subst h
      exact ⟨[], by simp, by simp⟩
  | CONNECT conn_id remote_bda =>
    simp only [gatts_event_handler] at h
    split at h
    · simp at h
    · simp only [Option.some.injEq] at h
      subst h
      exact ⟨[_], rfl, by simp [List.countP_cons, Effect.isRegistrationRequest]⟩
  | READ conn_id trans_id handle =>
    obtain ⟨added, h1, h2⟩ := read_added gatts_if conn_id trans_id handle s s1 h
    exact ⟨added, h1, by omega⟩
  | WRITE conn_id trans_id handle value =>
    obtain ⟨added, h1, h2⟩ := write_added gatts_if conn_id trans_id handle value s s1 h
    exact ⟨added, h1, by omega⟩
  | DELETE =>
    simp only [gatts_event_handler, gatts_delete_service] at h
    split at h
    · simp at h
    · split at h
      · simp at h
      · simp only [Option.some.injEq] at h
        subst h
        exact stackCall_added_le c _ _ _ _ rfl
  | UNREG =>
    simp only [gatts_event_handler, gatts_unreg_app] at h
    split at h
    · simp at h
    · split at h
      · simp at h
      · split at h
        · simp at h
        · simp only [Option.some.injEq] at h
          subst h
          exact ⟨[], by simp, by simp⟩
        · simp only [Option.some.injEq] at h
          subst h
          exact ⟨[], by simp, by simp⟩
  | other =>
    simp only [gatts_event_handler, Option.some.injEq] at h
    subst h
    exact ⟨[], by simp, by simp⟩

theorem stackCall_eq (c : Collab) (req : Effect) (msg : String) (s : State) :
    stackCall c req msg s = { s with log := s.log ++ callTrace c req msg } := by
  unfold stackCall callTrace
  split <;> simp [State.emit]

theorem resetLoop_spec (c : Collab) : ∀ (n i : Nat) (s : State),
    i + n ≤ (tblList s.gatts_service).length →
    resetLoop c n i s
      = some { s with log := s.log ++ resetTrace c (((tblList s.gatts_service).drop i).take n) }
  | 0, i, s, _ => by simp [resetLoop, resetTrace]
  | n + 1, i, s, h => by
    have hi : i < (tblList s.gatts_service).length := by omega
    have hget : (tblList s.gatts_service)[i]? = some ((tblList s.gatts_service)[i]) :=
      List.getElem?_eq_getElem hi
    have hdrop := drop_of_getElem? _ _ _ hget
    simp only [resetLoop, tblGet_eq, hget, hdrop, List.take_succ_cons, resetTrace]
    split
    · rw [resetLoop_spec c n (i + 1) _ (by
        rw [stackCall_eq]
        show i + 1 + n ≤ (tblList s.gatts_service).length
        omega)]
      simp only [stackCall_eq, List.append_assoc]
    · rw [resetLoop_spec c n (i + 1) s (by omega)]
      simp

theorem gatts_reset_spec (c : Collab) (removeValues : Bool) (s : State) (hwf : s.WF) :
    gatts_reset c removeValues s = some { s with removeValues := removeValues, log := s.log ++ resetTrace c (tblList s.gatts_service) } := by
  have hlen : (tblList s.gatts_service).length = s.ble_service_cnt := by
    rw [tblList_length]; exact hwf.1
  unfold gatts_reset
  simp only []
  split
  · rw [resetLoop_spec c _ 0 _ (by simp [hlen])]
    simp only [List.drop_zero]
    rw [List.take_of_length_le (by simp [hlen])]
  · have h0 : s.ble_service_cnt = 0 := by
      rename_i hgt
      simp only [gt_iff_lt, not_lt, Nat.le_zero_eq] at hgt
      exact hgt
    have hnil : tblList s.gatts_service = [] := by
      apply List.eq_nil_of_length_eq_zero
      rw [hlen, h0]
    simp [hnil, resetTrace]
theorem hiddenSetIf_log (v : Option JsVar) (n : HiddenName) (s : State) :
    (hiddenSetIf v n s).log = s.log := by
  cases v <;> rfl

theorem charInitNotify_log (v : JsVar) (s s1 : State) (h : charInitNotify v s = some s1) :
    s1.log = s.log := by
  unfold charInitNotify at h
  split at h
  · simp only [] at h
    split at h
    · simp at h
    · simp only [Option.some.injEq] at h
      subst h
      rfl
  · simp only [Option.some.injEq] at h
    subst h
    rfl

theorem charInitDescription_log (v : JsVar) (s s1 : State)
    (h : charInitDescription v s = some s1) : s1.log = s.log := by
  unfold charInitDescription at h
  split at h
  · split at h
    · simp only [] at h
      split at h
      · simp at h
      · simp only [Option.some.injEq] at h
        subst h
        rfl
    · simp only [Option.some.injEq] at h
      subst h
      rfl
  · simp only [Option.some.injEq] at h
    subst h
    rfl

theorem charInitEntry_log (c : Collab) (key : String) (v : JsVar) (s s1 : State)
    (h : charInitEntry c key v s = some s1) : s1.log = s.log ++ charKeyTrace c key := by
  unfold charInitEntry at h
  simp only [] at h
  unfold charKeyTrace
  split at h
  · simp at h
  · split at h
    · rename_i e he
      simp only [Option.some.injEq] at h
      subst h
      simp only [he, State.emit]
    · rename_i he
      simp only [Option.some.injEq] at h
      subst h
      simp only [he, List.append_nil]

theorem gatts_char_init_log (c : Collab) (key : String) (v : JsVar) (s s1 : State)
    (h : gatts_char_init c key v s = some s1) : s1.log = s.log ++ charKeyTrace c key := by
  unfold gatts_char_init at h
  split at h
  · simp at h
  · rename_i s2 h2
    split at h
    · simp at h
    · rename_i s5 h5
      split at h
      · simp at h
      · rename_i s6 h6
        simp only [Option.some.injEq] at h
        subst h
        simp only [charInitValue, hiddenSetIf_log, charInitDescription_log _ _ _ h6,
          charInitNotify_log _ _ _ h5, charInitCallbacks, charInitEntry_log _ _ _ _ _ h2]

theorem charLoop_log (c : Collab) : ∀ (chars : List (String × JsVar)) (handles : Nat)
    (s : State) (r : Nat × State), charLoop c chars handles s = some r →
    r.2.log = s.log ++ charsTrace c chars
  | [], handles, s, r, h => by
    simp only [charLoop, Option.some.injEq] at h
    subst h
    simp [charsTrace]
  | (key, v) :: rest, handles, s, r, h => by
    simp only [charLoop] at h
    split at h
    · simp at h
    · rename_i s1 h1
      rw [charLoop_log c rest _ s1 r h, gatts_char_init_log c key v _ s1 h1]
      simp [charsTrace]

theorem serviceInitHead_log (c : Collab) (key : String) (s s1 : State)
    (h : serviceInitHead c key s = some s1) : s1.log = s.log ++ serviceKeyTrace c key := by
  unfold serviceInitHead at h
  simp only [] at h
  unfold serviceKeyTrace
  split at h
  · simp at h
  · split at h
    · simp at h
    · split at h
      · simp at h
      · split at h
        · simp at h
        · simp only [Option.some.injEq] at h
          subst h
          cases he : (c.bleVarToUUID key).errorStr <;> simp [State.emit]

theorem gatts_service_struct_init_log (c : Collab) (key : String) (sv : JsVar) (s s1 : State)
    (h : gatts_service_struct_init c key sv s = some s1) :
    s1.log = s.log ++ (serviceKeyTrace c key ++ charsTrace c (jsvChildren (some sv))) := by
  unfold gatts_service_struct_init at h
  split at h
  · simp at h
  · rename_i s3 h3
    split at h
    · simp at h
    · rename_i hd s4 h4
      split at h
      · simp at h
      · simp only [Option.some.injEq] at h
        subst h
        have := charLoop_log c _ _ _ _ h4
        simp only at this
        show s4.log = _
        rw [this, serviceInitHead_log c key s s3 h3, List.append_assoc]

theorem serviceLoop_log (c : Collab) : ∀ (svcs : List (String × JsVar)) (s s1 : State),
    serviceLoop c svcs s = some s1 → s1.log = s.log ++ fillTrace c svcs
  | [], s, s1, h => by
    simp only [serviceLoop, Option.some.injEq] at h
    subst h
    simp [fillTrace]
  | (key, sv) :: rest, s, s1, h => by
    simp only [serviceLoop] at h
    split at h
    · simp at h
    · rename_i s2 h2
      rw [serviceLoop_log c rest s2 s1 h, gatts_service_struct_init_log c key sv _ s2 h2]
      simp [fillTrace]

theorem countChars_log : ∀ (chars : List (String × JsVar)) (s : State),
    (countChars chars s).log = s.log
  | [], _ => rfl
  | (_, v) :: rest, s => by
    simp only [countChars]
    rw [countChars_log rest]
    split <;> split <;> rfl

theorem countServices_log : ∀ (svcs : List (String × JsVar)) (s : State),
    (countServices svcs s).log = s.log
  | [], _ => rfl
  | (_, sv) :: rest, s => by
    simp only [countServices]
    rw [countServices_log rest]
    exact countChars_log _ s

theorem gatts_create_structs_log (s : State) : (gatts_create_structs s).log = s.log := by
  simp only [gatts_create_structs]
  exact countServices_log _ _

theorem gatts_structs_init_log (c : Collab) (s s1 : State)
    (h : gatts_structs_init c s = some s1) :
    s1.log = s.log ++ fillTrace c (jsvChildren s.gatts_services) := by
  unfold gatts_structs_init at h
  split at h
  · simp at h
  · have := serviceLoop_log c _ _ s1 h
    exact this
theorem resetTrace_kinds (c : Collab) : ∀ (l : List gatts_service_inst),
    ∀ e ∈ resetTrace c l, e.isException = false ∧ e.isAppRegister = false
  | [], e, he => by simp [resetTrace] at he
  | a :: l, e, he => by
    simp only [resetTrace, List.mem_append] at he
    rcases he with he | he
    · split at he
      · unfold callTrace at he
        split at he
        · simp only [List.mem_singleton] at he
          subst he
          exact ⟨rfl, rfl⟩
        · simp only [List.mem_cons, List.mem_singleton, List.not_mem_nil, or_false] at he
          rcases he with he | he <;> (subst he; exact ⟨rfl, rfl⟩)
      · simp at he
    · exact resetTrace_kinds c l e he

theorem mem_charsTrace (c : Collab) : ∀ (chars : List (String × JsVar)) (key : String)
    (v : JsVar) (e : String), (key, v) ∈ chars → (c.bleVarToUUID key).errorStr = some e →
    Effect.jsExceptionHere "invalid Char UUID:%s" e ∈ charsTrace c chars
  | [], _, _, _, h, _ => by simp at h
  | (k, w) :: rest, key, v, e, h, he => by
    simp only [charsTrace, List.mem_append]
    simp only [List.mem_cons, Prod.mk.injEq] at h
    rcases h with ⟨rfl, _⟩ | h
    · left
      simp [charKeyTrace, he]
    · right
      exact mem_charsTrace c rest key v e h he

theorem mem_fillTrace_service (c : Collab) : ∀ (svcs : List (String × JsVar)) (key : String)
    (sv : JsVar) (e : String), (key, sv) ∈ svcs → (c.bleVarToUUID key).errorStr = some e →
    Effect.jsExceptionHere "invalid Service UUID:%s" e ∈ fillTrace c svcs
  | [], _, _, _, h, _ => by simp at h
  | (k, w) :: rest, key, sv, e, h, he => by
    simp only [fillTrace, List.mem_append]
    simp only [List.mem_cons, Prod.mk.injEq] at h
    rcases h with ⟨rfl, _⟩ | h
    · left; left
      simp [serviceKeyTrace, he]
    · right
      exact mem_fillTrace_service c rest key sv e h he

theorem mem_fillTrace_char (c : Collab) : ∀ (svcs : List (String × JsVar)) (key : String)
    (v : JsVar) (e : String), (key, v) ∈ allChars svcs →
    (c.bleVarToUUID key).errorStr = some e →
    Effect.jsExceptionHere "invalid Char UUID:%s" e ∈ fillTrace c svcs
  | [], _, _, _, h, _ => by simp [allChars] at h
  | (k, w) :: rest, key, v, e, h, he => by
    simp only [fillTrace, List.mem_append]
    simp only [allChars, List.mem_append, charsOf] at h
    rcases h with h | h
    · left; right
      exact mem_charsTrace c _ key v e h he
    · right
      exact mem_fillTrace_char c rest key v e h he

theorem set_services_non_object (c : Collab) (data : Option JsVar) (s : State) (hwf : s.WF)
    (hno : jsvIsObject data = false) :
    gatts_set_services c data s = some { s with removeValues := true, gatts_services := data, log := s.log ++ resetTrace c (tblList s.gatts_service) } := by
  unfold gatts_set_services
  rw [gatts_reset_spec c true s hwf]
  simp only [hno]
  rfl

theorem set_services_object_log (c : Collab) (s : State) (hwf : s.WF)
    (svcs : List (String × JsVar))
    (h1 : svcs.length < U16) (h2 : (allChars svcs).length < U16)
    (h3 : (specDescrsList 0 (allChars svcs)).length < U16) :
    ∃ s1, gatts_set_services c (some (.obj svcs)) s = some s1 ∧
      s1.log = s.log ++ (resetTrace c (tblList s.gatts_service) ++ (fillTrace c svcs ++
        (if 0 < svcs.length then callTrace c (.app_register 0) "app_register error:%d\n"
          else [.startAdvertizing true]))) ∧
      s1.ble_service_cnt = svcs.length ∧ tblLen s1.gatts_service = svcs.length := by
  obtain ⟨s3, hf, ts, _, _, ns, _⟩ := fill_spec c
    { s with removeValues := true, gatts_services := some (.obj svcs), log := s.log ++ resetTrace c (tblList s.gatts_service) }
    svcs rfl h1 h2 h3
  have hl := gatts_structs_init_log c _ s3 hf
  rw [gatts_create_structs_log] at hl
  have hch : jsvChildren (gatts_create_structs
      { s with removeValues := true, gatts_services := some (.obj svcs), log := s.log ++ resetTrace c (tblList s.gatts_service) }).gatts_services = svcs := by
    simp only [gatts_create_structs]
    rw [(countServices_spec _ _ (by simp [U16]) (by simp [U16]) (by simp [U16])).2.2.2.1]
    rfl
  rw [hch] at hl
  refine ⟨gatts_reg_app c ((fun s3 : State => { s3 with ble_service_pos := 0, ble_char_pos := 0, ble_descr_pos := 0 }) s3), ?_, ?_, ?_, ?_⟩
  · unfold gatts_set_services
    rw [gatts_reset_spec c true s hwf]
    simp only [jsvIsObject, if_true]
    rw [hf]
  · simp only [gatts_reg_app, ns]
    split
    · simp only [stackCall_eq, hl, List.append_assoc]
    · simp only [State.emit, hl, List.append_assoc]
  · simp only [gatts_reg_app, ns]
    split
    · simp only [stackCall_eq, ns]
    · simp only [State.emit, ns]
  · simp only [gatts_reg_app, ns]
    split
    · simp only [stackCall_eq, ts]
      simp [tblLen, specServices]
    · simp only [State.emit, ts]
      simp [tblLen, specServices]
/-- C14 (amended): for a description that is not an object `gatts_set_services` raises no
exception: after `gatts_reset(true)` it stores the description and returns, the tables, the
counts and the position cursors are as before, and the log gains no `app_register`; for an
object description within the 16-bit counters, a scripting exception is raised for every
malformed service key and every malformed characteristic key. -/
theorem set_services_configuration_errors (c : Collab) (s : State) (hwf : s.WF) :
    (∀ data, jsvIsObject data = false →
      ∃ s1 added, gatts_set_services c data s = some s1 ∧
        s1.gatts_service = s.gatts_service ∧ s1.gatts_char = s.gatts_char ∧
        s1.gatts_descr = s.gatts_descr ∧ s1.adv_service_uuid128 = s.adv_service_uuid128 ∧
        s1.ble_service_cnt = s.ble_service_cnt ∧ s1.ble_char_cnt = s.ble_char_cnt ∧
        s1.ble_descr_cnt = s.ble_descr_cnt ∧ s1.ble_service_pos = s.ble_service_pos ∧
        s1.ble_char_pos = s.ble_char_pos ∧ s1.ble_descr_pos = s.ble_descr_pos ∧
        s1.gatts_services = data ∧ s1.removeValues = true ∧
        s1.log = s.log ++ added ∧
        ∀ e ∈ added, e.isException = false ∧ e.isAppRegister = false) ∧
    (∀ svcs : List (String × JsVar), svcs.length < U16 → (allChars svcs).length < U16 →
      (specDescrsList 0 (allChars svcs)).length < U16 →
      ∃ s1, gatts_set_services c (some (.obj svcs)) s = some s1 ∧
        (∀ key sv e, (key, sv) ∈ svcs → (c.bleVarToUUID key).errorStr = some e →
          Effect.jsExceptionHere "invalid Service UUID:%s" e ∈ s1.log) ∧
        (∀ key v e, (key, v) ∈ allChars svcs → (c.bleVarToUUID key).errorStr = some e →
          Effect.jsExceptionHere "invalid Char UUID:%s" e ∈ s1.log)) := by
  constructor
  · intro data hno
    exact ⟨_, resetTrace c (tblList s.gatts_service), set_services_non_object c data s hwf hno,
      rfl, rfl, rfl, rfl, rfl, rfl, rfl, rfl, rfl, rfl, rfl, rfl, rfl, resetTrace_kinds c _⟩
  · intro svcs h1 h2 h3
    obtain ⟨s1, hs, hl, _⟩ := set_services_object_log c s hwf svcs h1 h2 h3
    refine ⟨s1, hs, ?_, ?_⟩
    · intro key sv e hk he
      rw [hl]
      simp only [List.mem_append]
      exact Or.inr (Or.inr (Or.inl (mem_fillTrace_service c svcs key sv e hk he)))
    · intro key v e hk he
      rw [hl]
      simp only [List.mem_append]
      exact Or.inr (Or.inr (Or.inl (mem_fillTrace_char c svcs key v e hk he)))

/-- C14 (witness): `gatts_set_services` with `strictCollab` at program start. -/
theorem set_services_configuration_errors_witness :
    (∀ data, jsvIsObject data = false →
      ∃ s1 added, gatts_set_services strictCollab data State.init = some s1 ∧
        s1.gatts_service = State.init.gatts_service ∧ s1.gatts_char = State.init.gatts_char ∧
        s1.gatts_descr = State.init.gatts_descr ∧
        s1.adv_service_uuid128 = State.init.adv_service_uuid128 ∧
        s1.ble_service_cnt = State.init.ble_service_cnt ∧
        s1.ble_char_cnt = State.init.ble_char_cnt ∧
        s1.ble_descr_cnt = State.init.ble_descr_cnt ∧
        s1.ble_service_pos = State.init.ble_service_pos ∧
        s1.ble_char_pos = State.init.ble_char_pos ∧
        s1.ble_descr_pos = State.init.ble_descr_pos ∧
        s1.gatts_services = data ∧ s1.removeValues = true ∧
        s1.log = State.init.log ++ added ∧
        ∀ e ∈ added, e.isException = false ∧ e.isAppRegister = false) ∧
    (∀ svcs : List (String × JsVar), svcs.length < U16 → (allChars svcs).length < U16 →
      (specDescrsList 0 (allChars svcs)).length < U16 →
      ∃ s1, gatts_set_services strictCollab (some (.obj svcs)) State.init = some s1 ∧
        (∀ key sv e, (key, sv) ∈ svcs → (strictCollab.bleVarToUUID key).errorStr = some e →
          Effect.jsExceptionHere "invalid Service UUID:%s" e ∈ s1.log) ∧
        (∀ key v e, (key, v) ∈ allChars svcs →
          (strictCollab.bleVarToUUID key).errorStr = some e →
          Effect.jsExceptionHere "invalid Char UUID:%s" e ∈ s1.log)) :=
  set_services_configuration_errors strictCollab State.init ⟨by decide, by decide, by decide⟩

/-- C14 (counterexample): called at program start with the number 5, `gatts_set_services`
raises no exception; called with a description whose service key is malformed, it raises
the exception but goes on: one service entry is allocated and `app_register` is issued. -/
theorem set_services_does_not_abort :
    (gatts_set_services exampleCollab (some (.int 5)) State.init).map
      (fun s => (s.log.countP Effect.isException, s.log.length)) = some (0, 0) ∧
    (strictCollab.bleVarToUUID "zz").errorStr.isSome = true ∧
    (State.init.ble_service_cnt, tblLen State.init.gatts_service) = (0, 0) ∧
    (gatts_set_services strictCollab (some malformedKeyService) State.init).map
      (fun s => (s.log.countP Effect.isException, s.ble_service_cnt, tblLen s.gatts_service,
        s.log.countP Effect.isAppRegister)) = some (1, 1, 1, 1) := by
  refine ⟨by decide, by decide, by decide, by decide⟩
theorem specDescrsList_length_count : ∀ (chars : List (String × JsVar)) (i : Nat),
    (specDescrsList i chars).length
      = chars.countP (fun kv => hasNotify kv.2) + chars.countP (fun kv => hasDescription kv.2)
  | [], _ => rfl
  | (k, v) :: rest, i => by
    simp only [specDescrsList, List.length_append, specDescrs_length,
      specDescrsList_length_count rest (i + 1), List.countP_cons]
    omega

theorem create_structs_counts (s : State) :
    (gatts_create_structs s).ble_service_cnt = (jsvChildren s.gatts_services).length % U16 ∧
    (gatts_create_structs s).ble_char_cnt
      = (allChars (jsvChildren s.gatts_services)).length % U16 ∧
    (gatts_create_structs s).ble_descr_cnt
      = (specDescrsList 0 (allChars (jsvChildren s.gatts_services))).length % U16 := by
  obtain ⟨a1, a2, a3, _⟩ := countServices_spec (jsvChildren s.gatts_services)
    { s with ble_service_cnt := 0, ble_char_cnt := 0, ble_descr_cnt := 0,
             ble_service_pos := U16 - 1, ble_char_pos := U16 - 1, ble_descr_pos := U16 - 1 }
    (by simp [U16]) (by simp [U16]) (by simp [U16])
  simp only [Nat.zero_add] at a1 a2 a3
  exact ⟨a1, a2, a3⟩

/-- C18 (amended): the counting pass sets the service count to the number of services, the
characteristic count to the total number of characteristics, and the descriptor count to
the number of characteristics with `notify` plus the number carrying a description string,
each reduced modulo 2 ^ 16 by its 16-bit counter; a count below 2 ^ 16 is stored as it is. -/
theorem counting_pass_counts (s : State) :
    (gatts_create_structs s).ble_service_cnt
      = (jsvChildren s.gatts_services).length % 2 ^ 16 ∧
    (gatts_create_structs s).ble_char_cnt
      = (allChars (jsvChildren s.gatts_services)).length % 2 ^ 16 ∧
    (gatts_create_structs s).ble_descr_cnt
      = ((allChars (jsvChildren s.gatts_services)).countP (fun kv => hasNotify kv.2) +
          (allChars (jsvChildren s.gatts_services)).countP (fun kv => hasDescription kv.2))
        % 2 ^ 16 ∧
    ((jsvChildren s.gatts_services).length < 2 ^ 16 →
      (gatts_create_structs s).ble_service_cnt = (jsvChildren s.gatts_services).length) ∧
    ((allChars (jsvChildren s.gatts_services)).length < 2 ^ 16 →
      (gatts_create_structs s).ble_char_cnt
        = (allChars (jsvChildren s.gatts_services)).length) ∧
    ((allChars (jsvChildren s.gatts_services)).countP (fun kv => hasNotify kv.2) +
        (allChars (jsvChildren s.gatts_services)).countP (fun kv => hasDescription kv.2)
        < 2 ^ 16 →
      (gatts_create_structs s).ble_descr_cnt
        = (allChars (jsvChildren s.gatts_services)).countP (fun kv => hasNotify kv.2) +
          (allChars (jsvChildren s.gatts_services)).countP (fun kv => hasDescription kv.2)) := by
  obtain ⟨a1, a2, a3⟩ := create_structs_counts s
  rw [specDescrsList_length_count] at a3
  have hU : U16 = 2 ^ 16 := rfl
  rw [hU] at a1 a2 a3
  exact ⟨a1, a2, a3, fun h => by rw [a1, Nat.mod_eq_of_lt h],
    fun h => by rw [a2, Nat.mod_eq_of_lt h], fun h => by rw [a3, Nat.mod_eq_of_lt h]⟩

theorem wideService_char_cnt (n : Nat) :
    (gatts_create_structs (stateWith (wideService n))).ble_char_cnt = n % U16 := by
  rw [(create_structs_counts _).2.1]
  show (allChars (jsvChildren (some (wideService n)))).length % U16 = _
  rw [wideService_chars]

/-- C18 (counterexample): for a service with 65536 characteristics the counting pass leaves
the characteristic count at 0. -/
theorem counting_pass_wraps_at_65536_characteristics :
    (allChars (jsvChildren (stateWith (wideService 65536)).gatts_services)).length = 65536 ∧
    (gatts_create_structs (stateWith (wideService 65536))).ble_char_cnt = 0 := by
  refine ⟨wideService_chars 65536, ?_⟩
  rw [wideService_char_cnt]
  rfl

/-- C17 (failing input): after the registration walk over `exampleServices` the service
position equals the service count 2, and the CONNECT handler's store to
`gatts_service[ble_service_pos].conn_id` lies outside the table of 2 entries. -/
theorem connect_after_registration_out_of_bounds :
    (afterRegistration exampleServices).log.getLast?.map Effect.isStartAdvertizing
      = some true ∧
    (afterRegistration exampleServices).ble_service_pos = 2 ∧
    (afterRegistration exampleServices).ble_service_cnt = 2 ∧
    tblLen (afterRegistration exampleServices).gatts_service = 2 ∧
    (gatts_event_handler exampleCollab (.CONNECT 7 [1, 2, 3, 4, 5, 6]) 3
      (afterRegistration exampleServices)).isNone = true := by
  refine ⟨by decide, by decide, by decide, by decide, by decide⟩
theorem connect_spec (c : Collab) (s : State) (hwf : s.WF) (conn_id gatts_if : Nat)
    (remote_bda : List Nat) :
    (s.ble_service_pos < s.ble_service_cnt →
      ∃ s1, gatts_event_handler c (.CONNECT conn_id remote_bda) gatts_if s = some s1 ∧
        tblList s1.gatts_service = modifyAt (fun e => { e with conn_id := conn_id })
          (tblList s.gatts_service) s.ble_service_pos ∧
        s1.log = s.log ++ [.emitNRFEvent BLE_CONNECT_EVENT remote_bda]) ∧
    (s.ble_service_cnt ≤ s.ble_service_pos →
      gatts_event_handler c (.CONNECT conn_id remote_bda) gatts_if s = none) := by
  have hlen : (tblList s.gatts_service).length = s.ble_service_cnt := by
    rw [tblList_length]; exact hwf.1
  constructor
  · intro hlt
    simp only [gatts_event_handler]
    rw [tblModify_eq_modify _ _ _ (by rw [hlen]; exact hlt)]
    exact ⟨_, rfl, rfl, rfl⟩
  · intro hge
    simp only [gatts_event_handler]
    have hnone : tblModify s.gatts_service s.ble_service_pos
        (fun e => { e with conn_id := conn_id }) = none := by
      cases hs : s.gatts_service with
      | none => rfl
      | some l =>
        rw [hs] at hlen
        simp only [tblList] at hlen
        simp only [tblModify]
        rw [List.getElem?_eq_none (by omega)]
    rw [hnone]
theorem lookup_setChild (cs : List (String × JsVar)) (name : String) (child : JsVar) :
    (setChild cs name child).lookup name = some child := by
  induction cs with
  | nil => simp [setChild, List.lookup]
  | cons kv rest ih =>
    obtain ⟨k, v⟩ := kv
    simp only [setChild]
    split
    · rename_i hk
      have : name == k := by
        rw [beq_iff_eq] at hk ⊢
        exact hk.symm
      simp [List.lookup, this]
    · rename_i hk
      have : (name == k) = false := by
        rw [beq_eq_false_iff_ne] 
        intro h
        exact hk (by rw [beq_iff_eq]; exact h.symm)
      simp [List.lookup, this, ih]

theorem lookup_map_update (k : String) (g : JsVar → JsVar) :
    ∀ (l : List (String × JsVar)),
      (l.map (fun kv => if kv.1 == k then (kv.1, g kv.2) else kv)).lookup k
        = (l.lookup k).map g
  | [] => rfl
  | (a, v) :: rest => by
    have ih := lookup_map_update k g rest
    by_cases h : a = k
    · subst h
      show List.lookup a ((if (a == a) = true then (a, g v) else (a, v)) :: _) = _
      rw [if_pos (beq_self_eq_true a)]
      simp [List.lookup]
    · have h1 : ¬ (a == k) = true := by rw [beq_iff_eq]; exact h
      have h2 : (k == a) = false := by rw [beq_eq_false_iff_ne]; exact fun e => h e.symm
      show List.lookup k ((if (a == k) = true then (a, g v) else (a, v)) :: _) = _
      rw [if_neg h1]
      simp only [List.lookup, h2]
      exact ih

theorem keys_map_update (k : String) (g : JsVar → JsVar) (l : List (String × JsVar)) :
    (l.map (fun kv => if kv.1 == k then (kv.1, g kv.2) else kv)).map Prod.fst
      = l.map Prod.fst := by
  rw [List.map_map]
  apply List.map_congr_left
  intro kv _
  simp only [Function.comp]
  split <;> rfl

theorem map_update_id (k : String) (l : List (String × JsVar)) :
    l.map (fun kv => if kv.1 == k then (kv.1, id kv.2) else kv) = l := by
  conv_rhs => rw [← List.map_id l]
  apply List.map_congr_left
  intro kv _
  split <;> rfl

theorem charValueChars_nomatch (isEq : String → JsVar → Bool) (u : JsVar)
    (nv : Option JsVar) : ∀ (chars : List (String × JsVar)) (v0 : Option (Option JsVar)),
    (∀ k ∈ chars.map Prod.fst, isEq k u = false) →
    charValueChars isEq u nv chars v0 = (v0, chars)
  | [], _, _ => rfl
  | (k, cd) :: rest, v0, h => by
    have hk : isEq k u = false := h k (by simp)
    simp only [charValueChars, hk, Bool.false_eq_true, if_false]
    rw [charValueChars_nomatch isEq u nv rest v0 (fun a ha => h a (by simp at ha ⊢; exact Or.inr ha))]

theorem charValueChars_match (isEq : String → JsVar → Bool) (u : JsVar)
    (nv : Option JsVar) (ch : String) :
    ∀ (chars : List (String × JsVar)) (v0 : Option (Option JsVar)) (cd : JsVar),
    (chars.map Prod.fst).Nodup → (∀ k ∈ chars.map Prod.fst, isEq k u = (k == ch)) →
    chars.lookup ch = some cd →
    charValueChars isEq u nv chars v0 = (some (jsvObjectGetChild cd "value"),
      chars.map (fun kv => if kv.1 == ch then (kv.1, storeNewValue nv kv.2) else kv))
  | [], _, _, _, _, h => by simp [List.lookup] at h
  | (k, x) :: rest, v0, cd, hnd, heq, hl => by
    have hk : isEq k u = (k == ch) := heq k (by simp)
    simp only [List.map_cons, List.nodup_cons] at hnd
    have heq1 : ∀ a ∈ rest.map Prod.fst, isEq a u = (a == ch) :=
      fun a ha => heq a (by simp at ha ⊢; exact Or.inr ha)
    by_cases hkc : k = ch
    · subst hkc
      simp only [List.lookup, beq_self_eq_true, Option.some.injEq] at hl
      subst hl
      have hno : ∀ a ∈ rest.map Prod.fst, isEq a u = false := by
        intro a ha
        rw [heq1 a ha, beq_eq_false_iff_ne]
        intro e
        subst e
        exact hnd.1 ha
      have hid : rest.map (fun kv => if kv.1 == k then (kv.1, storeNewValue nv kv.2) else kv)
          = rest := by
        conv_rhs => rw [← List.map_id rest]
        apply List.map_congr_left
        intro kv hkv
        have : (kv.1 == k) = false := by
          rw [beq_eq_false_iff_ne]
          intro e
          exact hnd.1 (by rw [← e]; exact List.mem_map_of_mem Prod.fst hkv)
        simp [this]
      simp only [charValueChars, hk, beq_self_eq_true, if_true, List.map_cons,
        charValueChars_nomatch isEq u nv rest _ hno, hid]
    · have h1 : (k == ch) = false := by rw [beq_eq_false_iff_ne]; exact hkc
      have h2 : (ch == k) = false := by rw [beq_eq_false_iff_ne]; exact fun e => hkc e.symm
      simp only [List.lookup, h2] at hl
      simp only [charValueChars, hk, h1, Bool.false_eq_true, if_false, List.map_cons,
        charValueChars_match isEq u nv ch rest v0 cd hnd.2 heq1 hl]
theorem charValueServices_nomatch (isEq : String → JsVar → Bool) (su cu : JsVar)
    (nv : Option JsVar) : ∀ (svcs : List (String × JsVar)) (v0 : Option (Option JsVar)),
    (∀ k ∈ svcs.map Prod.fst, isEq k su = false) →
    charValueServices isEq su cu nv svcs v0 = (v0, svcs)
  | [], _, _ => rfl
  | (k, sd) :: rest, v0, h => by
    have hk : isEq k su = false := h k (by simp)
    simp only [charValueServices, hk, Bool.false_eq_true, if_false]
    rw [charValueServices_nomatch isEq su cu nv rest v0
      (fun a ha => h a (by simp at ha ⊢; exact Or.inr ha))]

theorem charValueServices_match (isEq : String → JsVar → Bool) (su cu : JsVar)
    (nv : Option JsVar) (svc ch : String) (chars : List (String × JsVar)) (cd : JsVar)
    (hndc : (chars.map Prod.fst).Nodup)
    (heqc : ∀ k ∈ chars.map Prod.fst, isEq k cu = (k == ch))
    (hlc : chars.lookup ch = some cd) :
    ∀ (svcs : List (String × JsVar)) (v0 : Option (Option JsVar)),
    (svcs.map Prod.fst).Nodup → (∀ k ∈ svcs.map Prod.fst, isEq k su = (k == svc)) →
    svcs.lookup svc = some (.obj chars) →
    charValueServices isEq su cu nv svcs v0 = (some (jsvObjectGetChild cd "value"),
      svcs.map (fun kv => if kv.1 == svc then (kv.1, (fun _ => JsVar.obj (chars.map
        (fun kv => if kv.1 == ch then (kv.1, storeNewValue nv kv.2) else kv))) kv.2) else kv))
  | [], _, _, _, h => by simp [List.lookup] at h
  | (k, x) :: rest, v0, hnd, heq, hl => by
    have hk : isEq k su = (k == svc) := heq k (by simp)
    simp only [List.map_cons, List.nodup_cons] at hnd
    have heq1 : ∀ a ∈ rest.map Prod.fst, isEq a su = (a == svc) :=
      fun a ha => heq a (by simp at ha ⊢; exact Or.inr ha)
    by_cases hkc : k = svc
    · subst hkc
      simp only [List.lookup, beq_self_eq_true, Option.some.injEq] at hl
      subst hl
      have hno : ∀ a ∈ rest.map Prod.fst, isEq a su = false := by
        intro a ha
        rw [heq1 a ha, beq_eq_false_iff_ne]
        intro e
        subst e
        exact hnd.1 ha
      have hid : rest.map (fun kv => if kv.1 == k then (kv.1, (fun _ => JsVar.obj (chars.map
          (fun kv => if kv.1 == ch then (kv.1, storeNewValue nv kv.2) else kv))) kv.2) else kv)
          = rest := by
        conv_rhs => rw [← List.map_id rest]
        apply List.map_congr_left
        intro kv hkv
        have : (kv.1 == k) = false := by
          rw [beq_eq_false_iff_ne]
          intro e
          exact hnd.1 (by rw [← e]; exact List.mem_map_of_mem Prod.fst hkv)
        simp [this]
      simp only [charValueServices, hk, beq_self_eq_true, if_true, List.map_cons, jsvChildren,
        charValueChars_match isEq cu nv ch chars v0 cd hndc heqc hlc,
        charValueServices_nomatch isEq su cu nv rest _ hno, hid]
    · have h1 : (k == svc) = false := by rw [beq_eq_false_iff_ne]; exact hkc
      have h2 : (svc == k) = false := by rw [beq_eq_false_iff_ne]; exact fun e => hkc e.symm
      simp only [List.lookup, h2] at hl
      simp only [charValueServices, hk, h1, Bool.false_eq_true, if_false, List.map_cons,
        charValueServices_match isEq su cu nv svc ch chars cd hndc heqc hlc rest v0 hnd.2
          heq1 hl]

theorem storeNewValue_value (nv cd : JsVar) (h : jsvIsObject (some cd) = true) :
    jsvObjectGetChild (storeNewValue (some nv) cd) "value" = some nv := by
  cases cd with
  | obj cs => simp only [storeNewValue, jsvObjectSetChild, jsvObjectGetChild, lookup_setChild]
  | _ => simp [jsvIsObject] at h
theorem lookup_of_mem_nodup : ∀ (l : List (String × JsVar)) (k : String) (v : JsVar),
    (l.map Prod.fst).Nodup → (k, v) ∈ l → l.lookup k = some v
  | [], _, _, _, h => by simp at h
  | (ka, va) :: rest, k, v, hnd, h => by
    simp only [List.map_cons, List.nodup_cons] at hnd
    simp only [List.mem_cons, Prod.mk.injEq] at h
    rcases h with ⟨rfl, rfl⟩ | h
    · simp [List.lookup]
    · have hne : (k == ka) = false := by
        rw [beq_eq_false_iff_ne]
        intro e
        subst e
        exact hnd.1 (List.mem_map_of_mem Prod.fst h)
      simp only [List.lookup, hne]
      exact lookup_of_mem_nodup rest k v hnd.2 h

theorem descriptionValue_eq (svcs : List (String × JsVar)) (svc ch : String)
    (chars : List (String × JsVar)) (cd : JsVar)
    (hls : svcs.lookup svc = some (.obj chars)) (hlc : chars.lookup ch = some cd) :
    descriptionValue (some (.obj svcs)) svc ch = jsvObjectGetChild cd "value" := by
  simp [descriptionValue, jsvObjectGetChild, hls, hlc]

/-- C16: for a preserved description `X` with distinct keys, a service key `svc` and a
characteristic key `ch` present in it, and arguments that compare equal to exactly these
keys: called without a new value, `jswrap_ESP32_BLE_charValue` returns the `value` child of
`X[svc][ch]` and leaves `X` as it is; called with a new value on a characteristic that is an
object it makes that value the `value` child of `X[svc][ch]`, and a following call without a
new value returns it. -/
theorem charValue_reads_and_stores (isEq : String → JsVar → Bool) (su cu : JsVar)
    (svc ch : String) (svcs chars : List (String × JsVar)) (cd : JsVar)
    (hnds : (svcs.map Prod.fst).Nodup) (hndc : (chars.map Prod.fst).Nodup)
    (heqs : ∀ k ∈ svcs.map Prod.fst, isEq k su = (k == svc))
    (heqc : ∀ k ∈ chars.map Prod.fst, isEq k cu = (k == ch))
    (hls : svcs.lookup svc = some (.obj chars)) (hlc : chars.lookup ch = some cd) :
    jswrap_ESP32_BLE_charValue isEq su cu none (some (.obj svcs))
      = (some (descriptionValue (some (.obj svcs)) svc ch), some (.obj svcs)) ∧
    ∀ nv, jsvIsObject (some cd) = true →
      descriptionValue (jswrap_ESP32_BLE_charValue isEq su cu (some nv) (some (.obj svcs))).2
        svc ch = some nv ∧
      (jswrap_ESP32_BLE_charValue isEq su cu none
        (jswrap_ESP32_BLE_charValue isEq su cu (some nv) (some (.obj svcs))).2).1
        = some (some nv) := by
  have hdv := descriptionValue_eq svcs svc ch chars cd hls hlc
  constructor
  · simp only [jswrap_ESP32_BLE_charValue,
      charValueServices_match isEq su cu none svc ch chars cd hndc heqc hlc svcs none hnds heqs
        hls, hdv]
    have h1 : chars.map (fun kv => if kv.1 == ch then (kv.1, storeNewValue none kv.2) else kv)
        = chars := map_update_id ch chars
    rw [h1]
    have h2 : svcs.map (fun kv => if kv.1 == svc then (kv.1, (fun _ => JsVar.obj chars) kv.2)
        else kv) = svcs := by
      conv_rhs => rw [← List.map_id svcs]
      apply List.map_congr_left
      intro kv hkv
      split
      · rename_i hk
        rw [beq_iff_eq] at hk
        obtain ⟨k, v⟩ := kv
        simp only at hk
        subst hk
        have := lookup_of_mem_nodup svcs k v hnds hkv
        rw [hls] at this
        simp only [Option.some.injEq] at this
        simp [this]
      · rfl
    rw [h2]
  · intro nv hobj
    obtain ⟨chars1, hc1⟩ : ∃ chars1, chars1 = chars.map
        (fun kv => if kv.1 == ch then (kv.1, storeNewValue (some nv) kv.2) else kv) := ⟨_, rfl⟩
    obtain ⟨svcs1, hs1⟩ : ∃ svcs1, svcs1 = svcs.map
        (fun kv => if kv.1 == svc then (kv.1, (fun _ => JsVar.obj chars1) kv.2) else kv) :=
      ⟨_, rfl⟩
    have hX : (jswrap_ESP32_BLE_charValue isEq su cu (some nv) (some (.obj svcs))).2
        = some (.obj svcs1) := by
      simp only [jswrap_ESP32_BLE_charValue,
        charValueServices_match isEq su cu (some nv) svc ch chars cd hndc heqc hlc svcs none
          hnds heqs hls, hs1, hc1]
    have hls1 : svcs1.lookup svc = some (.obj chars1) := by
      rw [hs1, lookup_map_update svc (fun _ => JsVar.obj chars1) svcs, hls, Option.map_some']
    have hlc1 : chars1.lookup ch = some (storeNewValue (some nv) cd) := by
      rw [hc1, lookup_map_update ch (storeNewValue (some nv)) chars, hlc, Option.map_some']
    have hnds1 : (svcs1.map Prod.fst).Nodup := by
      rw [hs1, keys_map_update svc (fun _ => JsVar.obj chars1)]; exact hnds
    have hndc1 : (chars1.map Prod.fst).Nodup := by
      rw [hc1, keys_map_update ch (storeNewValue (some nv))]; exact hndc
    have heqs1 : ∀ k ∈ svcs1.map Prod.fst, isEq k su = (k == svc) := by
      rw [hs1, keys_map_update svc (fun _ => JsVar.obj chars1)]; exact heqs
    have heqc1 : ∀ k ∈ chars1.map Prod.fst, isEq k cu = (k == ch) := by
      rw [hc1, keys_map_update ch (storeNewValue (some nv))]; exact heqc
    have hv := storeNewValue_value nv cd hobj
    rw [hX]
    constructor
    · rw [descriptionValue_eq svcs1 svc ch chars1 _ hls1 hlc1, hv]
    · simp only [jswrap_ESP32_BLE_charValue]
      rw [charValueServices_match isEq su cu none svc ch chars1 _ hndc1 heqc1 hlc1 svcs1 none
        hnds1 heqs1 hls1]
      simp only [hv]
/-- C16 (witness): the characteristic `2A37` of the service `180A` of `exampleServices`,
whose value is 72, and the new value 9. -/
theorem charValue_reads_and_stores_witness :
    jswrap_ESP32_BLE_charValue exampleIsEqual (.str [49, 56, 48, 65]) (.str [50, 65, 51, 55])
        none (some exampleServices)
      = (some (descriptionValue (some exampleServices) "180A" "2A37"),
        some exampleServices) ∧
    ∀ nv, jsvIsObject (some (.obj [("readable", .bool true), ("value", .str [72])])) = true →
      descriptionValue (jswrap_ESP32_BLE_charValue exampleIsEqual (.str [49, 56, 48, 65])
        (.str [50, 65, 51, 55]) (some nv) (some exampleServices)).2 "180A" "2A37" = some nv ∧
      (jswrap_ESP32_BLE_charValue exampleIsEqual (.str [49, 56, 48, 65])
        (.str [50, 65, 51, 55]) none
        (jswrap_ESP32_BLE_charValue exampleIsEqual (.str [49, 56, 48, 65])
          (.str [50, 65, 51, 55]) (some nv) (some exampleServices)).2).1 = some (some nv) :=
  charValue_reads_and_stores exampleIsEqual (.str [49, 56, 48, 65]) (.str [50, 65, 51, 55])
    "180A" "2A37" (jsvChildren (some exampleServices))
    [("2A37", .obj [("readable", .bool true), ("value", .str [72])])]
    (.obj [("readable", .bool true), ("value", .str [72])])
    (by decide) (by decide) (by decide) (by decide) rfl rfl

theorem callTrace_deleted (c : Collab) (h : Nat) (msg : String) :
    (callTrace c (.delete_service h) msg).filterMap Effect.deletedHandle = [h] := by
  unfold callTrace
  split <;> rfl

theorem resetTrace_deleted (c : Collab) : ∀ l : List gatts_service_inst,
    (resetTrace c l).filterMap Effect.deletedHandle
      = (l.filter gatts_service_inst.live).map (fun e => e.service_handle)
  | [] => rfl
  | e :: l => by
    simp only [resetTrace, List.filterMap_append, resetTrace_deleted c l, List.filter_cons,
      gatts_service_inst.live]
    split
    · rw [callTrace_deleted]; rfl
    · rfl

theorem resetTrace_members (c : Collab) : ∀ (l : List gatts_service_inst),
    ∀ x ∈ resetTrace c l,
      (∃ e ∈ l, e.live = true ∧ x = .delete_service e.service_handle) ∨
      (∃ r, r ≠ 0 ∧ x = .jsWarn "delete service error:%d\n" r)
  | [], x, hx => by simp [resetTrace] at hx
  | e :: l, x, hx => by
    simp only [resetTrace, List.mem_append] at hx
    rcases hx with hx | hx
    · split at hx
      · rename_i hl
        unfold callTrace at hx
        split at hx
        · simp only [List.mem_singleton] at hx
          exact Or.inl ⟨e, List.mem_cons_self _ _, hl, hx⟩
        · rename_i hr
          simp only [List.mem_cons, List.mem_singleton, List.not_mem_nil, or_false] at hx
          rcases hx with hx | hx
          · exact Or.inl ⟨e, List.mem_cons_self _ _, hl, hx⟩
          · exact Or.inr ⟨_, hr, hx⟩
      · simp at hx
    · rcases resetTrace_members c l x hx with ⟨e1, he1, h1, h2⟩ | h
      · exact Or.inl ⟨e1, List.mem_cons_of_mem _ he1, h1, h2⟩
      · exact Or.inr h

theorem resetTrace_ok (c : Collab) (hc : c.Ok) : ∀ l : List gatts_service_inst,
    resetTrace c l
      = (l.filter gatts_service_inst.live).map (fun e => Effect.delete_service e.service_handle)
  | [] => rfl
  | e :: l => by
    simp only [resetTrace, resetTrace_ok c hc l, List.filter_cons, gatts_service_inst.live,
      callTrace, hc _, if_true]
    split <;> rfl

/-- C22: in every state whose counts match its tables, `gatts_reset(removeValues)` returns;
the effects it adds to the log are `resetTrace`, whose `delete_service` requests are the
`service_handle`s of the entries with `gatts_if != ESP_GATT_IF_NONE`, one per such entry and
in index order; every other effect added is the warning for a request the stack refused, and
when the stack refuses none the requests are all that is added.  The flag `_removeValues`
becomes the argument; the three tables, the counts and the position cursors are unchanged. -/
theorem reset_deletes_live_services (c : Collab) (removeValues : Bool) (s : State)
    (hwf : s.WF) :
    ∃ s1 added, gatts_reset c removeValues s = some s1 ∧
      s1.log = s.log ++ added ∧
      added = resetTrace c (tblList s.gatts_service) ∧
      added.filterMap Effect.deletedHandle
        = ((tblList s.gatts_service).filter gatts_service_inst.live).map
            (fun e => e.service_handle) ∧
      (∀ x ∈ added, x.deletedHandle = none →
        ∃ r, r ≠ 0 ∧ x = .jsWarn "delete service error:%d\n" r) ∧
      (c.Ok → added = ((tblList s.gatts_service).filter gatts_service_inst.live).map
        (fun e => Effect.delete_service e.service_handle)) ∧
      s1.removeValues = removeValues ∧
      s1.gatts_service = s.gatts_service ∧ s1.gatts_char = s.gatts_char ∧
      s1.gatts_descr = s.gatts_descr ∧
      s1.ble_service_cnt = s.ble_service_cnt ∧ s1.ble_char_cnt = s.ble_char_cnt ∧
      s1.ble_descr_cnt = s.ble_descr_cnt ∧
      s1.ble_service_pos = s.ble_service_pos ∧ s1.ble_char_pos = s.ble_char_pos ∧
      s1.ble_descr_pos = s.ble_descr_pos := by
  refine ⟨_, resetTrace c (tblList s.gatts_service), gatts_reset_spec c removeValues s hwf,
    rfl, rfl, resetTrace_deleted c _, ?_, fun hc => resetTrace_ok c hc _,
    rfl, rfl, rfl, rfl, rfl, rfl, rfl, rfl, rfl, rfl⟩
  intro x hx hnone
  rcases resetTrace_members c _ x hx with ⟨e, _, _, h2⟩ | h
  · rw [h2] at hnone
    simp [Effect.deletedHandle] at hnone
  · exact h

/-- C22 (witness): `gatts_reset(true)` after the registration of `exampleServices`, whose two
services are live with the handles 42 and 46. -/
theorem reset_deletes_live_services_witness :
    ∃ s1 added, gatts_reset exampleCollab true (afterRegistration exampleServices) = some s1 ∧
      s1.log = (afterRegistration exampleServices).log ++ added ∧
      added = resetTrace exampleCollab (tblList (afterRegistration exampleServices).gatts_service) ∧
      added.filterMap Effect.deletedHandle
        = ((tblList (afterRegistration exampleServices).gatts_service).filter
            gatts_service_inst.live).map (fun e => e.service_handle) ∧
      (∀ x ∈ added, x.deletedHandle = none →
        ∃ r, r ≠ 0 ∧ x = .jsWarn "delete service error:%d\n" r) ∧
      (exampleCollab.Ok →
        added = ((tblList (afterRegistration exampleServices).gatts_service).filter
          gatts_service_inst.live).map (fun e => Effect.delete_service e.service_handle)) ∧
      s1.removeValues = true ∧
      s1.gatts_service = (afterRegistration exampleServices).gatts_service ∧
      s1.gatts_char = (afterRegistration exampleServices).gatts_char ∧
      s1.gatts_descr = (afterRegistration exampleServices).gatts_descr ∧
      s1.ble_service_cnt = (afterRegistration exampleServices).ble_service_cnt ∧
      s1.ble_char_cnt = (afterRegistration exampleServices).ble_char_cnt ∧
      s1.ble_descr_cnt = (afterRegistration exampleServices).ble_descr_cnt ∧
      s1.ble_service_pos = (afterRegistration exampleServices).ble_service_pos ∧
      s1.ble_char_pos = (afterRegistration exampleServices).ble_char_pos ∧
      s1.ble_descr_pos = (afterRegistration exampleServices).ble_descr_pos :=
  reset_deletes_live_services exampleCollab true (afterRegistration exampleServices)
    ⟨by decide, by decide, by decide⟩

theorem reset_example_requests :
    ((tblList (afterRegistration exampleServices).gatts_service).filter
      gatts_service_inst.live).map (fun e => e.service_handle) = [42, 46] := by decide

theorem allChars_append : ∀ (a b : List (String × JsVar)),
    allChars (a ++ b) = allChars a ++ allChars b
  | [], _ => rfl
  | (_, sv) :: a, b => by
    show charsOf sv ++ allChars (a ++ b) = (charsOf sv ++ allChars a) ++ allChars b
    rw [allChars_append a b, List.append_assoc]

theorem specCharsAll_append (c : Collab) : ∀ (a b : List (String × JsVar)) (j : Nat),
    specCharsAll c j (a ++ b) = specCharsAll c j a ++ specCharsAll c (j + a.length) b
  | [], b, j => by simp [specCharsAll]
  | (k, sv) :: a, b, j => by
    have ih := specCharsAll_append c a b (j + 1)
    rw [show j + 1 + a.length = j + (a.length + 1) by omega] at ih
    show specCharsAll c j ((k, sv) :: (a ++ b)) = _
    simp only [specCharsAll, List.append_assoc, List.length_cons, ih]

theorem getElem?_middle {α : Type} (a b r : List α) (k : Nat) (hk : k < b.length) :
    (a ++ (b ++ r))[a.length + k]? = b[k]? := by
  rw [List.getElem?_append_right (by omega)]
  rw [show a.length + k - a.length = k by omega]
  exact List.getElem?_append_left hk

theorem split_at_getElem? {α : Type} (l : List α) (i : Nat) (a : α) (h : l[i]? = some a) :
    l = l.take i ++ a :: l.drop (i + 1) ∧ (l.take i).length = i := by
  have hlt : i < l.length := by
    by_contra hge
    rw [List.getElem?_eq_none (by omega)] at h
    exact Option.noConfusion h
  refine ⟨?_, by rw [List.length_take]; omega⟩
  rw [← drop_of_getElem? l i a h, List.take_append_drop]

theorem specCharsAll_at (c : Collab) (svcs : List (String × JsVar)) (i : Nat) (key : String)
    (sv : JsVar) (k : Nat) (kc : String) (v : JsVar) (hi : svcs[i]? = some (key, sv))
    (hk : (charsOf sv)[k]? = some (kc, v)) :
    (specCharsAll c 0 svcs)[(allChars (svcs.take i)).length + k]?
      = some (charFill (c.bleVarToUUID kc).ble_uuid v i gatts_char_inst.zero) := by
  obtain ⟨hsplit, hlen⟩ := split_at_getElem? svcs i (key, sv) hi
  have hklt : k < (charsOf sv).length := by
    by_contra hge
    rw [List.getElem?_eq_none (by omega)] at hk
    exact Option.noConfusion hk
  have h1 : specCharsAll c 0 svcs
      = specCharsAll c 0 (svcs.take i) ++
          (specChars c i (charsOf sv) ++ specCharsAll c (i + 1) (svcs.drop (i + 1))) := by
    conv_lhs => rw [hsplit]
    rw [specCharsAll_append, hlen, Nat.zero_add]
    rfl
  rw [h1, ← specCharsAll_length c (svcs.take i) 0]
  rw [getElem?_middle _ _ _ k (by rw [specChars_length]; exact hklt)]
  simp [specChars, hk]

theorem specDescrsList_at (chars : List (String × JsVar)) (ci : Nat) (key : String) (v : JsVar)
    (k : Nat) (d : gatts_descr_inst) (hc : chars[ci]? = some (key, v))
    (hk : (specDescrs ci v)[k]? = some d) :
    (specDescrsList 0 chars)[(specDescrsList 0 (chars.take ci)).length + k]? = some d := by
  obtain ⟨hsplit, hlen⟩ := split_at_getElem? chars ci (key, v) hc
  have hklt : k < (specDescrs ci v).length := by
    by_contra hge
    rw [List.getElem?_eq_none (by omega)] at hk
    exact Option.noConfusion hk
  have h1 : specDescrsList 0 chars
      = specDescrsList 0 (chars.take ci) ++
          (specDescrs ci v ++ specDescrsList (ci + 1) (chars.drop (ci + 1))) := by
    conv_lhs => rw [hsplit]
    rw [specDescrsList_append, hlen, Nat.zero_add]
    rfl
  rw [h1, getElem?_middle _ _ _ k hklt]
  exact hk

theorem specCharsAll_sorted (c : Collab) : ∀ (svcs : List (String × JsVar)) (j : Nat),
    (specCharsAll c j svcs).Pairwise (fun a b => a.service_pos ≤ b.service_pos)
  | [], _ => List.Pairwise.nil
  | (_, sv) :: rest, j => by
    simp only [specCharsAll]
    rw [List.pairwise_append]
    refine ⟨?_, specCharsAll_sorted c rest (j + 1), ?_⟩
    · simp only [specChars, List.pairwise_map]
      exact List.pairwise_of_forall (fun _ _ => Nat.le_refl j)
    · intro a ha b hb
      have h1 : a.service_pos = j := by
        simp only [specChars, List.mem_map] at ha
        obtain ⟨kv, _, rfl⟩ := ha
        rfl
      have h2 := (specCharsAll_entry c rest (j + 1) b hb).2.1
      omega

theorem specDescrsList_sorted : ∀ (chars : List (String × JsVar)) (i : Nat),
    (specDescrsList i chars).Pairwise (fun a b => a.char_pos ≤ b.char_pos)
  | [], _ => List.Pairwise.nil
  | (_, v) :: rest, i => by
    simp only [specDescrsList]
    rw [List.pairwise_append]
    refine ⟨?_, specDescrsList_sorted rest (i + 1), ?_⟩
    · rw [List.pairwise_iff_forall_sublist]
      intro a b hab
      have ha := (specDescrs_entry i v a (hab.subset (by simp))).2
      have hb := (specDescrs_entry i v b (hab.subset (by simp))).2
      omega
    · intro a ha b hb
      have h1 := (specDescrs_entry i v a ha).2
      have h2 := (specDescrsList_entry rest (i + 1) b hb).2.1
      omega

theorem pairwise_le_getElem? {α : Type} (f : α → Nat) (l : List α)
    (hp : l.Pairwise (fun a b => f a ≤ f b)) (i j : Nat) (a b : α) (hij : i ≤ j)
    (ha : l[i]? = some a) (hb : l[j]? = some b) : f a ≤ f b := by
  rcases Nat.lt_or_eq_of_le hij with hlt | heq
  · obtain ⟨hi, rfl⟩ := List.getElem?_eq_some.1 ha
    obtain ⟨hj, rfl⟩ := List.getElem?_eq_some.1 hb
    exact List.pairwise_iff_getElem.1 hp i j hi hj hlt
  · subst heq
    rw [ha] at hb
    cases hb
    exact Nat.le_refl _
/-- Layout of the tables the fill pass leaves for a description that fits the counters. -/
theorem fill_layout_order (c : Collab) (s : State)
    (svcs : List (String × JsVar)) (hsv : jsvChildren s.gatts_services = svcs)
    (h1 : svcs.length < U16) (h2 : (allChars svcs).length < U16)
    (h3 : (specDescrsList 0 (allChars svcs)).length < U16) :
    ∃ s1, gatts_structs_init c (gatts_create_structs s) = some s1 ∧
      s1.ble_service_cnt = svcs.length ∧ s1.ble_char_cnt = (allChars svcs).length ∧
      (∀ (ci : Nat) (e : gatts_char_inst), tblGet s1.gatts_char ci = some e →
        e.service_pos < s1.ble_service_cnt) ∧
      (∀ (q : Nat) (d : gatts_descr_inst), tblGet s1.gatts_descr q = some d →
        d.char_pos < s1.ble_char_cnt) ∧
      (∀ (i : Nat) (key : String) (sv : JsVar), svcs[i]? = some (key, sv) →
        ∃ e, tblGet s1.gatts_service i = some e ∧
          e.uuid16 = (c.bleVarToUUID key).ble_uuid.uuid) ∧
      (∀ (i : Nat) (key : String) (sv : JsVar) (k : Nat) (kc : String) (v : JsVar),
        svcs[i]? = some (key, sv) → (charsOf sv)[k]? = some (kc, v) →
        ∃ e, tblGet s1.gatts_char ((allChars (svcs.take i)).length + k) = some e ∧
          e.char_uuid16 = (c.bleVarToUUID kc).ble_uuid.uuid ∧ e.service_pos = i) ∧
      (∀ (ci : Nat) (key : String) (v : JsVar) (k : Nat) (d : gatts_descr_inst),
        (allChars svcs)[ci]? = some (key, v) → (specDescrs ci v)[k]? = some d →
        tblGet s1.gatts_descr ((specDescrsList 0 ((allChars svcs).take ci)).length + k)
          = some d ∧ d.char_pos = ci) ∧
      (∀ (i j : Nat) (e1 e2 : gatts_char_inst), i ≤ j →
        tblGet s1.gatts_char i = some e1 → tblGet s1.gatts_char j = some e2 →
        e1.service_pos ≤ e2.service_pos) ∧
      (∀ (p q : Nat) (d1 d2 : gatts_descr_inst), p ≤ q →
        tblGet s1.gatts_descr p = some d1 → tblGet s1.gatts_descr q = some d2 →
        d1.char_pos ≤ d2.char_pos) := by
  obtain ⟨s1, hf, ts, tc, td, cs, cc, _⟩ := fill_spec c s svcs hsv h1 h2 h3
  refine ⟨s1, hf, cs, cc, ?_, ?_, ?_, ?_, ?_, ?_, ?_⟩
  · intro ci e he
    rw [tc, tblGet_eq, tblList_some] at he
    have := (specCharsAll_entry c svcs 0 e (List.mem_iff_getElem?.2 ⟨_, he⟩)).2.2
    omega
  · intro q d hd
    rw [td, tblGet_eq, tblList_some] at hd
    have := (specDescrsList_entry (allChars svcs) 0 d (List.mem_iff_getElem?.2 ⟨_, hd⟩)).2.2
    omega
  · intro i key sv hi
    refine ⟨specService c key sv, ?_, rfl⟩
    rw [ts, tblGet_eq, tblList_some]
    exact specServices_get c svcs i key sv hi
  · intro i key sv k kc v hi hk
    refine ⟨charFill (c.bleVarToUUID kc).ble_uuid v i gatts_char_inst.zero, ?_, rfl, rfl⟩
    rw [tc, tblGet_eq, tblList_some]
    exact specCharsAll_at c svcs i key sv k kc v hi hk
  · intro ci key v k d hc hk
    refine ⟨?_, (specDescrs_entry ci v d (List.mem_iff_getElem?.2 ⟨_, hk⟩)).2⟩
    rw [td, tblGet_eq, tblList_some]
    exact specDescrsList_at (allChars svcs) ci key v k d hc hk
  · intro i j e1 e2 hij he1 he2
    rw [tc, tblGet_eq, tblList_some] at he1 he2
    exact pairwise_le_getElem? (fun e => e.service_pos) _ (specCharsAll_sorted c svcs 0)
      i j e1 e2 hij he1 he2
  · intro p q d1 d2 hpq hd1 hd2
    rw [td, tblGet_eq, tblList_some] at hd1 hd2
    exact pairwise_le_getElem? (fun d => d.char_pos) _ (specDescrsList_sorted (allChars svcs) 0)
      p q d1 d2 hpq hd1 hd2


theorem fill_example_positions :
    (gatts_structs_init exampleCollab (gatts_create_structs (stateWith exampleServices))).map
      (fun s1 => ((tblList s1.gatts_char).map (fun e => e.service_pos),
        (tblList s1.gatts_descr).map (fun d => d.char_pos),
        s1.ble_service_pos, s1.ble_char_pos, s1.ble_descr_pos))
      = some ([0, 1, 1], [1, 1], 1, 2, 1) := by decide
theorem hiddenSetIf_cursors (v : Option JsVar) (n : HiddenName) (s : State)
    (h : CursorsInRange s) : CursorsInRange (hiddenSetIf v n s) := by
  cases v <;> exact h

theorem charInitNotify_cursors (v : JsVar) (s s1 : State) (h : charInitNotify v s = some s1)
    (hc : CursorsInRange s) : CursorsInRange s1 := by
  have hU : 0 < U16 := by simp [U16]
  unfold charInitNotify at h
  split at h
  · simp only [] at h
    split at h
    · exact Option.noConfusion h
    · cases h
      exact ⟨hc.1, hc.2.1, Nat.mod_lt _ hU⟩
  · cases h
    exact hc

theorem charInitDescription_cursors (v : JsVar) (s s1 : State)
    (h : charInitDescription v s = some s1) (hc : CursorsInRange s) : CursorsInRange s1 := by
  have hU : 0 < U16 := by simp [U16]
  unfold charInitDescription at h
  split at h
  · split at h
    · simp only [] at h
      split at h
      · exact Option.noConfusion h
      · cases h
        exact ⟨hc.1, hc.2.1, Nat.mod_lt _ hU⟩
    · cases h
      exact hc
  · cases h
    exact hc

theorem charInitEntry_cursors (c : Collab) (key : String) (v : JsVar) (s s1 : State)
    (h : charInitEntry c key v s = some s1) (hc : CursorsInRange s) : CursorsInRange s1 := by
  unfold charInitEntry at h
  simp only [] at h
  split at h
  · exact Option.noConfusion h
  · split at h <;> (cases h; exact hc)

theorem gatts_char_init_cursors (c : Collab) (key : String) (v : JsVar) (s s1 : State)
    (h : gatts_char_init c key v s = some s1) (hc : CursorsInRange s) : CursorsInRange s1 := by
  unfold gatts_char_init at h
  split at h
  · exact Option.noConfusion h
  · rename_i s2 h2
    split at h
    · exact Option.noConfusion h
    · rename_i s5 h5
      split at h
      · exact Option.noConfusion h
      · rename_i s6 h6
        cases h
        have c2 := charInitEntry_cursors c key v s s2 h2 hc
        have c3 : CursorsInRange (charInitCallbacks v s2) :=
          hiddenSetIf_cursors _ _ _ (hiddenSetIf_cursors _ _ _ c2)
        have c5 := charInitNotify_cursors v _ s5 h5 c3
        have c6 := charInitDescription_cursors v s5 s6 h6 c5
        exact hiddenSetIf_cursors _ _ _ c6

theorem charLoop_cursors (c : Collab) : ∀ (chars : List (String × JsVar)) (handles : Nat)
    (s : State) (n : Nat) (s1 : State), charLoop c chars handles s = some (n, s1) →
    CursorsInRange s → CursorsInRange s1
  | [], handles, s, n, s1, h, hc => by
    simp only [charLoop, Option.some.injEq, Prod.mk.injEq] at h
    rw [← h.2]
    exact hc
  | (key, v) :: rest, handles, s, n, s1, h, hc => by
    have hU : 0 < U16 := by simp [U16]
    simp only [charLoop] at h
    split at h
    · exact Option.noConfusion h
    · rename_i s2 h2
      exact charLoop_cursors c rest _ s2 n s1 h
        (gatts_char_init_cursors c key v _ s2 h2 ⟨hc.1, Nat.mod_lt _ hU, hc.2.2⟩)

theorem serviceInitHead_cursors (c : Collab) (key : String) (s s1 : State)
    (h : serviceInitHead c key s = some s1) (hc : CursorsInRange s) : CursorsInRange s1 := by
  unfold serviceInitHead at h
  simp only [] at h
  split at h
  · exact Option.noConfusion h
  · split at h
    · exact Option.noConfusion h
    · split at h
      · exact Option.noConfusion h
      · split at h
        · exact Option.noConfusion h
        · cases h
          split <;> exact hc

theorem gatts_service_struct_init_cursors (c : Collab) (key : String) (sv : JsVar)
    (s s1 : State) (h : gatts_service_struct_init c key sv s = some s1)
    (hc : CursorsInRange s) : CursorsInRange s1 := by
  unfold gatts_service_struct_init at h
  split at h
  · exact Option.noConfusion h
  · rename_i s3 h3
    split at h
    · exact Option.noConfusion h
    · rename_i n s4 h4
      split at h
      · exact Option.noConfusion h
      · cases h
        exact charLoop_cursors c _ _ s3 n s4 h4 (serviceInitHead_cursors c key s s3 h3 hc)

theorem serviceLoop_cursors (c : Collab) : ∀ (svcs : List (String × JsVar)) (s s1 : State),
    serviceLoop c svcs s = some s1 → CursorsInRange s → CursorsInRange s1
  | [], s, s1, h, hc => by
    simp only [serviceLoop, Option.some.injEq] at h
    rw [← h]
    exact hc
  | (key, sv) :: rest, s, s1, h, hc => by
    have hU : 0 < U16 := by simp [U16]
    simp only [serviceLoop] at h
    split at h
    · exact Option.noConfusion h
    · rename_i s2 h2
      exact serviceLoop_cursors c rest s2 s1 h
        (gatts_service_struct_init_cursors c key sv _ s2 h2 ⟨Nat.mod_lt _ hU, hc.2.1, hc.2.2⟩)

theorem gatts_structs_init_cursors (c : Collab) (s s1 : State)
    (h : gatts_structs_init c s = some s1) (hc : CursorsInRange s) : CursorsInRange s1 := by
  unfold gatts_structs_init at h
  split at h
  · exact Option.noConfusion h
  · exact serviceLoop_cursors c _ _ s1 h hc

theorem create_structs_cursors (s : State) :
    (gatts_create_structs s).ble_service_pos = U16 - 1 ∧
    (gatts_create_structs s).ble_char_pos = U16 - 1 ∧
    (gatts_create_structs s).ble_descr_pos = U16 - 1 := by
  obtain ⟨_, _, _, _, a5, a6, a7⟩ := countServices_spec (jsvChildren s.gatts_services)
    { s with ble_service_cnt := 0, ble_char_cnt := 0, ble_descr_cnt := 0,
             ble_service_pos := U16 - 1, ble_char_pos := U16 - 1, ble_descr_pos := U16 - 1 }
    (by simp [U16]) (by simp [U16]) (by simp [U16])
  exact ⟨a5, a6, a7⟩

theorem create_structs_tables (s : State) :
    tblLen (gatts_create_structs s).gatts_service = (gatts_create_structs s).ble_service_cnt ∧
    tblLen (gatts_create_structs s).gatts_char = (gatts_create_structs s).ble_char_cnt ∧
    tblLen (gatts_create_structs s).gatts_descr = (gatts_create_structs s).ble_descr_cnt := by
  simp [gatts_create_structs, tblLen]

theorem tblModify_some_lt {α : Type} (tbl : Option (List α)) (i : Nat) (f : α → α)
    (t : List α) (h : tblModify tbl i f = some t) : i < tblLen tbl ∧ t.length = tblLen tbl := by
  have hi : i < (tblList tbl).length := by
    by_contra hge
    have hn : (tblList tbl)[i]? = none := List.getElem?_eq_none (by omega)
    cases tbl with
    | none => simp [tblModify] at h
    | some l =>
      simp only [tblList] at hn
      simp [tblModify, hn] at h
  obtain ⟨e, he⟩ : ∃ e, (tblList tbl)[i]? = some e := ⟨_, List.getElem?_eq_getElem hi⟩
  rw [tblModify_eq tbl i f e he] at h
  cases h
  rw [← tblList_length]
  exact ⟨hi, by simp⟩
theorem serviceInitHead_gatts_char (c : Collab) (key : String) (s s1 : State)
    (h : serviceInitHead c key s = some s1) : s1.gatts_char = s.gatts_char := by
  unfold serviceInitHead at h
  simp only [] at h
  split at h
  · exact Option.noConfusion h
  · split at h
    · exact Option.noConfusion h
    · split at h
      · exact Option.noConfusion h
      · split at h
        · exact Option.noConfusion h
        · cases h
          split <;> rfl

theorem gatts_char_init_empty_table (c : Collab) (key : String) (v : JsVar) (s : State)
    (h : s.gatts_char = some []) : gatts_char_init c key v s = none := by
  unfold gatts_char_init charInitEntry
  simp [h, tblModify]

theorem service_struct_init_empty_table (c : Collab) (key : String) (sv : JsVar) (s : State)
    (kc : String) (cv : JsVar) (crest : List (String × JsVar))
    (hch : jsvChildren (some sv) = (kc, cv) :: crest) (h : s.gatts_char = some []) :
    gatts_service_struct_init c key sv s = none := by
  unfold gatts_service_struct_init
  cases h3 : serviceInitHead c key s with
  | none => rfl
  | some s3 =>
    have hc3 := serviceInitHead_gatts_char c key s s3 h3
    have hx : ∀ s2 : State, s2.gatts_char = some [] → gatts_char_init c kc cv s2 = none :=
      fun s2 h2 => gatts_char_init_empty_table c kc cv s2 h2
    simp only [hch, charLoop]
    rw [hx _ (by rw [← h, ← hc3])]

theorem fill_faults_without_char_entries (c : Collab) (s : State) (key : String) (sv : JsVar)
    (rest : List (String × JsVar)) (kc : String) (cv : JsVar) (crest : List (String × JsVar))
    (hsv : jsvChildren s.gatts_services = (key, sv) :: rest)
    (hch : jsvChildren (some sv) = (kc, cv) :: crest) (h : s.gatts_char = some []) :
    gatts_structs_init c s = none := by
  unfold gatts_structs_init
  cases structsInitLoop s.ble_service_cnt 0 s.gatts_service with
  | none => rfl
  | some t =>
    have hx : ∀ s2 : State, s2.gatts_char = some [] →
        gatts_service_struct_init c key sv s2 = none :=
      fun s2 h2 => service_struct_init_empty_table c key sv s2 kc cv crest hch h2
    simp only [hsv, serviceLoop]
    rw [hx _ (by exact h)]

theorem create_structs_services (s : State) :
    (gatts_create_structs s).gatts_services = s.gatts_services := by
  obtain ⟨_, _, _, a4, _⟩ := countServices_spec (jsvChildren s.gatts_services)
    { s with ble_service_cnt := 0, ble_char_cnt := 0, ble_descr_cnt := 0,
             ble_service_pos := U16 - 1, ble_char_pos := U16 - 1, ble_descr_pos := U16 - 1 }
    (by simp [U16]) (by simp [U16]) (by simp [U16])
  exact a4

theorem create_structs_char_table (s : State) :
    (gatts_create_structs s).gatts_char
      = some (List.replicate (gatts_create_structs s).ble_char_cnt gatts_char_inst.zero) := rfl

theorem fill_cursors (c : Collab) (s : State) (svcs : List (String × JsVar))
    (hsv : jsvChildren s.gatts_services = svcs)
    (h1 : svcs.length < U16) (h2 : (allChars svcs).length < U16)
    (h3 : (specDescrsList 0 (allChars svcs)).length < U16) :
    ∃ s1, gatts_structs_init c (gatts_create_structs s) = some s1 ∧
      s1.ble_service_pos = (svcs.length + (U16 - 1)) % U16 ∧
      s1.ble_char_pos = ((allChars svcs).length + (U16 - 1)) % U16 ∧
      s1.ble_descr_pos = ((specDescrsList 0 (allChars svcs)).length + (U16 - 1)) % U16 := by
  obtain ⟨s1, hf, _, _, _, _, _, _, p1, p2, p3, _⟩ := fill_spec c s svcs hsv h1 h2 h3
  obtain ⟨i1, i2, i3⟩ := create_structs_cursors s
  obtain ⟨q1, q2, q3⟩ := gatts_structs_init_cursors c _ s1 hf
    ⟨by rw [i1]; simp [U16], by rw [i2]; simp [U16], by rw [i3]; simp [U16]⟩
  refine ⟨s1, hf, ?_, ?_, ?_⟩
  · simp only [U16] at p1 q1 h1 ⊢; omega
  · simp only [U16] at p2 q2 h2 ⊢; omega
  · simp only [U16] at p3 q3 h3 ⊢; omega

/-- C23 (amended): for a description within the 16-bit counters, the counting pass leaves
the three cursors at 65535 and allocates as many entries as it counted, and the fill pass
returns: every store it makes lies inside its allocation (a store outside one makes the
model return `none`).  It leaves the counts and the sizes of the tables as they were, has
written every entry (entry `i` of each table is the one of the `i`-th service,
characteristic or descriptor of the description), and leaves each cursor at its count minus
one modulo 2 ^ 16. -/
theorem fill_pass_fills_allocation (c : Collab) (s : State) (svcs : List (String × JsVar))
    (hsv : jsvChildren s.gatts_services = svcs)
    (h1 : svcs.length < U16) (h2 : (allChars svcs).length < U16)
    (h3 : (specDescrsList 0 (allChars svcs)).length < U16) :
    (gatts_create_structs s).ble_service_pos = 65535 ∧
    (gatts_create_structs s).ble_char_pos = 65535 ∧
    (gatts_create_structs s).ble_descr_pos = 65535 ∧
    tblLen (gatts_create_structs s).gatts_service = (gatts_create_structs s).ble_service_cnt ∧
    tblLen (gatts_create_structs s).gatts_char = (gatts_create_structs s).ble_char_cnt ∧
    tblLen (gatts_create_structs s).gatts_descr = (gatts_create_structs s).ble_descr_cnt ∧
    ∃ s1, gatts_structs_init c (gatts_create_structs s) = some s1 ∧
      s1.ble_service_cnt = (gatts_create_structs s).ble_service_cnt ∧
      s1.ble_char_cnt = (gatts_create_structs s).ble_char_cnt ∧
      s1.ble_descr_cnt = (gatts_create_structs s).ble_descr_cnt ∧
      tblLen s1.gatts_service = s1.ble_service_cnt ∧
      tblLen s1.gatts_char = s1.ble_char_cnt ∧
      tblLen s1.gatts_descr = s1.ble_descr_cnt ∧
      s1.gatts_service = some (specServices c svcs) ∧
      s1.gatts_char = some (specCharsAll c 0 svcs) ∧
      s1.gatts_descr = some (specDescrsList 0 (allChars svcs)) ∧
      s1.ble_service_pos = (s1.ble_service_cnt + (2 ^ 16 - 1)) % 2 ^ 16 ∧
      s1.ble_char_pos = (s1.ble_char_cnt + (2 ^ 16 - 1)) % 2 ^ 16 ∧
      s1.ble_descr_pos = (s1.ble_descr_cnt + (2 ^ 16 - 1)) % 2 ^ 16 := by
  obtain ⟨i1, i2, i3⟩ := create_structs_cursors s
  obtain ⟨l1, l2, l3⟩ := create_structs_tables s
  obtain ⟨n1, n2, n3⟩ := create_structs_counts s
  rw [hsv] at n1 n2 n3
  rw [Nat.mod_eq_of_lt h1] at n1
  rw [Nat.mod_eq_of_lt h2] at n2
  rw [Nat.mod_eq_of_lt h3] at n3
  obtain ⟨s1, hf, ts, tc, td, cs, cc, cd, _⟩ := fill_spec c s svcs hsv h1 h2 h3
  obtain ⟨s2, hf2, p1, p2, p3⟩ := fill_cursors c s svcs hsv h1 h2 h3
  rw [hf] at hf2
  cases hf2
  refine ⟨i1, i2, i3, l1, l2, l3, s1, hf, by rw [cs, n1], by rw [cc, n2], by rw [cd, n3],
    ?_, ?_, ?_, ts, tc, td, by rw [cs]; exact p1, by rw [cc]; exact p2, by rw [cd]; exact p3⟩
  · rw [ts, cs]; simp [tblLen, specServices]
  · rw [tc, cc]; simp [tblLen, specCharsAll_length]
  · rw [td, cd]; simp [tblLen]

/-- C23 (witness): the fill pass over `exampleServices` leaves the cursors at 1, 2 and 1
for its two services, three characteristics and two descriptors. -/
theorem fill_pass_fills_allocation_witness :
    (∃ s1, gatts_structs_init exampleCollab (gatts_create_structs (stateWith exampleServices))
        = some s1 ∧
      s1.ble_service_cnt = 2 ∧ s1.ble_char_cnt = 3 ∧ s1.ble_descr_cnt = 2 ∧
      s1.ble_service_pos = 1 ∧ s1.ble_char_pos = 2 ∧ s1.ble_descr_pos = 1) ∧
    tblLen (gatts_create_structs (stateWith exampleServices)).gatts_char = 3 := by
  obtain ⟨_, _, _, _, l2, _, s1, hf, c1, c2, c3, _, _, _, _, _, _, p1, p2, p3⟩ :=
    fill_pass_fills_allocation exampleCollab (stateWith exampleServices) _
      exampleServices_children (by decide) (by decide) (by decide)
  have e1 : (gatts_create_structs (stateWith exampleServices)).ble_service_cnt = 2 := by decide
  have e2 : (gatts_create_structs (stateWith exampleServices)).ble_char_cnt = 3 := by decide
  have e3 : (gatts_create_structs (stateWith exampleServices)).ble_descr_cnt = 2 := by decide
  rw [e1] at c1
  rw [e2] at c2 l2
  rw [e3] at c3
  rw [c1] at p1
  rw [c2] at p2
  rw [c3] at p3
  exact ⟨⟨s1, hf, c1, c2, c3, p1, p2, p3⟩, l2⟩

/-- C23 (counterexample): for a service with 65536 characteristics the counting pass
allocates no characteristic entry (the count is 0) and leaves the cursor at 65535; the fill
pass stores the first characteristic at index (65535 + 1) mod 2 ^ 16 = 0, which is not below
the count, so the store lies outside the allocation. -/
theorem fill_pass_overruns_wrapped_allocation :
    (allChars (jsvChildren (stateWith (wideService 65536)).gatts_services)).length = 65536 ∧
    (gatts_create_structs (stateWith (wideService 65536))).ble_char_cnt = 0 ∧
    tblLen (gatts_create_structs (stateWith (wideService 65536))).gatts_char = 0 ∧
    ((gatts_create_structs (stateWith (wideService 65536))).ble_char_pos + 1) % U16 = 0 ∧
    gatts_structs_init exampleCollab (gatts_create_structs (stateWith (wideService 65536)))
      = none := by
  have hcnt : (gatts_create_structs (stateWith (wideService 65536))).ble_char_cnt = 0 := by
    rw [wideService_char_cnt]
    rfl
  have htab : (gatts_create_structs (stateWith (wideService 65536))).gatts_char = some [] := by
    rw [create_structs_char_table, hcnt]
    rfl
  refine ⟨wideService_chars 65536, hcnt, by rw [htab]; rfl, ?_, ?_⟩
  · rw [(create_structs_cursors _).2.1]
    rfl
  · refine fill_faults_without_char_entries exampleCollab _ "180D"
      (.obj (List.replicate 65536 ("2A37", .obj []))) [] "2A37" (.obj [])
      (List.replicate 65535 ("2A37", .obj [])) ?_ ?_ htab
    · rw [create_structs_services]
      rfl
    · show List.replicate (65535 + 1) ("2A37", JsVar.obj []) = _
      rw [List.replicate_succ]
theorem sameSizes_refl (s : State) : SameSizes s s := ⟨rfl, rfl, rfl⟩

theorem sameSizes_trans {a b d : State} (h1 : SameSizes a b) (h2 : SameSizes b d) :
    SameSizes a d :=
  ⟨h2.1.trans h1.1, h2.2.1.trans h1.2.1, h2.2.2.trans h1.2.2⟩

theorem hiddenSetIf_step (v : Option JsVar) (n : HiddenName) (s : State) :
    SameSizes s (hiddenSetIf v n s) ∧
    (hiddenSetIf v n s).ble_service_pos = s.ble_service_pos ∧
    (hiddenSetIf v n s).ble_char_pos = s.ble_char_pos ∧
    (hiddenSetIf v n s).ble_descr_pos = s.ble_descr_pos := by
  cases v <;> exact ⟨⟨rfl, rfl, rfl⟩, rfl, rfl, rfl⟩

theorem charInitEntry_step (c : Collab) (key : String) (v : JsVar) (s s1 : State)
    (h : charInitEntry c key v s = some s1) :
    s.ble_char_pos < tblLen s.gatts_char ∧ SameSizes s s1 ∧
    s1.ble_service_pos = s.ble_service_pos ∧ s1.ble_char_pos = s.ble_char_pos ∧
    s1.ble_descr_pos = s.ble_descr_pos := by
  unfold charInitEntry at h
  simp only [] at h
  split at h
  · exact Option.noConfusion h
  · rename_i t ht
    obtain ⟨hlt, hlen⟩ := tblModify_some_lt _ _ _ t ht
    split at h <;> (cases h; exact ⟨hlt, ⟨rfl, hlen, rfl⟩, rfl, rfl, rfl⟩)

theorem charInitNotify_step (v : JsVar) (s s1 : State) (h : charInitNotify v s = some s1) :
    SameSizes s s1 ∧ s1.ble_service_pos = s.ble_service_pos ∧
    s1.ble_char_pos = s.ble_char_pos ∧
    (hasNotify v = true → (s.ble_descr_pos + 1) % U16 < tblLen s.gatts_descr ∧
      s1.ble_descr_pos = (s.ble_descr_pos + 1) % U16) ∧
    (hasNotify v = false → s1.ble_descr_pos = s.ble_descr_pos) := by
  unfold charInitNotify at h
  split at h
  · rename_i hn
    simp only [] at h
    split at h
    · exact Option.noConfusion h
    · rename_i t ht
      obtain ⟨hlt, hlen⟩ := tblModify_some_lt _ _ _ t ht
      cases h
      exact ⟨⟨rfl, rfl, hlen⟩, rfl, rfl, fun _ => ⟨hlt, rfl⟩,
        fun hf => by rw [hn] at hf; exact Bool.noConfusion hf⟩
  · rename_i hn
    cases h
    exact ⟨sameSizes_refl _, rfl, rfl, fun ht => absurd ht hn, fun _ => rfl⟩

theorem charInitDescription_step (v : JsVar) (s s1 : State)
    (h : charInitDescription v s = some s1) :
    SameSizes s s1 ∧ s1.ble_service_pos = s.ble_service_pos ∧
    s1.ble_char_pos = s.ble_char_pos ∧
    (hasDescription v = true → (s.ble_descr_pos + 1) % U16 < tblLen s.gatts_descr ∧
      s1.ble_descr_pos = (s.ble_descr_pos + 1) % U16) ∧
    (hasDescription v = false → s1.ble_descr_pos = s.ble_descr_pos) := by
  unfold charInitDescription at h
  unfold hasDescription
  cases hw : jsvObjectGetChild v "description" with
  | none =>
    simp only [hw] at h ⊢
    cases h
    exact ⟨sameSizes_refl _, rfl, rfl, fun ht => Bool.noConfusion ht, fun _ => rfl⟩
  | some w =>
    simp only [hw] at h ⊢
    split at h
    · rename_i hn
      split at h
      · exact Option.noConfusion h
      · rename_i t ht
        obtain ⟨hlt, hlen⟩ := tblModify_some_lt _ _ _ t ht
        cases h
        exact ⟨⟨rfl, rfl, hlen⟩, rfl, rfl, fun _ => ⟨hlt, rfl⟩,
          fun hf => by rw [hn] at hf; exact Bool.noConfusion hf⟩
    · rename_i hn
      cases h
      exact ⟨sameSizes_refl _, rfl, rfl, fun ht => absurd ht hn, fun _ => rfl⟩

theorem cursor_advance (p p1 k L : Nat) (b : Bool) (hk : (p + 1) % U16 = k) (hle : k ≤ L)
    (hU : L < U16) (ht : b = true → (p + 1) % U16 < L ∧ p1 = (p + 1) % U16)
    (hf : b = false → p1 = p) :
    (p1 + 1) % U16 = k + (if b then 1 else 0) ∧ k + (if b then 1 else 0) ≤ L := by
  cases b with
  | false =>
    rw [hf rfl]
    simpa using ⟨hk, hle⟩
  | true =>
    obtain ⟨h1, h2⟩ := ht rfl
    rw [h2]
    simp only [U16, if_true] at *
    omega

theorem gatts_char_init_step (c : Collab) (key : String) (v : JsVar) (s s1 : State)
    (h : gatts_char_init c key v s = some s1) (kd : Nat)
    (hd : (s.ble_descr_pos + 1) % U16 = kd) (hle : kd ≤ tblLen s.gatts_descr)
    (hU : tblLen s.gatts_descr < U16) (i : Nat) :
    s.ble_char_pos < tblLen s.gatts_char ∧ SameSizes s s1 ∧
    s1.ble_service_pos = s.ble_service_pos ∧ s1.ble_char_pos = s.ble_char_pos ∧
    (s1.ble_descr_pos + 1) % U16 = kd + (specDescrs i v).length ∧
    kd + (specDescrs i v).length ≤ tblLen s.gatts_descr := by
  unfold gatts_char_init at h
  split at h
  · exact Option.noConfusion h
  · rename_i s2 h2
    split at h
    · exact Option.noConfusion h
    · rename_i s5 h5
      split at h
      · exact Option.noConfusion h
      · rename_i s6 h6
        cases h
        obtain ⟨a0, a1, a2, a3, a4⟩ := charInitEntry_step c key v s s2 h2
        obtain ⟨b1, b2, b3, b4⟩ : SameSizes s2 (charInitCallbacks v s2) ∧
            (charInitCallbacks v s2).ble_service_pos = s2.ble_service_pos ∧
            (charInitCallbacks v s2).ble_char_pos = s2.ble_char_pos ∧
            (charInitCallbacks v s2).ble_descr_pos = s2.ble_descr_pos := by
          obtain ⟨x1, x2, x3, x4⟩ := hiddenSetIf_step (jsvObjectGetChild v "onRead")
            (bleGetHiddenName .BLE_READ_EVENT s2.ble_char_pos) s2
          obtain ⟨y1, y2, y3, y4⟩ := hiddenSetIf_step (jsvObjectGetChild v "onWrite")
            (bleGetHiddenName .BLE_WRITE_EVENT
              (hiddenSetIf (jsvObjectGetChild v "onRead")
                (bleGetHiddenName .BLE_READ_EVENT s2.ble_char_pos) s2).ble_char_pos)
            (hiddenSetIf (jsvObjectGetChild v "onRead")
              (bleGetHiddenName .BLE_READ_EVENT s2.ble_char_pos) s2)
          exact ⟨sameSizes_trans x1 y1, y2.trans x2, y3.trans x3, y4.trans x4⟩
        obtain ⟨c1, c2, c3, c4, c5⟩ := charInitNotify_step v _ s5 h5
        obtain ⟨d1, d2, d3, d4, d5⟩ := charInitDescription_step v s5 s6 h6
        obtain ⟨e1, e2, e3, e4⟩ := hiddenSetIf_step (jsvObjectGetChild v "value")
          (bleGetHiddenName .BLE_CHAR_VALUE s6.ble_char_pos) s6
        have hsz : SameSizes s s6 :=
          sameSizes_trans (sameSizes_trans (sameSizes_trans a1 b1) c1) d1
        have hsz5 : tblLen s5.gatts_descr = tblLen s.gatts_descr :=
          (sameSizes_trans (sameSizes_trans a1 b1) c1).2.2
        have hszc : tblLen (charInitCallbacks v s2).gatts_descr = tblLen s.gatts_descr :=
          (sameSizes_trans a1 b1).2.2
        have hp0 : (charInitCallbacks v s2).ble_descr_pos = s.ble_descr_pos := b4.trans a4
        have st1 := cursor_advance (charInitCallbacks v s2).ble_descr_pos s5.ble_descr_pos kd
          (tblLen s.gatts_descr) (hasNotify v) (by rw [hp0]; exact hd) hle hU
          (fun hn => by rw [← hszc]; exact c4 hn) c5
        have st2 := cursor_advance s5.ble_descr_pos s6.ble_descr_pos
          (kd + (if hasNotify v then 1 else 0)) (tblLen s.gatts_descr) (hasDescription v)
          st1.1 st1.2 hU (fun hx => by rw [← hsz5]; exact d4 hx) d5
        refine ⟨a0, sameSizes_trans hsz e1, ?_, ?_, ?_, ?_⟩
        · exact e2.trans (d2.trans (c2.trans (b2.trans a2)))
        · exact e3.trans (d3.trans (c3.trans (b3.trans a3)))
        · show ((charInitValue v s6).ble_descr_pos + 1) % U16 = _
          unfold charInitValue
          rw [e4, specDescrs_length, ← Nat.add_assoc]
          exact st2.1
        · rw [specDescrs_length, ← Nat.add_assoc]
          exact st2.2
theorem charLoop_step (c : Collab) : ∀ (chars : List (String × JsVar)) (handles : Nat)
    (s : State) (n : Nat) (s1 : State) (kc kd i : Nat),
    charLoop c chars handles s = some (n, s1) →
    (s.ble_char_pos + 1) % U16 = kc → kc ≤ tblLen s.gatts_char → tblLen s.gatts_char < U16 →
    (s.ble_descr_pos + 1) % U16 = kd → kd ≤ tblLen s.gatts_descr →
    tblLen s.gatts_descr < U16 →
    SameSizes s s1 ∧ s1.ble_service_pos = s.ble_service_pos ∧
    (s1.ble_char_pos + 1) % U16 = kc + chars.length ∧
    kc + chars.length ≤ tblLen s.gatts_char ∧
    (s1.ble_descr_pos + 1) % U16 = kd + (specDescrsList i chars).length ∧
    kd + (specDescrsList i chars).length ≤ tblLen s.gatts_descr
  | [], handles, s, n, s1, kc, kd, i, h, hc, hcl, _, hd, hdl, _ => by
    simp only [charLoop, Option.some.injEq, Prod.mk.injEq] at h
    rw [← h.2]
    exact ⟨sameSizes_refl _, rfl, by simpa using hc, by simpa using hcl,
      by simpa [specDescrsList] using hd, by simpa [specDescrsList] using hdl⟩
  | (key, v) :: rest, handles, s, n, s1, kc, kd, i, h, hc, hcl, hcU, hd, hdl, hdU => by
    simp only [charLoop] at h
    split at h
    · exact Option.noConfusion h
    · rename_i s2 h2
      obtain ⟨a0, a1, a2, a3, a4, a5⟩ := gatts_char_init_step c key v _ s2 h2 kd hd hdl hdU i
      have a0a : (s.ble_char_pos + 1) % U16 < tblLen s.gatts_char := a0
      have a3a : s2.ble_char_pos = (s.ble_char_pos + 1) % U16 := a3
      have a1a : SameSizes s s2 := a1
      have a2a : s2.ble_service_pos = s.ble_service_pos := a2
      have a5a : kd + (specDescrs i v).length ≤ tblLen s.gatts_descr := a5
      obtain ⟨b1, b2, b3, b4, b5, b6⟩ := charLoop_step c rest _ s2 n s1 (kc + 1)
        (kd + (specDescrs i v).length) (i + 1) h
        (by rw [a3a, hc]; rw [hc] at a0a; simp only [U16] at *; omega)
        (by rw [a1a.2.1]; rw [hc] at a0a; omega)
        (by rw [a1a.2.1]; exact hcU)
        a4 (by rw [a1a.2.2]; exact a5a) (by rw [a1a.2.2]; exact hdU)
      rw [a1a.2.1] at b4
      rw [a1a.2.2] at b6
      refine ⟨sameSizes_trans a1a b1, b2.trans a2a, ?_, ?_, ?_, ?_⟩
      · rw [b3, List.length_cons]; omega
      · rw [List.length_cons]; omega
      · rw [b5]; simp only [specDescrsList, List.length_append]; omega
      · simp only [specDescrsList, List.length_append]; omega

theorem serviceInitHead_step (c : Collab) (key : String) (s s1 : State)
    (h : serviceInitHead c key s = some s1) :
    s.ble_service_pos < tblLen s.gatts_service ∧ SameSizes s s1 ∧
    s1.ble_service_pos = s.ble_service_pos ∧ s1.ble_char_pos = s.ble_char_pos ∧
    s1.ble_descr_pos = s.ble_descr_pos := by
  unfold serviceInitHead at h
  simp only [] at h
  split at h
  · exact Option.noConfusion h
  · rename_i t1 ht1
    obtain ⟨hlt, hlen1⟩ := tblModify_some_lt _ _ _ t1 ht1
    split at h
    · exact Option.noConfusion h
    · split at h
      · exact Option.noConfusion h
      · split at h
        · exact Option.noConfusion h
        · rename_i t2 ht2
          obtain ⟨_, hlen2⟩ := tblModify_some_lt _ _ _ t2 ht2
          cases h
          have hl : t2.length = tblLen s.gatts_service := by
            rw [hlen2, ← hlen1]
            split <;> rfl
          refine ⟨hlt, ⟨hl, ?_, ?_⟩, ?_, ?_, ?_⟩ <;> (split <;> rfl)

theorem gatts_service_struct_init_step (c : Collab) (key : String) (sv : JsVar)
    (s s1 : State) (kc kd i : Nat) (h : gatts_service_struct_init c key sv s = some s1)
    (hc : (s.ble_char_pos + 1) % U16 = kc) (hcl : kc ≤ tblLen s.gatts_char)
    (hcU : tblLen s.gatts_char < U16)
    (hd : (s.ble_descr_pos + 1) % U16 = kd) (hdl : kd ≤ tblLen s.gatts_descr)
    (hdU : tblLen s.gatts_descr < U16) :
    s.ble_service_pos < tblLen s.gatts_service ∧ SameSizes s s1 ∧
    s1.ble_service_pos = s.ble_service_pos ∧
    (s1.ble_char_pos + 1) % U16 = kc + (charsOf sv).length ∧
    kc + (charsOf sv).length ≤ tblLen s.gatts_char ∧
    (s1.ble_descr_pos + 1) % U16 = kd + (specDescrsList i (charsOf sv)).length ∧
    kd + (specDescrsList i (charsOf sv)).length ≤ tblLen s.gatts_descr := by
  unfold gatts_service_struct_init at h
  split at h
  · exact Option.noConfusion h
  · rename_i s3 h3
    obtain ⟨a0, a1, a2, a3, a4⟩ := serviceInitHead_step c key s s3 h3
    split at h
    · exact Option.noConfusion h
    · rename_i n s4 h4
      obtain ⟨b1, b2, b3, b4, b5, b6⟩ := charLoop_step c _ 1 s3 n s4 kc kd i h4
        (by rw [a3]; exact hc) (by rw [a1.2.1]; exact hcl) (by rw [a1.2.1]; exact hcU)
        (by rw [a4]; exact hd) (by rw [a1.2.2]; exact hdl) (by rw [a1.2.2]; exact hdU)
      rw [a1.2.1] at b4
      rw [a1.2.2] at b6
      split at h
      · exact Option.noConfusion h
      · rename_i t3 ht3
        obtain ⟨_, hlen3⟩ := tblModify_some_lt _ _ _ t3 ht3
        cases h
        have hss := sameSizes_trans a1 b1
        exact ⟨a0, ⟨hlen3.trans hss.1, hss.2.1, hss.2.2⟩, b2.trans a2, b3, b4, b5, b6⟩

theorem serviceLoop_step (c : Collab) : ∀ (svcs : List (String × JsVar)) (s s1 : State)
    (ks kc kd : Nat), serviceLoop c svcs s = some s1 →
    (s.ble_service_pos + 1) % U16 = ks → ks ≤ tblLen s.gatts_service →
    tblLen s.gatts_service < U16 →
    (s.ble_char_pos + 1) % U16 = kc → kc ≤ tblLen s.gatts_char → tblLen s.gatts_char < U16 →
    (s.ble_descr_pos + 1) % U16 = kd → kd ≤ tblLen s.gatts_descr →
    tblLen s.gatts_descr < U16 →
    ks + svcs.length ≤ tblLen s.gatts_service ∧
    kc + (allChars svcs).length ≤ tblLen s.gatts_char ∧
    kd + (specDescrsList 0 (allChars svcs)).length ≤ tblLen s.gatts_descr
  | [], s, s1, ks, kc, kd, _, _, hsl, _, _, hcl, _, _, hdl, _ => by
    simpa [allChars, specDescrsList] using ⟨hsl, hcl, hdl⟩
  | (key, sv) :: rest, s, s1, ks, kc, kd, h, hs, hsl, hsU, hc, hcl, hcU, hd, hdl, hdU => by
    simp only [serviceLoop] at h
    split at h
    · exact Option.noConfusion h
    · rename_i s2 h2
      obtain ⟨a0, a1, a2, a3, a4, a5, a6⟩ := gatts_service_struct_init_step c key sv _ s2
        kc kd 0 h2 hc hcl hcU hd hdl hdU
      have a0a : (s.ble_service_pos + 1) % U16 < tblLen s.gatts_service := a0
      have a1a : SameSizes s s2 := a1
      have a2a : s2.ble_service_pos = (s.ble_service_pos + 1) % U16 := a2
      have a4a : kc + (charsOf sv).length ≤ tblLen s.gatts_char := a4
      have a6a : kd + (specDescrsList 0 (charsOf sv)).length ≤ tblLen s.gatts_descr := a6
      obtain ⟨b1, b2, b3⟩ := serviceLoop_step c rest s2 s1 (ks + 1)
        (kc + (charsOf sv).length) (kd + (specDescrsList 0 (charsOf sv)).length) h
        (by rw [a2a, hs]; rw [hs] at a0a; simp only [U16] at *; omega)
        (by rw [a1a.1]; rw [hs] at a0a; omega) (by rw [a1a.1]; exact hsU)
        a3 (by rw [a1a.2.1]; exact a4a) (by rw [a1a.2.1]; exact hcU)
        a5 (by rw [a1a.2.2]; exact a6a) (by rw [a1a.2.2]; exact hdU)
      rw [a1a.1] at b1
      rw [a1a.2.1] at b2
      rw [a1a.2.2] at b3
      have hal : allChars ((key, sv) :: rest) = charsOf sv ++ allChars rest := rfl
      have hdl2 : (specDescrsList 0 (charsOf sv ++ allChars rest)).length
          = (specDescrsList 0 (charsOf sv)).length
            + (specDescrsList 0 (allChars rest)).length := by
        rw [specDescrsList_append, List.length_append,
          specDescrsList_length (allChars rest) (0 + (charsOf sv).length) 0]
      rw [hal, hdl2, List.length_append, List.length_cons]
      omega

theorem structsInitLoop_len : ∀ (n i : Nat) (tbl t : Option (List gatts_service_inst)),
    structsInitLoop n i tbl = some t → tblLen t = tblLen tbl
  | 0, _, tbl, t, h => by
    simp only [structsInitLoop, Option.some.injEq] at h
    rw [h]
  | n + 1, i, tbl, t, h => by
    simp only [structsInitLoop] at h
    split at h
    · exact Option.noConfusion h
    · rename_i t1 ht1
      have h1 := structsInitLoop_len n (i + 1) (some t1) t h
      rw [h1]
      exact (tblModify_some_lt _ _ _ t1 ht1).2

/-- The fill pass returns only for a description that fits the 16-bit counters. -/
theorem fill_returns_only_within_counters (c : Collab) (s s1 : State)
    (h : gatts_structs_init c (gatts_create_structs s) = some s1) :
    (jsvChildren s.gatts_services).length < U16 ∧
    (allChars (jsvChildren s.gatts_services)).length < U16 ∧
    (specDescrsList 0 (allChars (jsvChildren s.gatts_services))).length < U16 := by
  have hU : 0 < U16 := by simp [U16]
  obtain ⟨i1, i2, i3⟩ := create_structs_cursors s
  obtain ⟨l1, l2, l3⟩ := create_structs_tables s
  obtain ⟨n1, n2, n3⟩ := create_structs_counts s
  have hsv := create_structs_services s
  unfold gatts_structs_init at h
  split at h
  · exact Option.noConfusion h
  · rename_i t ht
    have hlen := structsInitLoop_len _ _ _ t ht
    rw [hsv] at h
    obtain ⟨b1, b2, b3⟩ := serviceLoop_step c _ _ s1 0 0 0 h
      (by show ((gatts_create_structs s).ble_service_pos + 1) % U16 = 0; rw [i1]; rfl)
      (Nat.zero_le _)
      (by show tblLen t < U16; rw [hlen, l1, n1]; exact Nat.mod_lt _ hU)
      (by show ((gatts_create_structs s).ble_char_pos + 1) % U16 = 0; rw [i2]; rfl)
      (Nat.zero_le _)
      (by show tblLen (gatts_create_structs s).gatts_char < U16
          rw [l2, n2]; exact Nat.mod_lt _ hU)
      (by show ((gatts_create_structs s).ble_descr_pos + 1) % U16 = 0; rw [i3]; rfl)
      (Nat.zero_le _)
      (by show tblLen (gatts_create_structs s).gatts_descr < U16
          rw [l3, n3]; exact Nat.mod_lt _ hU)
    have c1 : (jsvChildren s.gatts_services).length ≤ tblLen t := by simpa using b1
    have c2 : (allChars (jsvChildren s.gatts_services)).length
        ≤ tblLen (gatts_create_structs s).gatts_char := by simpa using b2
    have c3 : (specDescrsList 0 (allChars (jsvChildren s.gatts_services))).length
        ≤ tblLen (gatts_create_structs s).gatts_descr := by simpa using b3
    rw [hlen, l1, n1] at c1
    rw [l2, n2] at c2
    rw [l3, n3] at c3
    simp only [U16] at c1 c2 c3 ⊢
    omega
/-- C21 (amended): the fill pass returns exactly for the descriptions that fit the 16-bit
counters, and whenever it returns, in the tables it leaves every characteristic's
`service_pos` is below the service count and every descriptor's `char_pos` is below the characteristic count;
positions follow the iteration order: service `i` of the description is entry `i` of the
service table, its `k`-th characteristic is the entry at offset `k` after the
characteristics of the services before it and has `service_pos = i`, and the descriptors of
the characteristic at index `ci` follow those of the characteristics before it and have
`char_pos = ci`; `service_pos` is non-decreasing in the characteristic index and `char_pos`
in the descriptor index. -/
theorem fill_positions_in_iteration_order (c : Collab) (s : State)
    (svcs : List (String × JsVar)) (hsv : jsvChildren s.gatts_services = svcs) :
    ((∃ s1, gatts_structs_init c (gatts_create_structs s) = some s1) ↔
      (svcs.length < U16 ∧ (allChars svcs).length < U16 ∧
        (specDescrsList 0 (allChars svcs)).length < U16)) ∧
    ∀ s1, gatts_structs_init c (gatts_create_structs s) = some s1 →
      s1.ble_service_cnt = svcs.length ∧ s1.ble_char_cnt = (allChars svcs).length ∧
      (∀ (ci : Nat) (e : gatts_char_inst), tblGet s1.gatts_char ci = some e →
        e.service_pos < s1.ble_service_cnt) ∧
      (∀ (q : Nat) (d : gatts_descr_inst), tblGet s1.gatts_descr q = some d →
        d.char_pos < s1.ble_char_cnt) ∧
      (∀ (i : Nat) (key : String) (sv : JsVar), svcs[i]? = some (key, sv) →
        ∃ e, tblGet s1.gatts_service i = some e ∧
          e.uuid16 = (c.bleVarToUUID key).ble_uuid.uuid) ∧
      (∀ (i : Nat) (key : String) (sv : JsVar) (k : Nat) (kc : String) (v : JsVar),
        svcs[i]? = some (key, sv) → (charsOf sv)[k]? = some (kc, v) →
        ∃ e, tblGet s1.gatts_char ((allChars (svcs.take i)).length + k) = some e ∧
          e.char_uuid16 = (c.bleVarToUUID kc).ble_uuid.uuid ∧ e.service_pos = i) ∧
      (∀ (ci : Nat) (key : String) (v : JsVar) (k : Nat) (d : gatts_descr_inst),
        (allChars svcs)[ci]? = some (key, v) → (specDescrs ci v)[k]? = some d →
        tblGet s1.gatts_descr ((specDescrsList 0 ((allChars svcs).take ci)).length + k)
          = some d ∧ d.char_pos = ci) ∧
      (∀ (i j : Nat) (e1 e2 : gatts_char_inst), i ≤ j →
        tblGet s1.gatts_char i = some e1 → tblGet s1.gatts_char j = some e2 →
        e1.service_pos ≤ e2.service_pos) ∧
      (∀ (p q : Nat) (d1 d2 : gatts_descr_inst), p ≤ q →
        tblGet s1.gatts_descr p = some d1 → tblGet s1.gatts_descr q = some d2 →
        d1.char_pos ≤ d2.char_pos) := by
  have hfit : ∀ s1, gatts_structs_init c (gatts_create_structs s) = some s1 →
      svcs.length < U16 ∧ (allChars svcs).length < U16 ∧
        (specDescrsList 0 (allChars svcs)).length < U16 := by
    intro s1 hf
    have := fill_returns_only_within_counters c s s1 hf
    rw [hsv] at this
    exact this
  refine ⟨⟨fun ⟨s1, hf⟩ => hfit s1 hf, fun ⟨h1, h2, h3⟩ => ?_⟩, fun s1 hf => ?_⟩
  · obtain ⟨s1, hf, _⟩ := fill_spec c s svcs hsv h1 h2 h3
    exact ⟨s1, hf⟩
  · obtain ⟨h1, h2, h3⟩ := hfit s1 hf
    obtain ⟨s2, hf2, hX⟩ := fill_layout_order c s svcs hsv h1 h2 h3
    rw [hf] at hf2
    cases hf2
    exact hX

/-- C21 (witness): the fill pass over `exampleServices`, with two services, three
characteristics and two descriptors, returns with the layout of the claim. -/
theorem fill_positions_in_iteration_order_witness :
    ∃ s1, gatts_structs_init exampleCollab (gatts_create_structs (stateWith exampleServices))
        = some s1 ∧
      s1.ble_service_cnt = 2 ∧ s1.ble_char_cnt = 3 ∧
      (∀ (ci : Nat) (e : gatts_char_inst), tblGet s1.gatts_char ci = some e →
        e.service_pos < s1.ble_service_cnt) ∧
      (∀ (q : Nat) (d : gatts_descr_inst), tblGet s1.gatts_descr q = some d →
        d.char_pos < s1.ble_char_cnt) ∧
      (∀ (i j : Nat) (e1 e2 : gatts_char_inst), i ≤ j →
        tblGet s1.gatts_char i = some e1 → tblGet s1.gatts_char j = some e2 →
        e1.service_pos ≤ e2.service_pos) ∧
      (∀ (p q : Nat) (d1 d2 : gatts_descr_inst), p ≤ q →
        tblGet s1.gatts_descr p = some d1 → tblGet s1.gatts_descr q = some d2 →
        d1.char_pos ≤ d2.char_pos) := by
  obtain ⟨hiff, hX⟩ := fill_positions_in_iteration_order exampleCollab
    (stateWith exampleServices) _ exampleServices_children
  obtain ⟨s1, hf⟩ := hiff.2 ⟨by decide, by decide, by decide⟩
  obtain ⟨x1, x2, x3, x4, _, _, _, x8, x9⟩ := hX s1 hf
  exact ⟨s1, hf, x1, x2, x3, x4, x8, x9⟩

theorem fill_faults_without_service_entries (c : Collab) (s : State) (key : String)
    (sv : JsVar) (rest : List (String × JsVar))
    (hsv : jsvChildren s.gatts_services = (key, sv) :: rest)
    (hcnt : s.ble_service_cnt = 0) (h : s.gatts_service = some []) :
    gatts_structs_init c s = none := by
  unfold gatts_structs_init
  rw [hcnt]
  simp only [structsInitLoop, hsv, serviceLoop]
  unfold gatts_service_struct_init serviceInitHead
  simp [h, tblModify]

theorem create_structs_service_table (s : State) :
    (gatts_create_structs s).gatts_service
      = some (List.replicate (gatts_create_structs s).ble_service_cnt
          gatts_service_inst.zero) := rfl

/-- The fill pass over one service of `n + 1` characteristics, when `n + 1` is a multiple
of 2 ^ 16: the characteristic count is 0 and the store of the first characteristic lies
outside the allocation. -/
theorem fill_overruns_wide (c : Collab) (k kc : String) (cv : JsVar) (n : Nat)
    (hn : (n + 1) % U16 = 0) :
    (gatts_create_structs
      (stateWith (.obj [(k, .obj (List.replicate (n + 1) (kc, cv)))]))).ble_char_cnt = 0 ∧
    gatts_structs_init c (gatts_create_structs
      (stateWith (.obj [(k, .obj (List.replicate (n + 1) (kc, cv)))]))) = none := by
  have hcnt : (gatts_create_structs
      (stateWith (.obj [(k, .obj (List.replicate (n + 1) (kc, cv)))]))).ble_char_cnt = 0 := by
    rw [(create_structs_counts _).2.1]
    have : (allChars (jsvChildren
        (stateWith (.obj [(k, .obj (List.replicate (n + 1) (kc, cv)))])).gatts_services)).length
        = n + 1 := by
      simp [stateWith, allChars, charsOf, jsvChildren]
    rw [this, hn]
  refine ⟨hcnt, ?_⟩
  refine fill_faults_without_char_entries c _ k (.obj (List.replicate (n + 1) (kc, cv))) []
    kc cv (List.replicate n (kc, cv)) ?_ ?_ ?_
  · rw [create_structs_services]
    rfl
  · show List.replicate (n + 1) (kc, cv) = _
    rw [List.replicate_succ]
  · rw [create_structs_char_table, hcnt]
    rfl

theorem notifyWide_chars (n : Nat) :
    allChars (jsvChildren (stateWith (notifyWideService n)).gatts_services)
      = List.replicate n ("2A37", JsVar.obj [("notify", .bool true)]) := by
  simp [notifyWideService, stateWith, allChars, charsOf, jsvChildren]

theorem describedWide_chars (n : Nat) :
    allChars (jsvChildren (stateWith (describedWideService n)).gatts_services)
      = List.replicate n ("2A37", JsVar.obj [("description", .str [68])]) := by
  simp [describedWideService, stateWith, allChars, charsOf, jsvChildren]

theorem describedWide_descrs : ∀ (n i : Nat), (specDescrsList i
    (List.replicate n ("2A37", JsVar.obj [("description", .str [68])]))).length = n
  | 0, _ => rfl
  | m + 1, i => by
    rw [List.replicate_succ]
    simp only [specDescrsList, List.length_append, describedWide_descrs m (i + 1),
      specDescrs_length]
    have h1 : hasNotify (JsVar.obj [("description", .str [68])]) = false := by decide
    have h2 : hasDescription (JsVar.obj [("description", .str [68])]) = true := by decide
    rw [h1, h2]
    simp
    omega

theorem manyServices_children (n : Nat) :
    jsvChildren (stateWith (manyServices n)).gatts_services
      = List.replicate n ("180D", JsVar.obj [("2A37", .obj [])]) := rfl

/-- C5 (counterexample): for a service with 65536 characteristics that all have `notify`,
the counting pass allocates no characteristic entry (the 16-bit count wrapped to 0), and the
fill pass stores the first characteristic outside the allocation: no characteristic entry
with the NOTIFY bit and no CCCD descriptor results. -/
theorem notify_fill_overruns_at_65536_characteristics :
    (allChars (jsvChildren (stateWith (notifyWideService 65536)).gatts_services)).length
      = 65536 ∧
    (∀ kv ∈ allChars (jsvChildren (stateWith (notifyWideService 65536)).gatts_services),
      hasNotify kv.2 = true) ∧
    (gatts_create_structs (stateWith (notifyWideService 65536))).ble_char_cnt = 0 ∧
    gatts_structs_init exampleCollab
      (gatts_create_structs (stateWith (notifyWideService 65536))) = none := by
  obtain ⟨h1, h2⟩ := fill_overruns_wide exampleCollab "180D" "2A37"
    (.obj [("notify", .bool true)]) 65535 rfl
  refine ⟨by rw [notifyWide_chars]; exact List.length_replicate _ _, ?_, h1, h2⟩
  intro kv hkv
  rw [notifyWide_chars] at hkv
  rw [(List.mem_replicate.1 hkv).2]
  rfl

/-- C6 (counterexample): for a service with 65536 characteristics that all carry a
description string, the counting pass allocates no characteristic entry (the 16-bit count
wrapped to 0) and no descriptor entry, and the fill pass stores the first characteristic
outside the allocation: no descriptor entry holding the description results. -/
theorem description_fill_overruns_at_65536_characteristics :
    (allChars (jsvChildren (stateWith (describedWideService 65536)).gatts_services)).length
      = 65536 ∧
    (∀ kv ∈ allChars (jsvChildren (stateWith (describedWideService 65536)).gatts_services),
      jsvObjectGetChild kv.2 "description" = some (.str [68])) ∧
    (gatts_create_structs (stateWith (describedWideService 65536))).ble_char_cnt = 0 ∧
    (gatts_create_structs (stateWith (describedWideService 65536))).ble_descr_cnt = 0 ∧
    gatts_structs_init exampleCollab
      (gatts_create_structs (stateWith (describedWideService 65536))) = none := by
  obtain ⟨h1, h2⟩ := fill_overruns_wide exampleCollab "180D" "2A37"
    (.obj [("description", .str [68])]) 65535 rfl
  have hall := describedWide_chars 65536
  have hd := describedWide_descrs
  refine ⟨by rw [hall]; exact List.length_replicate _ _, ?_, h1, ?_, h2⟩
  · intro kv hkv
    rw [hall] at hkv
    rw [(List.mem_replicate.1 hkv).2]
    rfl
  · rw [(create_structs_counts _).2.2, hall, hd]
    rfl

/-- C21 (counterexample): for a description with 65536 services of one characteristic each,
the counting pass allocates no service entry (the 16-bit count wrapped to 0), and the fill
pass stores the first service at index (65535 + 1) mod 2 ^ 16 = 0, outside the allocation:
no table in which the positions follow the iteration order results. -/
theorem fill_overruns_at_65536_services :
    (jsvChildren (stateWith (manyServices 65536)).gatts_services).length = 65536 ∧
    (gatts_create_structs (stateWith (manyServices 65536))).ble_service_cnt = 0 ∧
    tblLen (gatts_create_structs (stateWith (manyServices 65536))).gatts_service = 0 ∧
    ((gatts_create_structs (stateWith (manyServices 65536))).ble_service_pos + 1) % U16 = 0 ∧
    gatts_structs_init exampleCollab (gatts_create_structs (stateWith (manyServices 65536)))
      = none := by
  have hlen : (jsvChildren (stateWith (manyServices 65536)).gatts_services).length
      = 65536 := by
    rw [manyServices_children]
    exact List.length_replicate _ _
  have hcnt : (gatts_create_structs (stateWith (manyServices 65536))).ble_service_cnt = 0 := by
    rw [(create_structs_counts _).1, hlen]
    rfl
  have htab : (gatts_create_structs (stateWith (manyServices 65536))).gatts_service
      = some [] := by
    rw [create_structs_service_table, hcnt]
    rfl
  refine ⟨hlen, hcnt, by rw [htab]; rfl, ?_, ?_⟩
  · rw [(create_structs_cursors _).1]
    rfl
  · refine fill_faults_without_service_entries exampleCollab _ "180D"
      (.obj [("2A37", .obj [])])
      (List.replicate 65535 ("180D", .obj [("2A37", .obj [])])) ?_ hcnt htab
    rw [create_structs_services]
    show List.replicate (65535 + 1) ("180D", JsVar.obj [("2A37", .obj [])]) = _
    rw [List.replicate_succ]

set_option maxRecDepth 100000 in
/-- C15 (failing input): after the registration of `longValueService`, whose characteristic
has a stored value of 601 bytes, the stack has started advertising and the handle 104
resolves to that characteristic; the copy loop of the handler of a peer READ of 104 stores
the 601st byte at index 600 of the value array of `ESP_GATT_MAX_ATTR_LEN` = 600 bytes:
nothing is truncated and a byte is written past the end of the array. -/
theorem read_of_601_byte_value_overruns :
    (afterRegistration longValueService).log.getLast?.map Effect.isStartAdvertizing
      = some true ∧
    charOfHandle 104 (afterRegistration longValueService) = some 0 ∧
    (readCharValue 104 (afterRegistration longValueService)).map
      (fun v => (JSV_GET_AS_CHAR_ARRAY v).length) = some 601 ∧
    ESP_GATT_MAX_ATTR_LEN = 600 ∧
    (gatts_event_handler exampleCollab (.READ 1 2 104) 3
      (afterRegistration longValueService)).isNone = true := by
  refine ⟨by decide, by decide, by decide, rfl, by decide⟩

set_option maxRecDepth 100000 in
/-- C9 (failing input): after the registration of `longDescriptionService`, whose
characteristic carries a description of 700 bytes, the handle 105 resolves to the description
descriptor; the handler of a peer READ of 105 stores 100 bytes past the end of the value array
of its local response and does not reach a well-defined `send_response`. -/
theorem read_of_700_byte_description_sends_no_response :
    (afterRegistration longDescriptionService).log.getLast?.map Effect.isStartAdvertizing
      = some true ∧
    descrOfHandle 105 (afterRegistration longDescriptionService) = some 0 ∧
    (readDescrValue 105 (afterRegistration longDescriptionService)).map
      (fun v => (JSV_GET_AS_CHAR_ARRAY v).length) = some 700 ∧
    (gatts_event_handler exampleCollab (.READ 1 2 105) 3
      (afterRegistration longDescriptionService)).isNone = true := by
  refine ⟨by decide, by decide, by decide, by decide⟩

theorem takeAnswered_length (ev : Event) : ∀ (l l1 : List Effect),
    takeAnswered ev l = some l1 → l1.length + 1 = l.length
  | [], l1, h => by simp [takeAnswered] at h
  | r :: rest, l1, h => by
    simp only [takeAnswered] at h
    split at h
    · simp only [Option.some.injEq] at h
      rw [← h, List.length_cons]
    · cases hr : takeAnswered ev rest with
      | none => rw [hr] at h; simp at h
      | some l2 =>
        rw [hr] at h
        simp only [Option.map_some', Option.some.injEq] at h
        rw [← h, List.length_cons, List.length_cons, takeAnswered_length ev rest l2 hr]

theorem awaitsEvent_isRegistrationRequest (e : Effect) (h : e.awaitsEvent = true) :
    e.isRegistrationRequest = true := by
  cases e <;> first | rfl | exact Bool.noConfusion h

theorem countP_awaitsEvent_le (l : List Effect) :
    l.countP Effect.awaitsEvent ≤ l.countP Effect.isRegistrationRequest := by
  induction l with
  | nil => simp
  | cons e l ih =>
    rw [List.countP_cons, List.countP_cons]
    by_cases h : e.awaitsEvent = true
    · rw [if_pos h, if_pos (awaitsEvent_isRegistrationRequest e h)]
      omega
    · rw [if_neg h]
      split <;> omega

theorem added_of_log (s s1 : State) (added : List Effect) (h : s1.log = s.log ++ added) :
    s1.log.drop s.log.length = added := by
  rw [h, List.drop_left]

/-- An event that answers no request of the registration walk makes the handler issue no
request that awaits an answer. -/
theorem other_event_issues_no_request (c : Collab) (event : Event) (gatts_if : Nat)
    (s s1 : State) (hev : event.isAnswer = false)
    (h : gatts_event_handler c event gatts_if s = some s1) :
    ∃ added, s1.log = s.log ++ added ∧ added.countP Effect.awaitsEvent = 0 := by
  cases event with
  | REG app_id => exact Bool.noConfusion hev
  | CREATE service_handle => exact Bool.noConfusion hev
  | ADD_CHAR status attr_handle => exact Bool.noConfusion hev
  | START => exact Bool.noConfusion hev
  | ADD_CHAR_DESCR status attr_handle => exact Bool.noConfusion hev
  | DISCONNECT remote_bda =>
    simp only [gatts_event_handler, Option.some.injEq] at h
    subst h
    exact ⟨[.startAdvertizing true, .emitNRFEvent BLE_DISCONNECT_EVENT remote_bda],
      by simp [State.emit], rfl⟩
  | CONNECT conn_id remote_bda =>
    simp only [gatts_event_handler] at h
    split at h
    · exact Option.noConfusion h
    · simp only [Option.some.injEq] at h
      subst h
      exact ⟨[_], rfl, rfl⟩
  | READ conn_id trans_id handle =>
    obtain ⟨added, h1, h2⟩ := read_added gatts_if conn_id trans_id handle s s1 h
    have := countP_awaitsEvent_le added
    exact ⟨added, h1, by omega⟩
  | WRITE conn_id trans_id handle value =>
    obtain ⟨added, h1, h2⟩ := write_added gatts_if conn_id trans_id handle value s s1 h
    have := countP_awaitsEvent_le added
    exact ⟨added, h1, by omega⟩
  | DELETE =>
    simp only [gatts_event_handler, gatts_delete_service] at h
    split at h
    · exact Option.noConfusion h
    · split at h
      · exact Option.noConfusion h
      · simp only [Option.some.injEq] at h
        subst h
        rw [stackCall_eq]
        refine ⟨_, rfl, ?_⟩
        unfold callTrace
        split <;> rfl
  | UNREG =>
    simp only [gatts_event_handler, gatts_unreg_app] at h
    split at h
    · exact Option.noConfusion h
    · split at h
      · exact Option.noConfusion h
      · split at h
        · exact Option.noConfusion h
        · simp only [Option.some.injEq] at h
          subst h
          exact ⟨[], by simp, rfl⟩
        · simp only [Option.some.injEq] at h
          subst h
          exact ⟨[], by simp, rfl⟩
  | other =>
    simp only [gatts_event_handler, Option.some.injEq] at h
    subst h
    exact ⟨[], by simp, rfl⟩

/-- One delivery keeps the number of outstanding requests at most one. -/
theorem deliver_outstanding (c : Collab) (ev : Event) (gatts_if : Nat)
    (w w1 : State × List Effect) (h0 : w.2.length ≤ 1) (h : deliver c ev gatts_if w = some w1) :
    w1.2.length ≤ 1 := by
  unfold deliver at h
  split at h
  · exact Option.noConfusion h
  · rename_i pending hp
    split at h
    · exact Option.noConfusion h
    · rename_i s1 hs1
      simp only [Option.some.injEq] at h
      rw [← h]
      simp only [List.length_append]
      by_cases hev : ev.isAnswer = true
      · rw [if_pos hev] at hp
        have hl := takeAnswered_length ev _ _ hp
        obtain ⟨added, ha, hc⟩ := handler_issues_at_most_one_request c ev gatts_if w.1 s1 hs1
        rw [added_of_log _ _ _ ha, ← List.countP_eq_length_filter]
        have := countP_awaitsEvent_le added
        omega
      · rw [if_neg hev] at hp
        simp only [Option.some.injEq] at hp
        obtain ⟨added, ha, hc⟩ := other_event_issues_no_request c ev gatts_if w.1 s1
          (by simpa using hev) hs1
        rw [added_of_log _ _ _ ha, ← List.countP_eq_length_filter, hc, ← hp]
        omega

theorem deliverAll_outstanding (c : Collab) : ∀ (evs : List (Event × Nat))
    (w w1 : State × List Effect), w.2.length ≤ 1 → deliverAll c evs w = some w1 →
    w1.2.length ≤ 1
  | [], w, w1, h0, h => by
    simp only [deliverAll, Option.some.injEq] at h
    rw [← h]
    exact h0
  | e :: es, w, w1, h0, h => by
    simp only [deliverAll] at h
    split at h
    · exact Option.noConfusion h
    · rename_i w2 hw2
      exact deliverAll_outstanding c es w2 w1 (deliver_outstanding c e.1 e.2 w w2 h0 hw2) h

/-- C19: handling one inbound stack event, whatever the event and the state, appends to the
log at most one registration request (register, create, start, add characteristic, add
descriptor or start advertising).  Hence along every sequence of deliveries in which the
stack raises an answer event only for an outstanding request of its kind, starting with at
most one request outstanding, at most one request is outstanding at any time: no two add
operations, and in particular never an `add_char` together with an `add_char_descr`. -/
theorem at_most_one_request_outstanding (c : Collab) :
    (∀ (event : Event) (gatts_if : Nat) (s s1 : State),
      gatts_event_handler c event gatts_if s = some s1 →
      ∃ added, s1.log = s.log ++ added ∧ added.countP Effect.isRegistrationRequest ≤ 1) ∧
    (∀ (evs : List (Event × Nat)) (s : State) (pending : List Effect)
      (w1 : State × List Effect), pending.length ≤ 1 →
      deliverAll c evs (s, pending) = some w1 →
      w1.2.length ≤ 1 ∧
      w1.2.countP Effect.isAddChar + w1.2.countP Effect.isAddCharDescr ≤ 1 ∧
      ¬ ∃ a b, a ∈ w1.2 ∧ b ∈ w1.2 ∧ a.isAddChar = true ∧ b.isAddCharDescr = true) := by
  refine ⟨fun event gatts_if s s1 h => handler_issues_at_most_one_request c event gatts_if s s1 h,
    fun evs s pending w1 h0 h => ?_⟩
  have hlen := deliverAll_outstanding c evs (s, pending) w1 h0 h
  have hdisj : ∀ e : Effect, ¬ (e.isAddChar = true ∧ e.isAddCharDescr = true) := by
    intro e
    cases e <;> simp [Effect.isAddChar, Effect.isAddCharDescr]
  match hw : w1.2, hlen with
  | [], _ => simp
  | [e], _ =>
    refine ⟨by simp, ?_, ?_⟩
    · have := hdisj e
      simp only [List.countP_cons, List.countP_nil]
      by_cases h1 : e.isAddChar = true <;> by_cases h2 : e.isAddCharDescr = true
      · exact absurd ⟨h1, h2⟩ this
      · simp [h1, h2]
      · simp [h1, h2]
      · simp [h1, h2]
    · rintro ⟨a, b, ha, hb, h1, h2⟩
      simp only [List.mem_singleton] at ha hb
      rw [ha] at h1
      rw [hb] at h2
      exact hdisj e ⟨h1, h2⟩
  | _ :: _ :: _, hl => simp at hl

set_option maxRecDepth 100000 in
/-- C19 (witness): the registration of `exampleServices`, from the `app_register` that
`gatts_set_services` issues to the start of advertising, followed by a peer READ. -/
theorem at_most_one_request_outstanding_witness :
    (afterSetServices exampleServices).log = [.app_register 0] ∧
    ∃ w1, deliverAll exampleCollab exampleWalkEvents
        (afterSetServices exampleServices, [.app_register 0]) = some w1 ∧
      w1.2.length ≤ 1 ∧
      w1.2.countP Effect.isAddChar + w1.2.countP Effect.isAddCharDescr ≤ 1 ∧
      ¬ ∃ a b, a ∈ w1.2 ∧ b ∈ w1.2 ∧ a.isAddChar = true ∧ b.isAddCharDescr = true := by
  have hsome : (deliverAll exampleCollab exampleWalkEvents
      (afterSetServices exampleServices, [.app_register 0])).isSome = true := by decide
  obtain ⟨w1, hw1⟩ := Option.isSome_iff_exists.1 hsome
  exact ⟨rfl, w1, hw1,
    (at_most_one_request_outstanding exampleCollab).2 exampleWalkEvents _ _ w1
      (by decide) hw1⟩

/-- The stack raises no answer event while no request of its kind is outstanding. -/
theorem deliver_requires_outstanding (c : Collab) (ev : Event) (gatts_if : Nat) (s : State)
    (pending : List Effect) (hev : ev.isAnswer = true)
    (hno : ∀ r ∈ pending, ev.answers r = false) :
    deliver c ev gatts_if (s, pending) = none := by
  have hnone : ∀ l : List Effect, (∀ r ∈ l, ev.answers r = false) → takeAnswered ev l = none := by
    intro l
    induction l with
    | nil => intro _; rfl
    | cons r rest ih =>
      intro hl
      simp only [takeAnswered, hl r (List.mem_cons_self _ _), Bool.false_eq_true, if_false,
        ih (fun x hx => hl x (List.mem_cons_of_mem _ hx)), Option.map_none']
  unfold deliver
  simp only [hev, if_true, hnone pending hno]

end Gatts
